import Mathlib

/-!
# bobcaygeon: the management control plane

A shallow embedding of `cmd/mgmt/raft/store.go`, `cmd/mgmt/raft/service.go` and
`cluster/cluster.go`, followed by theorems about it.

Conventions of the embedding

* A Go `string` is a Lean `String`.  Every string that reaches the store has
  passed through `encoding/json`, which only produces valid UTF-8.
* A Go `[]string` is a `StrSlice`: the nil slice and the empty slice are kept
  apart because `encoding/json` tells them apart (`null` and `[]`).
* A Go `map[string]entry` is a `GoMap`: the nil map, or a list of key/value
  pairs.  The order of the list is the order in which `range` visits the map;
  Go leaves it unspecified, so nothing below depends on a particular order
  unless it says so.
* A byte string handed to `encoding/json` is a `Payload`: either it is not one
  well-formed JSON document, or it is the document it spells.
* A call can end in three ways besides returning: with a Go `error`, with a
  runtime panic, or in `log.Fatal`.  `Res` keeps the four apart.
* Libraries outside the repository (`encoding/gob`, `fmt`, `net`, gRPC, the
  gossip member list and the consensus library) are either parameters of the
  embedding (`Env`) or, where a proof needs their behaviour, small models
  written from their documentation; each such model says so.
-/

namespace Bobcaygeon

/-! ## Results of calls -/

/-- How a Go call ends. -/
inductive Res (α : Type) where
  /-- the call returned normally (with a nil `error`, when it has one) -/
  | ok (a : α)
  /-- the call returned a non-nil `error` with this text -/
  | err (e : String)
  /-- a runtime panic -/
  | panic
  /-- the process left through `log.Fatal` -/
  | fatal
deriving DecidableEq, Repr

/-- Whether the call returned a non-nil `error`. -/
def Res.isErr {α : Type} : Res α → Bool
  | .err _ => true
  | _ => false

/-- Whether the call returned normally. -/
def Res.isOk {α : Type} : Res α → Bool
  | .ok _ => true
  | _ => false

/-! ## Data model (`store.go`) -/

/-- A Go `[]string`; `none` is the nil slice. -/
abbrev StrSlice := Option (List String)

/-- The elements a `range` over the slice visits. -/
def StrSlice.elems : StrSlice → List String
  | none => []
  | some xs => xs

/-- Go `append(s, xs...)`: nil only when both are empty and `s` is nil. -/
def StrSlice.append (s : StrSlice) (xs : List String) : StrSlice :=
  match s, xs with
  | none, [] => none
  | none, x :: rest => some (x :: rest)
  | some l, _ => some (l ++ xs)

/-- SpeakerConfig used to store persistent speaker configuration. -/
structure SpeakerConfig where
  ID : String
  DisplayName : String
deriving DecidableEq, Repr

/-- ZoneConfig used to store persistent zone configuration. -/
structure ZoneConfig where
  ID : String
  DisplayName : String
  Leader : String
  Speakers : StrSlice
deriving DecidableEq, Repr

/-- The value type of the replicated map. -/
structure entry where
  SpeakerConfig : SpeakerConfig
  ZoneConfig : ZoneConfig
deriving DecidableEq, Repr

/-- The unit of replication. -/
structure command where
  Op : String
  Key : String
  Value : entry
deriving DecidableEq, Repr

/-- The Go zero value of `SpeakerConfig`. -/
def SpeakerConfig.zero : SpeakerConfig := ⟨"", ""⟩

/-- The Go zero value of `ZoneConfig`. -/
def ZoneConfig.zero : ZoneConfig := ⟨"", "", "", none⟩

/-- The Go zero value of `entry`. -/
def entry.zero : entry := ⟨SpeakerConfig.zero, ZoneConfig.zero⟩

/-- The Go zero value of `command`. -/
def command.zero : command := ⟨"", "", entry.zero⟩

/-! ## Go maps -/

/-- Key/value pairs of a map, in `range` order. -/
abbrev KVs := List (String × entry)

/-- Lookup in a list of pairs. -/
def KVs.get (kvs : KVs) (k : String) : Option entry :=
  (kvs.find? (fun p => p.1 = k)).map (fun p => p.2)

/-- The pairs after `m[k] = v`. -/
def KVs.set (kvs : KVs) (k : String) (v : entry) : KVs :=
  (k, v) :: kvs.filter (fun p => p.1 ≠ k)

/-- The pairs after `delete(m, k)`. -/
def KVs.delete (kvs : KVs) (k : String) : KVs :=
  kvs.filter (fun p => p.1 ≠ k)

/-- The keys, in `range` order. -/
def KVs.keys (kvs : KVs) : List String := kvs.map (fun p => p.1)

/-- A Go `map[string]entry`. -/
inductive GoMap where
  /-- the nil map -/
  | nil
  /-- a map made with `make`, holding these pairs -/
  | mk (kvs : KVs)
deriving DecidableEq, Repr

/-- The pairs `range m` visits; a nil map has none. -/
def GoMap.range : GoMap → KVs
  | .nil => []
  | .mk kvs => kvs

/-- The two-valued lookup `v, ok := m[k]`. -/
def GoMap.get (m : GoMap) (k : String) : Option entry := m.range.get k

/-- The one-valued lookup `m[k]`: the zero value for an absent key. -/
def GoMap.index (m : GoMap) (k : String) : entry := (m.get k).getD entry.zero

/-- The assignment `m[k] = v`; `none` is the panic of a write to a nil map. -/
def GoMap.set : GoMap → String → entry → Option GoMap
  | .nil, _, _ => none
  | .mk kvs, k, v => some (.mk (kvs.set k v))

/-- The builtin `delete(m, k)`; a no-op on a nil map. -/
def GoMap.delete : GoMap → String → GoMap
  | .nil, _ => .nil
  | .mk kvs, k => .mk (kvs.delete k)

/-- Every key occurs once: what every Go map satisfies. -/
def GoMap.WF (m : GoMap) : Prop := m.range.keys.Nodup

/-! ## `encoding/json`

The library is not part of the repository.  Its lexical layer is abstracted
(`Payload`); the mapping between JSON documents and the Go types of `store.go`
is modelled from the package documentation: struct fields are written under
their name (or tag) in declaration order, `omitempty` drops an empty string,
a nil slice or map is written as `null`, map keys are written sorted; on input
a key selects the field with that exact name, else the first field equal to it
under case folding, unknown keys are skipped, a key that occurs again is
decoded into what the earlier occurrence left (for a slice: element by element
into its backing array), `null` leaves a string or struct untouched and makes a
slice or map nil, and a value of the wrong kind is recorded as a type error
while decoding goes on. -/

/-- A JSON document. -/
inductive Json where
  | null
  | bool (b : Bool)
  | num (lit : String)
  | str (s : String)
  | arr (xs : List Json)
  | obj (kvs : List (String × Json))

/-- A byte string as `encoding/json` sees it. -/
inductive Payload where
  /-- not one well-formed JSON document (also: no bytes at all) -/
  | invalid
  /-- the bytes spell this document -/
  | doc (j : Json)

/-- The rune a rune folds to.  Only the result on runes that fold to an ASCII
letter matters, since every field name of `store.go` is ASCII: these are the
letter itself in either case, the Kelvin sign for `K` and the long s for `S`. -/
def foldRune (c : Char) : Char :=
  if c = Char.ofNat 0x212A then 'K'
  else if c = Char.ofNat 0x17F then 'S'
  else c.toUpper

/-- The case-folded form of a name, as `encoding/json` compares keys. -/
def foldName (s : String) : String := String.mk (s.data.map foldRune)

/-- The struct field a JSON key selects: exact match first, then the first
field equal under folding. -/
def findField (fields : List String) (key : String) : Option String :=
  match fields.find? (fun f => f = key) with
  | some f => some f
  | none => fields.find? (fun f => foldName f = foldName key)

/-- Decoding into a `string`; the flag reports a type error. -/
def decodeString (cur : String) : Json → String × Bool
  | .null => (cur, false)
  | .str s => (s, false)
  | _ => (cur, true)

/-- Decoding the elements of an array into a slice, one by one: an element at an index the
backing array reaches is decoded into what is there, an element beyond it from the zero
value. -/
def decodeElems : List String → List Json → List String × Bool
  | _, [] => ([], false)
  | backing, j :: js =>
    let r := decodeString (backing.headD "") j
    let rest := decodeElems backing.tail js
    (r.1 :: rest.1, r.2 || rest.2)

/-- Decoding into a `[]string`, given the slice and the spare elements of its backing array
(those behind its length, left there by a longer value decoded earlier): `null` gives nil; an
empty array gives a new empty slice; any other array gives the slice its length, every element
being decoded into the element of the backing array at its index, and what the backing array
holds behind the new length stays there. -/
def decodeStrSlice (cur : StrSlice × List String) : Json → (StrSlice × List String) × Bool
  | .null => ((none, []), false)
  | .arr [] => ((some [], []), false)
  | .arr (x :: xs) =>
    let backing := cur.1.elems ++ cur.2
    let r := decodeElems backing (x :: xs)
    ((some r.1, backing.drop (x :: xs).length), r.2)
  | _ => (cur, true)

/-- One `key: value` pair decoded into a `SpeakerConfig`. -/
def decodeSpeakerConfigField (acc : SpeakerConfig × Bool) (kv : String × Json) :
    SpeakerConfig × Bool :=
  match findField ["ID", "DisplayName"] kv.1 with
  | some f =>
    if f = "ID" then
      let r := decodeString acc.1.ID kv.2
      ({ acc.1 with ID := r.1 }, acc.2 || r.2)
    else
      let r := decodeString acc.1.DisplayName kv.2
      ({ acc.1 with DisplayName := r.1 }, acc.2 || r.2)
  | none => acc

/-- Decoding into a `SpeakerConfig`. -/
def decodeSpeakerConfig (cur : SpeakerConfig) : Json → SpeakerConfig × Bool
  | .null => (cur, false)
  | .obj kvs => kvs.foldl decodeSpeakerConfigField (cur, false)
  | _ => (cur, true)

/-- One `key: value` pair decoded into a `ZoneConfig`, which comes with the spare elements
of its Speakers slice. -/
def decodeZoneConfigField (acc : (ZoneConfig × List String) × Bool) (kv : String × Json) :
    (ZoneConfig × List String) × Bool :=
  match findField ["ID", "DisplayName", "Leader", "Speakers"] kv.1 with
  | some f =>
    if f = "ID" then
      let r := decodeString acc.1.1.ID kv.2
      (({ acc.1.1 with ID := r.1 }, acc.1.2), acc.2 || r.2)
    else if f = "DisplayName" then
      let r := decodeString acc.1.1.DisplayName kv.2
      (({ acc.1.1 with DisplayName := r.1 }, acc.1.2), acc.2 || r.2)
    else if f = "Leader" then
      let r := decodeString acc.1.1.Leader kv.2
      (({ acc.1.1 with Leader := r.1 }, acc.1.2), acc.2 || r.2)
    else
      let r := decodeStrSlice (acc.1.1.Speakers, acc.1.2) kv.2
      (({ acc.1.1 with Speakers := r.1.1 }, r.1.2), acc.2 || r.2)
  | none => acc

/-- Decoding into a `ZoneConfig` that is already there. -/
def decodeZoneConfig (cur : ZoneConfig × List String) :
    Json → (ZoneConfig × List String) × Bool
  | .null => (cur, false)
  | .obj kvs => kvs.foldl decodeZoneConfigField (cur, false)
  | _ => (cur, true)

/-- One `key: value` pair decoded into an `entry`, which comes with the spare elements of
the Speakers slice of its ZoneConfig. -/
def decodeEntryField (acc : (entry × List String) × Bool) (kv : String × Json) :
    (entry × List String) × Bool :=
  match findField ["SpeakerConfig", "ZoneConfig"] kv.1 with
  | some f =>
    if f = "SpeakerConfig" then
      let r := decodeSpeakerConfig acc.1.1.SpeakerConfig kv.2
      (({ acc.1.1 with SpeakerConfig := r.1 }, acc.1.2), acc.2 || r.2)
    else
      let r := decodeZoneConfig (acc.1.1.ZoneConfig, acc.1.2) kv.2
      (({ acc.1.1 with ZoneConfig := r.1.1 }, r.1.2), acc.2 || r.2)
  | none => acc

/-- Decoding into an `entry` that is already there. -/
def decodeEntryAt (cur : entry × List String) : Json → (entry × List String) × Bool
  | .null => (cur, false)
  | .obj kvs => kvs.foldl decodeEntryField (cur, false)
  | _ => (cur, true)

/-- Decoding into an `entry` whose Speakers slice has no spare elements, as a value that was
not decoded into before has it. -/
def decodeEntry (cur : entry) (j : Json) : entry × Bool :=
  ((decodeEntryAt (cur, []) j).1.1, (decodeEntryAt (cur, []) j).2)

/-- One `key: value` pair decoded into a `command` (fields tagged `op`, `key`,
`value`), which comes with the spare elements of the Speakers slice in its
value. -/
def decodeCommandField (acc : (command × List String) × Bool) (kv : String × Json) :
    (command × List String) × Bool :=
  match findField ["op", "key", "value"] kv.1 with
  | some f =>
    if f = "op" then
      let r := decodeString acc.1.1.Op kv.2
      (({ acc.1.1 with Op := r.1 }, acc.1.2), acc.2 || r.2)
    else if f = "key" then
      let r := decodeString acc.1.1.Key kv.2
      (({ acc.1.1 with Key := r.1 }, acc.1.2), acc.2 || r.2)
    else
      let r := decodeEntryAt (acc.1.1.Value, acc.1.2) kv.2
      (({ acc.1.1 with Value := r.1.1 }, r.1.2), acc.2 || r.2)
  | none => acc

/-- Decoding into a `command` whose slices have no spare elements. -/
def decodeCommand (cur : command) : Json → command × Bool
  | .null => (cur, false)
  | .obj kvs =>
    ((kvs.foldl decodeCommandField ((cur, []), false)).1.1,
      (kvs.foldl decodeCommandField ((cur, []), false)).2)
  | _ => (cur, true)

/-- One `key: value` pair decoded into a map: the element is decoded from the
zero value and stored under the key. -/
def decodeMapField (acc : KVs × Bool) (kv : String × Json) : KVs × Bool :=
  let r := decodeEntry entry.zero kv.2
  (acc.1.set kv.1 r.1, acc.2 || r.2)

/-- Decoding into a `map[string]entry`: `null` makes it nil, an object is
stored pair by pair into the map (made first when it was nil). -/
def decodeMap (cur : GoMap) : Json → GoMap × Bool
  | .null => (.nil, false)
  | .obj kvs =>
    let r := kvs.foldl decodeMapField (cur.range, false)
    (.mk r.1, r.2)
  | _ => (cur, true)

/-- The text of the error `encoding/json` reports; its wording is not modelled. -/
def jsonErrorText (syntaxError : Bool) : String :=
  if syntaxError then "json: syntax error" else "json: cannot unmarshal into Go value"

/-- The call `json.Unmarshal(data, &c)` for a `command`: a syntax error leaves `c`
untouched; a type error is reported after the rest has been decoded. -/
def unmarshalCommand (data : Payload) (c : command) : command × Option String :=
  match data with
  | .invalid => (c, some (jsonErrorText true))
  | .doc j =>
    let r := decodeCommand c j
    (r.1, if r.2 then some (jsonErrorText false) else none)

/-- The call `json.NewDecoder(rc).Decode(&o)` for a `map[string]entry`. -/
def decodeMapPayload (data : Payload) (o : GoMap) : GoMap × Option String :=
  match data with
  | .invalid => (o, some (jsonErrorText true))
  | .doc j =>
    let r := decodeMap o j
    (r.1, if r.2 then some (jsonErrorText false) else none)

/-- The document `json.Marshal` writes for a `[]string`. -/
def marshalStrSlice : StrSlice → Json
  | none => .null
  | some xs => .arr (xs.map Json.str)

/-- The document `json.Marshal` writes for a `SpeakerConfig`. -/
def marshalSpeakerConfig (c : SpeakerConfig) : Json :=
  .obj [("ID", .str c.ID), ("DisplayName", .str c.DisplayName)]

/-- The document `json.Marshal` writes for a `ZoneConfig`. -/
def marshalZoneConfig (z : ZoneConfig) : Json :=
  .obj [("ID", .str z.ID), ("DisplayName", .str z.DisplayName), ("Leader", .str z.Leader),
        ("Speakers", marshalStrSlice z.Speakers)]

/-- The document `json.Marshal` writes for an `entry`. -/
def marshalEntry (e : entry) : Json :=
  .obj [("SpeakerConfig", marshalSpeakerConfig e.SpeakerConfig),
        ("ZoneConfig", marshalZoneConfig e.ZoneConfig)]

/-- The document `json.Marshal` writes for a `command`: `op` and `key` carry
`omitempty`, which drops an empty string; on the struct-valued `value` the
option has no effect. -/
def marshalCommand (c : command) : Json :=
  .obj ((if c.Op = "" then [] else [("op", Json.str c.Op)]) ++
        (if c.Key = "" then [] else [("key", Json.str c.Key)]) ++
        [("value", marshalEntry c.Value)])

/-- Lexicographic comparison of rune sequences by code point, which is the
order of their UTF-8 bytes. -/
def runesLE : List Char → List Char → Bool
  | [], _ => true
  | _ :: _, [] => false
  | a :: as, b :: bs =>
    if a.toNat < b.toNat then true
    else if b.toNat < a.toNat then false
    else runesLE as bs

/-- The order `json.Marshal` writes map keys in: sorted as byte strings. -/
def sortByKey (kvs : KVs) : KVs :=
  kvs.insertionSort (fun a b => runesLE a.1.data b.1.data = true)

/-- The document `json.Marshal` writes for a `map[string]entry`. -/
def marshalMap : GoMap → Json
  | .nil => .null
  | .mk kvs => .obj ((sortByKey kvs).map (fun p => (p.1, marshalEntry p.2)))

/-! ## The consensus library (`hashicorp/raft`)

The library is outside the repository.  What `store.go` uses of it is modelled
from its documentation and from its `nextConfiguration` / `checkConfiguration`
rules: a configuration change is refused when the node is not the leader, when
the run decides so (`changeFails`: lost leadership, a timeout), or when the
resulting configuration has an empty or repeated ID or address or no voter.
A node that removes itself from the configuration keeps its state here. -/

/-- The state of the local consensus participant (`raft.RaftState`). -/
inductive RaftState where
  | Follower
  | Candidate
  | Leader
  | Shutdown
deriving DecidableEq, Repr

/-- Whether a server votes (`raft.ServerSuffrage`). -/
inductive ServerSuffrage where
  | Voter
  | Nonvoter
  | Staging
deriving DecidableEq, Repr

/-- One server of the consensus configuration (`raft.Server`). -/
structure Server where
  Suffrage : ServerSuffrage
  ID : String
  Address : String
deriving DecidableEq, Repr

/-- A configuration change request. -/
inductive RaftOp where
  | RemoveServer (id : String)
  | AddVoter (id : String) (address : String)
deriving DecidableEq, Repr

/-- A log entry as the FSM receives it (`raft.Log`); only `Data` is read. -/
structure Log where
  Data : Payload

/-- The local consensus participant (`*raft.Raft`). -/
structure Raft where
  /-- what `State()` returns -/
  state : RaftState
  /-- what `Leader()` returns -/
  leader : String
  /-- the servers of the latest configuration -/
  servers : List Server
  /-- the error of the `GetConfiguration` future -/
  getConfigurationErr : Option String
  /-- the entries handed to `Apply`, oldest first -/
  log : List Payload
  /-- whether the n-th entry handed to `Apply` is committed and applied in time -/
  commits : Nat → Bool
  /-- the configuration changes requested so far, oldest first -/
  requests : List RaftOp
  /-- whether the n-th configuration change fails for a reason of the run -/
  changeFails : Nat → Bool

/-- The scan of `checkConfiguration`. -/
def checkConfiguration.scan : List Server → List String → List String → Nat → Option String
  | [], _, _, voters =>
    if voters = 0 then some "need at least one voter in configuration" else none
  | s :: rest, ids, addrs, voters =>
    if s.ID = "" then some "empty ID in configuration"
    else if s.Address = "" then some "empty address in configuration"
    else if s.ID ∈ ids then some "found duplicate ID in configuration"
    else if s.Address ∈ addrs then some "found duplicate address in configuration"
    else checkConfiguration.scan rest (s.ID :: ids) (s.Address :: addrs)
      (if s.Suffrage = .Voter then voters + 1 else voters)

/-- The sanity check of a configuration; `none` when it passes. -/
def checkConfiguration (servers : List Server) : Option String :=
  checkConfiguration.scan servers [] [] 0

/-- The servers after `AddVoter`, before the sanity check. -/
def addVoterTo (id address : String) : List Server → List Server
  | [] => [⟨.Voter, id, address⟩]
  | s :: rest =>
    if s.ID = id then
      (if s.Suffrage = .Voter then { s with Address := address } else ⟨.Voter, id, address⟩) :: rest
    else s :: addVoterTo id address rest

/-- The servers after `RemoveServer`, before the sanity check: the first server
with that ID is dropped. -/
def removeServerFrom (id : String) : List Server → List Server
  | [] => []
  | s :: rest => if s.ID = id then rest else s :: removeServerFrom id rest

/-- The configuration a change leads to, or the error that refuses it. -/
def nextConfiguration (current : List Server) (change : RaftOp) : Except String (List Server) :=
  let next :=
    match change with
    | .AddVoter id address => addVoterTo id address current
    | .RemoveServer id => removeServerFrom id current
  match checkConfiguration next with
  | some e => .error e
  | none => .ok next

/-- A configuration change and the error of its future. -/
def Raft.change (r : Raft) (op : RaftOp) : Option String × Raft :=
  let r1 := { r with requests := r.requests ++ [op] }
  if r.state ≠ .Leader then (some "node is not the leader", r1)
  else if r.changeFails r.requests.length then
    (some "leadership lost while committing log", r1)
  else
    match nextConfiguration r.servers op with
    | .error e => (some e, r1)
    | .ok next => (none, { r1 with servers := next })

/-- The call `RemoveServer(id, 0, 0)` followed by `Error()` on its future. -/
def Raft.RemoveServer (r : Raft) (id : String) : Option String × Raft :=
  r.change (.RemoveServer id)

/-- The call `AddVoter(id, address, 0, 0)` followed by `Error()` on its future. -/
def Raft.AddVoter (r : Raft) (id address : String) : Option String × Raft :=
  r.change (.AddVoter id address)

/-! ## The replicated store (`store.go`) -/

/-- DistributedStore is a raft backed store. -/
structure DistributedStore where
  raftPort : Int
  raftDir : String
  localID : String
  /-- the key will be the ID of either the SpeakerConfig or ZoneConfig -/
  m : GoMap
  /-- the consensus participant; `none` (nil) until `Open` -/
  raft : Option Raft

/-- The snapshot handed to the consensus library. -/
structure fsmSnapshot where
  store : GoMap

/-- The sink a snapshot is written to (`raft.SnapshotSink`). -/
structure SnapshotSink where
  /-- the byte strings accepted by `Write`, oldest first -/
  written : List Payload
  closed : Bool
  cancelled : Bool
  /-- the error `Write` returns -/
  writeErr : Option String
  /-- the error `Close` returns -/
  closeErr : Option String
  /-- the error `Cancel` returns -/
  cancelErr : Option String

/-- A Go `error` value as a result. -/
def Res.ofError : Option String → Res Unit
  | none => .ok ()
  | some e => .err e

/-- GetSpeakerConfig returns the speaker configuration for the given speaker. -/
def DistributedStore.GetSpeakerConfig (ds : DistributedStore) (ID : String) : Res SpeakerConfig :=
  .ok (ds.m.index ID).SpeakerConfig

/-- The loop of GetZoneConfigs over the pairs of the map. -/
def GetZoneConfigs.loop : KVs → List ZoneConfig → List ZoneConfig
  | [], configs => configs
  | (_, v) :: rest, configs =>
    if v.ZoneConfig.ID ≠ "" then GetZoneConfigs.loop rest (configs ++ [v.ZoneConfig])
    else GetZoneConfigs.loop rest configs

/-- GetZoneConfigs retrieves all zones. -/
def DistributedStore.GetZoneConfigs (ds : DistributedStore) : List ZoneConfig :=
  GetZoneConfigs.loop ds.m.range []

/-- NewDistributedStore initializes the store. -/
def NewDistributedStore (localID : String) (raftPort : Int) (raftDir : String) :
    DistributedStore :=
  { localID := localID, raftPort := raftPort, raftDir := raftDir, m := .mk [], raft := none }

/-- Open will open the database for usage.  `initRaft` sets up transport,
snapshot store and log store and is taken as its outcome. -/
def DistributedStore.Open (ds : DistributedStore) (initRaft : Except String Raft) :
    Res Unit × DistributedStore :=
  match initRaft with
  | .error e => (.err e, ds)
  | .ok r => (.ok (), { ds with raft := some r })

/-- GetLeader returns the address of the leader. -/
def DistributedStore.GetLeader (ds : DistributedStore) : Res String :=
  match ds.raft with
  | none => .panic
  | some r => .ok r.leader

/-- AmLeader whether or not the store instance is the leader of the cluster. -/
def DistributedStore.AmLeader (ds : DistributedStore) : Res Bool :=
  match ds.raft with
  | none => .panic
  | some r => .ok (decide (r.state = .Leader))

/-- The assignment `ds.m[key] = value` of applySet. -/
def DistributedStore.applySet (ds : DistributedStore) (key : String) (value : entry) :
    Res Unit × DistributedStore :=
  match ds.m.set key value with
  | some m1 => (.ok (), { ds with m := m1 })
  | none => (.panic, ds)

/-- The `delete(ds.m, key)` of applyDelete. -/
def DistributedStore.applyDelete (ds : DistributedStore) (key : String) :
    Res Unit × DistributedStore :=
  (.ok (), { ds with m := ds.m.delete key })

/-- Apply applies a Raft log entry to the key-value store.  An unmarshal error
is logged and the command, as far as it was decoded, is applied all the same. -/
def DistributedStore.Apply (ds : DistributedStore) (l : Log) : Res Unit × DistributedStore :=
  let c := (unmarshalCommand l.Data command.zero).1
  if c.Op = "set" then ds.applySet c.Key c.Value
  else if c.Op = "delete" then ds.applyDelete c.Key
  else (.ok (), ds)

/-- The call `ds.raft.Apply(b, raftTimeout)` followed by `Error()` on its future:
the entry is handed to the log; when it is committed in time the FSM has
applied it before the future resolves. -/
def DistributedStore.raftApply (ds : DistributedStore) (b : Payload) :
    Res Unit × DistributedStore :=
  match ds.raft with
  | none => (.panic, ds)
  | some r =>
    if r.state ≠ .Leader then (.err "node is not the leader", ds)
    else
      let ds1 := { ds with raft := some { r with log := r.log ++ [b] } }
      if r.commits r.log.length then ds1.Apply ⟨b⟩
      else (.err "timed out enqueuing operation", ds1)

/-- SaveSpeakerConfig saves the specified SpeakerConfig. -/
def DistributedStore.SaveSpeakerConfig (ds : DistributedStore) (config : SpeakerConfig) :
    Res Unit × DistributedStore :=
  match ds.raft with
  | none => (.panic, ds)
  | some r =>
    if r.state ≠ .Leader then (.err "not leader", ds)
    else
      let e : entry := { entry.zero with SpeakerConfig := config }
      let c : command := { Op := "set", Key := config.ID, Value := e }
      ds.raftApply (.doc (marshalCommand c))

/-- SaveZoneConfig persists a zone. -/
def DistributedStore.SaveZoneConfig (ds : DistributedStore) (config : ZoneConfig) :
    Res Unit × DistributedStore :=
  match ds.raft with
  | none => (.panic, ds)
  | some r =>
    if r.state ≠ .Leader then (.err "not leader", ds)
    else
      let e : entry := { entry.zero with ZoneConfig := config }
      let c : command := { Op := "set", Key := config.ID, Value := e }
      ds.raftApply (.doc (marshalCommand c))

/-- DeleteZoneConfig delete a give zone config. -/
def DistributedStore.DeleteZoneConfig (ds : DistributedStore) (zoneID : String) :
    Res Unit × DistributedStore :=
  match ds.raft with
  | none => (.panic, ds)
  | some r =>
    if r.state ≠ .Leader then (.err "not leader", ds)
    else
      let c : command := { Op := "delete", Key := zoneID, Value := entry.zero }
      ds.raftApply (.doc (marshalCommand c))

/-- The loop of Join over the servers of the configuration it read: `ok true`
when the node is already a member, `ok false` when the loop ran to its end. -/
def Join.scan (nodeID nodeAddress : String) : List Server → Raft → Res Bool × Raft
  | [], r => (.ok false, r)
  | srv :: rest, r =>
    if srv.ID = nodeID ∨ srv.Address = nodeAddress then
      if srv.Address = nodeAddress ∧ srv.ID = nodeID then (.ok true, r)
      else
        match r.RemoveServer srv.ID with
        | (some e, r1) =>
          (.err ("error removing existing node " ++ nodeID ++ " at " ++ nodeAddress ++ ": " ++ e),
            r1)
        | (none, r1) => Join.scan nodeID nodeAddress rest r1
    else Join.scan nodeID nodeAddress rest r

/-- Join will join the specified node to participate in the raft cluster. -/
def DistributedStore.Join (ds : DistributedStore) (nodeID nodeAddress : String) :
    Res Unit × DistributedStore :=
  match ds.raft with
  | none => (.panic, ds)
  | some r =>
    if r.state ≠ .Leader then (.ok (), ds)
    else
      match r.getConfigurationErr with
      | some e => (.err e, ds)
      | none =>
        match Join.scan nodeID nodeAddress r.servers r with
        | (.ok true, r1) => (.ok (), { ds with raft := some r1 })
        | (.ok false, r1) =>
          let f := r1.AddVoter nodeID nodeAddress
          (Res.ofError f.1, { ds with raft := some f.2 })
        | (.err e, r1) => (.err e, { ds with raft := some r1 })
        | (.panic, r1) => (.panic, { ds with raft := some r1 })
        | (.fatal, r1) => (.fatal, { ds with raft := some r1 })

/-- The loop of Snapshot that clones the map. -/
def Snapshot.clone : KVs → KVs → KVs
  | [], o => o
  | (k, v) :: rest, o => Snapshot.clone rest (o.set k v)

/-- Snapshot returns a snapshot of the key-value store. -/
def DistributedStore.Snapshot (ds : DistributedStore) : Res fsmSnapshot :=
  .ok { store := .mk (Snapshot.clone ds.m.range []) }

/-- Restore stores the key-value store to a previous state. -/
def DistributedStore.Restore (ds : DistributedStore) (rc : Payload) :
    Res Unit × DistributedStore :=
  let r := decodeMapPayload rc (.mk [])
  match r.2 with
  | some e => (.err e, ds)
  | none => (.ok (), { ds with m := r.1 })

/-- The call `sink.Write(b)`. -/
def SnapshotSink.Write (sink : SnapshotSink) (b : Payload) : Option String × SnapshotSink :=
  match sink.writeErr with
  | some e => (some e, sink)
  | none => (none, { sink with written := sink.written ++ [b] })

/-- The call `sink.Close()`. -/
def SnapshotSink.Close (sink : SnapshotSink) : Option String × SnapshotSink :=
  (sink.closeErr, { sink with closed := true })

/-- The call `sink.Cancel()`. -/
def SnapshotSink.Cancel (sink : SnapshotSink) : Option String × SnapshotSink :=
  (sink.cancelErr, { sink with cancelled := true })

/-- Persist writes the snapshot to the sink: marshal, write, close; on an error
of any of these the sink is cancelled and the result of `Cancel` returned. -/
def fsmSnapshot.Persist (f : fsmSnapshot) (sink : SnapshotSink) : Res Unit × SnapshotSink :=
  let b := Payload.doc (marshalMap f.store)
  let inner : Option String × SnapshotSink :=
    match sink.Write b with
    | (some e, s1) => (some e, s1)
    | (none, s1) => s1.Close
  match inner.1 with
  | some _ =>
    let c := inner.2.Cancel
    (Res.ofError c.1, c.2)
  | none => (.ok (), inner.2)

/-- Release is a no-op. -/
def fsmSnapshot.Release (_f : fsmSnapshot) : Unit := ()

/-! ## Runs of the state machine -/

/-- One step of a replay: the next committed entry is applied unless an earlier
one panicked. -/
def replayStep (acc : Res Unit × DistributedStore) (l : Log) : Res Unit × DistributedStore :=
  match acc with
  | (.ok _, ds) => ds.Apply l
  | other => other

/-- The consensus library applying committed log entries in order. -/
def replay (ds : DistributedStore) (logs : List Log) : Res Unit × DistributedStore :=
  logs.foldl replayStep (.ok (), ds)

/-- The log entry `Save...Config` / `DeleteZoneConfig` produce for a command. -/
def command.toLog (c : command) : Log := ⟨.doc (marshalCommand c)⟩

/-- Storing pairs one after the other. -/
def KVs.setAll (l : KVs) (o : KVs) : KVs := l.foldl (fun o p => o.set p.1 p.2) o

/-- The last command on `k` is a `set` of `v`: some `set` of `v` under `k` is
followed by no command on `k`. -/
def LastSet (cmds : List command) (k : String) (v : entry) : Prop :=
  ∃ pre c post, cmds = pre ++ c :: post ∧ c.Op = "set" ∧ c.Key = k ∧ c.Value = v ∧
    ∀ d ∈ post, d.Key ≠ k

/-! ## Example stores -/

/-- A consensus participant in the given state with the given servers, an empty
log, every entry committing and no configuration change failing for a reason
of the run. -/
def Raft.example (state : RaftState) (servers : List Server) : Raft :=
  { state := state, leader := "", servers := servers, getConfigurationErr := none, log := [],
    commits := fun _ => true, requests := [], changeFails := fun _ => false }

/-- An opened store with the given map and consensus participant. -/
def DistributedStore.example (m : GoMap) (r : Raft) : DistributedStore :=
  { raftPort := 7000, raftDir := "raft", localID := "mgmt-1", m := m, raft := some r }

/-- The configuration changes a store has requested so far. -/
def DistributedStore.requests (ds : DistributedStore) : List RaftOp :=
  match ds.raft with
  | none => []
  | some r => r.requests

/-- The servers of a store's consensus configuration. -/
def DistributedStore.servers (ds : DistributedStore) : List Server :=
  match ds.raft with
  | none => []
  | some r => r.servers

/-- A bootstrapped single-node cluster: the leader is the only voter. -/
def singleVoter : DistributedStore :=
  DistributedStore.example (.mk []) (Raft.example .Leader [⟨.Voter, "mgmt-1", "10.0.0.1:7000"⟩])

/-- A leader of a two-node cluster. -/
def twoVoters : DistributedStore :=
  DistributedStore.example (.mk [])
    (Raft.example .Leader [⟨.Voter, "mgmt-1", "10.0.0.1:7000"⟩, ⟨.Voter, "mgmt-2", "10.0.0.2:7000"⟩])

/-- A single-node leader whose first configuration change fails for a reason of
the run (a timeout, lost leadership) and whose later ones do not. -/
def flakyLeader : DistributedStore :=
  DistributedStore.example (.mk [])
    { Raft.example .Leader [⟨.Voter, "mgmt-1", "10.0.0.1:7000"⟩] with
      changeFails := fun n => n == 0 }

/-! ## Cluster membership (`cluster/cluster.go`) -/

/-- A Go `[]byte`. -/
abbrev Bytes := List Nat

/-- NodeType describes what type of role this node has in the cluster; a Go
`int`, so any integer can occur. -/
abbrev NodeType := Int

/-- Music this node is responsible for music. -/
def Music : NodeType := 0

/-- Mgmt this node is responsible for management. -/
def Mgmt : NodeType := 1

/-- Frontend this is a node for controlling front proxy. -/
def Frontend : NodeType := 2

/-- NodeMeta is metadata passed to other members about this node. -/
structure NodeMeta where
  RtspPort : Int
  APIPort : Int
  RaftPort : Int
  NodeType : NodeType
deriving DecidableEq, Repr

/-- A member of the gossip cluster (`memberlist.Node`): its unique name, the
text of its address (`Addr.String()`) and its encoded metadata. -/
structure Node where
  Name : String
  Addr : String
  Meta : Bytes
deriving DecidableEq, Repr

/-- The gossip member list (`*memberlist.Memberlist`), taken as what
`Members()` returns during the operation at hand. -/
structure Memberlist where
  Members : List Node

/-- The decoder of `encoding/gob` for a `NodeMeta`, a parameter of the
embedding: `none` when `Decode` returns an error. -/
abbrev GobDecoder := Bytes → Option NodeMeta

/-- Sequencing of calls: the first result that is not a normal return ends the
computation. -/
def Res.bind {α β : Type} (x : Res α) (f : α → Res β) : Res β :=
  match x with
  | .ok a => f a
  | .err e => .err e
  | .panic => .panic
  | .fatal => .fatal

instance : Monad Res where
  pure := Res.ok
  bind := Res.bind

/-- DecodeNodeMeta decodes node meta data from bytes into something useful; a
decoding error ends the process in `log.Fatal`. -/
def DecodeNodeMeta (gob : GobDecoder) (nodeMeta : Bytes) : Res NodeMeta :=
  match gob nodeMeta with
  | some m => .ok m
  | none => .fatal

/-- The loop of FilterMembers. -/
def FilterMembers.loop (gob : GobDecoder) (memberType : NodeType) :
    List Node → List Node → Res (List Node)
  | [], nodes => .ok nodes
  | member :: rest, nodes =>
    match DecodeNodeMeta gob member.Meta with
    | .ok m =>
      if m.NodeType = memberType then FilterMembers.loop gob memberType rest (nodes ++ [member])
      else FilterMembers.loop gob memberType rest nodes
    | .err e => .err e
    | .panic => .panic
    | .fatal => .fatal

/-- FilterMembers filters down the memberlist to return only nodes of the given
type. -/
def FilterMembers (gob : GobDecoder) (memberType : NodeType) (list : Memberlist) :
    Res (List Node) :=
  FilterMembers.loop gob memberType list.Members []

/-- The loop of FilterMembersByFn. -/
def FilterMembersByFn.loop (filter : Node → Res Bool) : List Node → List Node → Res (List Node)
  | [], nodes => .ok nodes
  | member :: rest, nodes =>
    match filter member with
    | .ok true => FilterMembersByFn.loop filter rest (nodes ++ [member])
    | .ok false => FilterMembersByFn.loop filter rest nodes
    | .err e => .err e
    | .panic => .panic
    | .fatal => .fatal

/-- FilterMembersByFn provides more flexibility in using a filtering function;
the function may itself end the process (it may decode metadata). -/
def FilterMembersByFn (filter : Node → Res Bool) (list : Memberlist) : Res (List Node) :=
  FilterMembersByFn.loop filter list.Members []

/-! ## The zone orchestration service (`service.go`) -/

/-- A request of the speaker-side management API (`speakerAPI`). -/
inductive SpeakerReq where
  | RemoveForwardToNodes (Ids : List String) (RemoveAll : Bool)
  | ForwardToNodes (Ids : List String)
  | ToggleBroadcast (ShouldBroadcast : Bool)
  | ChangeServiceName (NewName : String)
deriving DecidableEq, Repr

/-- One speaker RPC that was issued: the member it went to, the address that
was dialled, the request, and the outcome (a transport error, or the return
code of the response). -/
structure RpcRecord where
  target : String
  address : String
  req : SpeakerReq
  result : Except String Int

/-- A request of the management API, as a non-leader forwards it to the leader. -/
inductive MgmtReq where
  | SetDisplayNameForSpeaker (SpeakerId DisplayName : String)
  | CreateZone (DisplayName : String) (SpeakerIds : List String)
  | AddSpeakersToZone (ZoneId : String) (SpeakerIds : List String)
  | RemoveSpeakersFromZone (ZoneId : String) (SpeakerIds : List String)
  | DeleteZone (ZoneId : String)
  | ChangeZoneName (ZoneId DisplayName : String)
  | SetMuteForSpeaker (SpeakerId : String) (IsMuted : Bool)
deriving DecidableEq, Repr

/-- A response of the management API. -/
structure MgmtResp where
  ResponseCode : Int
  Message : String
  Id : String
deriving DecidableEq, Repr

/-- A resolved TCP address (`*net.TCPAddr`): the text of its IP (`none` for a nil
IP) and its port. -/
structure TCPAddr where
  IP : Option String
  Port : Int
deriving DecidableEq, Repr

/-- An address of a host interface as `isLocalIP` looks at it: whether it is an
`*net.IPNet`, whether its IP is a loopback address, and the text of
`ipnet.IP.To4()`. -/
structure IfaceAddr where
  isIPNet : Bool
  isLoopback : Bool
  ip4 : String
deriving DecidableEq, Repr

/-- What surrounds the service during one operation: the libraries that are
parameters of the embedding, the member list, and the outcomes of the calls
that leave the process. -/
structure Env where
  /-- `encoding/gob` -/
  gob : GobDecoder
  /-- `dms.nodes` -/
  nodes : Memberlist
  /-- `grpc.Dial(address, ...)` to the API of the leader: the error it returns -/
  dial : String → Option String
  /-- `grpc.Dial(address, ...)` to the API of a speaker: the error it returns, given the RPCs
  issued before it (an operation dials speakers many times, and any of these may fail) -/
  speakerDial : List RpcRecord → String → Option String
  /-- the outcome of a speaker RPC, given the RPCs issued before it -/
  speakerRpc : List RpcRecord → String → String → SpeakerReq → Except String Int
  /-- the outcome of a request forwarded to the leader at an address -/
  leaderRpc : String → MgmtReq → Except String MgmtResp
  /-- `fmt.Errorf(format)` with no operands: the text of the error -/
  errorf : String → String
  /-- `net.ResolveTCPAddr("tcp", address)`; `none` when it fails (a nil pointer) -/
  resolveTCPAddr : String → Option TCPAddr
  /-- `net.InterfaceAddrs()` -/
  interfaceAddrs : Except String (List IfaceAddr)

/-- DistributedMgmtService implements MgmtService with a distributed backing
store; its state during an operation is the store plus the calls the operation
has made so far. -/
structure World where
  store : DistributedStore
  /-- the speaker RPCs issued, oldest first -/
  rpcs : List RpcRecord
  /-- the requests forwarded to the leader, oldest first, with the address -/
  forwarded : List (String × MgmtReq)

/-- An operation of the service. -/
abbrev Op (α : Type) := World → Res α × World

/-- Sequencing of operations. -/
def Op.bind {α β : Type} (x : Op α) (f : α → Op β) : Op β := fun w =>
  match x w with
  | (.ok a, w1) => f a w1
  | (.err e, w1) => (.err e, w1)
  | (.panic, w1) => (.panic, w1)
  | (.fatal, w1) => (.fatal, w1)

/-- An operation that returns a value. -/
def Op.pure {α : Type} (a : α) : Op α := fun w => (.ok a, w)

instance : Monad Op where
  pure := Op.pure
  bind := Op.bind

/-- An operation that ends like the given result and touches nothing. -/
def Op.lift {α : Type} (r : Res α) : Op α := fun w => (r, w)

/-- An operation that returns the given `error`. -/
def Op.fail {α : Type} (e : String) : Op α := fun w => (.err e, w)

/-- A call on the store whose `error` the caller receives as a value (and may
drop): `none` for nil. -/
def Op.store (f : DistributedStore → Res Unit × DistributedStore) : Op (Option String) := fun w =>
  match f w.store with
  | (.ok _, ds) => (.ok none, { w with store := ds })
  | (.err e, ds) => (.ok (some e), { w with store := ds })
  | (.panic, ds) => (.panic, { w with store := ds })
  | (.fatal, ds) => (.fatal, { w with store := ds })

/-- A read of the store. -/
def Op.read {α : Type} (f : DistributedStore → Res α) : Op α := fun w => (f w.store, w)

/-- A function that returns nothing: an `error` met inside is logged and ends
the function. -/
def Op.logged (x : Op Unit) : Op Unit := fun w =>
  match x w with
  | (.err _, w1) => (.ok (), w1)
  | other => other

/-- A connection to the management API of a speaker (`closableClient`): the
member it leads to and the address that was dialled. -/
structure closableClient where
  node : String
  address : String
deriving DecidableEq, Repr

/-- One RPC on a speaker connection: it is recorded with its outcome; a
transport error is returned as the `error`. -/
def closableClient.call (env : Env) (c : closableClient) (req : SpeakerReq) : Op Int := fun w =>
  let result := env.speakerRpc w.rpcs c.node c.address req
  let w1 := { w with rpcs := w.rpcs ++ [⟨c.node, c.address, req, result⟩] }
  match result with
  | .ok code => (.ok code, w1)
  | .error e => (.err e, w1)

/-- A speaker as the management API reports it (`service.Speaker`). -/
structure Speaker where
  ID : String
  DisplayName : String
deriving DecidableEq, Repr

/-- The text `fmt.Sprintf("%s:%d", ip, port)`. -/
def hostPort (ip : String) (port : Int) : String := ip ++ ":" ++ toString port

/-- The loop of GetSpeakers; an error of GetSpeakerConfig is logged and the
zero configuration used. -/
def GetSpeakers.loop (store : DistributedStore) : List Node → List Speaker → Res (List Speaker)
  | [], speakers => .ok speakers
  | member :: rest, speakers =>
    match store.GetSpeakerConfig member.Name with
    | .ok speakerConfig =>
      let displayName :=
        if speakerConfig.DisplayName ≠ "" then speakerConfig.DisplayName else member.Name
      GetSpeakers.loop store rest (speakers ++ [⟨member.Name, displayName⟩])
    | .err _ => GetSpeakers.loop store rest (speakers ++ [⟨member.Name, member.Name⟩])
    | .panic => .panic
    | .fatal => .fatal

/-- GetSpeakers returns information about the speaker (bcg apps) under our
management. -/
def GetSpeakers (env : Env) : Op (List Speaker) := fun w =>
  match FilterMembers env.gob Music env.nodes with
  | .ok members => (GetSpeakers.loop w.store members [], w)
  | .err e => (.err e, w)
  | .panic => (.panic, w)
  | .fatal => (.fatal, w)

/-- The filter of getSpeakerClient: a Music node with the given name. -/
def speakerFilter (gob : GobDecoder) (speakerID : String) (node : Node) : Res Bool :=
  match DecodeNodeMeta gob node.Meta with
  | .ok m => .ok (decide (m.NodeType = Music) && decide (speakerID = node.Name))
  | .err e => .err e
  | .panic => .panic
  | .fatal => .fatal

/-- The connection to the one Music member with the given name. -/
def getSpeakerClient (env : Env) (speakerID : String) : Op closableClient := fun w =>
  match FilterMembersByFn (speakerFilter env.gob speakerID) env.nodes with
  | .ok [speaker] =>
    match DecodeNodeMeta env.gob speaker.Meta with
    | .ok m =>
      let speakerAPIAddress := hostPort speaker.Addr m.APIPort
      match env.speakerDial w.rpcs speakerAPIAddress with
      | some e => (.err e, w)
      | none => (.ok ⟨speaker.Name, speakerAPIAddress⟩, w)
    | .err e => (.err e, w)
    | .panic => (.panic, w)
    | .fatal => (.fatal, w)
  | .ok _ => (.err ("Could not find speaker with id: " ++ speakerID), w)
  | .err e => (.err e, w)
  | .panic => (.panic, w)
  | .fatal => (.fatal, w)

/-- The loop of isLocalIP over the interface addresses. -/
def isLocalIP.loop (ipAddr : String) : List IfaceAddr → Bool
  | [] => false
  | address :: rest =>
    if address.isIPNet && !address.isLoopback then
      if address.ip4 ≠ ipAddr then true else isLocalIP.loop ipAddr rest
    else isLocalIP.loop ipAddr rest

/-- The check of getLeaderAPIAddress for a leader address without IP. -/
def isLocalIP (env : Env) (ipAddr : String) : Bool :=
  match env.interfaceAddrs with
  | .error _ => false
  | .ok addrs => isLocalIP.loop ipAddr addrs

/-- The text of `leader.IP.String()`. -/
def TCPAddr.ipString (a : TCPAddr) : String :=
  match a.IP with
  | none => "<nil>"
  | some s => s

/-- The loop of getLeaderAPIAddress over the Mgmt members; a nil `leader` panics
at its first use. -/
def getLeaderAPIAddress.loop (env : Env) (leader : Option TCPAddr) : List Node → Res String
  | [] => .ok ""
  | member :: rest =>
    let memberIP := member.Addr
    match DecodeNodeMeta env.gob member.Meta with
    | .ok m =>
      match leader with
      | none => .panic
      | some l =>
        if ((l.IP = none && isLocalIP env memberIP) || l.ipString = memberIP)
            && l.Port = m.RaftPort then
          .ok (hostPort memberIP m.APIPort)
        else getLeaderAPIAddress.loop env leader rest
    | .err e => .err e
    | .panic => .panic
    | .fatal => .fatal

/-- The API address of the Mgmt member that is the consensus leader, or the
empty string. -/
def getLeaderAPIAddress (env : Env) (leader : Option TCPAddr) : Res String :=
  match FilterMembers env.gob Mgmt env.nodes with
  | .ok members => getLeaderAPIAddress.loop env leader members
  | .err e => .err e
  | .panic => .panic
  | .fatal => .fatal

/-- The connection to the management API of the leader: the address dialled. -/
def getLeaderClient (env : Env) (leader : String) : Res String :=
  match getLeaderAPIAddress env (env.resolveTCPAddr leader) with
  | .ok apiAddress =>
    if apiAddress = "" then .err ("Could not resolve API address for: " ++ leader)
    else
      match env.dial apiAddress with
      | some e => .err e
      | none => .ok apiAddress
  | .err e => .err e
  | .panic => .panic
  | .fatal => .fatal

/-- The non-leader path shared by the mutating operations: resolve the leader,
send it the request, and turn a response code other than 200 into an error
made from the response message. -/
def forwardToLeader (env : Env) (req : MgmtReq) : Op MgmtResp := fun w =>
  match w.store.GetLeader with
  | .ok leader =>
    match getLeaderClient env leader with
    | .ok address =>
      let w1 := { w with forwarded := w.forwarded ++ [(address, req)] }
      match env.leaderRpc address req with
      | .error e => (.err e, w1)
      | .ok resp =>
        if resp.ResponseCode ≠ 200 then (.err (env.errorf resp.Message), w1)
        else (.ok resp, w1)
    | .err e => (.err e, w)
    | .panic => (.panic, w)
    | .fatal => (.fatal, w)
  | .err e => (.err e, w)
  | .panic => (.panic, w)
  | .fatal => (.fatal, w)

/-- The loop of removeFromAllSpeakers. -/
def removeFromAllSpeakers.loop (env : Env) (speakerIDs : List String) : List Speaker → Op Unit
  | [] => pure ()
  | speaker :: rest => do
    let client ← getSpeakerClient env speaker.ID
    let _ ← client.call env (.RemoveForwardToNodes speakerIDs false)
    removeFromAllSpeakers.loop env speakerIDs rest

/-- Tells every speaker to stop forwarding to the given speakers. -/
def removeFromAllSpeakers (env : Env) (speakerIDs : List String) : Op Unit := do
  let speakers ← GetSpeakers env
  removeFromAllSpeakers.loop env speakerIDs speakers

/-- The first loop of CreateZone: the per-speaker reset. -/
def CreateZone.setup (env : Env) (displayName leader : String) : List String → Op Unit
  | [] => pure ()
  | speakerID :: rest => do
    let client ← getSpeakerClient env speakerID
    let _ ← client.call env (.RemoveForwardToNodes [] true)
    if speakerID ≠ leader then
      let _ ← client.call env (.ToggleBroadcast false)
      CreateZone.setup env displayName leader rest
    else
      let _ ← client.call env (.ChangeServiceName displayName)
      let _ ← client.call env (.ToggleBroadcast true)
      CreateZone.setup env displayName leader rest

/-- The second loop of CreateZone: the speakers other than the leader. -/
def CreateZone.forwardToIDs (leader : String) : List String → List String → List String
  | [], acc => acc
  | v :: rest, acc =>
    if v ≠ leader then CreateZone.forwardToIDs leader rest (acc ++ [v])
    else CreateZone.forwardToIDs leader rest acc

/-- CreateZone will create a new zone with 0 to more speakers.  `r1` is the
random number the zone ID is printed from. -/
def CreateZone (env : Env) (r1 : Nat) (displayName : String) (speakerIDs : StrSlice) :
    Op String := do
  let amLeader ← Op.read DistributedStore.AmLeader
  if !amLeader then
    let resp ← forwardToLeader env (.CreateZone displayName speakerIDs.elems)
    pure resp.Id
  else
    let id := toString r1
    let leader := match speakerIDs.elems with
      | [] => ""
      | first :: _ => first
    let zc : ZoneConfig :=
      { ID := id, DisplayName := displayName, Leader := leader, Speakers := speakerIDs }
    CreateZone.setup env displayName zc.Leader speakerIDs.elems
    if speakerIDs.elems.length > 0 then
      removeFromAllSpeakers env speakerIDs.elems
      let client ← getSpeakerClient env zc.Leader
      let forwardToIDs := CreateZone.forwardToIDs zc.Leader speakerIDs.elems []
      let _ ← client.call env (.ForwardToNodes forwardToIDs)
      pure ()
    let _ ← Op.store (fun ds => ds.SaveZoneConfig zc)
    pure id

/-- The lookup loop shared by the zone operations: the first zone with the ID in
the order GetZoneConfigs returned them, the zero value when there is none. -/
def lookupZone (zoneID : String) : List ZoneConfig → ZoneConfig
  | [] => ZoneConfig.zero
  | zoneConfig :: rest => if zoneConfig.ID = zoneID then zoneConfig else lookupZone zoneID rest

/-- The first loop of RemoveSpeakersFromZone: removed speakers broadcast again. -/
def RemoveSpeakersFromZone.enable (env : Env) (leader : String) : List String → Op Unit
  | [] => pure ()
  | speakerID :: rest =>
    if speakerID = leader then RemoveSpeakersFromZone.enable env leader rest
    else do
      let client ← getSpeakerClient env speakerID
      let _ ← client.call env (.ToggleBroadcast true)
      RemoveSpeakersFromZone.enable env leader rest

/-- The inner loop of the member list rebuild in RemoveSpeakersFromZone. -/
def RemoveSpeakersFromZone.inner (speaker : String) :
    List String → Bool → List String → List String
  | [], _, newSpeakers => newSpeakers
  | speakerToRemove :: rest, found, newSpeakers =>
    let found1 := if speakerToRemove = speaker then true else found
    if !found1 then RemoveSpeakersFromZone.inner speaker rest found1 (newSpeakers ++ [speaker])
    else RemoveSpeakersFromZone.inner speaker rest found1 newSpeakers

/-- The outer loop of the member list rebuild in RemoveSpeakersFromZone. -/
def RemoveSpeakersFromZone.rebuild (speakerIDs : List String) :
    List String → List String → List String
  | [], newSpeakers => newSpeakers
  | speaker :: rest, newSpeakers =>
    RemoveSpeakersFromZone.rebuild speakerIDs rest
      (RemoveSpeakersFromZone.inner speaker speakerIDs false newSpeakers)

/-- RemoveSpeakersFromZone updates a zone with the given speakers. -/
def RemoveSpeakersFromZone (env : Env) (zoneID : String) (speakerIDs : StrSlice) : Op Unit := do
  let amLeader ← Op.read DistributedStore.AmLeader
  if !amLeader then
    let _ ← forwardToLeader env (.RemoveSpeakersFromZone zoneID speakerIDs.elems)
    pure ()
  else if speakerIDs.elems.length = 0 then pure ()
  else
    let zc ← Op.read (fun ds => .ok ds.GetZoneConfigs)
    let zone := lookupZone zoneID zc
    if zone.ID = "" then Op.fail ("Zone: " ++ zoneID ++ " not found")
    else
      RemoveSpeakersFromZone.enable env zone.Leader speakerIDs.elems
      let client ← getSpeakerClient env zone.Leader
      let _ ← client.call env (.RemoveForwardToNodes speakerIDs.elems false)
      let newSpeakers := RemoveSpeakersFromZone.rebuild speakerIDs.elems zone.Speakers.elems []
      let zone1 := { zone with Speakers := some newSpeakers }
      let _ ← Op.store (fun ds => ds.SaveZoneConfig zone1)
      pure ()

/-- The first loop of DeleteZone: the members other than the leader broadcast
again. -/
def DeleteZone.enable (env : Env) (leader : String) : List String → Op Unit
  | [] => pure ()
  | speakerID :: rest =>
    if speakerID = leader then DeleteZone.enable env leader rest
    else do
      let client ← getSpeakerClient env speakerID
      let _ ← client.call env (.ToggleBroadcast true)
      DeleteZone.enable env leader rest

/-- DeleteZone will delete a zone. -/
def DeleteZone (env : Env) (zoneID : String) : Op Unit := do
  let amLeader ← Op.read DistributedStore.AmLeader
  if !amLeader then
    let _ ← forwardToLeader env (.DeleteZone zoneID)
    pure ()
  else
    let zc ← Op.read (fun ds => .ok ds.GetZoneConfigs)
    let zone := lookupZone zoneID zc
    if zone.ID = "" then Op.fail ("Zone: " ++ zoneID ++ " not found")
    else
      DeleteZone.enable env zone.Leader zone.Speakers.elems
      if zone.Leader ≠ "" then
        let client ← getSpeakerClient env zone.Leader
        let _ ← client.call env (.RemoveForwardToNodes [] true)
        let speakerConfig ← Op.read (fun ds => ds.GetSpeakerConfig zone.Leader)
        let _ ← client.call env (.ChangeServiceName speakerConfig.DisplayName)
        pure ()
      let _ ← Op.store (fun ds => ds.DeleteZoneConfig zone.ID)
      pure ()

/-- The scan of HandleMusicNodeLeave for a zone led by the node: the zone, if
any, in the order GetZoneConfigs returned them. -/
def HandleMusicNodeLeave.findLed (name : String) : List ZoneConfig → Option ZoneConfig
  | [] => none
  | zone :: rest => if zone.Leader = name then some zone else HandleMusicNodeLeave.findLed name rest

/-- The filter of HandleMusicNodeLeave: the node is named in the list. -/
def zoneMemberFilter (speakers : List String) (node : Node) : Bool :=
  match speakers with
  | [] => false
  | speaker :: rest => if node.Name = speaker then true else zoneMemberFilter rest node

/-- The loop of HandleMusicNodeLeave that builds the forward list. -/
def HandleMusicNodeLeave.ids (newLeader : String) : List String → List String → List String
  | [], ids => ids
  | id :: rest, ids =>
    if id ≠ newLeader then HandleMusicNodeLeave.ids newLeader rest (ids ++ [id])
    else HandleMusicNodeLeave.ids newLeader rest ids

/-- HandleMusicNodeLeave will try to preserve any zone by promoting a new leader,
if it is the leader who has left. -/
def HandleMusicNodeLeave (env : Env) (node : Node) : Op Unit := Op.logged do
  let amLeader ← Op.read DistributedStore.AmLeader
  if !amLeader then pure ()
  else
    let zones ← Op.read (fun ds => .ok ds.GetZoneConfigs)
    match HandleMusicNodeLeave.findLed node.Name zones with
    | none => pure ()
    | some updateZone =>
      let candidates ← Op.lift
        (FilterMembersByFn (fun n => .ok (zoneMemberFilter updateZone.Speakers.elems n)) env.nodes)
      match candidates with
      | [] => pure ()
      | newLeader :: _ =>
        let client ← getSpeakerClient env newLeader.Name
        let ids := HandleMusicNodeLeave.ids newLeader.Name updateZone.Speakers.elems []
        let _ ← client.call env (.ForwardToNodes ids)
        let _ ← client.call env (.ChangeServiceName updateZone.DisplayName)
        let _ ← client.call env (.ToggleBroadcast true)
        let updateZone1 := { updateZone with Leader := newLeader.Name }
        let _ ← Op.store (fun ds => ds.SaveZoneConfig updateZone1)
        pure ()

/-! ## The speakers

Modelled from the spec: the speaker-side handlers of the physical-node RPCs
(package `api`, not among the sources).  Section 6 of the spec lists them as
rename, toggle-broadcast and set/clear forward targets (add, remove,
remove-all); a speaker is taken to hold a broadcast name, a broadcast flag and
a set of forward targets kept in the order they were added. -/

/-- Modelled from the spec: what a speaker holds. -/
structure SpeakerState where
  ServiceName : String
  Broadcast : Bool
  ForwardTo : List String
deriving DecidableEq, Repr

/-- Modelled from the spec: adding forward targets, each at most once. -/
def addTargets : List String → List String → List String
  | targets, [] => targets
  | targets, id :: rest =>
    if id ∈ targets then addTargets targets rest else addTargets (targets ++ [id]) rest

/-- Modelled from the spec: the effect of one request on a speaker. -/
def SpeakerState.handle (s : SpeakerState) : SpeakerReq → SpeakerState
  | .ChangeServiceName n => { s with ServiceName := n }
  | .ToggleBroadcast b => { s with Broadcast := b }
  | .ForwardToNodes ids => { s with ForwardTo := addTargets s.ForwardTo ids }
  | .RemoveForwardToNodes ids all =>
    if all then { s with ForwardTo := [] }
    else { s with ForwardTo := s.ForwardTo.filter (fun t => t ∉ ids) }

/-- Modelled from the spec: the effect of one recorded RPC on speaker `x`; an
RPC counts when it reached that speaker and was answered with code 200. -/
def remoteStep (x : String) (s : SpeakerState) (r : RpcRecord) : SpeakerState :=
  match r.result with
  | .ok 200 => if r.target = x then s.handle r.req else s
  | _ => s

/-- Modelled from the spec: the state of speaker `x` after the recorded RPCs. -/
def remoteAfter (x : String) (s0 : SpeakerState) (rpcs : List RpcRecord) : SpeakerState :=
  rpcs.foldl (remoteStep x) s0

/-! ## Example members -/

/-- A toy metadata codec for examples: one byte, the role. -/
def roleByteGob : GobDecoder
  | [t] => some ⟨5000, 6000, 7000, (t : Int)⟩
  | _ => none

/-- A Music member named `name` at `10.0.0.x`. -/
def musicNode (name : String) (x : Nat) : Node :=
  ⟨name, "10.0.0." ++ toString x, [0]⟩

/-- A Mgmt member named `name` at `10.0.1.x`. -/
def mgmtNode (name : String) (x : Nat) : Node :=
  ⟨name, "10.0.1." ++ toString x, [1]⟩

/-! ## Descriptions of runs used by the theorems -/

/-- Whether a Music member with this name is in the member list. -/
def Env.isLiveSpeaker (env : Env) (id : String) : Bool :=
  env.nodes.Members.any
    (fun n => decide (n.Name = id) && decide ((env.gob n.Meta).map NodeMeta.NodeType = some Music))

/-- The API address of the member with this name: what getSpeakerClient dials. -/
def Env.addressOf (env : Env) (id : String) : String :=
  match env.nodes.Members.find? (fun n => n.Name = id) with
  | none => ""
  | some n =>
    match env.gob n.Meta with
    | none => ""
    | some m => hostPort n.Addr m.APIPort

/-- The record of an RPC to the speaker `id` that was answered with code 200. -/
def Env.okRecord (env : Env) (id : String) (req : SpeakerReq) : RpcRecord :=
  ⟨id, env.addressOf id, req, .ok 200⟩

/-- The names of the Music members, in member order. -/
def Env.musicNames (env : Env) : List String :=
  (env.nodes.Members.filter
    (fun n => decide ((env.gob n.Meta).map NodeMeta.NodeType = some Music))).map Node.Name

/-- The member list is well formed: all metadata decodes and names are unique
(the gossip library identifies members by name). -/
def Env.WF (env : Env) : Prop :=
  (∀ n ∈ env.nodes.Members, (env.gob n.Meta).isSome = true) ∧
  (env.nodes.Members.map Node.Name).Nodup

/-- Every connection to a speaker is established and every speaker RPC is
answered with code 200. -/
def Env.allSucceed (env : Env) : Prop :=
  (∀ h a, env.speakerDial h a = none) ∧ (∀ h t a q, env.speakerRpc h t a q = .ok 200)

/-- The RPCs of the first loop of CreateZone when every one succeeds. -/
def setupRecords (env : Env) (displayName leader : String) : List String → List RpcRecord
  | [] => []
  | id :: rest =>
    (if id ≠ leader then
      [env.okRecord id (.RemoveForwardToNodes [] true), env.okRecord id (.ToggleBroadcast false)]
    else
      [env.okRecord id (.RemoveForwardToNodes [] true),
       env.okRecord id (.ChangeServiceName displayName),
       env.okRecord id (.ToggleBroadcast true)]) ++ setupRecords env displayName leader rest

/-- The RPCs of removeFromAllSpeakers when every one succeeds: one to every
Music member, in member order. -/
def removeRecords (env : Env) (speakerIDs : List String) : List RpcRecord :=
  env.musicNames.map (fun id => env.okRecord id (.RemoveForwardToNodes speakerIDs false))

/-! ## Example surroundings -/

/-- Surroundings in which every connection is established and every speaker
answers with code 200, with the given members and the toy metadata codec. -/
def Env.example (members : List Node) : Env :=
  { gob := roleByteGob, nodes := ⟨members⟩, dial := fun _ => none,
    speakerDial := fun _ _ => none,
    speakerRpc := fun _ _ _ _ => .ok 200,
    leaderRpc := fun _ _ => .error "connection refused", errorf := fun s => s,
    resolveTCPAddr := fun _ => none, interfaceAddrs := .ok [] }

/-- A service on the given store that has made no call yet. -/
def World.example (ds : DistributedStore) : World := ⟨ds, [], []⟩

/-- A single-node leader whose map holds the given pairs. -/
def leaderWith (kvs : KVs) : DistributedStore :=
  DistributedStore.example (.mk kvs) (Raft.example .Leader [⟨.Voter, "mgmt-1", "10.0.0.1:7000"⟩])

/-- The zone Patio led by `a` with members `a`, `b`, `c`, as stored. -/
def patio : ZoneConfig := ⟨"z1", "Patio", "a", some ["a", "b", "c"]⟩

/-- The requests of the recorded RPCs with the speaker each went to. -/
def World.requests (w : World) : List (String × SpeakerReq) :=
  w.rpcs.map (fun r => (r.target, r.req))

/-- The speaker `a` as a member; it is the node that leaves in the examples. -/
def nodeA : Node := musicNode "a" 1

/-- A service on a leader whose map holds the zone Patio, before any call. -/
def patioWorld : World := World.example (leaderWith [("z1", ⟨SpeakerConfig.zero, patio⟩)])

/-! ## Descriptions of payloads -/

/-- The pairs of the JSON object a payload spells; none when it spells something else. -/
def Payload.pairs : Payload → List (String × Json)
  | .doc (.obj kvs) => kvs
  | _ => []

/-- The value a JSON object gives for a key: that of the last pair with the key. -/
def lastValue (kvs : List (String × Json)) (k : String) : Option Json :=
  (kvs.reverse.find? (fun p => p.1 = k)).map (fun p => p.2)

/-! ## Descriptions of stores -/

/-- Every zone of the map sits under its own ID, which is how SaveZoneConfig and
SaveSpeakerConfig write: an entry holds no zone (an empty zone ID) or a zone whose ID is the
key. -/
def KVs.KeyedByID (kvs : KVs) : Prop :=
  ∀ p ∈ kvs, p.2.ZoneConfig.ID = "" ∨ p.2.ZoneConfig.ID = p.1

instance (kvs : KVs) : Decidable kvs.KeyedByID :=
  inferInstanceAs (Decidable (∀ p ∈ kvs, p.2.ZoneConfig.ID = "" ∨ p.2.ZoneConfig.ID = p.1))

/-- The command SaveSpeakerConfig marshals. -/
def command.ofSpeakerConfig (config : SpeakerConfig) : command :=
  { Op := "set", Key := config.ID, Value := { entry.zero with SpeakerConfig := config } }

/-- The command SaveZoneConfig marshals. -/
def command.ofZoneConfig (config : ZoneConfig) : command :=
  { Op := "set", Key := config.ID, Value := { entry.zero with ZoneConfig := config } }

/-- The command DeleteZoneConfig marshals. -/
def command.ofDelete (zoneID : String) : command :=
  { Op := "delete", Key := zoneID, Value := entry.zero }

/-- The consensus log of a store. -/
def DistributedStore.log (ds : DistributedStore) : List Payload :=
  match ds.raft with
  | none => []
  | some r => r.log

/-- The name a speaker is shown under: the DisplayName of the SpeakerConfig the map holds under
the node name when there is one and it is not empty, the node name otherwise. -/
def displayNameOf (ds : DistributedStore) (name : String) : String :=
  match ds.m.get name with
  | some e => if e.SpeakerConfig.DisplayName ≠ "" then e.SpeakerConfig.DisplayName else name
  | none => name

/-- The Music members of the member list, in member order. -/
def Env.musicMembers (env : Env) : List Node :=
  env.nodes.Members.filter
    (fun n => decide ((env.gob n.Meta).map NodeMeta.NodeType = some Music))

/-! ## More of the zone orchestration service (`service.go`) -/

/-- The first loop of AddSpeakersToZone: the added speakers other than the zone leader drop
their sessions and stop broadcasting. -/
def AddSpeakersToZone.reset (env : Env) (leader : String) : List String → Op Unit
  | [] => pure ()
  | speakerID :: rest =>
    if speakerID = leader then AddSpeakersToZone.reset env leader rest
    else do
      let client ← getSpeakerClient env speakerID
      let _ ← client.call env (.RemoveForwardToNodes [] true)
      let _ ← client.call env (.ToggleBroadcast false)
      AddSpeakersToZone.reset env leader rest

/-- AddSpeakersToZone updates a zone with the given speakers. -/
def AddSpeakersToZone (env : Env) (zoneID : String) (speakerIDs : StrSlice) : Op Unit := do
  let amLeader ← Op.read DistributedStore.AmLeader
  if !amLeader then
    let _ ← forwardToLeader env (.AddSpeakersToZone zoneID speakerIDs.elems)
    pure ()
  else if speakerIDs.elems.length = 0 then pure ()
  else
    let zc ← Op.read (fun ds => .ok ds.GetZoneConfigs)
    let zone := lookupZone zoneID zc
    if zone.ID = "" then Op.fail ("Zone: " ++ zoneID ++ " not found")
    else
      AddSpeakersToZone.reset env zone.Leader speakerIDs.elems
      removeFromAllSpeakers env speakerIDs.elems
      let client ← getSpeakerClient env zone.Leader
      let _ ← client.call env (.ForwardToNodes speakerIDs.elems)
      let zone1 := { zone with Speakers := zone.Speakers.append speakerIDs.elems }
      let _ ← Op.store (fun ds => ds.SaveZoneConfig zone1)
      pure ()

/-- The RPCs of DeleteZone on a zone when every one succeeds: broadcast is switched on at every
member other than the leader, in Speakers order; then, for a zone with a leader, the leader
drops all forward targets and takes the display name stored for it. -/
def deleteRecords (env : Env) (ds : DistributedStore) (z : ZoneConfig) : List RpcRecord :=
  (z.Speakers.elems.filter (fun id => id ≠ z.Leader)).map
      (fun id => env.okRecord id (.ToggleBroadcast true)) ++
    (if z.Leader ≠ "" then
      [env.okRecord z.Leader (.RemoveForwardToNodes [] true),
       env.okRecord z.Leader (.ChangeServiceName (ds.m.index z.Leader).SpeakerConfig.DisplayName)]
    else [])

/-! ## Descriptions of runs that may fail -/

/-- Whether a recorded RPC came back without a transport error; the service looks at nothing
else of an RPC. -/
def RpcRecord.succeeded (r : RpcRecord) : Bool :=
  match r.result with
  | .ok _ => true
  | .error _ => false

/-- The RPCs of a run stop at the first that fails, and the run returns its error: either every
RPC succeeded, or all but the last did and the run returned the error of the last. -/
def StopsAtFailure {α : Type} (res : Res α) (new : List RpcRecord) : Prop :=
  (∀ r ∈ new, r.succeeded = true) ∨
  ∃ pre last e, new = pre ++ [last] ∧ (∀ r ∈ pre, r.succeeded = true) ∧
    last.result = .error e ∧ res = .err e

/-- An operation that writes nothing and forwards nothing, and whose RPCs stop at the first
that fails. -/
def Op.Aborts {α : Type} (x : Op α) : Prop :=
  ∀ w, (x w).2.store = w.store ∧ (x w).2.forwarded = w.forwarded ∧
    ∃ new, (x w).2.rpcs = w.rpcs ++ new ∧ StopsAtFailure (x w).1 new

/-- An operation that forwards nothing, whose RPCs stop at the first that fails, and that has
written nothing whenever it returns an error. -/
def Op.AbortsBeforeWrite {α : Type} (x : Op α) : Prop :=
  ∀ w, (x w).2.forwarded = w.forwarded ∧
    (∀ e, (x w).1 = .err e → (x w).2.store = w.store) ∧
    ∃ new, (x w).2.rpcs = w.rpcs ++ new ∧ StopsAtFailure (x w).1 new

/-- Surroundings like the example ones, except that every RPC to the speaker `bad` fails in
transport. -/
def Env.failing (members : List Node) (bad : String) : Env :=
  { Env.example members with
    speakerRpc := fun _ t _ _ => if t = bad then .error "unavailable" else .ok 200 }

/-! ## The rejoin of a music node (`service.go`) -/

/-- A call whose `error` the caller does not look at. -/
def Op.ignoreError (x : Op Unit) : Op Unit := fun w =>
  match x w with
  | (.err _, w1) => (.ok (), w1)
  | other => other

/-- A call whose `error` the caller logs before going on; `none` stands for the error. -/
def Op.attempt {α : Type} (x : Op α) : Op (Option α) := fun w =>
  match x w with
  | (.ok a, w1) => (.ok (some a), w1)
  | (.err _, w1) => (.ok none, w1)
  | (.panic, w1) => (.panic, w1)
  | (.fatal, w1) => (.fatal, w1)

/-- The variables the scan of HandleMusicNodeJoin sets. -/
structure JoinScan where
  updateZone : ZoneConfig
  wasLeader : Bool
  needToUpdate : Bool
deriving DecidableEq, Repr

/-- The inner loop of the scan of HandleMusicNodeJoin, over the members of one zone. -/
def HandleMusicNodeJoin.members (name : String) (zone : ZoneConfig) :
    List String → JoinScan → JoinScan
  | [], s => s
  | member :: rest, s =>
    if member = name then
      HandleMusicNodeJoin.members name zone rest { s with updateZone := zone, needToUpdate := true }
    else HandleMusicNodeJoin.members name zone rest s

/-- The scan of HandleMusicNodeJoin over the zones: a zone led by the node ends it. -/
def HandleMusicNodeJoin.scan (name : String) : List ZoneConfig → JoinScan → JoinScan
  | [], s => s
  | zone :: rest, s =>
    if zone.Leader = name then { updateZone := zone, needToUpdate := true, wasLeader := true }
    else
      HandleMusicNodeJoin.scan name rest
        (HandleMusicNodeJoin.members name zone zone.Speakers.elems s)

/-- The loop of HandleMusicNodeJoin that builds the forward list from the active members. -/
def HandleMusicNodeJoin.ids (name : String) : List Node → List String → List String
  | [], ids => ids
  | a :: rest, ids =>
    if a.Name ≠ name then HandleMusicNodeJoin.ids name rest (ids ++ [a.Name])
    else HandleMusicNodeJoin.ids name rest ids

/-- HandleMusicNodeJoin will try to bring the music node back to the zone it belongs. -/
def HandleMusicNodeJoin (env : Env) (node : Node) : Op Unit := Op.logged do
  let amLeader ← Op.read DistributedStore.AmLeader
  if !amLeader then pure ()
  else
    let zones ← Op.read (fun ds => .ok ds.GetZoneConfigs)
    let s := HandleMusicNodeJoin.scan node.Name zones
      { updateZone := ZoneConfig.zero, wasLeader := false, needToUpdate := false }
    if !s.needToUpdate then pure ()
    else
      Op.ignoreError (removeFromAllSpeakers env [node.Name])
      if s.wasLeader then
        let client ← getSpeakerClient env node.Name
        let active ← Op.lift
          (FilterMembersByFn (fun n => .ok (zoneMemberFilter s.updateZone.Speakers.elems n))
            env.nodes)
        let ids := HandleMusicNodeJoin.ids node.Name active []
        let _ ← client.call env (.ForwardToNodes ids)
        let _ ← client.call env (.ToggleBroadcast true)
        let _ ← client.call env (.ChangeServiceName s.updateZone.DisplayName)
        pure ()
      else
        let leaderClient ← Op.attempt (getSpeakerClient env s.updateZone.Leader)
        match leaderClient with
        | none => pure ()
        | some client =>
          let _ ← client.call env (.ForwardToNodes [node.Name])
          pure ()
        let client ← getSpeakerClient env node.Name
        let _ ← client.call env (.ToggleBroadcast false)
        pure ()

/-- The names of the members of the directory that a zone lists, other than the given one, in
directory order. -/
def Env.activeOthers (env : Env) (z : ZoneConfig) (name : String) : List String :=
  ((env.nodes.Members.filter (fun n => decide (n.Name ∈ z.Speakers.elems))).filter
    (fun n => n.Name ≠ name)).map Node.Name

/-- A service on a leader whose map holds the zone Den, led by d with a as a plain member, and
the zone Patio led by a; Den is met first by a scan. -/
def denPatioWorld : World :=
  World.example (leaderWith [("z0", ⟨SpeakerConfig.zero, ⟨"z0", "Den", "d", some ["d", "a"]⟩⟩),
    ("z1", ⟨SpeakerConfig.zero, patio⟩)])

/-! ## Descriptions of configurations -/

/-- Whether a configured server stands in the way of a joining node: it has the ID or the
address of the node. -/
def Server.conflictsWith (s : Server) (nodeID nodeAddress : String) : Bool :=
  decide (s.ID = nodeID ∨ s.Address = nodeAddress)

/-- A leader of a three-node cluster. -/
def threeVoters : DistributedStore :=
  DistributedStore.example (.mk [])
    (Raft.example .Leader [⟨.Voter, "mgmt-1", "10.0.0.1:7000"⟩, ⟨.Voter, "mgmt-2", "10.0.0.2:7000"⟩,
      ⟨.Voter, "mgmt-3", "10.0.0.3:7000"⟩])

/-! ## `encoding/gob`

The library is outside the repository.  What `cluster.go` uses of it, one
`Encode` of a `*NodeMeta` into an empty buffer and one `Decode` into a
`NodeMeta`, is modelled from the section Encoding Details of the package
documentation: an unsigned integer below 128 is one byte, otherwise the negated
byte count followed by the big-endian bytes without leading zeros; a signed
integer is sent as the unsigned `i<<1`, complemented with bit 0 set when
negative; a struct is a sequence of (field delta, value) pairs that leaves out
zero fields and ends with delta 0; every message is preceded by its length; the
first message describes the type (negated type id, then the `wireType`), the
second carries the value (type id, then the struct).  The first type a stream
defines has id 65; `int` has id 2.

The decoder follows the stream as the library does for struct types whose
fields are of the basic types: type definitions are collected, the fields of
the value are matched to those of `NodeMeta` by name, fields of the wire that
`NodeMeta` does not have are skipped according to their type, fields of
`NodeMeta` that the wire does not have stay zero.  Where a stream uses anything
else (a type definition that is no struct, a skipped field of a composite or
interface type, a value of one of the types the library itself predefines) the
model reports an error although the library may go on; the theorems use the
errors of the model only where they stem from the framing of the stream, which
the library shares: the empty input (`io.EOF`) and a message announced longer
than the bytes that follow (`io.ErrUnexpectedEOF`).  The decoder takes any id
from 64 on that the stream has not yet defined, so it is indifferent to the id
an encoder picks for its first type.  Bytes are numbers below 256, integers are
64 bits wide. -/

/-- The big-endian bytes of `x` in `n` bytes (`binary.BigEndian.PutUint64` for
`n = 8`). -/
def Gob.bigEndian : Nat → Nat → Bytes
  | 0, _ => []
  | n + 1, x => Gob.bigEndian n (x / 256) ++ [x % 256]

/-- The value of big-endian bytes: the loop `x = x<<8 | uint64(b)`. -/
def Gob.fromBigEndian (bs : Bytes) : Nat := bs.foldl (fun x b => x * 256 + b) 0

/-- The bytes `encodeUint` writes. -/
def Gob.encodeUint (x : Nat) : Bytes :=
  if x ≤ 0x7F then [x]
  else
    let bs := (Gob.bigEndian 8 x).dropWhile (fun b => b = 0)
    (256 - bs.length) :: bs

/-- The call `decodeUint`: the value and the bytes left, `none` for an error. -/
def Gob.decodeUint : Bytes → Option (Nat × Bytes)
  | [] => none
  | b :: rest =>
    if b ≤ 0x7F then some (b, rest)
    else
      let n := 256 - b
      if n > 8 then none
      else if rest.length < n then none
      else some (Gob.fromBigEndian (rest.take n), rest.drop n)

/-- The bytes `encodeInt` writes for a 64-bit integer. -/
def Gob.encodeInt (i : Int) : Bytes :=
  Gob.encodeUint (if i < 0 then (-i - 1).toNat * 2 + 1 else i.toNat * 2)

/-- The call `decodeInt`. -/
def Gob.decodeInt (bs : Bytes) : Option (Int × Bytes) :=
  match Gob.decodeUint bs with
  | none => none
  | some (x, rest) =>
    some (if x % 2 = 1 then -((x / 2 : Nat) : Int) - 1 else ((x / 2 : Nat) : Int), rest)

/-- The bytes of a name; every name of a type or field here is ASCII. -/
def Gob.ascii (s : String) : Bytes := s.data.map Char.toNat

/-- The bytes written for a string or byte slice: the length, then the bytes. -/
def Gob.encodeBytes (b : Bytes) : Bytes := Gob.encodeUint b.length ++ b

/-- Decoding a string or byte slice. -/
def Gob.decodeBytes (bs : Bytes) : Option (Bytes × Bytes) :=
  match Gob.decodeUint bs with
  | none => none
  | some (n, rest) => if rest.length < n then none else some (rest.take n, rest.drop n)

/-- A field of a struct type as the wire describes it (`fieldType`). -/
structure Gob.fieldType where
  Name : Bytes
  Id : Int
deriving DecidableEq, Repr

/-- A struct type as the wire describes it (`structType` with its `CommonType`). -/
structure Gob.structType where
  Name : Bytes
  Id : Int
  Field : List Gob.fieldType
deriving DecidableEq, Repr

/-- The description of `NodeMeta` an encoder sends: the first type of the
stream, with four `int` fields. -/
def Gob.nodeMetaType : Gob.structType :=
  { Name := Gob.ascii "NodeMeta", Id := 65,
    Field := [⟨Gob.ascii "RtspPort", 2⟩, ⟨Gob.ascii "APIPort", 2⟩, ⟨Gob.ascii "RaftPort", 2⟩,
      ⟨Gob.ascii "NodeType", 2⟩] }

/-- The bytes written for a `fieldType` with a name and a non-zero id. -/
def Gob.encodeFieldType (f : Gob.fieldType) : Bytes :=
  [1] ++ Gob.encodeBytes f.Name ++ [1] ++ Gob.encodeInt f.Id ++ [0]

/-- The bytes written for a `structType` with a name, a non-zero id and at least
one field. -/
def Gob.encodeStructType (t : Gob.structType) : Bytes :=
  [1] ++ ([1] ++ Gob.encodeBytes t.Name ++ [1] ++ Gob.encodeInt t.Id ++ [0]) ++
    [1] ++ Gob.encodeUint t.Field.length ++ (t.Field.map Gob.encodeFieldType).flatten ++ [0]

/-- The bytes written for the `wireType` of a struct: `StructT` is its third
field. -/
def Gob.encodeWireType (t : Gob.structType) : Bytes := [3] ++ Gob.encodeStructType t ++ [0]

/-- A message: the length of the body, then the body. -/
def Gob.message (body : Bytes) : Bytes := Gob.encodeUint body.length ++ body

/-- The fields of a struct of integers from some field on: `delta` is the
distance from the last field written to the first of `vals`; a zero field is
left out; delta 0 ends the struct. -/
def Gob.encodeIntFields : Nat → List Int → Bytes
  | _, [] => [0]
  | delta, v :: rest =>
    if v = 0 then Gob.encodeIntFields (delta + 1) rest
    else Gob.encodeUint delta ++ Gob.encodeInt v ++ Gob.encodeIntFields 1 rest

/-- The bytes `Encode` writes into an empty buffer for a `NodeMeta`. -/
def Gob.encodeNodeMeta (m : NodeMeta) : Bytes :=
  Gob.message (Gob.encodeInt (-65) ++ Gob.encodeWireType Gob.nodeMetaType) ++
    Gob.message (Gob.encodeInt 65 ++
      Gob.encodeIntFields 1 [m.RtspPort, m.APIPort, m.RaftPort, m.NodeType])

/-- The loop of `decodeStruct`: while bytes remain, a delta is read; 0 ends the
struct; a field number beyond the fields of the type is an error; otherwise
the field is decoded by `step`.  `next` is the number of the last field plus
one; every round consumes a byte, `fuel` bounds the rounds. -/
def Gob.decodeFields {σ : Type} (numFields : Nat) (step : Nat → Bytes → σ → Option (σ × Bytes)) :
    Nat → Nat → Bytes → σ → Option (σ × Bytes)
  | 0, _, _, _ => none
  | fuel + 1, next, bs, st =>
    if bs = [] then some (st, [])
    else
      match Gob.decodeUint bs with
      | none => none
      | some (delta, rest) =>
        if delta = 0 then some (st, rest)
        else if next + delta - 1 ≥ numFields then none
        else
          match step (next + delta - 1) rest st with
          | none => none
          | some (st1, rest1) => Gob.decodeFields numFields step fuel (next + delta) rest1 st1

/-- One field of a `fieldType`: the name, then the id. -/
def Gob.decodeFieldType.step (k : Nat) (bs : Bytes) (f : Gob.fieldType) :
    Option (Gob.fieldType × Bytes) :=
  if k = 0 then
    match Gob.decodeBytes bs with
    | none => none
    | some (name, rest) => some ({ f with Name := name }, rest)
  else
    match Gob.decodeInt bs with
    | none => none
    | some (id, rest) => some ({ f with Id := id }, rest)

/-- Decoding a `fieldType`. -/
def Gob.decodeFieldType (bs : Bytes) : Option (Gob.fieldType × Bytes) :=
  Gob.decodeFields 2 Gob.decodeFieldType.step (bs.length + 1) 0 bs ⟨[], 0⟩

/-- Decoding the elements of a slice of `fieldType`; an element for which no
byte is left is an error (the length exceeds the input). -/
def Gob.decodeFieldTypes : Nat → Bytes → Option (List Gob.fieldType × Bytes)
  | 0, bs => some ([], bs)
  | n + 1, bs =>
    if bs = [] then none
    else
      match Gob.decodeFieldType bs with
      | none => none
      | some (f, rest) =>
        match Gob.decodeFieldTypes n rest with
        | none => none
        | some (fs, rest1) => some (f :: fs, rest1)

/-- One field of a `CommonType`: the name, then the id. -/
def Gob.decodeCommonType.step (k : Nat) (bs : Bytes) (t : Gob.structType) :
    Option (Gob.structType × Bytes) :=
  if k = 0 then
    match Gob.decodeBytes bs with
    | none => none
    | some (name, rest) => some ({ t with Name := name }, rest)
  else
    match Gob.decodeInt bs with
    | none => none
    | some (id, rest) => some ({ t with Id := id }, rest)

/-- One field of a `structType`: the `CommonType`, then the slice of fields. -/
def Gob.decodeStructType.step (k : Nat) (bs : Bytes) (t : Gob.structType) :
    Option (Gob.structType × Bytes) :=
  if k = 0 then Gob.decodeFields 2 Gob.decodeCommonType.step (bs.length + 1) 0 bs t
  else
    match Gob.decodeUint bs with
    | none => none
    | some (n, rest) =>
      match Gob.decodeFieldTypes n rest with
      | none => none
      | some (fs, rest1) => some ({ t with Field := fs }, rest1)

/-- One field of a `wireType`: only `StructT`, its third field, is modelled. -/
def Gob.decodeWireType.step (k : Nat) (bs : Bytes) (_t : Option Gob.structType) :
    Option (Option Gob.structType × Bytes) :=
  if k = 2 then
    match Gob.decodeFields 2 Gob.decodeStructType.step (bs.length + 1) 0 bs ⟨[], 0, []⟩ with
    | none => none
    | some (t, rest) => some (some t, rest)
  else none

/-- Decoding a `wireType`: the struct type it describes, if it describes one. -/
def Gob.decodeWireType (bs : Bytes) : Option (Option Gob.structType × Bytes) :=
  Gob.decodeFields 7 Gob.decodeWireType.step (bs.length + 1) 0 bs none

/-- The names of the fields of `NodeMeta`, in declaration order. -/
def Gob.localFields : List Bytes :=
  [Gob.ascii "RtspPort", Gob.ascii "APIPort", Gob.ascii "RaftPort", Gob.ascii "NodeType"]

/-- The position of a name among the fields of `NodeMeta`. -/
def Gob.fieldIndex (name : Bytes) : List Bytes → Nat → Option Nat
  | [], _ => none
  | n :: rest, i => if n = name then some i else Gob.fieldIndex name rest (i + 1)

/-- What the decoding engine does with one field of the wire: it stores an `int` into a field
of `NodeMeta`, or it skips a value of the type the wire announced. -/
inductive Gob.decOp where
  | store (idx : Nat)
  /-- a `bool`, `int`, `uint` or `float`: one unsigned integer -/
  | skipUint
  /-- a `[]byte` or `string`: a length and that many bytes -/
  | skipBytes
  /-- a `complex`: two unsigned integers -/
  | skipComplex
deriving DecidableEq, Repr

/-- Whether the instruction stores into `NodeMeta`. -/
def Gob.decOp.isStore : Gob.decOp → Bool
  | .store _ => true
  | _ => false

/-- The instruction that skips a value of a basic type (`decIgnoreOpFor`), by type id:
1 `bool`, 2 `int`, 3 `uint`, 4 `float`, 5 `[]byte`, 6 `string`, 7 `complex`. -/
def Gob.ignoreOp (id : Int) : Option Gob.decOp :=
  if id = 1 ∨ id = 2 ∨ id = 3 ∨ id = 4 then some .skipUint
  else if id = 5 ∨ id = 6 then some .skipBytes
  else if id = 7 then some .skipComplex
  else none

/-- The decoding engine for a received struct type (`compileDec`): per wire
field the field of `NodeMeta` it is stored in, or how it is skipped when
`NodeMeta` has no field of that name.  A nameless field, or a field of
`NodeMeta` sent with another type than `int`, is an error; so is, in the model,
a skipped field whose type is not one of the basic types. -/
def Gob.compile : List Gob.fieldType → Option (List Gob.decOp)
  | [] => some []
  | f :: rest =>
    if f.Name = [] then none
    else
      match Gob.fieldIndex f.Name Gob.localFields 0 with
      | some idx =>
        if f.Id = 2 then (Gob.compile rest).map (fun is => .store idx :: is) else none
      | none =>
        match Gob.ignoreOp f.Id with
        | some op => (Gob.compile rest).map (fun is => op :: is)
        | none => none

/-- Storing into a field of `NodeMeta` by position. -/
def Gob.setField (m : NodeMeta) (idx : Nat) (v : Int) : NodeMeta :=
  match idx with
  | 0 => { m with RtspPort := v }
  | 1 => { m with APIPort := v }
  | 2 => { m with RaftPort := v }
  | _ => { m with NodeType := v }

/-- One field of the value: stored where the engine says, or skipped. -/
def Gob.decodeValue.step (engine : List Gob.decOp) (k : Nat) (bs : Bytes) (m : NodeMeta) :
    Option (NodeMeta × Bytes) :=
  match engine.get? k with
  | some (.store idx) =>
    match Gob.decodeInt bs with
    | none => none
    | some (v, rest) => some (Gob.setField m idx v, rest)
  | some .skipUint =>
    match Gob.decodeUint bs with
    | none => none
    | some (_, rest) => some (m, rest)
  | some .skipBytes =>
    match Gob.decodeBytes bs with
    | none => none
    | some (_, rest) => some (m, rest)
  | some .skipComplex =>
    match Gob.decodeUint bs with
    | none => none
    | some (_, rest) =>
      match Gob.decodeUint rest with
      | none => none
      | some (_, rest1) => some (m, rest1)
  | none => none

/-- Decoding the value of a received type into a zero `NodeMeta` (`decodeValue`):
the type must have been defined by the stream; a type none of whose fields is
one of `NodeMeta` is a mismatch. -/
def Gob.decodeValue (types : List (Int × Gob.structType)) (id : Int) (bs : Bytes) :
    Option NodeMeta :=
  match types.find? (fun p => p.1 = id) with
  | none => none
  | some (_, wire) =>
    match Gob.compile wire.Field with
    | none => none
    | some engine =>
      if engine.all (fun op => !op.isStore) ∧ wire.Field.length > 0 then none
      else
        (Gob.decodeFields engine.length (Gob.decodeValue.step engine) (bs.length + 1) 0 bs
          ⟨0, 0, 0, 0⟩).map (fun r => r.1)

/-- The loop of `Decode` over the messages of the stream (`decodeTypeSequence`):
a negative id defines a type, which must be new and leave nothing in its
message; the first message with another id carries the value. -/
def Gob.decodeMessages : Nat → Bytes → List (Int × Gob.structType) → Option NodeMeta
  | 0, _, _ => none
  | fuel + 1, bs, types =>
    match Gob.decodeUint bs with
    | none => none
    | some (n, rest) =>
      if rest.length < n then none
      else
        match Gob.decodeInt (rest.take n) with
        | none => none
        | some (id, body) =>
          if id < 0 then
            if -id < 64 ∨ (types.find? (fun p => p.1 = -id)).isSome then none
            else
              match Gob.decodeWireType body with
              | some (some t, []) => Gob.decodeMessages fuel (rest.drop n) ((-id, t) :: types)
              | _ => none
          else Gob.decodeValue types id body

/-- The call `gob.NewDecoder(bytes.NewReader(b)).Decode(&meta)` for a `NodeMeta`. -/
def Gob.decodeNodeMeta : GobDecoder := fun bs => Gob.decodeMessages (bs.length + 1) bs []

/-- The description of a struct type `Other` with an `int` field `APIPort` and a `string` field
`Label`, as the first type of a stream. -/
def Gob.otherType : Gob.structType :=
  { Name := Gob.ascii "Other", Id := 65,
    Field := [⟨Gob.ascii "APIPort", 2⟩, ⟨Gob.ascii "Label", 6⟩] }

/-- The bytes `Encode` writes for the value `Other{APIPort: 6000, Label: "den"}`: no encoding
of a `NodeMeta`. -/
def Gob.otherStream : Bytes :=
  Gob.message (Gob.encodeInt (-65) ++ Gob.encodeWireType Gob.otherType) ++
    Gob.message (Gob.encodeInt 65 ++ ([1] ++ Gob.encodeInt 6000) ++
      ([1] ++ Gob.encodeBytes (Gob.ascii "den")) ++ [0])

/-- Delegate is the memberlist delegate that hands out the metadata of this
node; `MetaData` is a pointer, `none` when nil. -/
structure Delegate where
  MetaData : Option NodeMeta

/-- NodeMeta is used to retrieve meta-data about the current node when
broadcasting an alive message.  `Encode` of a nil pointer panics; for a
`NodeMeta` it does not fail.  `limit` is not looked at. -/
def Delegate.NodeMeta (d : Delegate) (_limit : Int) : Res Bytes :=
  match d.MetaData with
  | none => .panic
  | some m => .ok (Gob.encodeNodeMeta m)

/-- What the fields written by `Gob.encodeIntFields` from field `i` on store
into a `NodeMeta`: every value that is not zero, at its position. -/
def Gob.storeFrom (i : Nat) : List Int → NodeMeta → NodeMeta
  | [], m => m
  | v :: rest, m => Gob.storeFrom (i + 1) rest (if v = 0 then m else Gob.setField m i v)

/-- The values a Go `int` takes on the platforms the program is built for. -/
def isInt64 (v : Int) : Prop := -2 ^ 63 ≤ v ∧ v < 2 ^ 63

instance (v : Int) : Decidable (isInt64 v) := inferInstanceAs (Decidable (_ ∧ _))

/-- Surroundings like the example ones with the metadata codec of the library
instead of the toy one. -/
def Env.gobExample (members : List Node) : Env :=
  { Env.example members with gob := Gob.decodeNodeMeta }

/-- A Music member whose metadata is what its delegate encodes. -/
def gobMusicNode (name : String) (x : Nat) : Node :=
  ⟨name, "10.0.0." ++ toString x, Gob.encodeNodeMeta ⟨5000, 6000, 7000, Music⟩⟩

/-- An operation that leaves the store alone and forwards nothing to the leader. -/
def Op.KeepsStore {α : Type} (x : Op α) : Prop :=
  ∀ w, (x w).2.store = w.store ∧ (x w).2.forwarded = w.forwarded

/-! ## More descriptions of lists, stores and surroundings -/

/-- The index of the first occurrence of `s` in `R`, and the length of `R` when `s` does not
occur in it. -/
def firstIndex (s : String) : List String → Nat
  | [] => 0
  | r :: rest => if r = s then 0 else firstIndex s rest + 1

/-- A log entry that is a JSON document but not a command: `{"op":"set","key":"k","value":5}`,
where the number 5 stands in the place of an entry. -/
def numberAsValue : Log :=
  ⟨.doc (.obj [("op", .str "set"), ("key", .str "k"), ("value", .num "5")])⟩

/-- Surroundings of a host with the loopback interface and one other interface, 192.168.1.5;
the consensus leader address `:7000` resolves to a TCP address without IP. -/
def Env.oneInterface (members : List Node) : Env :=
  { Env.example members with
    interfaceAddrs := .ok [⟨true, true, "127.0.0.1"⟩, ⟨true, false, "192.168.1.5"⟩],
    resolveTCPAddr := fun a => if a = ":7000" then some ⟨none, 7000⟩ else none }

/-- Every entry of the map is of one kind and sits under its own ID: it holds a SpeakerConfig
with the key as ID next to the zero ZoneConfig, or a ZoneConfig with the key as ID next to the
zero SpeakerConfig. -/
def KVs.OneKindByID (kvs : KVs) : Prop :=
  ∀ p ∈ kvs, (p.2.ZoneConfig = ZoneConfig.zero ∧ p.2.SpeakerConfig.ID = p.1) ∨
    (p.2.SpeakerConfig = SpeakerConfig.zero ∧ p.2.ZoneConfig.ID = p.1)

/-- The command is one that SaveSpeakerConfig, SaveZoneConfig or DeleteZoneConfig marshals. -/
def command.FromService (c : command) : Prop :=
  (∃ sc, c = command.ofSpeakerConfig sc) ∨ (∃ zc, c = command.ofZoneConfig zc) ∨
    (∃ id, c = command.ofDelete id)

/-- Whether a member is a Mgmt member at the given address that advertises the given
consensus port. -/
def Env.isLeaderMember (env : Env) (ip : String) (port : Int) (n : Node) : Bool :=
  match env.gob n.Meta with
  | some m => decide (m.NodeType = Mgmt) && (decide (n.Addr = ip) && decide (m.RaftPort = port))
  | none => false

/-- The text `address:APIPort` of a member, from its address and its decoded metadata. -/
def Env.apiAddressOfNode (env : Env) (n : Node) : String :=
  match env.gob n.Meta with
  | some m => hostPort n.Addr m.APIPort
  | none => ""

/-- A Mgmt member whose metadata is what its delegate encodes. -/
def gobMgmtNode (name : String) (x : Nat) : Node :=
  ⟨name, "10.0.1." ++ toString x, Gob.encodeNodeMeta ⟨5000, 6000, 7000, Mgmt⟩⟩

/-! ## Names of speakers and zones (`service.go`) -/

/-- SetDisplayName will change the user visible name of the speaker. -/
def SetDisplayName (env : Env) (ID displayName : String) (updateBroadcast : Bool) : Op Unit := do
  let amLeader ← Op.read DistributedStore.AmLeader
  if !amLeader then
    let _ ← forwardToLeader env (.SetDisplayNameForSpeaker ID displayName)
    pure ()
  else
    let stored ← Op.read (fun ds => ds.GetSpeakerConfig ID)
    let speakerConfig : SpeakerConfig := if stored.ID = "" then { stored with ID := ID } else stored
    if updateBroadcast then
      let speakerClient ← getSpeakerClient env ID
      let code ← speakerClient.call env (.ChangeServiceName displayName)
      if code ≠ 200 then Op.fail "Error changing name of speaker" else pure ()
    let err ← Op.store
      (fun ds => ds.SaveSpeakerConfig { speakerConfig with DisplayName := displayName })
    Op.lift (Res.ofError err)

/-- ChangeZoneName changes the name of the zone. -/
def ChangeZoneName (env : Env) (zoneID newName : String) : Op Unit := do
  let amLeader ← Op.read DistributedStore.AmLeader
  if !amLeader then
    let _ ← forwardToLeader env (.ChangeZoneName zoneID newName)
    pure ()
  else
    let zc ← Op.read (fun ds => .ok ds.GetZoneConfigs)
    let zone := lookupZone zoneID zc
    if zone.ID = "" then Op.fail ("Zone: " ++ zoneID ++ " not found")
    else
      let client ← getSpeakerClient env zone.Leader
      let _ ← client.call env (.ChangeServiceName newName)
      let zone1 := { zone with DisplayName := newName }
      let _ ← Op.store (fun ds => ds.SaveZoneConfig zone1)
      pure ()

/-- Whether the remote rename of SetDisplayName goes through: the speaker is resolved, the
rename RPC comes back without a transport error, and its return code is 200. -/
def Env.renameSucceeds (env : Env) (w : World) (id name : String) : Bool :=
  match (getSpeakerClient env id w).1 with
  | .ok c =>
    match env.speakerRpc w.rpcs c.node c.address (.ChangeServiceName name) with
    | .ok code => decide (code = 200)
    | .error _ => false
  | _ => false

instance (kvs : KVs) : Decidable kvs.OneKindByID :=
  inferInstanceAs (Decidable (∀ p ∈ kvs,
    (p.2.ZoneConfig = ZoneConfig.zero ∧ p.2.SpeakerConfig.ID = p.1) ∨
    (p.2.SpeakerConfig = SpeakerConfig.zero ∧ p.2.ZoneConfig.ID = p.1)))

/-! ## More example surroundings -/

/-- Surroundings with the Music members `a`, `b`, `c`, `d`, every call
succeeding. -/
def fourSpeakers : Env :=
  Env.example [musicNode "a" 1, musicNode "b" 2, musicNode "c" 3, musicNode "d" 4]

/-- A single-node leader whose map holds the given pairs and whose consensus log commits no
entry in time: every `Apply` future ends in the timeout error. -/
def stalledLeader (kvs : KVs) : DistributedStore :=
  DistributedStore.example (.mk kvs)
    { Raft.example .Leader [⟨.Voter, "mgmt-1", "10.0.0.1:7000"⟩] with commits := fun _ => false }

/-- A service on a stalled leader whose map holds the zone Patio, before any call. -/
def stalledPatioWorld : World :=
  World.example (stalledLeader [("z1", ⟨SpeakerConfig.zero, patio⟩)])

/-! ## `fmt.Errorf` with a format and no operand

The library is outside the repository.  The forwarding paths call
`fmt.Errorf(resp.Message)`: the message is the format and there is no operand.
What the formatter does with such a call is modelled from the package
documentation (sections Printing and Format errors) and the scan it describes:
text outside verbs is copied; a verb starts at `%`, takes flags from `#0+- `,
an optional argument index `[n]`, a width (digits or `*`), a precision (`.`
and digits or `*`, with an argument index before it; a `.` that ends the format
is not a precision but the verb) and the verb character;
`%%` prints a percent sign; a format that ends inside a verb prints
`%!(NOVERB)`; a `*` for which no operand is left prints `%!(BADWIDTH)` or
`%!(BADPREC)`; a verb with an argument index, which no operand can satisfy,
prints `%!verb(BADINDEX)`; every other verb finds no operand and prints
`%!verb(MISSING)`.  A number of more than seven digits ends the scan of the
format. -/

/-- The flag characters of a verb. -/
def Fmt.isFlag (c : Char) : Bool :=
  c = '#' || c = '0' || c = '+' || c = '-' || c = ' '

/-- The loop of `parsenum`: whether digits were read and what follows them; a
number that has grown beyond a million when another digit comes gives up and
leaves nothing of the text it was given. -/
def Fmt.parsenum.loop : List Char → Nat → Bool → Bool × List Char
  | [], _, isnum => (isnum, [])
  | c :: rest, num, isnum =>
    if c.isDigit then
      if num > 1000000 then (false, [])
      else Fmt.parsenum.loop rest (num * 10 + (c.toNat - '0'.toNat)) true
    else (isnum, c :: rest)

/-- The scan of a decimal number at the head of the text. -/
def Fmt.parsenum (s : List Char) : Bool × List Char := Fmt.parsenum.loop s 0 false

/-- The scan `parseArgNumber` makes of a text that starts with `[`: how many
characters the index takes and whether it is a number in brackets.  Fewer than
three characters, or no closing bracket, take the `[` alone. -/
def Fmt.parseArgNumber (s : List Char) : Nat × Bool :=
  if s.length < 3 then (1, false)
  else
    let inner := (s.drop 1).takeWhile (fun c => c ≠ ']')
    if inner.length + 1 < s.length then
      let r := Fmt.parsenum inner
      (inner.length + 2, r.1 && r.2.isEmpty && !inner.isEmpty)
    else (1, false)

/-- The step `argNumber` with no operand: the text after an argument index, if
one starts here, whether an index was found, and whether a `[` was seen (which
makes the argument number of the verb bad, since no index is in range). -/
def Fmt.argNumber (s : List Char) : List Char × Bool × Bool :=
  match s with
  | '[' :: _ =>
    let r := Fmt.parseArgNumber s
    (s.drop r.1, r.2, true)
  | _ => (s, false, false)

/-- What one verb prints, given the text after its `%`, and the text that
follows the verb. -/
def Fmt.verb (s : List Char) : List Char × List Char :=
  let s1 := s.dropWhile Fmt.isFlag
  let a1 := Fmt.argNumber s1
  let good1 := !a1.2.2
  -- width
  let w : List Char × List Char × Bool × Bool :=
    match a1.1 with
    | '*' :: rest => ("%!(BADWIDTH)".data, rest, false, good1)
    | _ =>
      let r := Fmt.parsenum a1.1
      ([], r.2, a1.2.1, good1 && !(a1.2.1 && r.1))
  -- precision
  let p : List Char × List Char × Bool × Bool :=
    match w.2.1 with
    | '.' :: c :: rest =>
      let good2 := w.2.2.2 && !w.2.2.1
      let a2 := Fmt.argNumber (c :: rest)
      let good3 := good2 && !a2.2.2
      match a2.1 with
      | '*' :: rest2 => (w.1 ++ "%!(BADPREC)".data, rest2, false, good3)
      | _ => (w.1, (Fmt.parsenum a2.1).2, a2.2.1, good3)
    | _ => w
  let a3 := if p.2.2.1 then (p.2.1, true, false) else Fmt.argNumber p.2.1
  let good := p.2.2.2 && !a3.2.2
  match a3.1 with
  | [] => (p.1 ++ "%!(NOVERB)".data, [])
  | v :: rest =>
    if v = '%' then (p.1 ++ ['%'], rest)
    else if !good then (p.1 ++ "%!".data ++ [v] ++ "(BADINDEX)".data, rest)
    else (p.1 ++ "%!".data ++ [v] ++ "(MISSING)".data, rest)

/-- The loop of `doPrintf` over the format, with no operand. -/
def Fmt.doPrintf : Nat → List Char → List Char
  | 0, _ => []
  | fuel + 1, format =>
    let text := format.takeWhile (fun c => c ≠ '%')
    match format.dropWhile (fun c => c ≠ '%') with
    | [] => text
    | _ :: rest =>
      let r := Fmt.verb rest
      text ++ r.1 ++ Fmt.doPrintf fuel r.2

/-- The text of the error `fmt.Errorf(format)` returns when it is given no
operand. -/
def Fmt.Errorf (format : String) : String :=
  String.mk (Fmt.doPrintf (format.length + 1) format.data)

/-! ## Muting a speaker, and the surroundings of a follower (`service.go`) -/

/-- SetMuteForSpeaker will mute or unmute the given speaker.  The exchange with the speaker
over RTSP (package `rtsp`, not among the sources) is the parameter `rtspSetMute`: the error of
connecting to the address and port and of sending the request that sets the volume. -/
def SetMuteForSpeaker (env : Env) (rtspSetMute : String → Int → Bool → Option String)
    (speakerID : String) (isMuted : Bool) : Op Unit := do
  let amLeader ← Op.read DistributedStore.AmLeader
  if !amLeader then
    let _ ← forwardToLeader env (.SetMuteForSpeaker speakerID isMuted)
    pure ()
  else
    let speakers ← Op.lift (FilterMembersByFn (speakerFilter env.gob speakerID) env.nodes)
    match speakers with
    | [speaker] =>
      let m ← Op.lift (DecodeNodeMeta env.gob speaker.Meta)
      Op.lift (Res.ofError (rtspSetMute speaker.Addr m.RtspPort isMuted))
    | _ => Op.fail ("Could not find speaker with id: " ++ speakerID)

/-- A follower whose consensus leader is at 10.0.1.1:7000. -/
def followerStore : DistributedStore :=
  DistributedStore.example (.mk [])
    { Raft.example .Follower [⟨.Voter, "mgmt-1", "10.0.1.1:7000"⟩, ⟨.Voter, "mgmt-2", "10.0.1.2:7000"⟩]
      with leader := "10.0.1.1:7000" }

/-- Surroundings of a follower: the leader is the Mgmt member `m1` at 10.0.1.1, it answers
every forwarded request with the given response, and errors are formatted by the library. -/
def Env.forwarding (resp : MgmtResp) : Env :=
  { Env.example [mgmtNode "m1" 1, mgmtNode "m2" 2, musicNode "a" 1] with
    leaderRpc := fun _ _ => .ok resp,
    errorf := Fmt.Errorf,
    resolveTCPAddr := fun a =>
      if a = "10.0.1.1:7000" then some ⟨some "10.0.1.1", 7000⟩ else none }

/-- The response of a leader that does not know the speaker `100%`. -/
def unknownSpeaker : MgmtResp := ⟨500, "Could not find speaker with id: 100%", ""⟩

/-! ## The steps of an operation on the speakers -/

/-- One step of an operation on the speakers: the lookup of a speaker, which opens the
connection the calls after it go over, or one RPC on the connection opened last. -/
inductive SpeakerStep where
  | lookup (speakerID : String)
  | call (req : SpeakerReq)
deriving DecidableEq, Repr

/-- What one step does, given the connection opened last: a lookup is getSpeakerClient, a call
is the RPC on that connection. -/
def SpeakerStep.run (env : Env) : SpeakerStep → Option closableClient →
    Op (Option closableClient)
  | .lookup speakerID, _ => do
    let client ← getSpeakerClient env speakerID
    pure (some client)
  | .call req, some client => do
    let _ ← client.call env req
    pure (some client)
  | .call _, none => Op.lift .panic

/-- The steps in order, each taken when the one before it returned without error. -/
def runSteps (env : Env) : List SpeakerStep → Option closableClient → Op (Option closableClient)
  | [], client => pure client
  | s :: rest, client => do
    let next ← s.run env client
    runSteps env rest next

/-- The steps of the first loop of CreateZone, speaker by speaker. -/
def CreateZone.setupSteps (displayName leader : String) : List String → List SpeakerStep
  | [] => []
  | speakerID :: rest =>
    (if speakerID ≠ leader then
      [.lookup speakerID, .call (.RemoveForwardToNodes [] true), .call (.ToggleBroadcast false)]
    else
      [.lookup speakerID, .call (.RemoveForwardToNodes [] true),
       .call (.ChangeServiceName displayName), .call (.ToggleBroadcast true)]) ++
    CreateZone.setupSteps displayName leader rest

/-- The steps of removeFromAllSpeakers over the speakers with the given names. -/
def removeFromAllSpeakers.steps (speakerIDs : List String) : List String → List SpeakerStep
  | [] => []
  | name :: rest =>
    [.lookup name, .call (.RemoveForwardToNodes speakerIDs false)] ++
    removeFromAllSpeakers.steps speakerIDs rest

/-- The lookups and RPCs of CreateZone on the leader, in the order of the source: the reset of
every listed speaker, then, for a non-empty list, the removal at every Music member and the
lookup of the zone leader with its ForwardToNodes. -/
def CreateZone.steps (env : Env) (displayName : String) (speakerIDs : List String) :
    List SpeakerStep :=
  let leader := match speakerIDs with
    | [] => ""
    | first :: _ => first
  CreateZone.setupSteps displayName leader speakerIDs ++
    (if speakerIDs.length > 0 then
      removeFromAllSpeakers.steps speakerIDs env.musicNames ++
        [.lookup leader, .call (.ForwardToNodes (CreateZone.forwardToIDs leader speakerIDs []))]
    else [])

/-- Surroundings like the example ones, except that no connection to a speaker can be opened
once `n` RPCs have been issued. -/
def Env.dialFailsAfter (members : List Node) (n : Nat) : Env :=
  { Env.example members with
    speakerDial := fun h _ => if n ≤ h.length then some "connection refused" else none }

/-- Surroundings like the example ones, except that no connection to the given address can be
opened. -/
def Env.unreachable (members : List Node) (address : String) : Env :=
  { Env.example members with
    speakerDial := fun _ a => if a = address then some "connection refused" else none }

/-! # Theorems -/

/-! ## The JSON codec round-trips -/

theorem decodeElems_str (backing xs : List String) :
    decodeElems backing (xs.map Json.str) = (xs, false) := by
  induction xs generalizing backing with
  | nil => rfl
  | cons x rest ih =>
    rw [List.map_cons]
    unfold decodeElems
    rw [ih]
    rfl

theorem decodeStrSlice_marshal (cur : StrSlice × List String) (s : StrSlice) :
    (decodeStrSlice cur (marshalStrSlice s)).1.1 = s ∧
    (decodeStrSlice cur (marshalStrSlice s)).2 = false := by
  cases s with
  | none => exact ⟨rfl, rfl⟩
  | some xs =>
    cases xs with
    | nil => exact ⟨rfl, rfl⟩
    | cons x rest =>
      simp only [marshalStrSlice, List.map_cons, decodeStrSlice]
      rw [← List.map_cons, decodeElems_str]
      exact ⟨rfl, rfl⟩

theorem decodeSpeakerConfig_marshal (cur c : SpeakerConfig) :
    decodeSpeakerConfig cur (marshalSpeakerConfig c) = (c, false) := by
  have h1 : findField ["ID", "DisplayName"] "ID" = some "ID" := by decide
  have h2 : findField ["ID", "DisplayName"] "DisplayName" = some "DisplayName" := by decide
  simp [marshalSpeakerConfig, decodeSpeakerConfig, decodeSpeakerConfigField, h1, h2, decodeString]

theorem decodeZoneConfig_marshal (cur : ZoneConfig × List String) (z : ZoneConfig) :
    (decodeZoneConfig cur (marshalZoneConfig z)).1.1 = z ∧
    (decodeZoneConfig cur (marshalZoneConfig z)).2 = false := by
  have h1 : findField ["ID", "DisplayName", "Leader", "Speakers"] "ID" = some "ID" := by decide
  have h2 : findField ["ID", "DisplayName", "Leader", "Speakers"] "DisplayName"
      = some "DisplayName" := by decide
  have h3 : findField ["ID", "DisplayName", "Leader", "Speakers"] "Leader" = some "Leader" := by
    decide
  have h4 : findField ["ID", "DisplayName", "Leader", "Speakers"] "Speakers"
      = some "Speakers" := by decide
  simp [marshalZoneConfig, decodeZoneConfig, decodeZoneConfigField, h1, h2, h3, h4, decodeString,
    decodeStrSlice_marshal]

theorem decodeEntryAt_marshal (cur : entry × List String) (e : entry) :
    (decodeEntryAt cur (marshalEntry e)).1.1 = e ∧
    (decodeEntryAt cur (marshalEntry e)).2 = false := by
  have h1 : findField ["SpeakerConfig", "ZoneConfig"] "SpeakerConfig" = some "SpeakerConfig" := by
    decide
  have h2 : findField ["SpeakerConfig", "ZoneConfig"] "ZoneConfig" = some "ZoneConfig" := by
    decide
  simp [marshalEntry, decodeEntryAt, decodeEntryField, h1, h2, decodeSpeakerConfig_marshal,
    decodeZoneConfig_marshal]

theorem decodeEntry_marshal (cur e : entry) :
    decodeEntry cur (marshalEntry e) = (e, false) := by
  unfold decodeEntry
  rw [(decodeEntryAt_marshal (cur, []) e).1, (decodeEntryAt_marshal (cur, []) e).2]

theorem decodeCommand_marshal (c : command) :
    decodeCommand command.zero (marshalCommand c) = (c, false) := by
  have h1 : findField ["op", "key", "value"] "op" = some "op" := by decide
  have h2 : findField ["op", "key", "value"] "key" = some "key" := by decide
  have h3 : findField ["op", "key", "value"] "value" = some "value" := by decide
  obtain ⟨op, key, value⟩ := c
  by_cases ho : op = "" <;> by_cases hk : key = "" <;>
    simp [marshalCommand, decodeCommand, decodeCommandField, h1, h2, h3, decodeString,
      decodeEntryAt_marshal, command.zero, ho, hk]

/-! ### Lists of pairs -/

theorem KVs_get_nil (k : String) : KVs.get [] k = none := rfl

theorem KVs_get_cons (p : String × entry) (kvs : KVs) (k : String) :
    KVs.get (p :: kvs) k = if p.1 = k then some p.2 else KVs.get kvs k := by
  unfold KVs.get
  by_cases h : p.1 = k <;> simp [List.find?_cons, h]

theorem KVs_get_filter_ne (kvs : KVs) (k k2 : String) :
    KVs.get (kvs.filter (fun p => p.1 ≠ k)) k2 = if k2 = k then none else KVs.get kvs k2 := by
  induction kvs with
  | nil => simp [KVs_get_nil]
  | cons p rest ih =>
    by_cases hp : p.1 = k
    · have : (p :: rest).filter (fun p => p.1 ≠ k) = rest.filter (fun p => p.1 ≠ k) := by
        simp [List.filter_cons, hp]
      rw [this, ih, KVs_get_cons]
      by_cases h2 : k2 = k
      · simp [h2]
      · have : ¬ p.1 = k2 := fun h => h2 (h ▸ hp)
        simp [h2, this]
    · have : (p :: rest).filter (fun p => p.1 ≠ k) = p :: rest.filter (fun p => p.1 ≠ k) := by
        simp [List.filter_cons, hp]
      rw [this, KVs_get_cons, ih, KVs_get_cons]
      by_cases h2 : k2 = k
      · have : ¬ p.1 = k2 := fun h => hp (h.trans h2)
        simp [h2, this]
        intro h; exact absurd h hp
      · simp [h2]

theorem KVs_get_set (kvs : KVs) (k : String) (v : entry) (k2 : String) :
    (kvs.set k v).get k2 = if k2 = k then some v else kvs.get k2 := by
  unfold KVs.set
  rw [KVs_get_cons, KVs_get_filter_ne]
  by_cases h : k2 = k
  · simp [h]
  · have : ¬ k = k2 := fun e => h e.symm
    simp [h, this]

theorem KVs_get_delete (kvs : KVs) (k k2 : String) :
    (kvs.delete k).get k2 = if k2 = k then none else kvs.get k2 :=
  KVs_get_filter_ne kvs k k2

theorem KVs_keys_filter_nodup (kvs : KVs) (f : String × entry → Bool) (h : kvs.keys.Nodup) :
    (KVs.keys (kvs.filter f)).Nodup := by
  unfold KVs.keys at *
  exact List.Nodup.sublist (List.Sublist.map _ (List.filter_sublist kvs)) h

theorem KVs_keys_set_nodup (kvs : KVs) (k : String) (v : entry) (h : kvs.keys.Nodup) :
    (kvs.set k v).keys.Nodup := by
  have hf := KVs_keys_filter_nodup kvs (fun p => p.1 ≠ k) h
  unfold KVs.set
  unfold KVs.keys at *
  rw [List.map_cons, List.nodup_cons]
  refine ⟨?_, hf⟩
  intro hmem
  rw [List.mem_map] at hmem
  obtain ⟨p, hp, hk⟩ := hmem
  rw [List.mem_filter] at hp
  simp [hk] at hp

theorem KVs_keys_delete_nodup (kvs : KVs) (k : String) (h : kvs.keys.Nodup) :
    (kvs.delete k).keys.Nodup :=
  KVs_keys_filter_nodup kvs _ h

/-- With distinct keys, lookup is membership. -/
theorem KVs_get_eq_some_iff (kvs : KVs) (h : kvs.keys.Nodup) (k : String) (v : entry) :
    kvs.get k = some v ↔ (k, v) ∈ kvs := by
  induction kvs with
  | nil => simp [KVs_get_nil]
  | cons p rest ih =>
    have hn : ¬ p.1 ∈ KVs.keys rest ∧ (KVs.keys rest).Nodup := by
      unfold KVs.keys at *
      simpa [List.nodup_cons] using h
    rw [KVs_get_cons, List.mem_cons]
    by_cases hp : p.1 = k
    · simp only [hp, if_true]
      constructor
      · intro hv
        left
        cases p
        simp at hv hp
        simp [hp, hv]
      · intro hv
        rcases hv with hv | hv
        · cases p
          simp at hv
          simp [hv.2]
        · exfalso
          apply hn.1
          unfold KVs.keys
          rw [List.mem_map]
          exact ⟨(k, v), hv, hp.symm⟩
    · simp only [hp, if_false]
      rw [ih hn.2]
      constructor
      · intro hv; right; exact hv
      · intro hv
        rcases hv with hv | hv
        · exfalso; apply hp; rw [← hv]
        · exact hv

theorem KVs_get_perm (l1 l2 : KVs) (hp : l1.Perm l2) (h : l1.keys.Nodup) (k : String) :
    l1.get k = l2.get k := by
  have h2 : l2.keys.Nodup := by
    unfold KVs.keys at *
    exact (List.Perm.nodup_iff (List.Perm.map _ hp)).1 h
  cases hg : l2.get k with
  | none =>
    cases hg1 : l1.get k with
    | none => rfl
    | some v =>
      have := (KVs_get_eq_some_iff l1 h k v).1 hg1
      have := (KVs_get_eq_some_iff l2 h2 k v).2 (hp.mem_iff.1 this)
      rw [hg] at this
      cases this
  | some v =>
    have := (KVs_get_eq_some_iff l2 h2 k v).1 hg
    exact (KVs_get_eq_some_iff l1 h k v).2 (hp.mem_iff.2 this)

theorem KVs_get_eq_none_of_not_mem (kvs : KVs) (k : String) (h : k ∉ kvs.keys) :
    kvs.get k = none := by
  induction kvs with
  | nil => rfl
  | cons p rest ih =>
    unfold KVs.keys at h
    rw [List.map_cons, List.mem_cons, not_or] at h
    rw [KVs_get_cons]
    have : ¬ p.1 = k := fun e => h.1 e.symm
    simp only [this, if_false]
    exact ih h.2

theorem KVs_setAll_nil (o : KVs) : KVs.setAll [] o = o := rfl

theorem KVs_setAll_cons (p : String × entry) (l o : KVs) :
    KVs.setAll (p :: l) o = KVs.setAll l (o.set p.1 p.2) := rfl

theorem KVs_setAll_keys_nodup (l o : KVs) (h : o.keys.Nodup) : (KVs.setAll l o).keys.Nodup := by
  induction l generalizing o with
  | nil => exact h
  | cons p rest ih =>
    rw [KVs_setAll_cons]
    exact ih _ (KVs_keys_set_nodup o p.1 p.2 h)

theorem KVs_get_setAll (l o : KVs) (h : l.keys.Nodup) (k : String) :
    (KVs.setAll l o).get k = (l.get k).orElse (fun _ => o.get k) := by
  induction l generalizing o with
  | nil => rfl
  | cons p rest ih =>
    have hn : ¬ p.1 ∈ KVs.keys rest ∧ (KVs.keys rest).Nodup := by
      unfold KVs.keys at *
      simpa [List.nodup_cons] using h
    rw [KVs_setAll_cons, ih _ hn.2, KVs_get_set, KVs_get_cons]
    by_cases hp : p.1 = k
    · subst hp
      have hnone : KVs.get rest p.1 = none :=
        KVs_get_eq_none_of_not_mem rest p.1 hn.1
      simp [hnone]
    · have hk : ¬ k = p.1 := fun e => hp e.symm
      simp [hp, hk]

theorem Snapshot_clone_eq_setAll (l o : KVs) : Snapshot.clone l o = KVs.setAll l o := by
  induction l generalizing o with
  | nil => rfl
  | cons p rest ih =>
    obtain ⟨k, v⟩ := p
    rw [KVs_setAll_cons]
    simp only [Snapshot.clone]
    exact ih _

theorem decodeMapField_foldl_marshal (l : KVs) (acc : KVs) :
    (l.map (fun p => (p.1, marshalEntry p.2))).foldl decodeMapField (acc, false)
      = (KVs.setAll l acc, false) := by
  induction l generalizing acc with
  | nil => rfl
  | cons p rest ih =>
    rw [List.map_cons, List.foldl_cons, KVs_setAll_cons]
    have : decodeMapField (acc, false) (p.1, marshalEntry p.2) = (acc.set p.1 p.2, false) := by
      simp only [decodeMapField, decodeEntry_marshal, Bool.false_or]
    rw [this]
    exact ih _

theorem sortByKey_perm (kvs : KVs) : (sortByKey kvs).Perm kvs :=
  List.perm_insertionSort _ kvs

/-- Decoding what `json.Marshal` wrote for a map with distinct keys gives a map
with the same content. -/
theorem decodeMap_marshalMap (kvs : KVs) (h : kvs.keys.Nodup) :
    ∃ kvs2, decodeMapPayload (.doc (marshalMap (.mk kvs))) (.mk []) = (.mk kvs2, none) ∧
      kvs2.keys.Nodup ∧ ∀ k, kvs2.get k = kvs.get k := by
  refine ⟨KVs.setAll (sortByKey kvs) [], ?_, ?_, ?_⟩
  · have hd : decodeMap (.mk []) (marshalMap (.mk kvs))
        = (.mk (KVs.setAll (sortByKey kvs) []), false) := by
      simp only [marshalMap, decodeMap, GoMap.range, decodeMapField_foldl_marshal]
    simp only [decodeMapPayload, hd]
    rfl
  · exact KVs_setAll_keys_nodup _ _ List.nodup_nil
  · intro k
    have hs : (sortByKey kvs).keys.Nodup := by
      unfold KVs.keys at *
      exact (List.Perm.nodup_iff (List.Perm.map _ (sortByKey_perm kvs))).2 h
    rw [KVs_get_setAll _ _ hs, KVs_get_perm _ _ (sortByKey_perm kvs) hs]
    cases KVs.get kvs k <;> rfl

/-! ### Replay -/

theorem replay_nil (ds : DistributedStore) : replay ds [] = (.ok (), ds) := rfl

theorem replay_append (ds : DistributedStore) (l1 l2 : List Log) :
    replay ds (l1 ++ l2) = l2.foldl replayStep (replay ds l1) := by
  unfold replay
  rw [List.foldl_append]

/-- Apply never panics on a store whose map is not nil, and keeps it so. -/
theorem Apply_mk (ds : DistributedStore) (kvs : KVs) (hm : ds.m = .mk kvs) (l : Log) :
    ∃ kvs2, ds.Apply l = (.ok (), { ds with m := .mk kvs2 }) ∧
      (kvs.keys.Nodup → kvs2.keys.Nodup) := by
  unfold DistributedStore.Apply
  simp only []
  split
  · refine ⟨kvs.set (unmarshalCommand l.Data command.zero).1.Key
      (unmarshalCommand l.Data command.zero).1.Value, ?_, fun h => KVs_keys_set_nodup _ _ _ h⟩
    simp [DistributedStore.applySet, hm, GoMap.set]
  · split
    · refine ⟨kvs.delete (unmarshalCommand l.Data command.zero).1.Key, ?_,
        fun h => KVs_keys_delete_nodup _ _ h⟩
      simp [DistributedStore.applyDelete, hm, GoMap.delete]
    · refine ⟨kvs, ?_, fun h => h⟩
      rw [← hm]

theorem replay_mk (logs : List Log) (ds : DistributedStore) (kvs : KVs) (hm : ds.m = .mk kvs)
    (hn : kvs.keys.Nodup) :
    ∃ kvs2, replay ds logs = (.ok (), { ds with m := .mk kvs2 }) ∧ kvs2.keys.Nodup := by
  induction logs generalizing ds kvs with
  | nil => exact ⟨kvs, by rw [replay_nil, ← hm], hn⟩
  | cons l rest ih =>
    obtain ⟨kvs1, h1, h1n⟩ := Apply_mk ds kvs hm l
    obtain ⟨kvs2, h2, h2n⟩ := ih { ds with m := .mk kvs1 } kvs1 rfl (h1n hn)
    refine ⟨kvs2, ?_, h2n⟩
    unfold replay at *
    rw [List.foldl_cons]
    show List.foldl replayStep (ds.Apply l) rest = _
    rw [h1, h2]

theorem unmarshalCommand_toLog (c : command) :
    unmarshalCommand (command.toLog c).Data command.zero = (c, none) := by
  simp [command.toLog, unmarshalCommand, decodeCommand_marshal]

theorem Apply_toLog_set (ds : DistributedStore) (kvs : KVs) (hm : ds.m = .mk kvs) (c : command)
    (hc : c.Op = "set") :
    ds.Apply c.toLog = (.ok (), { ds with m := .mk (kvs.set c.Key c.Value) }) := by
  simp [DistributedStore.Apply, unmarshalCommand_toLog, hc, DistributedStore.applySet, hm,
    GoMap.set]

theorem Apply_toLog_delete (ds : DistributedStore) (kvs : KVs) (hm : ds.m = .mk kvs) (c : command)
    (hc : c.Op = "delete") :
    ds.Apply c.toLog = (.ok (), { ds with m := .mk (kvs.delete c.Key) }) := by
  simp [DistributedStore.Apply, unmarshalCommand_toLog, hc, DistributedStore.applyDelete, hm,
    GoMap.delete]

theorem lastSet_concat_iff (cmds : List command) (c : command) (k : String) (v : entry) :
    LastSet (cmds ++ [c]) k v ↔
      (c.Op = "set" ∧ c.Key = k ∧ c.Value = v) ∨ (c.Key ≠ k ∧ LastSet cmds k v) := by
  constructor
  · rintro ⟨pre, c2, post, heq, hop, hkey, hval, hpost⟩
    rcases List.eq_nil_or_concat post with hnil | ⟨L, b, hL⟩
    · subst hnil
      have := List.append_inj' heq rfl
      have hc : c = c2 := by simpa using this.2
      subst hc
      exact Or.inl ⟨hop, hkey, hval⟩
    · subst hL
      have heq2 : cmds ++ [c] = (pre ++ c2 :: L) ++ [b] := by simpa using heq
      have := List.append_inj' heq2 rfl
      have hb : c = b := by simpa using this.2
      subst hb
      refine Or.inr ⟨hpost c (by simp), pre, c2, L, this.1, hop, hkey, hval, ?_⟩
      intro d hd
      exact hpost d (by simp [hd])
  · rintro (⟨hop, hkey, hval⟩ | ⟨hne, pre, c2, post, heq, hop, hkey, hval, hpost⟩)
    · exact ⟨cmds, c, [], rfl, hop, hkey, hval, by simp⟩
    · refine ⟨pre, c2, post ++ [c], by simp [heq], hop, hkey, hval, ?_⟩
      intro d hd
      rcases List.mem_append.1 hd with h | h
      · exact hpost d h
      · have : d = c := by simpa using h
        rw [this]; exact hne

theorem replay_commands (ds0 : DistributedStore) (hm : ds0.m = .mk [])
    (cmds : List command) (hwf : ∀ c ∈ cmds, c.Op = "set" ∨ c.Op = "delete") :
    ∃ kvs, replay ds0 (cmds.map command.toLog) = (.ok (), { ds0 with m := .mk kvs }) ∧
      ∀ k v, kvs.get k = some v ↔ LastSet cmds k v := by
  induction cmds using List.reverseRecOn with
  | nil =>
    refine ⟨[], by rw [List.map_nil, replay_nil, ← hm], ?_⟩
    intro k v
    constructor
    · intro h; cases h
    · rintro ⟨pre, c, post, heq, _⟩
      simp at heq
  | append_singleton init c ih =>
    obtain ⟨kvs, hrun, hget⟩ := ih (fun d hd => hwf d (by simp [hd]))
    have hstep : replay ds0 ((init ++ [c]).map command.toLog)
        = DistributedStore.Apply { ds0 with m := .mk kvs } c.toLog := by
      rw [List.map_append, replay_append, hrun]
      rfl
    rcases hwf c (by simp) with hc | hc
    · refine ⟨kvs.set c.Key c.Value, ?_, ?_⟩
      · rw [hstep, Apply_toLog_set _ kvs rfl c hc]
      · intro k v
        rw [KVs_get_set, lastSet_concat_iff, ← hget]
        by_cases hk : k = c.Key
        · subst hk
          simp [hc]
        · have hk2 : ¬ c.Key = k := fun e => hk e.symm
          simp [hk, hk2]
    · refine ⟨kvs.delete c.Key, ?_, ?_⟩
      · rw [hstep, Apply_toLog_delete _ kvs rfl c hc]
      · intro k v
        rw [KVs_get_delete, lastSet_concat_iff, ← hget]
        have hns : ¬ c.Op = "set" := by rw [hc]; decide
        by_cases hk : k = c.Key
        · subst hk
          simp [hns]
        · have hk2 : ¬ c.Key = k := fun e => hk e.symm
          simp [hk, hk2, hns]

/-! ## C1 to C3: the replicated store -/

/-- C1 (snapshot and restore round-trip).  Take any sequence of log entries
(in particular any sequence of marshalled `set` / `delete` commands) applied
to an empty store, take `Snapshot`, write it with `Persist` to a sink that
accepts the write, and feed the bytes that were written to `Restore` on any
store: `Restore` succeeds and that store then holds a map with, under every
key, exactly the entry the snapshotted store holds under it. -/
theorem snapshot_restore_roundtrip (localID : String) (raftPort : Int) (raftDir : String)
    (logs : List Log) (other : DistributedStore) (sink : SnapshotSink)
    (hw : sink.writeErr = none) :
    ∃ src snap bytes restored,
      replay (NewDistributedStore localID raftPort raftDir) logs = (.ok (), src) ∧
      src.Snapshot = .ok snap ∧
      (snap.Persist sink).2.written = sink.written ++ [bytes] ∧
      other.Restore bytes = (.ok (), restored) ∧
      restored = { other with m := restored.m } ∧
      restored.m ≠ .nil ∧ restored.m.WF ∧
      ∀ k, restored.m.get k = src.m.get k := by
  obtain ⟨kvs, hrun, hn⟩ :=
    replay_mk logs (NewDistributedStore localID raftPort raftDir) [] rfl List.nodup_nil
  have hclone : (Snapshot.clone kvs []).keys.Nodup := by
    rw [Snapshot_clone_eq_setAll]
    exact KVs_setAll_keys_nodup _ _ List.nodup_nil
  obtain ⟨kvs2, hdec, hn2, hget⟩ := decodeMap_marshalMap (Snapshot.clone kvs []) hclone
  refine ⟨_, ⟨.mk (Snapshot.clone kvs [])⟩, .doc (marshalMap (.mk (Snapshot.clone kvs []))),
    { other with m := .mk kvs2 }, hrun, rfl, ?_, ?_, rfl, ?_, hn2, ?_⟩
  · simp only [fsmSnapshot.Persist, SnapshotSink.Write, hw, SnapshotSink.Close]
    cases sink.closeErr <;> rfl
  · simp only [DistributedStore.Restore, hdec]
  · intro h; cases h
  · intro k
    show kvs2.get k = kvs.get k
    rw [hget, Snapshot_clone_eq_setAll, KVs_get_setAll _ _ hn]
    cases KVs.get kvs k <;> rfl

/-- Witness for C1: one `set` command, an empty target store and a sink that
accepts the write. -/
theorem snapshot_restore_roundtrip_witness :
    (SnapshotSink.mk [] false false none none none).writeErr = none ∧
    ∃ src snap bytes restored,
      replay (NewDistributedStore "n1" 7000 "dir")
        [command.toLog ⟨"set", "kitchen", ⟨⟨"kitchen", "Kitchen"⟩, ZoneConfig.zero⟩⟩]
        = (.ok (), src) ∧
      src.Snapshot = .ok snap ∧
      (snap.Persist (SnapshotSink.mk [] false false none none none)).2.written
        = (SnapshotSink.mk [] false false none none none).written ++ [bytes] ∧
      (NewDistributedStore "n2" 7001 "dir2").Restore bytes = (.ok (), restored) ∧
      restored = { NewDistributedStore "n2" 7001 "dir2" with m := restored.m } ∧
      restored.m ≠ .nil ∧ restored.m.WF ∧
      ∀ k, restored.m.get k = src.m.get k :=
  ⟨rfl, snapshot_restore_roundtrip "n1" 7000 "dir" _ _ _ rfl⟩

/-- C2 (deterministic replay).  For every finite sequence of commands whose
operation is `set` or `delete`, applying their log entries in order with
`Apply` to an empty store never fails and yields a map fixed by the sequence
alone: a key `k` holds `v` exactly when some `set` of `v` under `k` is followed
by no later command on `k` (so `k` is absent when its last command is a
`delete`, or when there is none). -/
theorem apply_sequence_determines_map (localID : String) (raftPort : Int) (raftDir : String)
    (cmds : List command) (hwf : ∀ c ∈ cmds, c.Op = "set" ∨ c.Op = "delete") :
    ∃ ds, replay (NewDistributedStore localID raftPort raftDir) (cmds.map command.toLog)
        = (.ok (), ds) ∧
      ∀ k v, ds.m.get k = some v ↔
        ∃ pre c post, cmds = pre ++ c :: post ∧ c.Op = "set" ∧ c.Key = k ∧ c.Value = v ∧
          ∀ d ∈ post, d.Key ≠ k := by
  obtain ⟨kvs, hrun, hget⟩ :=
    replay_commands (NewDistributedStore localID raftPort raftDir) rfl cmds hwf
  exact ⟨_, hrun, hget⟩

/-- Witness for C2: a `set`, a `delete` of the same key and a `set` of another. -/
theorem apply_sequence_determines_map_witness :
    (∀ c ∈ [command.mk "set" "a" entry.zero, command.mk "delete" "a" entry.zero,
        command.mk "set" "b" entry.zero], c.Op = "set" ∨ c.Op = "delete") ∧
    ∃ ds, replay (NewDistributedStore "n1" 7000 "dir")
        ([command.mk "set" "a" entry.zero, command.mk "delete" "a" entry.zero,
          command.mk "set" "b" entry.zero].map command.toLog) = (.ok (), ds) ∧
      ∀ k v, ds.m.get k = some v ↔
        ∃ pre c post, [command.mk "set" "a" entry.zero, command.mk "delete" "a" entry.zero,
            command.mk "set" "b" entry.zero] = pre ++ c :: post ∧
          c.Op = "set" ∧ c.Key = k ∧ c.Value = v ∧ ∀ d ∈ post, d.Key ≠ k :=
  ⟨by decide, apply_sequence_determines_map "n1" 7000 "dir" _ (by decide)⟩

/-- C3 (writes are leader-only).  On a store whose consensus participant is not
in the Leader state, `SaveSpeakerConfig`, `SaveZoneConfig` and
`DeleteZoneConfig` each return the error `not leader` and leave the whole
store as it was: nothing is handed to the consensus log and the map is
unchanged. -/
theorem writes_fail_when_not_leader (ds : DistributedStore) (r : Raft)
    (hr : ds.raft = some r) (hs : r.state ≠ .Leader)
    (sc : SpeakerConfig) (zc : ZoneConfig) (zoneID : String) :
    ds.SaveSpeakerConfig sc = (.err "not leader", ds) ∧
    ds.SaveZoneConfig zc = (.err "not leader", ds) ∧
    ds.DeleteZoneConfig zoneID = (.err "not leader", ds) ∧
    (∀ w ∈ [ds.SaveSpeakerConfig sc, ds.SaveZoneConfig zc, ds.DeleteZoneConfig zoneID],
      w.2.m = ds.m ∧ ∃ r2, w.2.raft = some r2 ∧ r2.log = r.log) := by
  have h1 : ds.SaveSpeakerConfig sc = (.err "not leader", ds) := by
    simp [DistributedStore.SaveSpeakerConfig, hr, hs]
  have h2 : ds.SaveZoneConfig zc = (.err "not leader", ds) := by
    simp [DistributedStore.SaveZoneConfig, hr, hs]
  have h3 : ds.DeleteZoneConfig zoneID = (.err "not leader", ds) := by
    simp [DistributedStore.DeleteZoneConfig, hr, hs]
  refine ⟨h1, h2, h3, ?_⟩
  intro w hw
  rw [h1, h2, h3] at hw
  have : w = (.err "not leader", ds) := by simpa using hw
  subst this
  exact ⟨rfl, r, hr, rfl⟩

/-- Witness for C3: a follower with an empty map. -/
theorem writes_fail_when_not_leader_witness :
    (some (Raft.mk .Follower "" [] none [] (fun _ => true) [] (fun _ => false))
        = some (Raft.mk .Follower "" [] none [] (fun _ => true) [] (fun _ => false))) ∧
    RaftState.Follower ≠ RaftState.Leader ∧
    (DistributedStore.mk 7000 "dir" "n1" (.mk [])
        (some (Raft.mk .Follower "" [] none [] (fun _ => true) [] (fun _ => false)))).SaveZoneConfig
      ⟨"z", "Zone", "a", some ["a"]⟩
      = (.err "not leader", DistributedStore.mk 7000 "dir" "n1" (.mk [])
          (some (Raft.mk .Follower "" [] none [] (fun _ => true) [] (fun _ => false)))) :=
  ⟨rfl, by decide,
    (writes_fail_when_not_leader
      (DistributedStore.mk 7000 "dir" "n1" (.mk [])
        (some (Raft.mk .Follower "" [] none [] (fun _ => true) [] (fun _ => false))))
      (Raft.mk .Follower "" [] none [] (fun _ => true) [] (fun _ => false)) rfl (by decide)
      ⟨"s", "S"⟩ ⟨"z", "Zone", "a", some ["a"]⟩ "z").2.1⟩

/-! ## C4: Join -/

theorem checkConfiguration_scan_none (l : List Server) (ids addrs : List String) (n : Nat)
    (h : checkConfiguration.scan l ids addrs n = none) :
    (l.map Server.ID).Nodup ∧ (l.map Server.Address).Nodup ∧
      (∀ s ∈ l, s.ID ∉ ids) ∧ (∀ s ∈ l, s.Address ∉ addrs) := by
  induction l generalizing ids addrs n with
  | nil => simp
  | cons s rest ih =>
    unfold checkConfiguration.scan at h
    split at h
    · cases h
    · split at h
      · cases h
      · split at h
        · cases h
        · split at h
          · cases h
          · rename_i _ _ hid haddr
            obtain ⟨h1, h2, h3, h4⟩ := ih _ _ _ h
            refine ⟨?_, ?_, ?_, ?_⟩
            · rw [List.map_cons, List.nodup_cons]
              refine ⟨?_, h1⟩
              intro hm
              rw [List.mem_map] at hm
              obtain ⟨t, ht, hte⟩ := hm
              exact h3 t ht (by rw [hte]; exact List.mem_cons_self _ _)
            · rw [List.map_cons, List.nodup_cons]
              refine ⟨?_, h2⟩
              intro hm
              rw [List.mem_map] at hm
              obtain ⟨t, ht, hte⟩ := hm
              exact h4 t ht (by rw [hte]; exact List.mem_cons_self _ _)
            · intro t ht
              rcases List.mem_cons.1 ht with e | e
              · rw [e]; exact hid
              · exact fun hmem => h3 t e (List.mem_cons_of_mem _ hmem)
            · intro t ht
              rcases List.mem_cons.1 ht with e | e
              · rw [e]; exact haddr
              · exact fun hmem => h4 t e (List.mem_cons_of_mem _ hmem)

/-- A configuration that passes the sanity check has distinct IDs and distinct
addresses. -/
theorem checkConfiguration_none (l : List Server) (h : checkConfiguration l = none) :
    (l.map Server.ID).Nodup ∧ (l.map Server.Address).Nodup :=
  let r := checkConfiguration_scan_none l [] [] 0 h
  ⟨r.1, r.2.1⟩

theorem addVoterTo_mem (id address : String) (l : List Server) :
    ∃ s ∈ addVoterTo id address l, s.ID = id ∧ s.Address = address := by
  induction l with
  | nil => exact ⟨_, List.mem_singleton.2 rfl, rfl, rfl⟩
  | cons s rest ih =>
    unfold addVoterTo
    by_cases h : s.ID = id
    · simp only [h, if_true]
      by_cases hv : s.Suffrage = .Voter
      · simp only [hv, if_true]
        exact ⟨_, List.mem_cons_self _ _, rfl, rfl⟩
      · simp only [hv, if_false]
        exact ⟨_, List.mem_cons_self _ _, rfl, rfl⟩
    · simp only [h, if_false]
      obtain ⟨t, ht, h1, h2⟩ := ih
      exact ⟨t, List.mem_cons_of_mem _ ht, h1, h2⟩

/-- When every server that shares the ID or the address is the joining pair
itself, and the pair is configured, the loop of Join stops at it and requests
nothing. -/
theorem Join_scan_already (nodeID nodeAddress : String) (l : List Server) (r : Raft)
    (hall : ∀ s ∈ l, (s.ID = nodeID ∨ s.Address = nodeAddress) →
      (s.Address = nodeAddress ∧ s.ID = nodeID))
    (hex : ∃ s ∈ l, s.ID = nodeID ∧ s.Address = nodeAddress) :
    Join.scan nodeID nodeAddress l r = (.ok true, r) := by
  induction l with
  | nil =>
    obtain ⟨s, hs, _⟩ := hex
    cases hs
  | cons s rest ih =>
    unfold Join.scan
    by_cases hc : s.ID = nodeID ∨ s.Address = nodeAddress
    · have hb := hall s (List.mem_cons_self _ _) hc
      rw [if_pos hc, if_pos hb]
    · simp only [hc, if_false]
      apply ih
      · intro t ht
        exact hall t (List.mem_cons_of_mem _ ht)
      · obtain ⟨t, ht, h1, h2⟩ := hex
        rcases List.mem_cons.1 ht with e | e
        · exact absurd (Or.inl (e ▸ h1)) hc
        · exact ⟨t, e, h1, h2⟩

theorem Join_scan_already_of_nodup (nodeID nodeAddress : String) (r : Raft)
    (hid : (r.servers.map Server.ID).Nodup) (haddr : (r.servers.map Server.Address).Nodup)
    (hex : ∃ s ∈ r.servers, s.ID = nodeID ∧ s.Address = nodeAddress) :
    Join.scan nodeID nodeAddress r.servers r = (.ok true, r) := by
  apply Join_scan_already _ _ _ _ _ hex
  obtain ⟨s0, hs0, h1, h2⟩ := hex
  intro s hs hc
  have : s = s0 := by
    rcases hc with e | e
    · exact List.inj_on_of_nodup_map hid hs hs0 (e.trans h1.symm)
    · exact List.inj_on_of_nodup_map haddr hs hs0 (e.trans h2.symm)
  rw [this]
  exact ⟨h2, h1⟩

/-- A configuration change leaves everything but the servers and the list of
requests as it was. -/
theorem Raft_change_frame (r : Raft) (op : RaftOp) :
    (r.change op).2.state = r.state ∧
    (r.change op).2.getConfigurationErr = r.getConfigurationErr := by
  unfold Raft.change
  simp only []
  split
  · exact ⟨rfl, rfl⟩
  · split
    · exact ⟨rfl, rfl⟩
    · split <;> exact ⟨rfl, rfl⟩

theorem Join_scan_frame (nodeID nodeAddress : String) (l : List Server) (r : Raft) :
    (Join.scan nodeID nodeAddress l r).2.state = r.state ∧
    (Join.scan nodeID nodeAddress l r).2.getConfigurationErr = r.getConfigurationErr := by
  induction l generalizing r with
  | nil => exact ⟨rfl, rfl⟩
  | cons s rest ih =>
    unfold Join.scan
    split
    · split
      · exact ⟨rfl, rfl⟩
      · have hf := Raft_change_frame r (.RemoveServer s.ID)
        split
        · rename_i e r1 heq
          have : (r.RemoveServer s.ID).2 = r1 := by rw [heq]
          unfold Raft.RemoveServer at this
          rw [← this]
          exact hf
        · rename_i r1 heq
          have : (r.RemoveServer s.ID).2 = r1 := by rw [heq]
          unfold Raft.RemoveServer at this
          have h2 := ih r1
          rw [← this] at h2 ⊢
          exact ⟨h2.1.trans hf.1, h2.2.trans hf.2⟩
    · exact ih r

/-- If the loop of Join stops because the pair is configured, the pair is among
the servers it scanned. -/
theorem Join_scan_true_mem (nodeID nodeAddress : String) (l : List Server) (r r1 : Raft)
    (h : Join.scan nodeID nodeAddress l r = (.ok true, r1)) :
    ∃ s ∈ l, s.ID = nodeID ∧ s.Address = nodeAddress := by
  induction l generalizing r with
  | nil =>
    unfold Join.scan at h
    cases h
  | cons s rest ih =>
    unfold Join.scan at h
    split at h
    · split at h
      · rename_i hb
        exact ⟨s, List.mem_cons_self _ _, hb.2, hb.1⟩
      · split at h
        · cases h
        · obtain ⟨t, ht, h1⟩ := ih _ h
          exact ⟨t, List.mem_cons_of_mem _ ht, h1⟩
    · obtain ⟨t, ht, h1⟩ := ih _ h
      exact ⟨t, List.mem_cons_of_mem _ ht, h1⟩

theorem nextConfiguration_addVoter_ok (cur next : List Server) (id address : String)
    (h : nextConfiguration cur (.AddVoter id address) = .ok next) :
    checkConfiguration next = none ∧ next = addVoterTo id address cur := by
  unfold nextConfiguration at h
  simp only [] at h
  split at h
  · cases h
  · rename_i hchk
    cases h
    exact ⟨hchk, rfl⟩

/-- A successful AddVoter leaves a configuration with distinct IDs and addresses
that contains the pair. -/
theorem Raft_AddVoter_ok (r : Raft) (id address : String)
    (h : (r.AddVoter id address).1 = none) :
    ((r.AddVoter id address).2.servers.map Server.ID).Nodup ∧
    ((r.AddVoter id address).2.servers.map Server.Address).Nodup ∧
    ∃ s ∈ (r.AddVoter id address).2.servers, s.ID = id ∧ s.Address = address := by
  unfold Raft.AddVoter Raft.change at h ⊢
  by_cases hl : r.state ≠ .Leader
  · simp [hl] at h
  · by_cases hf : r.changeFails r.requests.length = true
    · simp [hl, hf] at h
    · cases hn : nextConfiguration r.servers (.AddVoter id address) with
      | error e => simp [hl, hf, hn] at h
      | ok next =>
        obtain ⟨hchk, hnext⟩ := nextConfiguration_addVoter_ok _ _ _ _ hn
        simp only [hl, hf, hn, if_false]
        refine ⟨(checkConfiguration_none _ hchk).1, (checkConfiguration_none _ hchk).2, ?_⟩
        show ∃ s ∈ next, s.ID = id ∧ s.Address = address
        rw [hnext]
        exact addVoterTo_mem id address r.servers


/-- C4, as stated, fails.  On a bootstrapped single-node leader the node joins
again under a new address: Join asks to remove the server with that ID, the
consensus library refuses to remove the last voter, Join returns the error and
the configuration is unchanged; the second Join does the same and so issues
RemoveServer again.  And when the AddVoter of a first Join fails for a reason
of the run and that of the second does not, two Joins leave another
configuration than one. -/
theorem join_second_call_reissues_remove :
    ((singleVoter.servers.map Server.ID).Nodup ∧
      (singleVoter.servers.map Server.Address).Nodup) ∧
    (singleVoter.Join "mgmt-1" "10.0.0.9:7000").1
      = .err ("error removing existing node mgmt-1 at 10.0.0.9:7000: " ++
          "need at least one voter in configuration") ∧
    (singleVoter.Join "mgmt-1" "10.0.0.9:7000").2.requests = [.RemoveServer "mgmt-1"] ∧
    (singleVoter.Join "mgmt-1" "10.0.0.9:7000").2.servers = singleVoter.servers ∧
    ((singleVoter.Join "mgmt-1" "10.0.0.9:7000").2.Join "mgmt-1" "10.0.0.9:7000").2.requests
      = [.RemoveServer "mgmt-1", .RemoveServer "mgmt-1"] ∧
    (flakyLeader.Join "mgmt-2" "10.0.0.2:7000").1 = .err "leadership lost while committing log" ∧
    (flakyLeader.Join "mgmt-2" "10.0.0.2:7000").2.servers = [⟨.Voter, "mgmt-1", "10.0.0.1:7000"⟩] ∧
    ((flakyLeader.Join "mgmt-2" "10.0.0.2:7000").2.Join "mgmt-2" "10.0.0.2:7000").2.servers
      = [⟨.Voter, "mgmt-1", "10.0.0.1:7000"⟩, ⟨.Voter, "mgmt-2", "10.0.0.2:7000"⟩] ∧
    ((flakyLeader.Join "mgmt-2" "10.0.0.2:7000").2.Join "mgmt-2" "10.0.0.2:7000").2.requests
      = [.AddVoter "mgmt-2" "10.0.0.2:7000", .AddVoter "mgmt-2" "10.0.0.2:7000"] := by
  decide

theorem Join_of_already (ds : DistributedStore) (r : Raft) (nodeID nodeAddress : String)
    (hr : ds.raft = some r) (hl : ¬ r.state ≠ .Leader) (hcfg : r.getConfigurationErr = none)
    (hscan : Join.scan nodeID nodeAddress r.servers r = (.ok true, r)) :
    ds.Join nodeID nodeAddress = (.ok (), ds) := by
  obtain ⟨p, d, i, m, rf⟩ := ds
  simp only at hr
  subst hr
  unfold DistributedStore.Join
  simp only []
  rw [if_neg hl, hcfg]
  simp only []
  rw [hscan]

/-- C4, amended.  For every store whose configuration has distinct server IDs
and distinct addresses and every (nodeID, nodeAddress): when Join returns
without error, a second Join with the same arguments returns without error and
leaves the store exactly as the first left it, so the server configuration is
that after one Join and the second call requests neither RemoveServer nor
AddVoter.  (On a node that is not the leader both calls do nothing.) -/
theorem join_twice_after_success (ds ds1 : DistributedStore) (r : Raft)
    (hr : ds.raft = some r)
    (hid : (r.servers.map Server.ID).Nodup) (haddr : (r.servers.map Server.Address).Nodup)
    (nodeID nodeAddress : String)
    (h1 : ds.Join nodeID nodeAddress = (.ok (), ds1)) :
    ds1.Join nodeID nodeAddress = (.ok (), ds1) ∧
    ds1.servers = (ds.Join nodeID nodeAddress).2.servers ∧
    (ds1.Join nodeID nodeAddress).2.requests = ds1.requests := by
  have key : ds1.Join nodeID nodeAddress = (.ok (), ds1) := by
    unfold DistributedStore.Join at h1
    rw [hr] at h1
    simp only [] at h1
    by_cases hs : r.state ≠ .Leader
    · rw [if_pos hs] at h1
      have : ds1 = ds := by cases h1; rfl
      subst this
      unfold DistributedStore.Join
      rw [hr]
      simp only []
      rw [if_pos hs]
    · rw [if_neg hs] at h1
      cases hcfg : r.getConfigurationErr with
      | some e => rw [hcfg] at h1; simp at h1
      | none =>
        rw [hcfg] at h1
        simp only [] at h1
        have hframe := Join_scan_frame nodeID nodeAddress r.servers r
        cases hscan : Join.scan nodeID nodeAddress r.servers r with
        | mk res r1 =>
          rw [hscan] at h1 hframe
          cases res with
          | err e => simp at h1
          | panic => simp at h1
          | fatal => simp at h1
          | ok b =>
            cases b with
            | true =>
              have hmem := Join_scan_true_mem nodeID nodeAddress r.servers r r1 hscan
              have hfix := Join_scan_already_of_nodup nodeID nodeAddress r hid haddr hmem
              rw [hscan] at hfix
              have hr1 : r1 = r := by cases hfix; rfl
              subst hr1
              have hds1 : ds1 = { ds with raft := some r1 } := by
                simp at h1; exact h1.symm
              subst hds1
              exact Join_of_already _ r1 nodeID nodeAddress rfl hs hcfg hscan
            | false =>
              simp only [] at h1
              have hf1 : (r1.AddVoter nodeID nodeAddress).1 = none := by
                cases hv : (r1.AddVoter nodeID nodeAddress).1 with
                | none => rfl
                | some e => rw [hv] at h1; simp [Res.ofError] at h1
              have hds1 : ds1 = { ds with raft := some (r1.AddVoter nodeID nodeAddress).2 } := by
                rw [hf1] at h1
                simp [Res.ofError] at h1
                exact h1.symm
              obtain ⟨hid2, haddr2, hmem2⟩ := Raft_AddVoter_ok r1 nodeID nodeAddress hf1
              have hch := Raft_change_frame r1 (.AddVoter nodeID nodeAddress)
              have hst : (r1.AddVoter nodeID nodeAddress).2.state = r.state :=
                hch.1.trans hframe.1
              have hge : (r1.AddVoter nodeID nodeAddress).2.getConfigurationErr = none :=
                (hch.2.trans hframe.2).trans hcfg
              have hfix := Join_scan_already_of_nodup nodeID nodeAddress
                (r1.AddVoter nodeID nodeAddress).2 hid2 haddr2 hmem2
              subst hds1
              exact Join_of_already _ _ nodeID nodeAddress rfl (by rw [hst]; exact hs) hge hfix
  refine ⟨key, ?_, ?_⟩
  · rw [h1]
  · rw [key]

/-- Witness for C4: on the leader of a two-node cluster the second node joins
under a new address; the first Join removes it and adds it back as a voter. -/
theorem join_twice_after_success_witness :
    (twoVoters.servers.map Server.ID).Nodup ∧ (twoVoters.servers.map Server.Address).Nodup ∧
    (twoVoters.Join "mgmt-2" "10.0.0.7:7000").1 = .ok () ∧
    (twoVoters.Join "mgmt-2" "10.0.0.7:7000").2.requests
      = [.RemoveServer "mgmt-2", .AddVoter "mgmt-2" "10.0.0.7:7000"] ∧
    (twoVoters.Join "mgmt-2" "10.0.0.7:7000").2.servers
      = [⟨.Voter, "mgmt-1", "10.0.0.1:7000"⟩, ⟨.Voter, "mgmt-2", "10.0.0.7:7000"⟩] ∧
    ((twoVoters.Join "mgmt-2" "10.0.0.7:7000").2.Join "mgmt-2" "10.0.0.7:7000").2.requests
      = (twoVoters.Join "mgmt-2" "10.0.0.7:7000").2.requests :=
  ⟨by decide, by decide, by decide, by decide, by decide,
    (join_twice_after_success twoVoters (twoVoters.Join "mgmt-2" "10.0.0.7:7000").2
      (Raft.example .Leader
        [⟨.Voter, "mgmt-1", "10.0.0.1:7000"⟩, ⟨.Voter, "mgmt-2", "10.0.0.2:7000"⟩])
      rfl (by decide) (by decide) "mgmt-2" "10.0.0.7:7000"
      (Prod.ext (by decide) rfl)).2.2⟩

/-! ## C5: FilterMembers -/

theorem FilterMembers_loop_eq (gob : GobDecoder) (r : NodeType) (l acc : List Node)
    (h : ∀ n ∈ l, (gob n.Meta).isSome = true) :
    FilterMembers.loop gob r l acc
      = .ok (acc ++ l.filter (fun n => decide ((gob n.Meta).map NodeMeta.NodeType = some r))) := by
  induction l generalizing acc with
  | nil => simp [FilterMembers.loop]
  | cons n rest ih =>
    have hn := h n (List.mem_cons_self _ _)
    have hrest : ∀ x ∈ rest, (gob x.Meta).isSome = true :=
      fun x hx => h x (List.mem_cons_of_mem _ hx)
    cases hg : gob n.Meta with
    | none => rw [hg] at hn; cases hn
    | some m =>
      unfold FilterMembers.loop
      simp only [DecodeNodeMeta, hg]
      by_cases ht : m.NodeType = r
      · rw [if_pos ht, ih _ hrest]
        simp [List.filter_cons, hg, ht]
      · rw [if_neg ht, ih _ hrest]
        simp [List.filter_cons, hg, ht]

/-- C5 (filter by role).  For every member list whose metadata all decode and
every role `r` (any integer), FilterMembers returns exactly the members whose
decoded NodeType is `r`: the result is the member list with the other members
struck out, so every match is kept once and in member order, nothing else is
returned, and the result is empty when no member has the role. -/
theorem filterMembers_exact (gob : GobDecoder) (r : NodeType) (list : Memberlist)
    (hdec : ∀ n ∈ list.Members, (gob n.Meta).isSome = true) :
    ∃ nodes, FilterMembers gob r list = .ok nodes ∧
      nodes = list.Members.filter
        (fun n => decide ((gob n.Meta).map NodeMeta.NodeType = some r)) ∧
      nodes.Sublist list.Members ∧
      (∀ n, n ∈ nodes ↔ n ∈ list.Members ∧ ∃ m, DecodeNodeMeta gob n.Meta = .ok m ∧
        m.NodeType = r) ∧
      (∀ n, nodes.count n = if (gob n.Meta).map NodeMeta.NodeType = some r
        then list.Members.count n else 0) ∧
      ((∀ n ∈ list.Members, ∀ m, DecodeNodeMeta gob n.Meta = .ok m → m.NodeType ≠ r) →
        nodes = []) := by
  refine ⟨_, ?_, rfl, List.filter_sublist _, ?_, ?_, ?_⟩
  · unfold FilterMembers
    rw [FilterMembers_loop_eq gob r _ _ hdec]
    simp
  · intro n
    rw [List.mem_filter]
    constructor
    · rintro ⟨hm, hp⟩
      refine ⟨hm, ?_⟩
      cases hg : gob n.Meta with
      | none => simp [hg] at hp
      | some m =>
        refine ⟨m, by simp [DecodeNodeMeta, hg], ?_⟩
        simpa [hg] using hp
    · rintro ⟨hm, m, hd, ht⟩
      refine ⟨hm, ?_⟩
      cases hg : gob n.Meta with
      | none => simp [DecodeNodeMeta, hg] at hd
      | some m2 =>
        simp [DecodeNodeMeta, hg] at hd
        subst hd
        simp [ht]
  · intro n
    by_cases hp : (gob n.Meta).map NodeMeta.NodeType = some r
    · rw [if_pos hp]
      exact List.count_filter (by simpa using hp)
    · rw [if_neg hp]
      apply List.count_eq_zero_of_not_mem
      rw [List.mem_filter]
      rintro ⟨_, hq⟩
      exact hp (by simpa using hq)
  · intro hnone
    rw [List.filter_eq_nil_iff]
    intro n hn hp
    cases hg : gob n.Meta with
    | none => simp [hg] at hp
    | some m =>
      have : m.NodeType = r := by simpa [hg] using hp
      exact hnone n hn m (by simp [DecodeNodeMeta, hg]) this

/-- Witness for C5: two Music members around a Mgmt member, filtered for Music. -/
theorem filterMembers_exact_witness :
    (∀ n ∈ (Memberlist.mk [musicNode "a" 1, mgmtNode "m" 1, musicNode "b" 2]).Members,
      (roleByteGob n.Meta).isSome = true) ∧
    FilterMembers roleByteGob Music ⟨[musicNode "a" 1, mgmtNode "m" 1, musicNode "b" 2]⟩
      = .ok [musicNode "a" 1, musicNode "b" 2] :=
  ⟨by decide,
    by
      obtain ⟨nodes, h1, h2, _⟩ := filterMembers_exact roleByteGob Music
        ⟨[musicNode "a" 1, mgmtNode "m" 1, musicNode "b" 2]⟩ (by decide)
      rw [h1, h2]
      decide⟩

/-! ## Operations of the service: basic facts -/

theorem Op_bind_ok {α β : Type} (x : Op α) (f : α → Op β) (w w1 : World) (a : α)
    (h : x w = (.ok a, w1)) : (x >>= f) w = f a w1 := by
  show Op.bind x f w = _
  unfold Op.bind
  rw [h]

theorem Op_bind_err {α β : Type} (x : Op α) (f : α → Op β) (w w1 : World) (e : String)
    (h : x w = (.err e, w1)) : (x >>= f) w = (.err e, w1) := by
  show Op.bind x f w = _
  unfold Op.bind
  rw [h]

theorem Op_pure_apply {α : Type} (a : α) (w : World) : (pure a : Op α) w = (.ok a, w) := rfl

theorem FilterMembersByFn_loop_eq (p : Node → Bool) (l acc : List Node) :
    FilterMembersByFn.loop (fun n => .ok (p n)) l acc = .ok (acc ++ l.filter p) := by
  induction l generalizing acc with
  | nil => simp [FilterMembersByFn.loop]
  | cons n rest ih =>
    unfold FilterMembersByFn.loop
    cases hp : p n
    · simp only [ih]
      simp [List.filter_cons, hp]
    · simp only [ih]
      simp [List.filter_cons, hp]

/-- With decodable metadata the filter of getSpeakerClient is a total test. -/
theorem speakerFilter_eq (gob : GobDecoder) (id : String) (members : List Node)
    (h : ∀ n ∈ members, (gob n.Meta).isSome = true) :
    ∀ l acc, (∀ n ∈ l, n ∈ members) →
      FilterMembersByFn.loop (speakerFilter gob id) l acc
        = .ok (acc ++ l.filter (fun n =>
            decide ((gob n.Meta).map NodeMeta.NodeType = some Music) && decide (id = n.Name))) := by
  intro l
  induction l with
  | nil => intro acc _; simp [FilterMembersByFn.loop]
  | cons n rest ih =>
    intro acc hsub
    have hn := h n (hsub n (List.mem_cons_self _ _))
    have hrest : ∀ x ∈ rest, x ∈ members := fun x hx => hsub x (List.mem_cons_of_mem _ hx)
    cases hg : gob n.Meta with
    | none => rw [hg] at hn; cases hn
    | some m =>
      unfold FilterMembersByFn.loop
      simp only [speakerFilter, DecodeNodeMeta, hg]
      by_cases hc : (decide (m.NodeType = Music) && decide (id = n.Name)) = true
      · rw [hc]
        simp only [ih _ hrest]
        have hq : (decide ((gob n.Meta).map NodeMeta.NodeType = some Music)
            && decide (id = n.Name)) = true := by
          rw [hg]; simpa using hc
        rw [List.filter_cons, if_pos hq, List.append_assoc]
        rfl
      · have hc2 : (decide (m.NodeType = Music) && decide (id = n.Name)) = false := by
          simpa using hc
        rw [hc2]
        simp only [ih _ hrest]
        have hq : ¬ (decide ((gob n.Meta).map NodeMeta.NodeType = some Music)
            && decide (id = n.Name)) = true := by
          rw [hg]; simpa using hc
        rw [List.filter_cons, if_neg hq]

/-- In a list with unique names, filtering for one name leaves that member. -/
theorem filter_name_singleton (l : List Node) (hnd : (l.map Node.Name).Nodup) (n : Node)
    (hn : n ∈ l) (p : Node → Bool) (hp : p n = true) :
    l.filter (fun x => p x && decide (n.Name = x.Name)) = [n] := by
  induction l with
  | nil => cases hn
  | cons x rest ih =>
    rw [List.map_cons, List.nodup_cons] at hnd
    rcases List.mem_cons.1 hn with e | e
    · subst e
      have hrest : rest.filter (fun x => p x && decide (n.Name = x.Name)) = [] := by
        rw [List.filter_eq_nil_iff]
        intro y hy hq
        apply hnd.1
        rw [List.mem_map]
        refine ⟨y, hy, ?_⟩
        simp at hq
        exact hq.2.symm
      simp [List.filter_cons, hp, hrest]
    · have hx : ¬ n.Name = x.Name := by
        intro hxe
        apply hnd.1
        rw [List.mem_map]
        exact ⟨n, e, hxe⟩
      simp only [List.filter_cons, hx, decide_False, Bool.and_false]
      exact ih hnd.2 e

theorem Env_isLiveSpeaker_iff (env : Env) (id : String) :
    env.isLiveSpeaker id = true ↔
      ∃ n ∈ env.nodes.Members, n.Name = id ∧ ∃ m, env.gob n.Meta = some m ∧ m.NodeType = Music := by
  unfold Env.isLiveSpeaker
  rw [List.any_eq_true]
  constructor
  · rintro ⟨n, hn, hp⟩
    simp only [Bool.and_eq_true, decide_eq_true_eq] at hp
    refine ⟨n, hn, hp.1, ?_⟩
    cases hg : env.gob n.Meta with
    | none => rw [hg] at hp; simp at hp
    | some m => rw [hg] at hp; exact ⟨m, rfl, by simpa using hp.2⟩
  · rintro ⟨n, hn, h1, m, hg, ht⟩
    refine ⟨n, hn, ?_⟩
    simp [h1, hg, ht]

theorem Env_addressOf_eq (env : Env) (hwf : env.WF) (n : Node) (hn : n ∈ env.nodes.Members)
    (m : NodeMeta) (hg : env.gob n.Meta = some m) :
    env.addressOf n.Name = hostPort n.Addr m.APIPort := by
  unfold Env.addressOf
  have hfind : env.nodes.Members.find? (fun x => x.Name = n.Name) = some n := by
    have hnd := hwf.2
    revert hn hnd
    generalize env.nodes.Members = l
    intro hn hnd
    induction l with
    | nil => cases hn
    | cons x rest ih =>
      rw [List.map_cons, List.nodup_cons] at hnd
      rcases List.mem_cons.1 hn with e | e
      · subst e
        simp [List.find?_cons]
      · have hx : ¬ x.Name = n.Name := by
          intro hxe
          apply hnd.1
          rw [List.mem_map]
          exact ⟨n, e, hxe.symm⟩
        simp only [List.find?_cons, hx, decide_False]
        exact ih e hnd.2
  rw [hfind]
  simp only [hg]

/-- A live speaker resolves to a connection, with nothing else happening. -/
theorem getSpeakerClient_ok (env : Env) (hwf : env.WF) (hok : env.allSucceed) (id : String)
    (hlive : env.isLiveSpeaker id = true) (w : World) :
    getSpeakerClient env id w = (.ok ⟨id, env.addressOf id⟩, w) := by
  obtain ⟨n, hn, hname, m, hg, ht⟩ := (Env_isLiveSpeaker_iff env id).1 hlive
  subst hname
  have hfilter : FilterMembersByFn (speakerFilter env.gob n.Name) env.nodes = .ok [n] := by
    unfold FilterMembersByFn
    rw [speakerFilter_eq env.gob n.Name env.nodes.Members hwf.1 _ _ (fun _ h => h)]
    rw [List.nil_append]
    rw [filter_name_singleton env.nodes.Members hwf.2 n hn
      (fun x => decide ((env.gob x.Meta).map NodeMeta.NodeType = some Music)) (by simp [hg, ht])]
  unfold getSpeakerClient
  rw [hfilter]
  simp only [DecodeNodeMeta, hg, hok.1]
  rw [Env_addressOf_eq env hwf n hn m hg]

/-- An RPC that is answered with code 200 is recorded and returns. -/
theorem call_ok (env : Env) (hok : env.allSucceed) (id : String) (req : SpeakerReq) (w : World) :
    closableClient.call env ⟨id, env.addressOf id⟩ req w
      = (.ok 200, { w with rpcs := w.rpcs ++ [env.okRecord id req] }) := by
  unfold closableClient.call
  simp only [hok.2]
  rfl


theorem World_rpcs_append_append (w : World) (l1 l2 : List RpcRecord) :
    ({ ({ w with rpcs := w.rpcs ++ l1 } : World) with
        rpcs := ({ w with rpcs := w.rpcs ++ l1 } : World).rpcs ++ l2 } : World)
      = { w with rpcs := w.rpcs ++ (l1 ++ l2) } := by
  simp [List.append_assoc]

theorem World_rpcs_append_nil (w : World) : ({ w with rpcs := w.rpcs ++ [] } : World) = w := by
  simp

theorem CreateZone_setup_ok (env : Env) (hwf : env.WF) (hok : env.allSucceed)
    (displayName leader : String) (ids : List String)
    (hlive : ∀ id ∈ ids, env.isLiveSpeaker id = true) (w : World) :
    CreateZone.setup env displayName leader ids w
      = (.ok (), { w with rpcs := w.rpcs ++ setupRecords env displayName leader ids }) := by
  induction ids generalizing w with
  | nil =>
    simp only [CreateZone.setup, setupRecords, World_rpcs_append_nil]
    rfl
  | cons id rest ih =>
    have hl := hlive id (List.mem_cons_self _ _)
    have hrest : ∀ x ∈ rest, env.isLiveSpeaker x = true :=
      fun x hx => hlive x (List.mem_cons_of_mem _ hx)
    unfold CreateZone.setup
    rw [Op_bind_ok _ _ _ _ _ (getSpeakerClient_ok env hwf hok id hl w)]
    rw [Op_bind_ok _ _ _ _ _ (call_ok env hok id _ w)]
    by_cases hne : id ≠ leader
    · simp only [hne, if_true, ne_eq, not_false_eq_true]
      rw [Op_bind_ok _ _ _ _ _ (call_ok env hok id _ _)]
      rw [ih hrest]
      simp only [setupRecords, hne, if_true, ne_eq, not_false_eq_true, World_rpcs_append_append,
        List.append_assoc, List.singleton_append, List.cons_append, List.nil_append]
    · simp only [hne, if_false]
      rw [Op_bind_ok _ _ _ _ _ (call_ok env hok id _ _)]
      rw [Op_bind_ok _ _ _ _ _ (call_ok env hok id _ _)]
      rw [ih hrest]
      simp only [setupRecords, hne, if_false, World_rpcs_append_append,
        List.append_assoc, List.singleton_append, List.cons_append, List.nil_append]


theorem GetSpeakers_loop_eq (store : DistributedStore) (l : List Node) (acc : List Speaker) :
    GetSpeakers.loop store l acc
      = .ok (acc ++ l.map (fun member =>
          ⟨member.Name,
            if (store.m.index member.Name).SpeakerConfig.DisplayName ≠ ""
            then (store.m.index member.Name).SpeakerConfig.DisplayName else member.Name⟩)) := by
  induction l generalizing acc with
  | nil => simp [GetSpeakers.loop]
  | cons n rest ih =>
    unfold GetSpeakers.loop
    simp only [DistributedStore.GetSpeakerConfig]
    rw [ih]
    simp [List.append_assoc]

/-- With a well-formed member list GetSpeakers returns one speaker per Music
member, in member order, and touches nothing. -/
theorem GetSpeakers_ok (env : Env) (hwf : env.WF) (w : World) :
    ∃ speakers, GetSpeakers env w = (.ok speakers, w) ∧
      speakers.map Speaker.ID = env.musicNames := by
  refine ⟨(env.nodes.Members.filter
      (fun n => decide ((env.gob n.Meta).map NodeMeta.NodeType = some Music))).map
      (fun member => ⟨member.Name,
        if (w.store.m.index member.Name).SpeakerConfig.DisplayName ≠ ""
        then (w.store.m.index member.Name).SpeakerConfig.DisplayName else member.Name⟩), ?_, ?_⟩
  · unfold GetSpeakers FilterMembers
    rw [FilterMembers_loop_eq env.gob Music _ _ hwf.1]
    simp only [GetSpeakers_loop_eq, List.nil_append]
  · unfold Env.musicNames
    rw [List.map_map]
    rfl

theorem Env_musicNames_live (env : Env) (id : String) (h : id ∈ env.musicNames) :
    env.isLiveSpeaker id = true := by
  unfold Env.musicNames at h
  rw [List.mem_map] at h
  obtain ⟨n, hn, hname⟩ := h
  rw [List.mem_filter] at hn
  rw [Env_isLiveSpeaker_iff]
  refine ⟨n, hn.1, hname, ?_⟩
  cases hg : env.gob n.Meta with
  | none => rw [hg] at hn; simp at hn
  | some m => rw [hg] at hn; exact ⟨m, rfl, by simpa using hn.2⟩

theorem removeFromAllSpeakers_loop_ok (env : Env) (hwf : env.WF) (hok : env.allSucceed)
    (speakerIDs : List String) (speakers : List Speaker)
    (hlive : ∀ s ∈ speakers, env.isLiveSpeaker s.ID = true) (w : World) :
    removeFromAllSpeakers.loop env speakerIDs speakers w
      = (.ok (), { w with rpcs := (w.rpcs ++
          List.map (fun id => env.okRecord id (.RemoveForwardToNodes speakerIDs false))
            (speakers.map Speaker.ID)) }) := by
  induction speakers generalizing w with
  | nil =>
    simp only [removeFromAllSpeakers.loop, List.map_nil, World_rpcs_append_nil]
    rfl
  | cons s rest ih =>
    have hl := hlive s (List.mem_cons_self _ _)
    have hrest : ∀ x ∈ rest, env.isLiveSpeaker x.ID = true :=
      fun x hx => hlive x (List.mem_cons_of_mem _ hx)
    unfold removeFromAllSpeakers.loop
    rw [Op_bind_ok _ _ _ _ _ (getSpeakerClient_ok env hwf hok s.ID hl w)]
    rw [Op_bind_ok _ _ _ _ _ (call_ok env hok s.ID _ w)]
    rw [ih hrest]
    simp only [List.map_cons, List.append_assoc, List.singleton_append]

theorem removeFromAllSpeakers_ok (env : Env) (hwf : env.WF) (hok : env.allSucceed)
    (speakerIDs : List String) (w : World) :
    removeFromAllSpeakers env speakerIDs w
      = (.ok (), { w with rpcs := w.rpcs ++ removeRecords env speakerIDs }) := by
  obtain ⟨speakers, hs, hids⟩ := GetSpeakers_ok env hwf w
  unfold removeFromAllSpeakers
  rw [Op_bind_ok _ _ _ _ _ hs]
  rw [removeFromAllSpeakers_loop_ok env hwf hok speakerIDs speakers]
  · unfold removeRecords
    rw [hids]
  · intro s hsm
    apply Env_musicNames_live
    rw [← hids]
    exact List.mem_map_of_mem _ hsm

theorem CreateZone_forwardToIDs_eq (leader : String) (l acc : List String) :
    CreateZone.forwardToIDs leader l acc = acc ++ l.filter (fun v => v ≠ leader) := by
  induction l generalizing acc with
  | nil => simp [CreateZone.forwardToIDs]
  | cons v rest ih =>
    unfold CreateZone.forwardToIDs
    by_cases h : v ≠ leader
    · rw [if_pos h, ih]
      simp [List.filter_cons, h]
    · rw [if_neg h, ih]
      simp [List.filter_cons, h]

theorem filter_ne_head (a : String) (rest : List String) (hnd : (a :: rest).Nodup) :
    (a :: rest).filter (fun v => v ≠ a) = rest := by
  rw [List.nodup_cons] at hnd
  rw [List.filter_cons]
  simp only [ne_eq, not_true_eq_false, decide_False, Bool.false_eq_true, if_false]
  rw [List.filter_eq_self]
  intro x hx
  simp only [decide_not, Bool.not_eq_true', decide_eq_false_iff_not]
  intro e
  exact hnd.1 (e ▸ hx)

/-- A write of a zone on the leader: the marshalled `set` command is handed to
the consensus log; it is applied when it commits, and rejected with a timeout
otherwise. -/
theorem SaveZoneConfig_leader (ds : DistributedStore) (r : Raft) (kvs : KVs)
    (hr : ds.raft = some r) (hl : r.state = .Leader) (hm : ds.m = .mk kvs) (zc : ZoneConfig) :
    ds.SaveZoneConfig zc =
      if r.commits r.log.length then
        (.ok (), { ds with
          raft := some { r with log := r.log ++
            [.doc (marshalCommand ⟨"set", zc.ID, ⟨SpeakerConfig.zero, zc⟩⟩)] },
          m := .mk (kvs.set zc.ID ⟨SpeakerConfig.zero, zc⟩) })
      else
        (.err "timed out enqueuing operation", { ds with
          raft := some { r with log := r.log ++
            [.doc (marshalCommand ⟨"set", zc.ID, ⟨SpeakerConfig.zero, zc⟩⟩)] } }) := by
  have hnl : ¬ r.state ≠ .Leader := by simp [hl]
  unfold DistributedStore.SaveZoneConfig
  rw [hr]
  simp only []
  rw [if_neg hnl]
  unfold DistributedStore.raftApply
  rw [hr]
  simp only []
  rw [if_neg hnl]
  by_cases hc : r.commits r.log.length = true
  · rw [if_pos hc, if_pos hc]
    have := Apply_toLog_set
      { ds with raft := some { r with log := r.log ++
          [.doc (marshalCommand ⟨"set", zc.ID, ⟨SpeakerConfig.zero, zc⟩⟩)] } }
      kvs hm ⟨"set", zc.ID, ⟨SpeakerConfig.zero, zc⟩⟩ rfl
    exact this
  · rw [if_neg hc, if_neg hc]
    rfl


/-! ## The speakers after a run -/

theorem remoteStep_okRecord (env : Env) (x id : String) (req : SpeakerReq) (s : SpeakerState) :
    remoteStep x s (env.okRecord id req) = if id = x then s.handle req else s := by
  simp [remoteStep, Env.okRecord]

theorem remoteAfter_nil (x : String) (s : SpeakerState) : remoteAfter x s [] = s := rfl

theorem remoteAfter_cons (x : String) (s : SpeakerState) (r : RpcRecord) (l : List RpcRecord) :
    remoteAfter x s (r :: l) = remoteAfter x (remoteStep x s r) l := rfl

theorem remoteAfter_append (x : String) (s : SpeakerState) (l1 l2 : List RpcRecord) :
    remoteAfter x s (l1 ++ l2) = remoteAfter x (remoteAfter x s l1) l2 := by
  unfold remoteAfter
  rw [List.foldl_append]

theorem remoteStep_other (x : String) (s : SpeakerState) (r : RpcRecord) (h : r.target ≠ x) :
    remoteStep x s r = s := by
  unfold remoteStep
  split
  · rw [if_neg h]
  · rfl

theorem remoteAfter_other (x : String) (s : SpeakerState) (l : List RpcRecord)
    (h : ∀ r ∈ l, r.target ≠ x) : remoteAfter x s l = s := by
  induction l generalizing s with
  | nil => rfl
  | cons r rest ih =>
    rw [remoteAfter_cons, remoteStep_other x s r (h r (List.mem_cons_self _ _))]
    exact ih _ (fun y hy => h y (List.mem_cons_of_mem _ hy))

theorem remoteStep_removeOnly (x : String) (s : SpeakerState) (r : RpcRecord)
    (h : ∃ ids all, r.req = .RemoveForwardToNodes ids all) :
    (remoteStep x s r).ServiceName = s.ServiceName ∧
    (remoteStep x s r).Broadcast = s.Broadcast ∧
    (s.ForwardTo = [] → (remoteStep x s r).ForwardTo = []) := by
  obtain ⟨ids, all, hreq⟩ := h
  have hstep : (s.handle r.req).ServiceName = s.ServiceName ∧
      (s.handle r.req).Broadcast = s.Broadcast ∧
      (s.ForwardTo = [] → (s.handle r.req).ForwardTo = []) := by
    rw [hreq]
    unfold SpeakerState.handle
    cases all
    · refine ⟨rfl, rfl, ?_⟩
      intro he
      simp [he]
    · exact ⟨rfl, rfl, fun _ => rfl⟩
  unfold remoteStep
  split
  · split
    · exact hstep
    · exact ⟨rfl, rfl, fun h => h⟩
  · exact ⟨rfl, rfl, fun h => h⟩

/-- Requests that only remove forward targets leave name and broadcast flag
alone, and leave an empty target list empty. -/
theorem remoteAfter_removeOnly (x : String) (s : SpeakerState) (l : List RpcRecord)
    (h : ∀ r ∈ l, ∃ ids all, r.req = .RemoveForwardToNodes ids all) :
    (remoteAfter x s l).ServiceName = s.ServiceName ∧
    (remoteAfter x s l).Broadcast = s.Broadcast ∧
    (s.ForwardTo = [] → (remoteAfter x s l).ForwardTo = []) := by
  induction l generalizing s with
  | nil => exact ⟨rfl, rfl, fun h => h⟩
  | cons r rest ih =>
    have hstep := remoteStep_removeOnly x s r (h r (List.mem_cons_self _ _))
    obtain ⟨h1, h2, h3⟩ := ih (remoteStep x s r) (fun y hy => h y (List.mem_cons_of_mem _ hy))
    rw [remoteAfter_cons]
    exact ⟨h1.trans hstep.1, h2.trans hstep.2.1, fun he => h3 (hstep.2.2 he)⟩

theorem addTargets_nodup (t l : List String) (h : (t ++ l).Nodup) : addTargets t l = t ++ l := by
  induction l generalizing t with
  | nil => simp [addTargets]
  | cons id rest ih =>
    have hid : id ∉ t := by
      intro hmem
      have := List.nodup_append.1 h
      exact this.2.2 hmem (List.mem_cons_self _ _)
    unfold addTargets
    rw [if_neg hid, ih]
    · simp
    · simpa using h

theorem setupRecords_target (env : Env) (displayName leader : String) (ids : List String) :
    ∀ r ∈ setupRecords env displayName leader ids, r.target ∈ ids := by
  induction ids with
  | nil => intro r hr; cases hr
  | cons id rest ih =>
    intro r hr
    unfold setupRecords at hr
    rcases List.mem_append.1 hr with h | h
    · by_cases hne : id ≠ leader
      · rw [if_pos hne] at h
        simp only [List.mem_cons, List.mem_singleton, List.not_mem_nil, or_false] at h
        rcases h with e | e <;> rw [e] <;> exact List.mem_cons_self _ _
      · rw [if_neg hne] at h
        simp only [List.mem_cons, List.mem_singleton, List.not_mem_nil, or_false] at h
        rcases h with e | e | e <;> rw [e] <;> exact List.mem_cons_self _ _
    · exact List.mem_cons_of_mem _ (ih r h)

/-- After the first loop of CreateZone a listed speaker other than the leader
does not broadcast. -/
theorem setupRecords_member (env : Env) (displayName leader : String) (ids : List String)
    (hnd : ids.Nodup) (b : String) (hb : b ∈ ids) (hne : b ≠ leader) (s : SpeakerState) :
    (remoteAfter b s (setupRecords env displayName leader ids)).Broadcast = false := by
  induction ids generalizing s with
  | nil => cases hb
  | cons id rest ih =>
    rw [List.nodup_cons] at hnd
    unfold setupRecords
    rw [remoteAfter_append]
    rcases List.mem_cons.1 hb with e | e
    · subst e
      rw [if_pos hne]
      rw [remoteAfter_other b _ (setupRecords env displayName leader rest)]
      · simp [remoteAfter_cons, remoteAfter_nil, remoteStep_okRecord, SpeakerState.handle]
      · intro r hr htar
        exact hnd.1 (htar ▸ setupRecords_target env displayName leader rest r hr)
    · exact ih hnd.2 e _

/-- After the first loop of CreateZone the leader carries the zone name,
broadcasts and forwards to nobody. -/
theorem setupRecords_leader (env : Env) (displayName a : String) (rest : List String)
    (hnd : (a :: rest).Nodup) (s : SpeakerState) :
    remoteAfter a s (setupRecords env displayName a (a :: rest)) = ⟨displayName, true, []⟩ := by
  rw [List.nodup_cons] at hnd
  unfold setupRecords
  rw [remoteAfter_append]
  rw [remoteAfter_other a _ (setupRecords env displayName a rest)]
  · simp [remoteAfter_cons, remoteAfter_nil, remoteStep_okRecord, SpeakerState.handle]
  · intro r hr htar
    exact hnd.1 (htar ▸ setupRecords_target env displayName a rest r hr)


/-! ## C6: CreateZone -/

theorem AmLeader_read (w : World) (r : Raft) (hr : w.store.raft = some r) :
    Op.read DistributedStore.AmLeader w = (.ok (decide (r.state = .Leader)), w) := by
  unfold Op.read DistributedStore.AmLeader
  rw [hr]

/-- A zone write on the leader returns (its error, if any, as a value). -/
theorem store_SaveZoneConfig_leader (ds : DistributedStore) (r : Raft) (kvs : KVs)
    (hr : ds.raft = some r) (hl : r.state = .Leader) (hm : ds.m = .mk kvs) (zc : ZoneConfig) :
    ∃ e, ∀ rpcs forwarded, Op.store (fun d => d.SaveZoneConfig zc) ⟨ds, rpcs, forwarded⟩
      = (.ok e, ⟨(ds.SaveZoneConfig zc).2, rpcs, forwarded⟩) := by
  by_cases hc : r.commits r.log.length = true
  · refine ⟨none, ?_⟩
    intro rpcs forwarded
    unfold Op.store
    beta_reduce
    simp only
    rw [SaveZoneConfig_leader ds r kvs hr hl hm zc, if_pos hc]
  · refine ⟨some "timed out enqueuing operation", ?_⟩
    intro rpcs forwarded
    unfold Op.store
    beta_reduce
    simp only
    rw [SaveZoneConfig_leader ds r kvs hr hl hm zc, if_neg hc]

set_option maxHeartbeats 4000000 in
/-- C6, inputs that refute it.  On the leader, for the name Patio and the distinct listed
speakers `a`, `b`, `c`, each a Music member of the directory, every connection established and
every speaker RPC answered with code 200: (1) when the directory also holds a member whose
metadata is the empty byte string, CreateZone ends in log.Fatal at the first lookup of a
speaker, hands nothing to the consensus log and issues no RPC; (2) when the consensus log does
not commit the entry, CreateZone returns the new ID and the map holds no zone under it;
(3) when the directory holds two members named `a`, the lookup of `a` finds two nodes and
CreateZone returns the error of the lookup; (4) on a store whose map is nil, the FSM write
panics.  In none of these runs is a ZoneConfig persisted. -/
theorem createZone_not_persisted :
    ((CreateZone (Env.gobExample [gobMusicNode "a" 1, gobMusicNode "b" 2, gobMusicNode "c" 3,
        ⟨"x", "10.0.0.9", []⟩]) 7 "Patio" (some ["a", "b", "c"])
        (World.example (leaderWith []))).1 = .fatal ∧
      (CreateZone (Env.gobExample [gobMusicNode "a" 1, gobMusicNode "b" 2, gobMusicNode "c" 3,
        ⟨"x", "10.0.0.9", []⟩]) 7 "Patio" (some ["a", "b", "c"])
        (World.example (leaderWith []))).2.store.log.length = 0 ∧
      (CreateZone (Env.gobExample [gobMusicNode "a" 1, gobMusicNode "b" 2, gobMusicNode "c" 3,
        ⟨"x", "10.0.0.9", []⟩]) 7 "Patio" (some ["a", "b", "c"])
        (World.example (leaderWith []))).2.requests = []) ∧
    ((CreateZone (Env.example [musicNode "a" 1, musicNode "b" 2, musicNode "c" 3]) 7 "Patio"
        (some ["a", "b", "c"]) (World.example (stalledLeader []))).1 = .ok "7" ∧
      (CreateZone (Env.example [musicNode "a" 1, musicNode "b" 2, musicNode "c" 3]) 7 "Patio"
        (some ["a", "b", "c"]) (World.example (stalledLeader []))).2.store.m.get "7" = none ∧
      (CreateZone (Env.example [musicNode "a" 1, musicNode "b" 2, musicNode "c" 3]) 7 "Patio"
        (some ["a", "b", "c"]) (World.example (stalledLeader []))).2.store.GetZoneConfigs
        = []) ∧
    ((CreateZone (Env.example [musicNode "a" 1, musicNode "a" 4, musicNode "b" 2,
        musicNode "c" 3]) 7 "Patio" (some ["a", "b", "c"]) (World.example (leaderWith []))).1
        = .err "Could not find speaker with id: a" ∧
      (CreateZone (Env.example [musicNode "a" 1, musicNode "a" 4, musicNode "b" 2,
        musicNode "c" 3]) 7 "Patio" (some ["a", "b", "c"])
        (World.example (leaderWith []))).2.store.log.length = 0) ∧
    (CreateZone (Env.example [musicNode "a" 1, musicNode "b" 2, musicNode "c" 3]) 7 "Patio"
        (some ["a", "b", "c"])
        (World.example (DistributedStore.example .nil
          (Raft.example .Leader [⟨.Voter, "mgmt-1", "10.0.0.1:7000"⟩])))).1 = .panic := by
  refine ⟨⟨?_, ?_, ?_⟩, ⟨?_, ?_, ?_⟩, ⟨?_, ?_⟩, ?_⟩
  · decide
  · decide
  · decide
  · decide
  · decide
  · decide
  · decide
  · decide
  · decide

/-- C6 as amended.  On the consensus leader whose store map is made (non-nil), for a member
list whose metadata all decode and whose node names are unique, every display name and every
non-empty list of distinct IDs each of which names a Music member, with every connection
established, every speaker RPC answered with code 200 and the consensus log committing the
entry handed to it: CreateZone returns the new zone ID; the speaker RPCs it issued are the
per-speaker reset, one RemoveForwardToNodes to every Music member, and one ForwardToNodes of
the other listed IDs to the first speaker; the entry handed to the consensus log is the `set`
of a ZoneConfig with that ID, the given name, the first ID as Leader and the given list as
Speakers, and the map holds it afterwards; and from any earlier speaker state the first
speaker ends up named after the zone, broadcasting and forwarding to exactly the other listed
IDs in list order, while every other listed speaker ends up not broadcasting. -/
theorem createZone_first_speaker_leads (env : Env) (hwf : env.WF) (hok : env.allSucceed)
    (w : World) (r : Raft) (kvs : KVs)
    (hr : w.store.raft = some r) (hl : r.state = .Leader) (hm : w.store.m = .mk kvs)
    (hc : r.commits r.log.length = true)
    (r1 : Nat) (displayName a : String) (rest : List String)
    (hnd : (a :: rest).Nodup) (hlive : ∀ id ∈ a :: rest, env.isLiveSpeaker id = true) :
    ∃ w1, CreateZone env r1 displayName (some (a :: rest)) w = (.ok (toString r1), w1) ∧
      w1.rpcs = w.rpcs ++ (setupRecords env displayName a (a :: rest) ++
        removeRecords env (a :: rest) ++ [env.okRecord a (.ForwardToNodes rest)]) ∧
      (∃ r2, w1.store.raft = some r2 ∧ r2.log = r.log ++ [.doc (marshalCommand
        ⟨"set", toString r1,
          ⟨SpeakerConfig.zero, ⟨toString r1, displayName, a, some (a :: rest)⟩⟩⟩)]) ∧
      w1.store.m.get (toString r1)
        = some ⟨SpeakerConfig.zero, ⟨toString r1, displayName, a, some (a :: rest)⟩⟩ ∧
      (∀ s0, remoteAfter a s0 (w1.rpcs.drop w.rpcs.length) = ⟨displayName, true, rest⟩) ∧
      (∀ b ∈ rest, ∀ s0, (remoteAfter b s0 (w1.rpcs.drop w.rpcs.length)).Broadcast = false) := by
  have hla := hlive a (List.mem_cons_self _ _)
  obtain ⟨e, hstore⟩ := store_SaveZoneConfig_leader w.store r kvs hr hl hm
    ⟨toString r1, displayName, a, some (a :: rest)⟩
  have hsave := SaveZoneConfig_leader w.store r kvs hr hl hm
    ⟨toString r1, displayName, a, some (a :: rest)⟩
  refine ⟨World.mk
      (w.store.SaveZoneConfig ⟨toString r1, displayName, a, some (a :: rest)⟩).2
      (w.rpcs ++ (setupRecords env displayName a (a :: rest) ++
        removeRecords env (a :: rest) ++ [env.okRecord a (.ForwardToNodes rest)]))
      w.forwarded, ?_, rfl, ?_, ?_, ?_, ?_⟩
  · unfold CreateZone
    rw [Op_bind_ok _ _ _ _ _ (AmLeader_read w r hr)]
    simp only [hl, decide_True, Bool.not_true, Bool.false_eq_true, if_false, StrSlice.elems]
    rw [Op_bind_ok _ _ _ _ _ (CreateZone_setup_ok env hwf hok displayName a (a :: rest) hlive w)]
    simp only [List.length_cons, gt_iff_lt, Nat.zero_lt_succ, if_true]
    rw [Op_bind_ok _ _ _ _ _ (removeFromAllSpeakers_ok env hwf hok (a :: rest) _)]
    rw [Op_bind_ok _ _ _ _ _ (getSpeakerClient_ok env hwf hok a hla _)]
    rw [CreateZone_forwardToIDs_eq, List.nil_append, filter_ne_head a rest hnd]
    rw [Op_bind_ok _ _ _ _ _ (call_ok env hok a _ _)]
    simp only [World_rpcs_append_append]
    rw [Op_bind_ok _ _ _ _ _ (Op_pure_apply () _)]
    rw [Op_bind_ok _ _ _ _ _ (hstore _ _)]
    simp only [List.append_assoc]
    rfl
  · show ∃ r2, (w.store.SaveZoneConfig _).2.raft = some r2 ∧ _
    rw [hsave, if_pos hc]
    exact ⟨_, rfl, rfl⟩
  · show (w.store.SaveZoneConfig _).2.m.get (toString r1) = _
    rw [hsave, if_pos hc]
    simp [GoMap.get, GoMap.range, KVs_get_set]
  · intro s0
    show remoteAfter a s0 (List.drop w.rpcs.length (w.rpcs ++ _)) = _
    rw [List.drop_left, remoteAfter_append, remoteAfter_append,
      setupRecords_leader env displayName a rest hnd s0]
    have hrem := remoteAfter_removeOnly a ⟨displayName, true, []⟩ (removeRecords env (a :: rest))
      (by
        intro x hx
        unfold removeRecords at hx
        rw [List.mem_map] at hx
        obtain ⟨i, _, hi⟩ := hx
        exact ⟨_, _, by rw [← hi]; rfl⟩)
    have hstate : remoteAfter a ⟨displayName, true, []⟩ (removeRecords env (a :: rest))
        = ⟨displayName, true, []⟩ := by
      cases hq : remoteAfter a ⟨displayName, true, []⟩ (removeRecords env (a :: rest)) with
      | mk n b f =>
        rw [hq] at hrem
        obtain ⟨h1, h2, h3⟩ := hrem
        simp only at h1 h2 h3
        rw [h1, h2, h3 trivial]
    rw [hstate, remoteAfter_cons, remoteAfter_nil, remoteStep_okRecord, if_pos rfl]
    unfold SpeakerState.handle
    simp only
    rw [addTargets_nodup [] rest (by simpa using (List.nodup_cons.1 hnd).2)]
    rfl
  · intro b hb s0
    have hba : b ≠ a := by
      intro e
      exact (List.nodup_cons.1 hnd).1 (e ▸ hb)
    show (remoteAfter b s0 (List.drop w.rpcs.length (w.rpcs ++ _))).Broadcast = _
    rw [List.drop_left, remoteAfter_append, remoteAfter_append]
    have hrem := remoteAfter_removeOnly b
      (remoteAfter b s0 (setupRecords env displayName a (a :: rest)))
      (removeRecords env (a :: rest))
      (by
        intro x hx
        unfold removeRecords at hx
        rw [List.mem_map] at hx
        obtain ⟨i, _, hi⟩ := hx
        exact ⟨_, _, by rw [← hi]; rfl⟩)
    rw [remoteAfter_cons, remoteAfter_nil, remoteStep_okRecord, if_neg (fun e => hba e.symm)]
    rw [hrem.2.1]
    exact setupRecords_member env displayName a (a :: rest) hnd b (List.mem_cons_of_mem _ hb) hba s0


theorem Env_example_allSucceed (members : List Node) : (Env.example members).allSucceed :=
  ⟨fun _ _ => rfl, fun _ _ _ _ => rfl⟩

/-- Witness for C6 as amended: three live speakers, one further speaker and a management
node; the zone Patio is created from `a`, `b`, `c`. -/
theorem createZone_first_speaker_leads_witness :
    (Env.example [musicNode "a" 1, musicNode "b" 2, mgmtNode "m" 1, musicNode "c" 3,
      musicNode "d" 4]).WF ∧
    (Env.example [musicNode "a" 1, musicNode "b" 2, mgmtNode "m" 1, musicNode "c" 3,
      musicNode "d" 4]).allSucceed ∧
    (Raft.example .Leader [⟨.Voter, "mgmt-1", "10.0.0.1:7000"⟩]).commits 0 = true ∧
    ["a", "b", "c"].Nodup ∧
    (∀ id ∈ ["a", "b", "c"],
      (Env.example [musicNode "a" 1, musicNode "b" 2, mgmtNode "m" 1, musicNode "c" 3,
        musicNode "d" 4]).isLiveSpeaker id = true) ∧
    ∃ w1, CreateZone
        (Env.example [musicNode "a" 1, musicNode "b" 2, mgmtNode "m" 1, musicNode "c" 3,
          musicNode "d" 4])
        7 "Patio" (some ["a", "b", "c"]) (World.example (leaderWith [])) = (.ok (toString 7), w1) ∧
      w1.store.m.get (toString 7)
        = some ⟨SpeakerConfig.zero, ⟨toString 7, "Patio", "a", some ["a", "b", "c"]⟩⟩ ∧
      (∀ s0, remoteAfter "a" s0 (w1.rpcs.drop (World.example (leaderWith [])).rpcs.length)
        = ⟨"Patio", true, ["b", "c"]⟩) :=
  ⟨⟨by decide, by decide⟩, Env_example_allSucceed _, rfl, by decide, by decide,
    let ⟨w1, h1, _, _, h4, h5, _⟩ := createZone_first_speaker_leads
      (Env.example [musicNode "a" 1, musicNode "b" 2, mgmtNode "m" 1, musicNode "c" 3,
        musicNode "d" 4])
      ⟨by decide, by decide⟩ (Env_example_allSucceed _) (World.example (leaderWith []))
      (Raft.example .Leader [⟨.Voter, "mgmt-1", "10.0.0.1:7000"⟩]) [] rfl rfl rfl rfl
      7 "Patio" "a" ["b", "c"] (by decide) (by decide)
    ⟨w1, h1, h4, h5⟩⟩

/-! ## C7 and C8: HandleMusicNodeLeave at failing inputs -/

theorem zoneMemberFilter_eq (speakers : List String) (n : Node) :
    zoneMemberFilter speakers n = decide (n.Name ∈ speakers) := by
  induction speakers with
  | nil => simp [zoneMemberFilter]
  | cons s rest ih =>
    unfold zoneMemberFilter
    by_cases h : n.Name = s
    · simp [h]
    · simp [h, ih]

theorem HandleMusicNodeLeave_ids_eq (newLeader : String) (l ids : List String) :
    HandleMusicNodeLeave.ids newLeader l ids = ids ++ l.filter (fun id => id ≠ newLeader) := by
  induction l generalizing ids with
  | nil => simp [HandleMusicNodeLeave.ids]
  | cons v rest ih =>
    unfold HandleMusicNodeLeave.ids
    by_cases h : v ≠ newLeader
    · rw [if_pos h, ih]
      simp [List.filter_cons, h]
    · rw [if_neg h, ih]
      simp [List.filter_cons, h]

theorem filter_of_find (p : Node → Bool) (l : List Node) (c : Node)
    (h : l.find? p = some c) : ∃ cs, l.filter p = c :: cs := by
  induction l with
  | nil => cases h
  | cons x rest ih =>
    rw [List.find?_cons] at h
    cases hp : p x
    · rw [hp] at h
      obtain ⟨cs, hcs⟩ := ih h
      exact ⟨cs, by rw [List.filter_cons, hp]; exact hcs⟩
    · rw [hp] at h
      cases h
      exact ⟨rest.filter p, by rw [List.filter_cons, hp]; rfl⟩

/-- The whole run of HandleMusicNodeLeave on the leader when the scan finds a
zone led by the node, the first member named in the zone is a live speaker,
and every call succeeds. -/
theorem HandleMusicNodeLeave_run (env : Env) (hwf : env.WF) (hok : env.allSucceed)
    (w : World) (r : Raft) (kvs : KVs)
    (hr : w.store.raft = some r) (hl : r.state = .Leader) (hm : w.store.m = .mk kvs)
    (node : Node) (z : ZoneConfig)
    (hz : HandleMusicNodeLeave.findLed node.Name w.store.GetZoneConfigs = some z)
    (c : Node)
    (hc : env.nodes.Members.find? (fun n => decide (n.Name ∈ z.Speakers.elems)) = some c)
    (hlive : env.isLiveSpeaker c.Name = true) :
    HandleMusicNodeLeave env node w = (.ok (), World.mk
      (w.store.SaveZoneConfig ⟨z.ID, z.DisplayName, c.Name, z.Speakers⟩).2
      (w.rpcs ++ [env.okRecord c.Name
          (.ForwardToNodes (z.Speakers.elems.filter (fun id => id ≠ c.Name))),
        env.okRecord c.Name (.ChangeServiceName z.DisplayName),
        env.okRecord c.Name (.ToggleBroadcast true)])
      w.forwarded) := by
  obtain ⟨e, hstore⟩ := store_SaveZoneConfig_leader w.store r kvs hr hl hm
    ⟨z.ID, z.DisplayName, c.Name, z.Speakers⟩
  have hfun : (fun n => zoneMemberFilter z.Speakers.elems n)
      = (fun n => decide (n.Name ∈ z.Speakers.elems)) := by
    funext n
    exact zoneMemberFilter_eq _ n
  obtain ⟨cs, hcs⟩ := filter_of_find _ _ c hc
  have hcand : Op.lift (FilterMembersByFn
      (fun n => .ok (zoneMemberFilter z.Speakers.elems n)) env.nodes) w = (.ok (c :: cs), w) := by
    unfold Op.lift FilterMembersByFn
    rw [FilterMembersByFn_loop_eq (fun n => zoneMemberFilter z.Speakers.elems n), hfun, hcs]
    rfl
  have hzones : Op.read (fun ds => Res.ok ds.GetZoneConfigs) w = (.ok w.store.GetZoneConfigs, w) :=
    rfl
  unfold HandleMusicNodeLeave Op.logged
  rw [Op_bind_ok _ _ _ _ _ (AmLeader_read w r hr)]
  simp only [hl, decide_True, Bool.not_true, Bool.false_eq_true, if_false]
  rw [Op_bind_ok _ _ _ _ _ hzones]
  simp only [hz]
  rw [Op_bind_ok _ _ _ _ _ hcand]
  simp only
  rw [Op_bind_ok _ _ _ _ _ (getSpeakerClient_ok env hwf hok c.Name hlive _)]
  rw [HandleMusicNodeLeave_ids_eq, List.nil_append]
  rw [Op_bind_ok _ _ _ _ _ (call_ok env hok c.Name _ _)]
  rw [Op_bind_ok _ _ _ _ _ (call_ok env hok c.Name _ _)]
  rw [Op_bind_ok _ _ _ _ _ (call_ok env hok c.Name _ _)]
  rw [Op_bind_ok _ _ _ _ _ (hstore _ _)]
  simp only [List.append_assoc, List.singleton_append]
  rfl


/-- C7 at a failing input.  The zone Patio is led by `a` and lists `a`, `b`, `c`;
`a` leaves while the directory lists the live speakers as `c`, `b`.  The first
live ID in the order of Speakers is `b`, which the claim and the comment above
the selection (find the first alive member of the zone) name as the new leader;
the zone is persisted with Leader `c`, the first live node in the order of the
directory.  ID, DisplayName and Speakers are persisted as they were. -/
theorem leave_promotes_in_directory_order :
    (patio.Speakers.elems.find?
      (fun id => (Env.example [musicNode "c" 3, musicNode "b" 2]).isLiveSpeaker id)) = some "b" ∧
    (HandleMusicNodeLeave (Env.example [musicNode "c" 3, musicNode "b" 2]) nodeA patioWorld).1
      = .ok () ∧
    (HandleMusicNodeLeave (Env.example [musicNode "c" 3, musicNode "b" 2]) nodeA
        patioWorld).2.store.m.get "z1"
      = some ⟨SpeakerConfig.zero, ⟨"z1", "Patio", "c", some ["a", "b", "c"]⟩⟩ := by
  decide

/-- C8 at a failing input.  The zone Patio is led by `a` and lists `a`, `b`, `c`;
`a` leaves and `b` is promoted, every call succeeding.  The forward list sent to
`b` is `a`, `c`, where the claim gives `c`: the loop strikes out the promoted node
only, so the departed leader, which is not in the directory any more, is still
a forward target.  HandleMusicNodeJoin, for the same zone, builds the list from
the members that are live: with `a` and `b` in the directory it sends `b` to `a`,
leaving out `c`. -/
theorem leave_forward_list_keeps_departed :
    (HandleMusicNodeLeave (Env.example [musicNode "b" 2, musicNode "c" 3]) nodeA
        patioWorld).2.requests
      = [("b", .ForwardToNodes ["a", "c"]), ("b", .ChangeServiceName "Patio"),
         ("b", .ToggleBroadcast true)] ∧
    ((HandleMusicNodeJoin (Env.example [musicNode "a" 1, musicNode "b" 2]) nodeA
        patioWorld).2.requests.filter (fun p => p.1 = "a"))
      = [("a", .RemoveForwardToNodes ["a"] false), ("a", .ForwardToNodes ["b"]),
         ("a", .ToggleBroadcast true), ("a", .ChangeServiceName "Patio")] := by
  decide

/-! ## C9 and C10: RemoveSpeakersFromZone and DeleteZone at failing inputs -/

/-- C9 at a failing input.  The zone Patio lists `a`, `b`, `c` and is led by `a`;
`b` and `c` are removed, every call succeeding.  The member list that is
persisted is `a`, `a`, `c`: `c` is still a member and `a` occurs twice, where
the claim gives `a`.  (With the one-element removal list `b` the rebuild does
give `a`, `c`.) -/
theorem removeSpeakers_rebuild_keeps_and_repeats :
    (RemoveSpeakersFromZone (Env.example [musicNode "a" 1, musicNode "b" 2, musicNode "c" 3])
        "z1" (some ["b", "c"]) patioWorld).1 = .ok () ∧
    (RemoveSpeakersFromZone (Env.example [musicNode "a" 1, musicNode "b" 2, musicNode "c" 3])
        "z1" (some ["b", "c"]) patioWorld).2.store.m.get "z1"
      = some ⟨SpeakerConfig.zero, ⟨"z1", "Patio", "a", some ["a", "a", "c"]⟩⟩ ∧
    RemoveSpeakersFromZone.rebuild ["b"] ["a", "b", "c"] [] = ["a", "c"] := by
  decide

/-- C10 at a failing input.  The zone Patio is led by `a`, for which no
SpeakerConfig is persisted; every call succeeds.  DeleteZone renames `a` to the
empty string, where the claim gives the node identity `a`. -/
theorem deleteZone_renames_leader_to_empty :
    (patioWorld.store.GetSpeakerConfig "a") = .ok SpeakerConfig.zero ∧
    (DeleteZone (Env.example [musicNode "a" 1, musicNode "b" 2, musicNode "c" 3])
        "z1" patioWorld).1 = .ok () ∧
    (DeleteZone (Env.example [musicNode "a" 1, musicNode "b" 2, musicNode "c" 3])
        "z1" patioWorld).2.requests
      = [("b", .ToggleBroadcast true), ("c", .ToggleBroadcast true),
         ("a", .RemoveForwardToNodes [] true), ("a", .ChangeServiceName "")] := by
  decide

/-! ## C13: Restore replaces the map -/

theorem decodeMapField_foldl_get (l : List (String × Json)) (acc : KVs × Bool) (k : String) :
    (l.foldl decodeMapField acc).1.get k
      = match lastValue l k with
        | some j => some (decodeEntry entry.zero j).1
        | none => acc.1.get k := by
  induction l generalizing acc with
  | nil => rfl
  | cons p rest ih =>
    rw [List.foldl_cons, ih]
    unfold lastValue
    rw [List.reverse_cons, List.find?_append]
    cases hrest : List.find? (fun p => decide (p.1 = k)) rest.reverse with
    | some q => simp
    | none =>
      simp only [Option.map_none', Option.none_or, List.find?_cons, List.find?_nil]
      unfold decodeMapField
      simp only [KVs_get_set]
      by_cases hk : p.1 = k
      · simp [hk]
      · have hk2 : ¬ k = p.1 := fun h => hk h.symm
        simp [hk, hk2]

theorem decodeMapField_foldl_keys (l : List (String × Json)) (acc : KVs × Bool)
    (h : acc.1.keys.Nodup) : (l.foldl decodeMapField acc).1.keys.Nodup := by
  induction l generalizing acc with
  | nil => exact h
  | cons p rest ih =>
    rw [List.foldl_cons]
    exact ih _ (KVs_keys_set_nodup _ _ _ h)

/-- C13.  Restore looks at nothing but the payload.  When the payload decodes, Restore succeeds
and the map of the store becomes the decoded map whatever the prior map was: nil for the
document null, and for an object a map with distinct keys that holds under each key the entry
decoded from the last pair with that key and nothing under a key the object does not have, so
that no key of the prior map survives unless the payload has it.  When the payload does not
decode, Restore returns the error and the store, its map included, is unchanged. -/
theorem restore_replaces_map (ds : DistributedStore) (rc : Payload) :
    (∃ m, decodeMapPayload rc (.mk []) = (m, none) ∧
      ds.Restore rc = (.ok (), { ds with m := m }) ∧
      (∀ other : DistributedStore, (other.Restore rc).2.m = m) ∧
      m.WF ∧
      (rc = .doc .null → m = .nil) ∧
      (∀ k, m.get k = (lastValue rc.pairs k).map (fun j => (decodeEntry entry.zero j).1)) ∧
      (∀ k, k ∉ rc.pairs.map Prod.fst → m.get k = none)) ∨
    (∃ e, (decodeMapPayload rc (.mk [])).2 = some e ∧ ds.Restore rc = (.err e, ds)) := by
  have hnone : ∀ (kvs : List (String × Json)) (k : String), k ∉ kvs.map Prod.fst →
      lastValue kvs k = none := by
    intro kvs k hk
    unfold lastValue
    rw [Option.map_eq_none', List.find?_eq_none]
    intro p hp hpk
    apply hk
    rw [List.mem_reverse] at hp
    exact List.mem_map.mpr ⟨p, hp, by simpa using hpk⟩
  cases rc with
  | invalid => exact Or.inr ⟨jsonErrorText true, rfl, rfl⟩
  | doc j =>
    cases j with
    | null =>
      refine Or.inl ⟨.nil, rfl, rfl, fun _ => rfl, ?_, fun _ => rfl, fun _ => rfl, fun _ _ => rfl⟩
      exact List.nodup_nil
    | bool b => exact Or.inr ⟨jsonErrorText false, rfl, rfl⟩
    | num n => exact Or.inr ⟨jsonErrorText false, rfl, rfl⟩
    | str s => exact Or.inr ⟨jsonErrorText false, rfl, rfl⟩
    | arr xs => exact Or.inr ⟨jsonErrorText false, rfl, rfl⟩
    | obj kvs =>
      have hget : ∀ k, (GoMap.mk (kvs.foldl decodeMapField ([], false)).1).get k
          = (lastValue kvs k).map (fun j => (decodeEntry entry.zero j).1) := by
        intro k
        show (kvs.foldl decodeMapField ([], false)).1.get k = _
        rw [decodeMapField_foldl_get]
        cases lastValue kvs k <;> rfl
      cases hflag : (kvs.foldl decodeMapField ([], false)).2 with
      | true =>
        refine Or.inr ⟨jsonErrorText false, ?_, ?_⟩
        · simp [decodeMapPayload, decodeMap, GoMap.range, hflag]
        · simp [DistributedStore.Restore, decodeMapPayload, decodeMap, GoMap.range, hflag]
      | false =>
        have hdec : decodeMapPayload (.doc (.obj kvs)) (.mk [])
            = (.mk (kvs.foldl decodeMapField ([], false)).1, none) := by
          simp [decodeMapPayload, decodeMap, GoMap.range, hflag]
        have hres : ∀ d : DistributedStore, d.Restore (.doc (.obj kvs))
            = (.ok (), { d with m := .mk (kvs.foldl decodeMapField ([], false)).1 }) := by
          intro d
          unfold DistributedStore.Restore
          rw [hdec]
        refine Or.inl ⟨_, hdec, hres ds, fun other => by rw [hres other], ?_, ?_, hget, ?_⟩
        · exact decodeMapField_foldl_keys kvs ([], false) List.nodup_nil
        · intro h
          cases h
        · intro k hk
          rw [hget k, hnone kvs k hk]
          rfl

/-- C13, an instance.  A store whose map holds the key old is restored from a payload with the
one key new: afterwards old is absent and new holds the decoded entry; a payload that is not
JSON leaves the map as it was. -/
theorem restore_replaces_map_example :
    ((leaderWith [("old", entry.zero)]).Restore
      (.doc (.obj [("new", marshalEntry ⟨⟨"new", "Den"⟩, ZoneConfig.zero⟩)]))).1 = .ok () ∧
    ((leaderWith [("old", entry.zero)]).Restore
      (.doc (.obj [("new", marshalEntry ⟨⟨"new", "Den"⟩, ZoneConfig.zero⟩)]))).2.m
        = .mk [("new", ⟨⟨"new", "Den"⟩, ZoneConfig.zero⟩)] ∧
    ((leaderWith [("old", entry.zero)]).Restore .invalid).1 = .err "json: syntax error" ∧
    ((leaderWith [("old", entry.zero)]).Restore .invalid).2.m = .mk [("old", entry.zero)] := by
  decide

/-! ## C12: what a write marshals is read back -/

theorem GetZoneConfigs_loop_eq (kvs : KVs) (acc : List ZoneConfig) :
    GetZoneConfigs.loop kvs acc
      = acc ++ (kvs.filter (fun p => p.2.ZoneConfig.ID ≠ "")).map (fun p => p.2.ZoneConfig) := by
  induction kvs generalizing acc with
  | nil => simp [GetZoneConfigs.loop]
  | cons p rest ih =>
    obtain ⟨k, v⟩ := p
    unfold GetZoneConfigs.loop
    by_cases h : v.ZoneConfig.ID = ""
    · simp [h, ih]
    · simp [h, ih]

theorem GetZoneConfigs_mk (ds : DistributedStore) (kvs : KVs) (hm : ds.m = .mk kvs) :
    ds.GetZoneConfigs
      = (kvs.filter (fun p => p.2.ZoneConfig.ID ≠ "")).map (fun p => p.2.ZoneConfig) := by
  unfold DistributedStore.GetZoneConfigs
  rw [hm, GetZoneConfigs_loop_eq]
  rfl

theorem KeyedByID_set (kvs : KVs) (h : kvs.KeyedByID) (k : String) (v : entry)
    (hv : v.ZoneConfig.ID = "" ∨ v.ZoneConfig.ID = k) : (kvs.set k v).KeyedByID := by
  intro p hp
  unfold KVs.set at hp
  rcases List.mem_cons.mp hp with rfl | hp
  · exact hv
  · exact h p (List.mem_filter.mp hp).1

theorem KeyedByID_delete (kvs : KVs) (h : kvs.KeyedByID) (k : String) :
    (kvs.delete k).KeyedByID := by
  intro p hp
  exact h p (List.mem_filter.mp hp).1

theorem zones_with_ID_absent (kvs : KVs) (h : kvs.KeyedByID) (k : String) :
    (((kvs.filter (fun p => p.1 ≠ k)).filter (fun p => p.2.ZoneConfig.ID ≠ "")).map
      (fun p => p.2.ZoneConfig)).filter (fun x => x.ID = k) = [] := by
  rw [List.filter_eq_nil_iff]
  intro x hx
  obtain ⟨p, hp, rfl⟩ := List.mem_map.mp hx
  obtain ⟨hp1, hp2⟩ := List.mem_filter.mp hp
  obtain ⟨hp3, hp4⟩ := List.mem_filter.mp hp1
  rcases h p hp3 with h0 | h1
  · simp [h0] at hp2
  · simp only [ne_eq, decide_not, Bool.not_eq_true', decide_eq_false_iff_not] at hp4
    simp [h1, hp4]

theorem Apply_raft (ds : DistributedStore) (l : Log) : (ds.Apply l).2.raft = ds.raft := by
  unfold DistributedStore.Apply
  simp only []
  split_ifs
  · unfold DistributedStore.applySet
    cases ds.m.set _ _ <;> rfl
  · rfl
  · rfl

theorem raftApply_log (ds : DistributedStore) (r : Raft) (hr : ds.raft = some r)
    (hl : r.state = .Leader) (b : Payload) : (ds.raftApply b).2.log = r.log ++ [b] := by
  have hnl : ¬ r.state ≠ .Leader := by simp [hl]
  unfold DistributedStore.raftApply
  simp only [hr]
  rw [if_neg hnl]
  by_cases hc : r.commits r.log.length = true
  · rw [if_pos hc]
    unfold DistributedStore.log
    rw [Apply_raft]
  · rw [if_neg hc]
    rfl

theorem SaveSpeakerConfig_log (ds : DistributedStore) (r : Raft) (hr : ds.raft = some r)
    (hl : r.state = .Leader) (c : SpeakerConfig) :
    (ds.SaveSpeakerConfig c).2.log = r.log ++ [(command.ofSpeakerConfig c).toLog.Data] := by
  have hnl : ¬ r.state ≠ .Leader := by simp [hl]
  unfold DistributedStore.SaveSpeakerConfig
  simp only [hr]
  rw [if_neg hnl]
  exact raftApply_log ds r hr hl _

theorem SaveZoneConfig_log (ds : DistributedStore) (r : Raft) (hr : ds.raft = some r)
    (hl : r.state = .Leader) (z : ZoneConfig) :
    (ds.SaveZoneConfig z).2.log = r.log ++ [(command.ofZoneConfig z).toLog.Data] := by
  have hnl : ¬ r.state ≠ .Leader := by simp [hl]
  unfold DistributedStore.SaveZoneConfig
  simp only [hr]
  rw [if_neg hnl]
  exact raftApply_log ds r hr hl _

theorem DeleteZoneConfig_log (ds : DistributedStore) (r : Raft) (hr : ds.raft = some r)
    (hl : r.state = .Leader) (zoneID : String) :
    (ds.DeleteZoneConfig zoneID).2.log = r.log ++ [(command.ofDelete zoneID).toLog.Data] := by
  have hnl : ¬ r.state ≠ .Leader := by simp [hl]
  unfold DistributedStore.DeleteZoneConfig
  simp only [hr]
  rw [if_neg hnl]
  exact raftApply_log ds r hr hl _

/-- C12.  On the leader, SaveSpeakerConfig(c) and SaveZoneConfig(z) hand to the consensus log the
marshalled command (set, ID, entry).  Apply, given these bytes on any store whose map is made
and keeps every zone under its own ID, returns normally; afterwards GetSpeakerConfig(c.ID)
returns exactly c, and for z with a non-empty ID GetZoneConfigs holds exactly one zone with the
ID of z, which is z itself, all four fields. -/
theorem save_commands_read_back (ds : DistributedStore) (r : Raft)
    (hr : ds.raft = some r) (hl : r.state = .Leader)
    (c : SpeakerConfig) (z : ZoneConfig) (hz : z.ID ≠ "")
    (fsm : DistributedStore) (kvs : KVs) (hm : fsm.m = .mk kvs) (hinv : kvs.KeyedByID) :
    (∃ b fsm1, (ds.SaveSpeakerConfig c).2.log = r.log ++ [b] ∧
      fsm.Apply ⟨b⟩ = (.ok (), fsm1) ∧ fsm1.GetSpeakerConfig c.ID = .ok c) ∧
    (∃ b fsm1, (ds.SaveZoneConfig z).2.log = r.log ++ [b] ∧
      fsm.Apply ⟨b⟩ = (.ok (), fsm1) ∧
      fsm1.GetZoneConfigs.filter (fun x => x.ID = z.ID) = [z]) := by
  constructor
  · refine ⟨_, _, SaveSpeakerConfig_log ds r hr hl c,
      Apply_toLog_set fsm kvs hm (command.ofSpeakerConfig c) rfl, ?_⟩
    unfold DistributedStore.GetSpeakerConfig GoMap.index GoMap.get GoMap.range
    simp only [KVs_get_set]
    simp [command.ofSpeakerConfig]
  · have hzs : ({ fsm with m := .mk (kvs.set (command.ofZoneConfig z).Key
        (command.ofZoneConfig z).Value) } : DistributedStore).GetZoneConfigs.filter
          (fun x => x.ID = z.ID) = [z] := by
      rw [GetZoneConfigs_mk _ _ rfl]
      unfold KVs.set
      have h0 := zones_with_ID_absent kvs hinv z.ID
      simp only [command.ofZoneConfig, List.filter_cons, ne_eq, hz, not_false_eq_true,
        decide_True, if_true, List.map_cons]
      simp only [ne_eq] at h0
      rw [h0]
    exact ⟨_, _, SaveZoneConfig_log ds r hr hl z,
      Apply_toLog_set fsm kvs hm (command.ofZoneConfig z) rfl, hzs⟩

/-- Witness for C12: a leader with an empty log, and a state machine whose map already holds the
zone Patio under z1; the zone saved replaces it. -/
theorem save_commands_read_back_witness :
    (leaderWith []).raft = some (Raft.example .Leader [⟨.Voter, "mgmt-1", "10.0.0.1:7000"⟩]) ∧
    (Raft.example .Leader [⟨.Voter, "mgmt-1", "10.0.0.1:7000"⟩]).state = .Leader ∧
    patio.ID ≠ "" ∧
    KVs.KeyedByID [("z1", ⟨SpeakerConfig.zero, patio⟩)] ∧
    (∃ b fsm1, ((leaderWith []).SaveSpeakerConfig ⟨"kitchen", "Kitchen"⟩).2.log = [] ++ [b] ∧
      patioWorld.store.Apply ⟨b⟩ = (.ok (), fsm1) ∧
      fsm1.GetSpeakerConfig "kitchen" = .ok ⟨"kitchen", "Kitchen"⟩) ∧
    (∃ b fsm1, ((leaderWith []).SaveZoneConfig ⟨"z1", "Porch", "b", some ["b"]⟩).2.log = [] ++ [b] ∧
      patioWorld.store.Apply ⟨b⟩ = (.ok (), fsm1) ∧
      fsm1.GetZoneConfigs.filter (fun x => x.ID = "z1") = [⟨"z1", "Porch", "b", some ["b"]⟩]) :=
  ⟨rfl, rfl, by decide, by decide,
    save_commands_read_back (leaderWith []) _ rfl rfl ⟨"kitchen", "Kitchen"⟩
      ⟨"z1", "Porch", "b", some ["b"]⟩ (by decide) patioWorld.store _ rfl (by decide)⟩

theorem replay_service_commands_keyed (ds0 : DistributedStore) (hm : ds0.m = .mk [])
    (cmds : List command)
    (h : ∀ c ∈ cmds, (∃ sc, c = command.ofSpeakerConfig sc) ∨ (∃ zc, c = command.ofZoneConfig zc) ∨
      (∃ id, c = command.ofDelete id)) :
    ∃ kvs, replay ds0 (cmds.map command.toLog) = (.ok (), { ds0 with m := .mk kvs }) ∧
      kvs.KeyedByID := by
  induction cmds using List.reverseRecOn with
  | nil => exact ⟨[], by rw [List.map_nil, replay_nil, ← hm], by intro p hp; cases hp⟩
  | append_singleton cmds c ih =>
    obtain ⟨kvs, hrun, hk⟩ := ih (fun d hd => h d (List.mem_append_left _ hd))
    rw [List.map_append, replay_append, hrun]
    simp only [List.map_cons, List.map_nil, List.foldl_cons, List.foldl_nil, replayStep]
    rcases h c (List.mem_append_right _ (List.mem_singleton.mpr rfl)) with
      ⟨sc, rfl⟩ | ⟨zc, rfl⟩ | ⟨id, rfl⟩
    · rw [Apply_toLog_set _ kvs rfl _ rfl]
      exact ⟨_, rfl, KeyedByID_set kvs hk _ _ (Or.inl rfl)⟩
    · rw [Apply_toLog_set _ kvs rfl _ rfl]
      exact ⟨_, rfl, KeyedByID_set kvs hk _ _ (Or.inr rfl)⟩
    · rw [Apply_toLog_delete _ kvs rfl _ rfl]
      exact ⟨_, rfl, KeyedByID_delete kvs hk _⟩

/-! ## C20: GetSpeakers -/

/-- C20, the input that refutes it.  The member list holds a Music member and a member whose
metadata is the empty byte string, which the decoder of the library rejects.  GetSpeakers
does not return a list: the process ends in log.Fatal. -/
theorem getSpeakers_fatal_on_malformed_member :
    Gob.decodeNodeMeta [] = none ∧
    (GetSpeakers (Env.gobExample [gobMusicNode "a" 1, ⟨"b", "10.0.0.2", []⟩])
      (World.example (leaderWith []))).1 = .fatal ∧
    (GetSpeakers (Env.gobExample [gobMusicNode "a" 1])
      (World.example (leaderWith []))).1 = .ok [⟨"a", "a"⟩] := by
  decide

/-- C20 as amended.  When the metadata of every member decodes, GetSpeakers returns, for
every store content, one Speaker per Music member in member order: its ID is the node name
and its DisplayName is that of the SpeakerConfig stored under the name when that is not
empty, the node name otherwise.  A member of another role gives no speaker: every speaker
returned carries the name of a Music member.  The service state is untouched. -/
theorem getSpeakers_overlay (env : Env) (w : World)
    (hdec : ∀ n ∈ env.nodes.Members, (env.gob n.Meta).isSome = true) :
    ∃ speakers, GetSpeakers env w = (.ok speakers, w) ∧
      speakers = env.musicMembers.map
        (fun member => ⟨member.Name, displayNameOf w.store member.Name⟩) ∧
      speakers.length = env.musicMembers.length ∧
      speakers.map Speaker.ID = env.musicMembers.map Node.Name ∧
      (∀ s ∈ speakers, ∃ n ∈ env.nodes.Members, n.Name = s.ID ∧
        ∃ m, DecodeNodeMeta env.gob n.Meta = .ok m ∧ m.NodeType = Music) ∧
      (∀ n ∈ env.nodes.Members, ∀ m, DecodeNodeMeta env.gob n.Meta = .ok m →
        m.NodeType ≠ Music → n ∉ env.musicMembers) := by
  have hname : ∀ name : String,
      (if (w.store.m.index name).SpeakerConfig.DisplayName ≠ ""
        then (w.store.m.index name).SpeakerConfig.DisplayName else name)
        = displayNameOf w.store name := by
    intro name
    unfold displayNameOf GoMap.index
    cases w.store.m.get name <;> rfl
  have hrun : GetSpeakers env w = (.ok (env.musicMembers.map
      (fun member => ⟨member.Name, displayNameOf w.store member.Name⟩)), w) := by
    unfold GetSpeakers FilterMembers
    rw [FilterMembers_loop_eq env.gob Music _ _ hdec]
    simp only [GetSpeakers_loop_eq, List.nil_append, hname]
    rfl
  refine ⟨_, hrun, rfl, by rw [List.length_map], by rw [List.map_map]; rfl, ?_, ?_⟩
  · intro s hs
    obtain ⟨n, hn, rfl⟩ := List.mem_map.mp hs
    obtain ⟨hn1, hn2⟩ := List.mem_filter.mp hn
    refine ⟨n, hn1, rfl, ?_⟩
    unfold DecodeNodeMeta
    cases hg : env.gob n.Meta with
    | none => simp [hg] at hn2
    | some m =>
      refine ⟨m, rfl, ?_⟩
      simpa [hg] using hn2
  · intro n _ m hm hne hmem
    obtain ⟨_, hn2⟩ := List.mem_filter.mp hmem
    unfold DecodeNodeMeta at hm
    cases hg : env.gob n.Meta with
    | none => simp [hg] at hn2
    | some m2 =>
      rw [hg] at hm
      cases hm
      apply hne
      simpa [hg] using hn2

/-- Witness for C20: two Music members and a Mgmt member; the map holds a SpeakerConfig with a
display name for the first and none for the other. -/
theorem getSpeakers_overlay_witness :
    (∀ n ∈ (Env.example [musicNode "a" 1, mgmtNode "m" 1, musicNode "b" 2]).nodes.Members,
      ((Env.example [musicNode "a" 1, mgmtNode "m" 1, musicNode "b" 2]).gob n.Meta).isSome = true) ∧
    ∃ speakers, GetSpeakers (Env.example [musicNode "a" 1, mgmtNode "m" 1, musicNode "b" 2])
        (World.example (leaderWith [("a", ⟨⟨"a", "Attic"⟩, ZoneConfig.zero⟩)]))
          = (.ok speakers, World.example (leaderWith [("a", ⟨⟨"a", "Attic"⟩, ZoneConfig.zero⟩)])) ∧
      speakers = [⟨"a", "Attic"⟩, ⟨"b", "b"⟩] := by
  have h : ∀ n ∈ (Env.example [musicNode "a" 1, mgmtNode "m" 1, musicNode "b" 2]).nodes.Members,
      ((Env.example [musicNode "a" 1, mgmtNode "m" 1, musicNode "b" 2]).gob n.Meta).isSome = true := by
    decide
  obtain ⟨speakers, hrun, heq, _⟩ := getSpeakers_overlay
    (Env.example [musicNode "a" 1, mgmtNode "m" 1, musicNode "b" 2])
    (World.example (leaderWith [("a", ⟨⟨"a", "Attic"⟩, ZoneConfig.zero⟩)])) h
  refine ⟨h, speakers, hrun, ?_⟩
  rw [heq]
  decide

/-! ## C18: a zone that is not there -/

theorem lookupZone_absent (zoneID : String) (zones : List ZoneConfig)
    (h : ∀ z ∈ zones, z.ID ≠ zoneID) : lookupZone zoneID zones = ZoneConfig.zero := by
  induction zones with
  | nil => rfl
  | cons z rest ih =>
    unfold lookupZone
    rw [if_neg (h z (List.mem_cons_self _ _))]
    exact ih (fun y hy => h y (List.mem_cons_of_mem _ hy))

theorem GetZoneConfigs_read (w : World) :
    Op.read (fun ds => Res.ok ds.GetZoneConfigs) w = (.ok w.store.GetZoneConfigs, w) := rfl

/-- C18, the input that refutes it.  On a leader whose map holds only the zone z1, the zone ID
nope has no ZoneConfig; with the empty speaker list (nil or made) AddSpeakersToZone and
RemoveSpeakersFromZone return nil instead of a not-found error. -/
theorem zone_ops_empty_list_no_error :
    (∀ z ∈ patioWorld.store.GetZoneConfigs, z.ID ≠ "nope") ∧
    (AddSpeakersToZone (Env.example []) "nope" (some []) patioWorld).1 = .ok () ∧
    (AddSpeakersToZone (Env.example []) "nope" none patioWorld).1 = .ok () ∧
    (RemoveSpeakersFromZone (Env.example []) "nope" (some []) patioWorld).1 = .ok () ∧
    (RemoveSpeakersFromZone (Env.example []) "nope" none patioWorld).1 = .ok () := by
  decide

/-- C18 as amended.  On the consensus leader, for every zone ID that no persisted ZoneConfig
carries: with a speaker list that is not empty, AddSpeakersToZone and RemoveSpeakersFromZone
return the error Zone: id not found and leave the service as it was (no speaker RPC, nothing
forwarded, store and consensus log untouched); with the empty list both return nil, likewise
without touching anything. -/
theorem zone_ops_not_found (env : Env) (w : World) (r : Raft)
    (hr : w.store.raft = some r) (hl : r.state = .Leader)
    (zoneID : String) (hno : ∀ z ∈ w.store.GetZoneConfigs, z.ID ≠ zoneID)
    (speakerIDs : StrSlice) :
    (speakerIDs.elems ≠ [] →
      AddSpeakersToZone env zoneID speakerIDs w
        = (.err ("Zone: " ++ zoneID ++ " not found"), w) ∧
      RemoveSpeakersFromZone env zoneID speakerIDs w
        = (.err ("Zone: " ++ zoneID ++ " not found"), w)) ∧
    (speakerIDs.elems = [] →
      AddSpeakersToZone env zoneID speakerIDs w = (.ok (), w) ∧
      RemoveSpeakersFromZone env zoneID speakerIDs w = (.ok (), w)) := by
  have hzone := lookupZone_absent zoneID _ hno
  constructor
  · intro hne
    have hlen : ¬ speakerIDs.elems.length = 0 := by
      intro h
      exact hne (List.length_eq_zero.mp h)
    constructor
    · unfold AddSpeakersToZone
      rw [Op_bind_ok _ _ _ _ _ (AmLeader_read w r hr)]
      simp only [hl, decide_True, Bool.not_true, Bool.false_eq_true, if_false]
      rw [if_neg hlen, Op_bind_ok _ _ _ _ _ (GetZoneConfigs_read w), hzone]
      rfl
    · unfold RemoveSpeakersFromZone
      rw [Op_bind_ok _ _ _ _ _ (AmLeader_read w r hr)]
      simp only [hl, decide_True, Bool.not_true, Bool.false_eq_true, if_false]
      rw [if_neg hlen, Op_bind_ok _ _ _ _ _ (GetZoneConfigs_read w), hzone]
      rfl
  · intro he
    have hlen : speakerIDs.elems.length = 0 := by rw [he]; rfl
    constructor
    · unfold AddSpeakersToZone
      rw [Op_bind_ok _ _ _ _ _ (AmLeader_read w r hr)]
      simp only [hl, decide_True, Bool.not_true, Bool.false_eq_true, if_false]
      rw [if_pos hlen]
      rfl
    · unfold RemoveSpeakersFromZone
      rw [Op_bind_ok _ _ _ _ _ (AmLeader_read w r hr)]
      simp only [hl, decide_True, Bool.not_true, Bool.false_eq_true, if_false]
      rw [if_pos hlen]
      rfl

/-- Witness for C18 as amended: the zone ID nope on a leader that holds only z1, with one
speaker to add or remove. -/
theorem zone_ops_not_found_witness :
    (∀ z ∈ patioWorld.store.GetZoneConfigs, z.ID ≠ "nope") ∧
    AddSpeakersToZone (Env.example [musicNode "b" 2]) "nope" (some ["b"]) patioWorld
      = (.err "Zone: nope not found", patioWorld) ∧
    RemoveSpeakersFromZone (Env.example [musicNode "b" 2]) "nope" (some ["b"]) patioWorld
      = (.err "Zone: nope not found", patioWorld) :=
  ⟨by decide,
    (zone_ops_not_found (Env.example [musicNode "b" 2]) patioWorld _ rfl rfl "nope" (by decide)
      (some ["b"])).1 (by decide)⟩

/-! ## C11: DeleteZone -/

theorem lookupZone_found (zoneID : String) (zones : List ZoneConfig) (z : ZoneConfig)
    (h : lookupZone zoneID zones = z) (hid : z.ID ≠ "") : z.ID = zoneID ∧ z ∈ zones := by
  induction zones with
  | nil =>
    unfold lookupZone at h
    subst h
    exact absurd rfl hid
  | cons y rest ih =>
    unfold lookupZone at h
    by_cases hy : y.ID = zoneID
    · rw [if_pos hy] at h
      subst h
      exact ⟨hy, List.mem_cons_self _ _⟩
    · rw [if_neg hy] at h
      exact ⟨(ih h).1, List.mem_cons_of_mem _ (ih h).2⟩

theorem DeleteZone_enable_ok (env : Env) (hwf : env.WF) (hok : env.allSucceed)
    (leader : String) (ids : List String)
    (hlive : ∀ id ∈ ids, id ≠ leader → env.isLiveSpeaker id = true) (w : World) :
    DeleteZone.enable env leader ids w
      = (.ok (), { w with rpcs := (w.rpcs ++ (ids.filter (fun id => id ≠ leader)).map
          (fun id => env.okRecord id (.ToggleBroadcast true))) }) := by
  induction ids generalizing w with
  | nil =>
    simp only [DeleteZone.enable, List.filter_nil, List.map_nil, World_rpcs_append_nil]
    rfl
  | cons id rest ih =>
    have hrest : ∀ x ∈ rest, x ≠ leader → env.isLiveSpeaker x = true :=
      fun x hx => hlive x (List.mem_cons_of_mem _ hx)
    unfold DeleteZone.enable
    by_cases he : id = leader
    · rw [if_pos he, ih hrest]
      simp [he]
    · rw [if_neg he]
      rw [Op_bind_ok _ _ _ _ _
        (getSpeakerClient_ok env hwf hok id (hlive id (List.mem_cons_self _ _) he) w)]
      rw [Op_bind_ok _ _ _ _ _ (call_ok env hok id _ w)]
      rw [ih hrest]
      simp only [ne_eq, he, not_false_eq_true, decide_True, List.filter_cons_of_pos,
        List.map_cons, World_rpcs_append_append, List.singleton_append, List.append_assoc]

theorem DeleteZoneConfig_leader (ds : DistributedStore) (r : Raft) (kvs : KVs)
    (hr : ds.raft = some r) (hl : r.state = .Leader) (hm : ds.m = .mk kvs) (zoneID : String) :
    ds.DeleteZoneConfig zoneID =
      if r.commits r.log.length then
        (.ok (), { ds with
          raft := some { r with log := r.log ++ [(command.ofDelete zoneID).toLog.Data] },
          m := .mk (kvs.delete zoneID) })
      else
        (.err "timed out enqueuing operation", { ds with
          raft := some { r with log := r.log ++ [(command.ofDelete zoneID).toLog.Data] } }) := by
  have hnl : ¬ r.state ≠ .Leader := by simp [hl]
  unfold DistributedStore.DeleteZoneConfig
  rw [hr]
  simp only []
  rw [if_neg hnl]
  unfold DistributedStore.raftApply
  rw [hr]
  simp only []
  rw [if_neg hnl]
  by_cases hc : r.commits r.log.length = true
  · rw [if_pos hc, if_pos hc]
    have := Apply_toLog_delete
      { ds with raft := some { r with log := r.log ++ [(command.ofDelete zoneID).toLog.Data] } }
      kvs hm (command.ofDelete zoneID) rfl
    exact this
  · rw [if_neg hc, if_neg hc]
    rfl

theorem store_DeleteZoneConfig_leader (ds : DistributedStore) (r : Raft) (kvs : KVs)
    (hr : ds.raft = some r) (hl : r.state = .Leader) (hm : ds.m = .mk kvs) (zoneID : String) :
    ∃ e, ∀ rpcs forwarded, Op.store (fun d => d.DeleteZoneConfig zoneID) ⟨ds, rpcs, forwarded⟩
      = (.ok e, ⟨(ds.DeleteZoneConfig zoneID).2, rpcs, forwarded⟩) := by
  by_cases hc : r.commits r.log.length = true
  · refine ⟨none, ?_⟩
    intro rpcs forwarded
    unfold Op.store
    beta_reduce
    simp only
    rw [DeleteZoneConfig_leader ds r kvs hr hl hm zoneID, if_pos hc]
  · refine ⟨some "timed out enqueuing operation", ?_⟩
    intro rpcs forwarded
    unfold Op.store
    beta_reduce
    simp only
    rw [DeleteZoneConfig_leader ds r kvs hr hl hm zoneID, if_neg hc]

theorem DeleteZone_run (env : Env) (hwf : env.WF) (hok : env.allSucceed)
    (w : World) (r : Raft) (kvs : KVs)
    (hr : w.store.raft = some r) (hl : r.state = .Leader) (hm : w.store.m = .mk kvs)
    (zoneID : String) (z : ZoneConfig)
    (hz : lookupZone zoneID w.store.GetZoneConfigs = z) (hid : z.ID ≠ "")
    (hmem : ∀ id ∈ z.Speakers.elems, id ≠ z.Leader → env.isLiveSpeaker id = true)
    (hlead : z.Leader ≠ "" → env.isLiveSpeaker z.Leader = true) :
    DeleteZone env zoneID w = (.ok (), World.mk (w.store.DeleteZoneConfig z.ID).2
      (w.rpcs ++ deleteRecords env w.store z) w.forwarded) := by
  obtain ⟨e, hstore⟩ := store_DeleteZoneConfig_leader w.store r kvs hr hl hm z.ID
  unfold DeleteZone
  rw [Op_bind_ok _ _ _ _ _ (AmLeader_read w r hr)]
  simp only [hl, decide_True, Bool.not_true, Bool.false_eq_true, if_false]
  rw [Op_bind_ok _ _ _ _ _ (GetZoneConfigs_read w)]
  simp only [hz]
  rw [if_neg hid]
  rw [Op_bind_ok _ _ _ _ _ (DeleteZone_enable_ok env hwf hok z.Leader _ hmem w)]
  by_cases hne : z.Leader ≠ ""
  · rw [if_pos hne]
    rw [Op_bind_ok _ _ _ _ _ (getSpeakerClient_ok env hwf hok z.Leader (hlead hne) _)]
    rw [Op_bind_ok _ _ _ _ _ (call_ok env hok z.Leader _ _)]
    have hcfg : ∀ rpcs forwarded,
        Op.read (fun ds => ds.GetSpeakerConfig z.Leader) ⟨w.store, rpcs, forwarded⟩
          = (.ok (w.store.m.index z.Leader).SpeakerConfig, ⟨w.store, rpcs, forwarded⟩) :=
      fun _ _ => rfl
    rw [Op_bind_ok _ _ _ _ _ (hcfg _ _)]
    rw [Op_bind_ok _ _ _ _ _ (call_ok env hok z.Leader _ _)]
    rw [Op_bind_ok _ _ _ _ _ (Op_pure_apply () _)]
    rw [Op_bind_ok _ _ _ _ _ (hstore _ _)]
    simp only [deleteRecords, if_pos hne, List.append_assoc, List.singleton_append]
    rfl
  · rw [if_neg hne]
    rw [Op_bind_ok _ _ _ _ _ (Op_pure_apply () _)]
    rw [Op_bind_ok _ _ _ _ _ (hstore _ _)]
    simp only [deleteRecords, if_neg hne, List.append_nil]
    rfl

theorem zones_after_delete (kvs : KVs) (h : kvs.KeyedByID) (k : String) :
    ((kvs.delete k).filter (fun p => p.2.ZoneConfig.ID ≠ "")).map (fun p => p.2.ZoneConfig)
      = ((kvs.filter (fun p => p.2.ZoneConfig.ID ≠ "")).map
          (fun p => p.2.ZoneConfig)).filter (fun x => x.ID ≠ k) := by
  induction kvs with
  | nil => rfl
  | cons p rest ih =>
    have hrest : KVs.KeyedByID rest := fun q hq => h q (List.mem_cons_of_mem _ hq)
    have ih2 := ih hrest
    have hp := h p (List.mem_cons_self _ _)
    obtain ⟨key, v⟩ := p
    unfold KVs.delete at ih2 ⊢
    by_cases he : v.ZoneConfig.ID = ""
    · by_cases hk : key = k
      · simp only [List.filter_cons, ne_eq, hk, he, not_true_eq_false, decide_False,
          Bool.false_eq_true, if_false]
        exact ih2
      · simp only [List.filter_cons, ne_eq, hk, he, not_true_eq_false, decide_False,
          Bool.false_eq_true, if_false, not_false_eq_true, decide_True, if_true]
        exact ih2
    · have hkey : v.ZoneConfig.ID = key := by
        rcases hp with h0 | h1
        · exact absurd h0 he
        · exact h1
      by_cases hk : key = k
      · have hvk : v.ZoneConfig.ID = k := hkey.trans hk
        simp only [List.filter_cons, ne_eq, hk, he, not_true_eq_false, decide_False,
          Bool.false_eq_true, if_false, not_false_eq_true, decide_True, if_true, List.map_cons]
        simp only [hvk, not_true_eq_false, decide_False, Bool.false_eq_true, if_false]
        exact ih2
      · have hvk : ¬ v.ZoneConfig.ID = k := fun e => hk (hkey.symm.trans e)
        simp only [List.filter_cons, ne_eq, hk, he, not_true_eq_false, decide_False,
          Bool.false_eq_true, if_false, not_false_eq_true, decide_True, if_true, List.map_cons]
        simp only [hvk, not_false_eq_true, decide_True, if_true]
        rw [← ih2]

theorem remoteAfter_broadcast (b : String) (v : Bool) (l : List RpcRecord)
    (hall : ∀ r ∈ l, r.target = b → r.result = .ok 200 ∧ r.req = .ToggleBroadcast v)
    (hex : ∃ r ∈ l, r.target = b) (s : SpeakerState) :
    (remoteAfter b s l).Broadcast = v := by
  induction l generalizing s with
  | nil =>
    obtain ⟨r, hr, _⟩ := hex
    cases hr
  | cons r rest ih =>
    rw [remoteAfter_cons]
    by_cases hrest : ∃ q ∈ rest, q.target = b
    · exact ih (fun q hq => hall q (List.mem_cons_of_mem _ hq)) hrest _
    · have hnone : ∀ q ∈ rest, q.target ≠ b := fun q hq ht => hrest ⟨q, hq, ht⟩
      rw [remoteAfter_other b _ rest hnone]
      obtain ⟨q, hq, ht⟩ := hex
      rcases List.mem_cons.mp hq with rfl | hq
      · obtain ⟨h1, h2⟩ := hall q (List.mem_cons_self _ _) ht
        unfold remoteStep
        rw [h1]
        simp only [ht, if_true, h2]
        rfl
      · exact absurd ht (hnone q hq)

/-- C11, inputs that refute it.  On the leader holding the zone Patio (leader `a`, members
`a`, `b`, `c`), every connection established and every speaker RPC answered with code 200:
(1) when `c` is not in the directory, DeleteZone returns the error of the lookup of `c` after
ToggleBroadcast(true) to `b`; the leader keeps its forward targets and the zone stays in the
map; (2) when the directory also holds a member whose metadata is the empty byte string,
DeleteZone ends in log.Fatal at the first lookup, with no RPC and the zone in place; (3) when
the consensus log does not commit the entry, DeleteZone returns nil and the zone stays;
(4) when the directory holds two members named `b`, the lookup of `b` fails and nothing is
deleted; (5) when the zone sits under another key than its ID, DeleteZone returns nil and
GetZoneConfigs still lists the zone. -/
theorem deleteZone_keeps_zone :
    ((DeleteZone (Env.example [musicNode "a" 1, musicNode "b" 2]) "z1" patioWorld).1
        = .err "Could not find speaker with id: c" ∧
      (DeleteZone (Env.example [musicNode "a" 1, musicNode "b" 2]) "z1" patioWorld).2.requests
        = [("b", .ToggleBroadcast true)] ∧
      (DeleteZone (Env.example [musicNode "a" 1, musicNode "b" 2]) "z1"
        patioWorld).2.store.GetZoneConfigs = [patio]) ∧
    ((DeleteZone (Env.gobExample [gobMusicNode "a" 1, gobMusicNode "b" 2, gobMusicNode "c" 3,
        ⟨"x", "10.0.0.9", []⟩]) "z1" patioWorld).1 = .fatal ∧
      (DeleteZone (Env.gobExample [gobMusicNode "a" 1, gobMusicNode "b" 2, gobMusicNode "c" 3,
        ⟨"x", "10.0.0.9", []⟩]) "z1" patioWorld).2.requests = [] ∧
      (DeleteZone (Env.gobExample [gobMusicNode "a" 1, gobMusicNode "b" 2, gobMusicNode "c" 3,
        ⟨"x", "10.0.0.9", []⟩]) "z1" patioWorld).2.store.GetZoneConfigs = [patio]) ∧
    ((DeleteZone (Env.example [musicNode "a" 1, musicNode "b" 2, musicNode "c" 3]) "z1"
        stalledPatioWorld).1 = .ok () ∧
      (DeleteZone (Env.example [musicNode "a" 1, musicNode "b" 2, musicNode "c" 3]) "z1"
        stalledPatioWorld).2.store.GetZoneConfigs = [patio]) ∧
    ((DeleteZone (Env.example [musicNode "a" 1, musicNode "b" 2, musicNode "b" 4,
        musicNode "c" 3]) "z1" patioWorld).1 = .err "Could not find speaker with id: b" ∧
      (DeleteZone (Env.example [musicNode "a" 1, musicNode "b" 2, musicNode "b" 4,
        musicNode "c" 3]) "z1" patioWorld).2.store.GetZoneConfigs = [patio]) ∧
    ((DeleteZone (Env.example [musicNode "a" 1, musicNode "b" 2, musicNode "c" 3]) "z1"
        (World.example (leaderWith [("k", ⟨SpeakerConfig.zero, patio⟩)]))).1 = .ok () ∧
      (DeleteZone (Env.example [musicNode "a" 1, musicNode "b" 2, musicNode "c" 3]) "z1"
        (World.example (leaderWith [("k", ⟨SpeakerConfig.zero, patio⟩)]))).2.store.GetZoneConfigs
        = [patio]) := by
  refine ⟨⟨?_, ?_, ?_⟩, ⟨?_, ?_, ?_⟩, ⟨?_, ?_⟩, ⟨?_, ?_⟩, ?_, ?_⟩ <;> decide

/-- C11 as amended.  On the consensus leader, for a member list whose metadata all decode
and whose node names are unique, every connection established, every speaker RPC answered with
code 200 and the consensus log committing the entry handed to it, on a store in which every
zone sits under its own ID as key, for a zone that exists (the zone the lookup finds under the
ID) whose members other than the Leader, and whose Leader if it has one, are Music members of
the directory: DeleteZone returns nil after exactly these RPCs: ToggleBroadcast(true) to every
member of Speakers other than the Leader, then RemoveForwardToNodes(all) and a rename to the
Leader.  They leave every such member broadcasting and the Leader without forward targets.
The delete command for the key of the zone is handed to the consensus log, and the map
afterwards is the prior map without that key, so GetZoneConfigs holds no zone with that ID,
holds every other zone as before, and every other key reads as before. -/
theorem deleteZone_contract (env : Env) (hwf : env.WF) (hok : env.allSucceed)
    (w : World) (r : Raft)
    (hr : w.store.raft = some r) (hl : r.state = .Leader)
    (hc : r.commits r.log.length = true)
    (hinv : w.store.m.range.KeyedByID)
    (zoneID : String) (z : ZoneConfig)
    (hz : lookupZone zoneID w.store.GetZoneConfigs = z) (hid : z.ID ≠ "")
    (hmem : ∀ id ∈ z.Speakers.elems, id ≠ z.Leader → env.isLiveSpeaker id = true)
    (hlead : z.Leader ≠ "" → env.isLiveSpeaker z.Leader = true) :
    ∃ w1, DeleteZone env zoneID w = (.ok (), w1) ∧
      w1.rpcs = w.rpcs ++ deleteRecords env w.store z ∧
      (∀ b ∈ z.Speakers.elems, b ≠ z.Leader →
        ∀ s0, (remoteAfter b s0 (deleteRecords env w.store z)).Broadcast = true) ∧
      (z.Leader ≠ "" →
        ∀ s0, (remoteAfter z.Leader s0 (deleteRecords env w.store z)).ForwardTo = []) ∧
      w1.store.log = r.log ++ [(command.ofDelete zoneID).toLog.Data] ∧
      w1.store.m = w.store.m.delete zoneID ∧
      (∀ x ∈ w1.store.GetZoneConfigs, x.ID ≠ zoneID) ∧
      w1.store.GetZoneConfigs = w.store.GetZoneConfigs.filter (fun x => x.ID ≠ zoneID) ∧
      (∀ k, k ≠ zoneID → w1.store.m.get k = w.store.m.get k) := by
  obtain ⟨kvs, hm⟩ : ∃ kvs, w.store.m = .mk kvs := by
    cases hmm : w.store.m with
    | nil =>
      exfalso
      apply hid
      rw [← hz]
      unfold DistributedStore.GetZoneConfigs
      rw [hmm]
      rfl
    | mk kvs => exact ⟨kvs, rfl⟩
  have hinv : kvs.KeyedByID := by
    rw [hm] at hinv
    exact hinv
  have hzid : z.ID = zoneID := (lookupZone_found zoneID _ z hz hid).1
  refine ⟨_, DeleteZone_run env hwf hok w r kvs hr hl hm zoneID z hz hid hmem hlead, rfl,
    ?_, ?_, ?_, ?_⟩
  · intro b hb hne s0
    apply remoteAfter_broadcast
    · intro q hq ht
      unfold deleteRecords at hq
      rcases List.mem_append.mp hq with hq | hq
      · obtain ⟨id, _, rfl⟩ := List.mem_map.mp hq
        exact ⟨rfl, rfl⟩
      · by_cases hL : z.Leader ≠ ""
        · rw [if_pos hL] at hq
          simp only [List.mem_cons, List.mem_singleton, List.not_mem_nil, or_false] at hq
          rcases hq with rfl | rfl
          · exact absurd ht.symm hne
          · exact absurd ht.symm hne
        · rw [if_neg hL] at hq
          cases hq
    · refine ⟨env.okRecord b (.ToggleBroadcast true), ?_, rfl⟩
      unfold deleteRecords
      apply List.mem_append_left
      exact List.mem_map.mpr ⟨b, List.mem_filter.mpr ⟨hb, by simpa using hne⟩, rfl⟩
  · intro hL s0
    unfold deleteRecords
    have htog : ∀ s, remoteAfter z.Leader s
        ((z.Speakers.elems.filter (fun id => id ≠ z.Leader)).map
          (fun id => env.okRecord id (.ToggleBroadcast true))) = s := by
      intro s
      apply remoteAfter_other
      intro q hq
      obtain ⟨id, hid2, rfl⟩ := List.mem_map.mp hq
      have := (List.mem_filter.mp hid2).2
      simpa [Env.okRecord] using this
    rw [if_pos hL, remoteAfter_append, htog]
    simp [remoteAfter_cons, remoteAfter_nil, remoteStep_okRecord, SpeakerState.handle]
  · show (w.store.DeleteZoneConfig z.ID).2.log = _
    rw [hzid]
    exact DeleteZoneConfig_log w.store r hr hl zoneID
  · have hds : (w.store.DeleteZoneConfig z.ID).2.m = .mk (kvs.delete zoneID) := by
      rw [DeleteZoneConfig_leader w.store r kvs hr hl hm z.ID, if_pos hc, hzid]
    have hzones : (w.store.DeleteZoneConfig z.ID).2.GetZoneConfigs
        = w.store.GetZoneConfigs.filter (fun x => x.ID ≠ zoneID) := by
      rw [GetZoneConfigs_mk _ _ hds, GetZoneConfigs_mk _ _ hm]
      exact zones_after_delete kvs hinv zoneID
    refine ⟨?_, ?_, hzones, ?_⟩
    · show (w.store.DeleteZoneConfig z.ID).2.m = _
      rw [hds, hm]
      rfl
    · intro x hx
      have hx2 : x ∈ (w.store.DeleteZoneConfig z.ID).2.GetZoneConfigs := hx
      rw [hzones] at hx2
      simpa using (List.mem_filter.mp hx2).2
    · intro k hk
      show (w.store.DeleteZoneConfig z.ID).2.m.get k = _
      rw [hds, hm]
      unfold GoMap.get GoMap.range
      rw [KVs_get_delete, if_neg hk]

/-- Witness for C11 as amended: the zone Patio (leader a, members a, b, c) is deleted with
all three speakers live; b and c are told to broadcast, a drops its forward targets, and the map is empty
afterwards. -/
theorem deleteZone_contract_witness :
    (Env.example [musicNode "a" 1, musicNode "b" 2, musicNode "c" 3]).WF ∧
    (Env.example [musicNode "a" 1, musicNode "b" 2, musicNode "c" 3]).allSucceed ∧
    (Raft.example .Leader [⟨.Voter, "mgmt-1", "10.0.0.1:7000"⟩]).commits 0 = true ∧
    patioWorld.store.m.range.KeyedByID ∧
    lookupZone "z1" patioWorld.store.GetZoneConfigs = patio ∧
    patio.ID ≠ "" ∧
    (∀ id ∈ patio.Speakers.elems, id ≠ patio.Leader →
      (Env.example [musicNode "a" 1, musicNode "b" 2, musicNode "c" 3]).isLiveSpeaker id = true) ∧
    ∃ w1, DeleteZone (Env.example [musicNode "a" 1, musicNode "b" 2, musicNode "c" 3]) "z1"
        patioWorld = (.ok (), w1) ∧
      w1.store.m = .mk [] ∧
      (∀ x ∈ w1.store.GetZoneConfigs, x.ID ≠ "z1") ∧
      (∀ b ∈ patio.Speakers.elems, b ≠ patio.Leader → ∀ s0, (remoteAfter b s0
        (deleteRecords (Env.example [musicNode "a" 1, musicNode "b" 2, musicNode "c" 3])
          patioWorld.store patio)).Broadcast = true) :=
  ⟨⟨by decide, by decide⟩, Env_example_allSucceed _, rfl, by decide, by decide, by decide,
    by decide,
    let ⟨w1, h1, _, h3, _, _, h6, h7, _⟩ := deleteZone_contract
      (Env.example [musicNode "a" 1, musicNode "b" 2, musicNode "c" 3])
      ⟨by decide, by decide⟩ (Env_example_allSucceed _) patioWorld
      (Raft.example .Leader [⟨.Voter, "mgmt-1", "10.0.0.1:7000"⟩])
      rfl rfl rfl (by decide) "z1" patio (by decide)
      (by decide) (by decide) (by decide)
    ⟨w1, h1, h6, h7, h3⟩⟩

/-! ## C17: CreateZone stops at the first failure -/

theorem StopsAtFailure_ok {α : Type} (a : α) (new : List RpcRecord)
    (h : StopsAtFailure (Res.ok a) new) : ∀ r ∈ new, r.succeeded = true := by
  rcases h with h | ⟨_, _, _, _, _, _, h⟩
  · exact h
  · cases h

theorem StopsAtFailure_append {α : Type} (res : Res α) (new1 new2 : List RpcRecord)
    (h1 : ∀ r ∈ new1, r.succeeded = true) (h2 : StopsAtFailure res new2) :
    StopsAtFailure res (new1 ++ new2) := by
  rcases h2 with h | ⟨pre, last, e, rfl, hpre, hlast, hres⟩
  · left
    intro r hr
    rcases List.mem_append.mp hr with hr | hr
    · exact h1 r hr
    · exact h r hr
  · right
    refine ⟨new1 ++ pre, last, e, by rw [List.append_assoc], ?_, hlast, hres⟩
    intro r hr
    rcases List.mem_append.mp hr with hr | hr
    · exact h1 r hr
    · exact hpre r hr

theorem StopsAtFailure_mono {α β : Type} (res : Res α) (res2 : Res β) (new : List RpcRecord)
    (hsame : ∀ e, res = .err e → res2 = .err e) (h : StopsAtFailure res new) :
    StopsAtFailure res2 new := by
  rcases h with h | ⟨pre, last, e, hnew, hpre, hlast, hres⟩
  · exact Or.inl h
  · exact Or.inr ⟨pre, last, e, hnew, hpre, hlast, hsame e hres⟩

theorem Aborts_pure {α : Type} (a : α) : (pure a : Op α).Aborts := by
  intro w
  exact ⟨rfl, rfl, [], (List.append_nil _).symm, Or.inl (fun _ h => by cases h)⟩

theorem Aborts_bind {α β : Type} (x : Op α) (f : α → Op β) (hx : x.Aborts)
    (hf : ∀ a, (f a).Aborts) : (x >>= f).Aborts := by
  intro w
  obtain ⟨hs, hf1, new1, hr1, h1⟩ := hx w
  show ((Op.bind x f) w).2.store = w.store ∧ ((Op.bind x f) w).2.forwarded = w.forwarded ∧
    ∃ new, ((Op.bind x f) w).2.rpcs = w.rpcs ++ new ∧ StopsAtFailure ((Op.bind x f) w).1 new
  unfold Op.bind
  cases hxw : x w with
  | mk res w1 =>
    rw [hxw] at hs hf1 hr1 h1
    cases res with
    | ok a =>
      obtain ⟨hs2, hf2, new2, hr2, h2⟩ := hf a w1
      refine ⟨hs2.trans hs, hf2.trans hf1, new1 ++ new2, ?_, ?_⟩
      · show (f a w1).2.rpcs = _
        rw [hr2]
        show w1.rpcs ++ new2 = _
        rw [hr1, List.append_assoc]
      · exact StopsAtFailure_append _ _ _ (StopsAtFailure_ok a new1 h1) h2
    | err e =>
      exact ⟨hs, hf1, new1, hr1, StopsAtFailure_mono _ _ _ (fun _ h => by cases h; rfl) h1⟩
    | panic => exact ⟨hs, hf1, new1, hr1, StopsAtFailure_mono _ _ _ (fun _ h => by cases h) h1⟩
    | fatal => exact ⟨hs, hf1, new1, hr1, StopsAtFailure_mono _ _ _ (fun _ h => by cases h) h1⟩

theorem Aborts_of_frame {α : Type} (x : Op α) (h : ∀ w, (x w).2 = w) : x.Aborts := by
  intro w
  rw [h w]
  exact ⟨rfl, rfl, [], (List.append_nil _).symm, Or.inl (fun _ h => by cases h)⟩

theorem getSpeakerClient_frame (env : Env) (id : String) (w : World) :
    (getSpeakerClient env id w).2 = w := by
  unfold getSpeakerClient
  split
  · split
    · dsimp only
      split <;> rfl
    · rfl
    · rfl
    · rfl
  · rfl
  · rfl
  · rfl
  · rfl

theorem Aborts_getSpeakerClient (env : Env) (id : String) : (getSpeakerClient env id).Aborts :=
  Aborts_of_frame _ (getSpeakerClient_frame env id)

theorem Aborts_call (env : Env) (c : closableClient) (req : SpeakerReq) :
    (c.call env req).Aborts := by
  intro w
  unfold closableClient.call
  cases h : env.speakerRpc w.rpcs c.node c.address req with
  | ok code =>
    refine ⟨rfl, rfl, [⟨c.node, c.address, req, .ok code⟩], rfl, Or.inl ?_⟩
    intro r hr
    rw [List.mem_singleton.mp hr]
    rfl
  | error e =>
    exact ⟨rfl, rfl, [⟨c.node, c.address, req, .error e⟩], rfl,
      Or.inr ⟨[], _, e, rfl, (fun _ h => by cases h), rfl, rfl⟩⟩

theorem Aborts_setup (env : Env) (displayName leader : String) (ids : List String) :
    (CreateZone.setup env displayName leader ids).Aborts := by
  induction ids with
  | nil => exact Aborts_pure ()
  | cons id rest ih =>
    unfold CreateZone.setup
    apply Aborts_bind _ _ (Aborts_getSpeakerClient env id)
    intro client
    apply Aborts_bind _ _ (Aborts_call env client _)
    intro _
    split
    · exact Aborts_bind _ _ (Aborts_call env client _) (fun _ => ih)
    · apply Aborts_bind _ _ (Aborts_call env client _)
      intro _
      exact Aborts_bind _ _ (Aborts_call env client _) (fun _ => ih)

theorem Aborts_GetSpeakers (env : Env) : (GetSpeakers env).Aborts := by
  apply Aborts_of_frame
  intro w
  unfold GetSpeakers
  split <;> rfl

theorem Aborts_removeFromAllSpeakers (env : Env) (speakerIDs : List String) :
    (removeFromAllSpeakers env speakerIDs).Aborts := by
  unfold removeFromAllSpeakers
  apply Aborts_bind _ _ (Aborts_GetSpeakers env)
  intro speakers
  induction speakers with
  | nil => exact Aborts_pure ()
  | cons s rest ih =>
    unfold removeFromAllSpeakers.loop
    apply Aborts_bind _ _ (Aborts_getSpeakerClient env s.ID)
    intro client
    exact Aborts_bind _ _ (Aborts_call env client _) (fun _ => ih)

theorem AbortsBeforeWrite_of_Aborts {α : Type} (x : Op α) (h : x.Aborts) :
    x.AbortsBeforeWrite := by
  intro w
  obtain ⟨hs, hf, hn⟩ := h w
  exact ⟨hf, fun _ _ => hs, hn⟩

theorem AbortsBeforeWrite_bind {α β : Type} (x : Op α) (f : α → Op β) (hx : x.Aborts)
    (hf : ∀ a, (f a).AbortsBeforeWrite) : (x >>= f).AbortsBeforeWrite := by
  intro w
  obtain ⟨hs, hf1, new1, hr1, h1⟩ := hx w
  show ((Op.bind x f) w).2.forwarded = w.forwarded ∧
    (∀ e, ((Op.bind x f) w).1 = .err e → ((Op.bind x f) w).2.store = w.store) ∧
    ∃ new, ((Op.bind x f) w).2.rpcs = w.rpcs ++ new ∧ StopsAtFailure ((Op.bind x f) w).1 new
  unfold Op.bind
  cases hxw : x w with
  | mk res w1 =>
    rw [hxw] at hs hf1 hr1 h1
    cases res with
    | ok a =>
      obtain ⟨hf2, hs2, new2, hr2, h2⟩ := hf a w1
      refine ⟨hf2.trans hf1, fun e he => (hs2 e he).trans hs, new1 ++ new2, ?_, ?_⟩
      · show (f a w1).2.rpcs = _
        rw [hr2]
        show w1.rpcs ++ new2 = _
        rw [hr1, List.append_assoc]
      · exact StopsAtFailure_append _ _ _ (StopsAtFailure_ok a new1 h1) h2
    | err e =>
      exact ⟨hf1, fun _ _ => hs, new1, hr1,
        StopsAtFailure_mono _ _ _ (fun _ h => by cases h; rfl) h1⟩
    | panic =>
      exact ⟨hf1, fun _ _ => hs, new1, hr1, StopsAtFailure_mono _ _ _ (fun _ h => by cases h) h1⟩
    | fatal =>
      exact ⟨hf1, fun _ _ => hs, new1, hr1, StopsAtFailure_mono _ _ _ (fun _ h => by cases h) h1⟩

theorem AbortsBeforeWrite_store {α : Type} (f : DistributedStore → Res Unit × DistributedStore)
    (a : α) : (Op.store f >>= fun _ => (pure a : Op α)).AbortsBeforeWrite := by
  intro w
  show ((Op.bind (Op.store f) fun _ => Op.pure a) w).2.forwarded = w.forwarded ∧
    (∀ e, ((Op.bind (Op.store f) fun _ => Op.pure a) w).1 = .err e →
      ((Op.bind (Op.store f) fun _ => Op.pure a) w).2.store = w.store) ∧
    ∃ new, ((Op.bind (Op.store f) fun _ => Op.pure a) w).2.rpcs = w.rpcs ++ new ∧
      StopsAtFailure ((Op.bind (Op.store f) fun _ => Op.pure a) w).1 new
  unfold Op.bind Op.store Op.pure
  cases hfw : f w.store with
  | mk res ds =>
    cases res <;>
    exact ⟨rfl, (fun e he => by cases he), [], (List.append_nil _).symm,
      Or.inl (fun _ h => by cases h)⟩

theorem CreateZone_leader_aborts (env : Env) (r1 : Nat) (displayName : String)
    (speakerIDs : StrSlice) (w : World) (r : Raft) (hr : w.store.raft = some r)
    (hl : r.state = .Leader) :
    (CreateZone env r1 displayName speakerIDs w).2.forwarded = w.forwarded ∧
    (∀ e, (CreateZone env r1 displayName speakerIDs w).1 = .err e →
      (CreateZone env r1 displayName speakerIDs w).2.store = w.store) ∧
    ∃ new, (CreateZone env r1 displayName speakerIDs w).2.rpcs = w.rpcs ++ new ∧
      StopsAtFailure (CreateZone env r1 displayName speakerIDs w).1 new := by
  unfold CreateZone
  rw [Op_bind_ok _ _ _ _ _ (AmLeader_read w r hr)]
  simp only [hl, decide_True, Bool.not_true, Bool.false_eq_true, if_false]
  refine AbortsBeforeWrite_bind _ _ (Aborts_setup _ _ _ _) ?_ w
  intro _
  split
  · apply AbortsBeforeWrite_bind _ _ (Aborts_removeFromAllSpeakers _ _)
    intro _
    apply AbortsBeforeWrite_bind _ _ (Aborts_getSpeakerClient _ _)
    intro client
    apply AbortsBeforeWrite_bind _ _ (Aborts_call _ _ _)
    intro _
    apply AbortsBeforeWrite_bind _ _ (Aborts_pure _)
    intro _
    exact AbortsBeforeWrite_store _ _
  · apply AbortsBeforeWrite_bind _ _ (Aborts_pure _)
    intro _
    exact AbortsBeforeWrite_store _ _

theorem failing_record_is_last {α : Type} (res : Res α) (new : List RpcRecord)
    (h : StopsAtFailure res new) (pre post : List RpcRecord) (x : RpcRecord) (e : String)
    (hnew : new = pre ++ x :: post) (hx : x.result = .error e) : post = [] ∧ res = .err e := by
  have hfail : x.succeeded = false := by
    unfold RpcRecord.succeeded
    rw [hx]
  rcases h with h | ⟨pre2, last, e2, hnew2, hpre2, hlast, hres⟩
  · have := h x (by rw [hnew]; simp)
    rw [hfail] at this
    cases this
  · rcases List.eq_nil_or_concat post with hp | ⟨init, y, hp⟩
    · subst hp
      rw [hnew] at hnew2
      obtain ⟨_, h2⟩ := List.append_inj' hnew2 rfl
      have hxl : x = last := by
        injection h2
      subst hxl
      rw [hx] at hlast
      injection hlast with he
      subst he
      exact ⟨rfl, hres⟩
    · exfalso
      rw [hnew, hp, List.concat_eq_append, ← List.cons_append, ← List.append_assoc] at hnew2
      obtain ⟨h1, _⟩ := List.append_inj' hnew2 rfl
      have := hpre2 x (by rw [← h1]; simp)
      rw [hfail] at this
      cases this

theorem getSpeakerClient_eq (env : Env) (id : String) (w : World) :
    getSpeakerClient env id w = ((getSpeakerClient env id w).1, w) := by
  apply Prod.ext
  · rfl
  · exact getSpeakerClient_frame env id w

theorem FilterMembersByFn_loop_mem (filter : Node → Res Bool) (l acc res : List Node)
    (h : FilterMembersByFn.loop filter l acc = .ok res) :
    ∀ n ∈ res, n ∈ acc ∨ filter n = .ok true := by
  induction l generalizing acc with
  | nil =>
    unfold FilterMembersByFn.loop at h
    injection h with h
    subst h
    exact fun n hn => Or.inl hn
  | cons m rest ih =>
    unfold FilterMembersByFn.loop at h
    cases hf : filter m with
    | ok b =>
      rw [hf] at h
      cases b with
      | true =>
        intro n hn
        rcases ih _ h n hn with h1 | h1
        · rcases List.mem_append.mp h1 with h2 | h2
          · exact Or.inl h2
          · rw [List.mem_singleton.mp h2]
            exact Or.inr hf
        · exact Or.inr h1
      | false => exact ih _ h
    | err e => rw [hf] at h; cases h
    | panic => rw [hf] at h; cases h
    | fatal => rw [hf] at h; cases h

theorem getSpeakerClient_node (env : Env) (id : String) (w : World) (c : closableClient)
    (h : (getSpeakerClient env id w).1 = .ok c) : c.node = id := by
  unfold getSpeakerClient at h
  cases hfm : FilterMembersByFn (speakerFilter env.gob id) env.nodes with
  | ok l =>
    rw [hfm] at h
    match l, hfm with
    | [], _ => cases h
    | [speaker], hfm =>
      dsimp only at h
      have hmem := FilterMembersByFn_loop_mem _ _ _ _ hfm speaker (List.mem_singleton.mpr rfl)
      have hname : id = speaker.Name := by
        rcases hmem with h0 | h1
        · cases h0
        · unfold speakerFilter at h1
          cases hd : DecodeNodeMeta env.gob speaker.Meta with
          | ok m =>
            rw [hd] at h1
            simp only [Res.ok.injEq, Bool.and_eq_true, decide_eq_true_eq] at h1
            exact h1.2
          | err e => rw [hd] at h1; cases h1
          | panic => rw [hd] at h1; cases h1
          | fatal => rw [hd] at h1; cases h1
      cases hd : DecodeNodeMeta env.gob speaker.Meta with
      | ok m =>
        rw [hd] at h
        dsimp only at h
        cases hdial : env.speakerDial w.rpcs (hostPort speaker.Addr m.APIPort) with
        | none =>
          rw [hdial] at h
          injection h with h
          rw [← h, hname]
        | some e => rw [hdial] at h; cases h
      | err e => rw [hd] at h; cases h
      | panic => rw [hd] at h; cases h
      | fatal => rw [hd] at h; cases h
    | _ :: _ :: _, _ => cases h
  | err e => rw [hfm] at h; cases h
  | panic => rw [hfm] at h; cases h
  | fatal => rw [hfm] at h; cases h



theorem Op_bind_assoc {α β γ : Type} (x : Op α) (f : α → Op β) (g : β → Op γ) :
    (x >>= f) >>= g = x >>= fun a => f a >>= g := by
  funext w
  show Op.bind (Op.bind x f) g w = Op.bind x (fun a => Op.bind (f a) g) w
  unfold Op.bind
  rcases hx : x w with ⟨r, w1⟩
  cases r <;> rfl

theorem Op_pure_bind {α β : Type} (a : α) (f : α → Op β) : (pure a : Op α) >>= f = f a := by
  funext w
  rfl

theorem Op_bind_fatal {α β : Type} (x : Op α) (f : α → Op β) (w w1 : World)
    (h : x w = (.fatal, w1)) : (x >>= f) w = (.fatal, w1) := by
  show Op.bind x f w = _
  unfold Op.bind
  rw [h]

theorem Op_bind_congr {α β : Type} (x : Op α) (f g : α → Op β) (h : ∀ a, f a = g a) :
    x >>= f = x >>= g := by
  rw [funext h]

theorem runSteps_nil (env : Env) (c : Option closableClient) :
    runSteps env [] c = pure c := rfl

theorem runSteps_cons (env : Env) (s : SpeakerStep) (rest : List SpeakerStep)
    (c : Option closableClient) :
    runSteps env (s :: rest) c = s.run env c >>= fun next => runSteps env rest next := rfl

theorem runSteps_append (env : Env) (p q : List SpeakerStep) (c : Option closableClient) :
    runSteps env (p ++ q) c = runSteps env p c >>= fun c1 => runSteps env q c1 := by
  induction p generalizing c with
  | nil => rw [List.nil_append, runSteps_nil, Op_pure_bind]
  | cons s rest ih =>
    rw [List.cons_append, runSteps_cons, runSteps_cons, Op_bind_assoc]
    simp only [ih]

theorem run_lookup (env : Env) (id : String) (c : Option closableClient) :
    SpeakerStep.run env (.lookup id) c
      = getSpeakerClient env id >>= fun client => pure (some client) := rfl

theorem run_call (env : Env) (req : SpeakerReq) (client : closableClient) :
    SpeakerStep.run env (.call req) (some client)
      = client.call env req >>= fun _ => pure (some client) := rfl

/-- The first loop of CreateZone is the run of its steps. -/
theorem CreateZone_setup_steps {β : Type} (env : Env) (displayName leader : String)
    (l : List String) (c : Option closableClient) (k : Unit → Op β) :
    CreateZone.setup env displayName leader l >>= k
      = runSteps env (CreateZone.setupSteps displayName leader l) c >>= fun _ => k () := by
  induction l generalizing c with
  | nil =>
    unfold CreateZone.setup CreateZone.setupSteps
    rw [runSteps_nil, Op_pure_bind, Op_pure_bind]
  | cons id rest ih =>
    unfold CreateZone.setup CreateZone.setupSteps
    by_cases h : id ≠ leader
    · simp only [if_pos h, List.cons_append, List.nil_append, runSteps_cons, run_lookup,
        Op_bind_assoc, Op_pure_bind, run_call]
      exact Op_bind_congr _ _ _ fun a => Op_bind_congr _ _ _ fun _ =>
        Op_bind_congr _ _ _ fun _ => ih (some a)
    · simp only [if_neg h, List.cons_append, List.nil_append, runSteps_cons, run_lookup,
        Op_bind_assoc, Op_pure_bind, run_call]
      exact Op_bind_congr _ _ _ fun a => Op_bind_congr _ _ _ fun _ =>
        Op_bind_congr _ _ _ fun _ => Op_bind_congr _ _ _ fun _ => ih (some a)

theorem removeFromAllSpeakers_loop_steps {β : Type} (env : Env) (speakerIDs : List String)
    (speakers : List Speaker) (c : Option closableClient) (k : Unit → Op β) :
    removeFromAllSpeakers.loop env speakerIDs speakers >>= k
      = runSteps env (removeFromAllSpeakers.steps speakerIDs (speakers.map Speaker.ID)) c
          >>= fun _ => k () := by
  induction speakers generalizing c with
  | nil =>
    unfold removeFromAllSpeakers.loop
    rw [List.map_nil]
    unfold removeFromAllSpeakers.steps
    rw [runSteps_nil, Op_pure_bind, Op_pure_bind]
  | cons s rest ih =>
    unfold removeFromAllSpeakers.loop
    rw [List.map_cons]
    unfold removeFromAllSpeakers.steps
    simp only [List.cons_append, List.nil_append, runSteps_cons, run_lookup,
        Op_bind_assoc, Op_pure_bind, run_call]
    exact Op_bind_congr _ _ _ fun a => Op_bind_congr _ _ _ fun _ => ih (some a)

theorem GetSpeakers_of_decodable (env : Env)
    (hdec : ∀ n ∈ env.nodes.Members, (env.gob n.Meta).isSome = true) (w : World) :
    ∃ speakers, GetSpeakers env w = (.ok speakers, w) ∧
      speakers.map Speaker.ID = env.musicNames := by
  refine ⟨(env.nodes.Members.filter
      (fun n => decide ((env.gob n.Meta).map NodeMeta.NodeType = some Music))).map
      (fun member => ⟨member.Name,
        if (w.store.m.index member.Name).SpeakerConfig.DisplayName ≠ ""
        then (w.store.m.index member.Name).SpeakerConfig.DisplayName else member.Name⟩), ?_, ?_⟩
  · unfold GetSpeakers FilterMembers
    rw [FilterMembers_loop_eq env.gob Music _ _ hdec]
    simp only [GetSpeakers_loop_eq, List.nil_append]
  · unfold Env.musicNames
    rw [List.map_map]
    rfl

theorem removeFromAllSpeakers_steps {β : Type} (env : Env)
    (hdec : ∀ n ∈ env.nodes.Members, (env.gob n.Meta).isSome = true)
    (speakerIDs : List String) (c : Option closableClient) (k : Unit → Op β) :
    removeFromAllSpeakers env speakerIDs >>= k
      = runSteps env (removeFromAllSpeakers.steps speakerIDs env.musicNames) c
          >>= fun _ => k () := by
  funext w
  obtain ⟨speakers, hs, hids⟩ := GetSpeakers_of_decodable env hdec w
  unfold removeFromAllSpeakers
  rw [Op_bind_assoc, Op_bind_ok _ _ _ _ _ hs,
    removeFromAllSpeakers_loop_steps env speakerIDs speakers c k, hids]

theorem speakerFilter_loop_fatal (gob : GobDecoder) (id : String) (l acc : List Node)
    (h : ∃ n ∈ l, gob n.Meta = none) :
    FilterMembersByFn.loop (speakerFilter gob id) l acc = .fatal := by
  induction l generalizing acc with
  | nil =>
    obtain ⟨n, hn, _⟩ := h
    cases hn
  | cons x rest ih =>
    unfold FilterMembersByFn.loop
    cases hg : gob x.Meta with
    | none => simp only [speakerFilter, DecodeNodeMeta, hg]
    | some m =>
      have hrest : ∃ n ∈ rest, gob n.Meta = none := by
        obtain ⟨n, hn, hnone⟩ := h
        rcases List.mem_cons.mp hn with rfl | hn
        · rw [hg] at hnone; cases hnone
        · exact ⟨n, hn, hnone⟩
      simp only [speakerFilter, DecodeNodeMeta, hg]
      split
      · exact ih _ hrest
      · exact ih _ hrest
      · rename_i h1; cases h1
      · rename_i h1; cases h1
      · rename_i h1; cases h1

theorem getSpeakerClient_fatal (env : Env)
    (hdec : ¬ ∀ n ∈ env.nodes.Members, (env.gob n.Meta).isSome = true) (id : String)
    (w : World) : getSpeakerClient env id w = (.fatal, w) := by
  have hex : ∃ n ∈ env.nodes.Members, env.gob n.Meta = none := by
    by_contra hne
    apply hdec
    intro n hn
    cases hg : env.gob n.Meta with
    | none => exact absurd ⟨n, hn, hg⟩ hne
    | some m => rfl
  unfold getSpeakerClient FilterMembersByFn
  rw [speakerFilter_loop_fatal env.gob id _ _ hex]

theorem CreateZone_leader_steps (env : Env) (r1 : Nat) (displayName : String)
    (speakerIDs : StrSlice) (w : World) (r : Raft) (hr : w.store.raft = some r)
    (hl : r.state = .Leader) :
    CreateZone env r1 displayName speakerIDs w
      = (runSteps env (CreateZone.steps env displayName speakerIDs.elems) none >>= fun _ =>
          Op.store (fun ds => ds.SaveZoneConfig
            ⟨toString r1, displayName, speakerIDs.elems.headD "", speakerIDs⟩) >>= fun _ =>
          pure (toString r1)) w := by
  unfold CreateZone
  rw [Op_bind_ok _ _ _ _ _ (AmLeader_read w r hr)]
  simp only [hl, decide_True, Bool.not_true, Bool.false_eq_true, if_false]
  cases hids : speakerIDs.elems with
  | nil => rfl
  | cons first rest =>
    simp only [List.length_cons, gt_iff_lt, Nat.zero_lt_succ, if_true, List.headD_cons]
    refine congrFun ?_ w
    by_cases hdec : ∀ n ∈ env.nodes.Members, (env.gob n.Meta).isSome = true
    · rw [CreateZone_setup_steps env displayName first (first :: rest) none]
      unfold CreateZone.steps
      simp only [List.length_cons, gt_iff_lt, Nat.zero_lt_succ, if_true, runSteps_append,
        Op_bind_assoc]
      refine Op_bind_congr _ _ _ fun c1 => ?_
      rw [removeFromAllSpeakers_steps env hdec (first :: rest) c1]
      refine Op_bind_congr _ _ _ fun c2 => ?_
      simp only [runSteps_cons, runSteps_nil, run_lookup, run_call, Op_bind_assoc, Op_pure_bind]
    · rw [CreateZone_setup_steps env displayName first (first :: rest) none]
      unfold CreateZone.steps CreateZone.setupSteps
      simp only [ne_eq, not_true_eq_false, if_false, List.cons_append, List.nil_append,
        runSteps_cons, run_lookup, Op_bind_assoc]
      funext w2
      rw [Op_bind_fatal _ _ _ _ (getSpeakerClient_fatal env hdec first w2),
        Op_bind_fatal _ _ _ _ (getSpeakerClient_fatal env hdec first w2)]

theorem Aborts_step (env : Env) (s : SpeakerStep) (c : Option closableClient) :
    (s.run env c).Aborts := by
  cases s with
  | lookup id =>
    rw [run_lookup]
    exact Aborts_bind _ _ (Aborts_getSpeakerClient env id) (fun _ => Aborts_pure _)
  | call req =>
    cases c with
    | none =>
      exact Aborts_of_frame _ (fun _ => rfl)
    | some client =>
      rw [run_call]
      exact Aborts_bind _ _ (Aborts_call env client req) (fun _ => Aborts_pure _)

theorem Aborts_runSteps (env : Env) (p : List SpeakerStep) (c : Option closableClient) :
    (runSteps env p c).Aborts := by
  induction p generalizing c with
  | nil => exact Aborts_pure _
  | cons s rest ih =>
    rw [runSteps_cons]
    exact Aborts_bind _ _ (Aborts_step env s c) (fun c1 => ih c1)

/-- A step that returns an error: a lookup leaves the service as it was, a call has put its
failed RPC on record and nothing else. -/
theorem step_error (env : Env) (s : SpeakerStep) (c : Option closableClient) (w1 w2 : World)
    (e : String) (h : s.run env c w1 = (.err e, w2)) :
    w2.store = w1.store ∧ w2.forwarded = w1.forwarded ∧
    (∀ id, s = .lookup id → (getSpeakerClient env id w1).1 = .err e ∧ w2 = w1) ∧
    (∀ req, s = .call req → ∃ x, w2.rpcs = w1.rpcs ++ [x] ∧ x.req = req ∧
      x.result = .error e) := by
  cases s with
  | lookup id =>
    rw [run_lookup] at h
    have h2 : Op.bind (getSpeakerClient env id) (fun client => pure (some client)) w1
        = (.err e, w2) := h
    unfold Op.bind at h2
    rw [getSpeakerClient_eq env id w1] at h2
    cases hres : (getSpeakerClient env id w1).1 with
    | ok client => rw [hres] at h2; cases h2
    | err e1 =>
      rw [hres] at h2
      injection h2 with ha hb
      injection ha with ha
      subst ha
      subst hb
      exact ⟨rfl, rfl, (fun _ hq => by injection hq with hq; subst hq; exact ⟨hres, rfl⟩),
        (fun _ hq => by cases hq)⟩
    | panic => rw [hres] at h2; cases h2
    | fatal => rw [hres] at h2; cases h2
  | call req =>
    cases c with
    | none => cases h
    | some client =>
      rw [run_call] at h
      have h2 : Op.bind (client.call env req) (fun _ => pure (some client)) w1
          = (.err e, w2) := h
      unfold Op.bind closableClient.call at h2
      cases hres : env.speakerRpc w1.rpcs client.node client.address req with
      | ok code => simp only [hres] at h2; cases h2
      | error e1 =>
        simp only [hres] at h2
        injection h2 with ha hb
        injection ha with ha
        subst ha
        subst hb
        exact ⟨rfl, rfl, (fun _ hq => by cases hq),
          (fun _ hq => by injection hq with hq; subst hq; exact ⟨_, rfl, rfl, rfl⟩)⟩

theorem runSteps_stop (env : Env) (pre post : List SpeakerStep) (s : SpeakerStep)
    (c0 c : Option closableClient) (w w1 w2 : World) (e : String)
    (hpre : runSteps env pre c0 w = (.ok c, w1)) (hs : s.run env c w1 = (.err e, w2)) :
    runSteps env (pre ++ s :: post) c0 w = (.err e, w2) := by
  rw [runSteps_append, Op_bind_ok _ _ _ _ _ hpre, runSteps_cons, Op_bind_err _ _ _ _ _ hs]

/-- C17.  On the consensus leader, for every speaker list and whatever the outcomes of lookups
and RPCs.  A speaker RPC that fails is the last RPC CreateZone issues, and CreateZone returns
its error.  Whenever CreateZone returns an error the store is as it was, so no ZoneConfig was
handed to the consensus log.  The run of CreateZone is the run of its steps (the reset of every
listed speaker, the removal at every Music member, the lookup of the zone leader and its
ForwardToNodes) followed by the write of the ZoneConfig.  And at every step that fails after
the steps before it went through, be it a lookup or an RPC, in any of the three phases:
CreateZone returns the error of that step, the store and what was forwarded are as before, the
RPCs on record are those of the steps before, all answered, followed by the failed RPC when
the step is an RPC and by nothing when it is a lookup.  An error return carries no zone ID
here; the source returns the empty string with it. -/
theorem createZone_aborts_on_failure (env : Env) (r1 : Nat) (displayName : String)
    (speakerIDs : StrSlice) (w : World) (r : Raft)
    (hr : w.store.raft = some r) (hl : r.state = .Leader) :
    (∃ new, (CreateZone env r1 displayName speakerIDs w).2.rpcs = w.rpcs ++ new ∧
      ∀ pre x post e, new = pre ++ x :: post → x.result = .error e →
        post = [] ∧ (CreateZone env r1 displayName speakerIDs w).1 = .err e ∧
        (CreateZone env r1 displayName speakerIDs w).2.store = w.store) ∧
    (∀ e, (CreateZone env r1 displayName speakerIDs w).1 = .err e →
      (CreateZone env r1 displayName speakerIDs w).2.store = w.store ∧
      (CreateZone env r1 displayName speakerIDs w).2.forwarded = w.forwarded) ∧
    CreateZone env r1 displayName speakerIDs w
      = (runSteps env (CreateZone.steps env displayName speakerIDs.elems) none >>= fun _ =>
          Op.store (fun ds => ds.SaveZoneConfig
            ⟨toString r1, displayName, speakerIDs.elems.headD "", speakerIDs⟩) >>= fun _ =>
          pure (toString r1)) w ∧
    (∀ pre s post c w1 e w2,
      CreateZone.steps env displayName speakerIDs.elems = pre ++ s :: post →
      runSteps env pre none w = (.ok c, w1) → s.run env c w1 = (.err e, w2) →
      CreateZone env r1 displayName speakerIDs w = (.err e, w2) ∧
      w2.store = w.store ∧ w2.forwarded = w.forwarded ∧
      (∃ new, w1.rpcs = w.rpcs ++ new ∧ ∀ x ∈ new, x.succeeded = true) ∧
      (∀ id, s = .lookup id → (getSpeakerClient env id w1).1 = .err e ∧ w2 = w1) ∧
      (∀ req, s = .call req →
        ∃ x, w2.rpcs = w1.rpcs ++ [x] ∧ x.req = req ∧ x.result = .error e)) := by
  obtain ⟨hfw, hst, new, hnew, hstop⟩ :=
    CreateZone_leader_aborts env r1 displayName speakerIDs w r hr hl
  have heq := CreateZone_leader_steps env r1 displayName speakerIDs w r hr hl
  refine ⟨⟨new, hnew, ?_⟩, fun e he => ⟨hst e he, hfw⟩, heq, ?_⟩
  · intro pre x post e hsplit hx
    obtain ⟨h1, h2⟩ := failing_record_is_last _ new hstop pre post x e hsplit hx
    exact ⟨h1, h2, hst e h2⟩
  · intro pre s post c w1 e w2 hsplit hpre hs
    have hrun : CreateZone env r1 displayName speakerIDs w = (.err e, w2) := by
      rw [heq, hsplit]
      exact Op_bind_err _ _ _ _ _ (runSteps_stop env pre post s none c w w1 w2 e hpre hs)
    obtain ⟨hs1, hs2, hs3, hs4⟩ := step_error env s c w1 w2 e hs
    obtain ⟨hp1, hp2, new1, hp3, hp4⟩ := Aborts_runSteps env pre none w
    rw [hpre] at hp1 hp2 hp3 hp4
    exact ⟨hrun, hs1.trans hp1, hs2.trans hp2,
      ⟨new1, hp3, StopsAtFailure_ok _ _ hp4⟩, hs3, hs4⟩

/-- Witness for C17: speakers a and b are live, and no connection can be opened once seven RPCs
have been issued, so that the last lookup of the run, the one of the zone leader after the
removal at every speaker, is the step that fails.  CreateZone returns its error after the
seven RPCs of the steps before it, issues no ForwardToNodes and leaves the store as it
was.  Likewise when the further Music member d cannot be reached: the lookup of d in the
removal at every speaker fails after the removal at a and b. -/
theorem createZone_aborts_on_failure_witness :
    (World.example (leaderWith [])).store.raft
      = some (Raft.example .Leader [⟨.Voter, "mgmt-1", "10.0.0.1:7000"⟩]) ∧
    (Raft.example .Leader [⟨.Voter, "mgmt-1", "10.0.0.1:7000"⟩]).state = .Leader ∧
    CreateZone.steps (Env.dialFailsAfter [musicNode "a" 1, musicNode "b" 2] 7) "Patio" ["a", "b"]
      = [.lookup "a", .call (.RemoveForwardToNodes [] true), .call (.ChangeServiceName "Patio"),
          .call (.ToggleBroadcast true),
          .lookup "b", .call (.RemoveForwardToNodes [] true), .call (.ToggleBroadcast false),
          .lookup "a", .call (.RemoveForwardToNodes ["a", "b"] false),
          .lookup "b", .call (.RemoveForwardToNodes ["a", "b"] false)]
        ++ .lookup "a" :: [.call (.ForwardToNodes ["b"])] ∧
    (CreateZone (Env.dialFailsAfter [musicNode "a" 1, musicNode "b" 2] 7) 7 "Patio"
      (some ["a", "b"]) (World.example (leaderWith []))).1 = .err "connection refused" ∧
    (CreateZone (Env.dialFailsAfter [musicNode "a" 1, musicNode "b" 2] 7) 7 "Patio"
      (some ["a", "b"]) (World.example (leaderWith []))).2.requests
      = [("a", .RemoveForwardToNodes [] true), ("a", .ChangeServiceName "Patio"),
         ("a", .ToggleBroadcast true), ("b", .RemoveForwardToNodes [] true),
         ("b", .ToggleBroadcast false), ("a", .RemoveForwardToNodes ["a", "b"] false),
         ("b", .RemoveForwardToNodes ["a", "b"] false)] ∧
    (CreateZone (Env.dialFailsAfter [musicNode "a" 1, musicNode "b" 2] 7) 7 "Patio"
      (some ["a", "b"]) (World.example (leaderWith []))).2.store
      = (World.example (leaderWith [])).store ∧
    (CreateZone (Env.unreachable [musicNode "a" 1, musicNode "b" 2, musicNode "d" 4]
      "10.0.0.4:6000") 7 "Patio" (some ["a", "b"]) (World.example (leaderWith []))).1
      = .err "connection refused" ∧
    (CreateZone (Env.unreachable [musicNode "a" 1, musicNode "b" 2, musicNode "d" 4]
      "10.0.0.4:6000") 7 "Patio" (some ["a", "b"]) (World.example (leaderWith []))).2.requests
      = [("a", .RemoveForwardToNodes [] true), ("a", .ChangeServiceName "Patio"),
         ("a", .ToggleBroadcast true), ("b", .RemoveForwardToNodes [] true),
         ("b", .ToggleBroadcast false), ("a", .RemoveForwardToNodes ["a", "b"] false),
         ("b", .RemoveForwardToNodes ["a", "b"] false)] :=
  have h := (createZone_aborts_on_failure
      (Env.dialFailsAfter [musicNode "a" 1, musicNode "b" 2] 7) 7 "Patio" (some ["a", "b"])
      (World.example (leaderWith [])) _ rfl rfl).2.2.2
    [.lookup "a", .call (.RemoveForwardToNodes [] true), .call (.ChangeServiceName "Patio"),
      .call (.ToggleBroadcast true),
      .lookup "b", .call (.RemoveForwardToNodes [] true), .call (.ToggleBroadcast false),
      .lookup "a", .call (.RemoveForwardToNodes ["a", "b"] false),
      .lookup "b", .call (.RemoveForwardToNodes ["a", "b"] false)]
    (.lookup "a") [.call (.ForwardToNodes ["b"])] (some ⟨"b", "10.0.0.2:6000"⟩) _
    "connection refused" _ (by decide) rfl rfl
  ⟨rfl, rfl, by decide, congrArg Prod.fst h.1, by rw [h.1]; decide, h.1 ▸ h.2.1, by decide,
    by decide⟩


/-! ## C19: HandleMusicNodeJoin for a zone leader -/

theorem HandleMusicNodeJoin_scan_led (name : String) (zones : List ZoneConfig) (z : ZoneConfig)
    (h : HandleMusicNodeLeave.findLed name zones = some z) (s : JoinScan) :
    HandleMusicNodeJoin.scan name zones s = ⟨z, true, true⟩ := by
  induction zones generalizing s with
  | nil => cases h
  | cons y rest ih =>
    unfold HandleMusicNodeLeave.findLed at h
    unfold HandleMusicNodeJoin.scan
    by_cases hy : y.Leader = name
    · rw [if_pos hy] at h
      injection h with h
      rw [if_pos hy, h]
    · rw [if_neg hy] at h
      rw [if_neg hy]
      exact ih h _

theorem findLed_some (name : String) (zones : List ZoneConfig) (z : ZoneConfig)
    (h : HandleMusicNodeLeave.findLed name zones = some z) : z ∈ zones ∧ z.Leader = name := by
  induction zones with
  | nil => cases h
  | cons y rest ih =>
    unfold HandleMusicNodeLeave.findLed at h
    by_cases hy : y.Leader = name
    · rw [if_pos hy] at h
      injection h with h
      subst h
      exact ⟨List.mem_cons_self _ _, hy⟩
    · rw [if_neg hy] at h
      exact ⟨List.mem_cons_of_mem _ (ih h).1, (ih h).2⟩

theorem findLed_of_mem (name : String) (zones : List ZoneConfig) (z : ZoneConfig)
    (hz : z ∈ zones) (hl : z.Leader = name) :
    ∃ y, HandleMusicNodeLeave.findLed name zones = some y := by
  induction zones with
  | nil => cases hz
  | cons y rest ih =>
    unfold HandleMusicNodeLeave.findLed
    by_cases hy : y.Leader = name
    · exact ⟨y, by rw [if_pos hy]⟩
    · rw [if_neg hy]
      rcases List.mem_cons.mp hz with rfl | hz
      · exact absurd hl hy
      · exact ih hz

theorem HandleMusicNodeJoin_ids_eq (name : String) (l : List Node) (ids : List String) :
    HandleMusicNodeJoin.ids name l ids
      = ids ++ (l.filter (fun n => n.Name ≠ name)).map Node.Name := by
  induction l generalizing ids with
  | nil => simp [HandleMusicNodeJoin.ids]
  | cons a rest ih =>
    unfold HandleMusicNodeJoin.ids
    by_cases h : a.Name = name
    · simp [h, ih]
    · simp [h, ih]

theorem Op_ignoreError_ok (x : Op Unit) (w w1 : World) (h : x w = (.ok (), w1)) :
    Op.ignoreError x w = (.ok (), w1) := by
  unfold Op.ignoreError
  rw [h]

theorem HandleMusicNodeJoin_run_led (env : Env) (hwf : env.WF) (hok : env.allSucceed)
    (w : World) (r : Raft) (hr : w.store.raft = some r) (hl : r.state = .Leader)
    (node : Node) (z : ZoneConfig)
    (hz : HandleMusicNodeLeave.findLed node.Name w.store.GetZoneConfigs = some z)
    (hlive : env.isLiveSpeaker node.Name = true) :
    HandleMusicNodeJoin env node w = (.ok (), World.mk w.store
      (w.rpcs ++ (removeRecords env [node.Name] ++
        [env.okRecord node.Name (.ForwardToNodes (env.activeOthers z node.Name)),
         env.okRecord node.Name (.ToggleBroadcast true),
         env.okRecord node.Name (.ChangeServiceName z.DisplayName)]))
      w.forwarded) := by
  have hfun : (fun n => zoneMemberFilter z.Speakers.elems n)
      = (fun n => decide (n.Name ∈ z.Speakers.elems)) := by
    funext n
    exact zoneMemberFilter_eq _ n
  have hact : ∀ w2 : World, Op.lift (FilterMembersByFn
      (fun n => .ok (zoneMemberFilter z.Speakers.elems n)) env.nodes) w2
        = (.ok (env.nodes.Members.filter (fun n => decide (n.Name ∈ z.Speakers.elems))), w2) := by
    intro w2
    unfold Op.lift FilterMembersByFn
    rw [FilterMembersByFn_loop_eq (fun n => zoneMemberFilter z.Speakers.elems n), hfun]
    rfl
  unfold HandleMusicNodeJoin Op.logged
  rw [Op_bind_ok _ _ _ _ _ (AmLeader_read w r hr)]
  simp only [hl, decide_True, Bool.not_true, Bool.false_eq_true, if_false]
  rw [Op_bind_ok _ _ _ _ _ (GetZoneConfigs_read w)]
  simp only [HandleMusicNodeJoin_scan_led _ _ _ hz, Bool.not_true, Bool.false_eq_true, if_false,
    if_true]
  rw [Op_bind_ok _ _ _ _ _
    (Op_ignoreError_ok _ _ _ (removeFromAllSpeakers_ok env hwf hok [node.Name] w))]
  rw [Op_bind_ok _ _ _ _ _ (getSpeakerClient_ok env hwf hok node.Name hlive _)]
  rw [Op_bind_ok _ _ _ _ _ (hact _)]
  rw [HandleMusicNodeJoin_ids_eq, List.nil_append]
  rw [Op_bind_ok _ _ _ _ _ (call_ok env hok node.Name _ _)]
  rw [Op_bind_ok _ _ _ _ _ (call_ok env hok node.Name _ _)]
  rw [Op_bind_ok _ _ _ _ _ (call_ok env hok node.Name _ _)]
  simp only [List.append_assoc, List.singleton_append, Env.activeOthers]
  rfl

theorem KeepsStore_of_Aborts {α : Type} (x : Op α) (h : x.Aborts) : x.KeepsStore :=
  fun w => ⟨(h w).1, (h w).2.1⟩

theorem KeepsStore_pure {α : Type} (a : α) : (pure a : Op α).KeepsStore :=
  fun _ => ⟨rfl, rfl⟩

theorem KeepsStore_bind {α β : Type} (x : Op α) (f : α → Op β) (hx : x.KeepsStore)
    (hf : ∀ a, (f a).KeepsStore) : (x >>= f).KeepsStore := by
  intro w
  obtain ⟨h1, h2⟩ := hx w
  show ((Op.bind x f) w).2.store = w.store ∧ ((Op.bind x f) w).2.forwarded = w.forwarded
  unfold Op.bind
  cases hxw : x w with
  | mk res w1 =>
    rw [hxw] at h1 h2
    cases res with
    | ok a => exact ⟨((hf a w1).1).trans h1, ((hf a w1).2).trans h2⟩
    | err e => exact ⟨h1, h2⟩
    | panic => exact ⟨h1, h2⟩
    | fatal => exact ⟨h1, h2⟩

theorem KeepsStore_ignoreError (x : Op Unit) (hx : x.KeepsStore) :
    (Op.ignoreError x).KeepsStore := by
  intro w
  obtain ⟨h1, h2⟩ := hx w
  unfold Op.ignoreError
  cases hxw : x w with
  | mk res w1 =>
    rw [hxw] at h1 h2
    cases res <;> exact ⟨h1, h2⟩

theorem KeepsStore_attempt {α : Type} (x : Op α) (hx : x.KeepsStore) :
    (Op.attempt x).KeepsStore := by
  intro w
  obtain ⟨h1, h2⟩ := hx w
  unfold Op.attempt
  cases hxw : x w with
  | mk res w1 =>
    rw [hxw] at h1 h2
    cases res <;> exact ⟨h1, h2⟩

theorem KeepsStore_logged (x : Op Unit) (hx : x.KeepsStore) : (Op.logged x).KeepsStore := by
  intro w
  obtain ⟨h1, h2⟩ := hx w
  unfold Op.logged
  cases hxw : x w with
  | mk res w1 =>
    rw [hxw] at h1 h2
    cases res <;> exact ⟨h1, h2⟩

theorem KeepsStore_read {α : Type} (f : DistributedStore → Res α) : (Op.read f).KeepsStore :=
  fun _ => ⟨rfl, rfl⟩

theorem KeepsStore_lift {α : Type} (r : Res α) : (Op.lift r).KeepsStore :=
  fun _ => ⟨rfl, rfl⟩

theorem HandleMusicNodeJoin_keeps_store (env : Env) (node : Node) :
    (HandleMusicNodeJoin env node).KeepsStore := by
  unfold HandleMusicNodeJoin
  apply KeepsStore_logged
  apply KeepsStore_bind _ _ (KeepsStore_read _)
  intro amLeader
  split
  · exact KeepsStore_pure ()
  · apply KeepsStore_bind _ _ (KeepsStore_read _)
    intro zones
    dsimp only
    split
    · exact KeepsStore_pure ()
    · apply KeepsStore_bind _ _
        (KeepsStore_ignoreError _ (KeepsStore_of_Aborts _ (Aborts_removeFromAllSpeakers _ _)))
      intro _
      split
      · apply KeepsStore_bind _ _ (KeepsStore_of_Aborts _ (Aborts_getSpeakerClient _ _))
        intro client
        apply KeepsStore_bind _ _ (KeepsStore_lift _)
        intro active
        apply KeepsStore_bind _ _ (KeepsStore_of_Aborts _ (Aborts_call _ _ _))
        intro _
        apply KeepsStore_bind _ _ (KeepsStore_of_Aborts _ (Aborts_call _ _ _))
        intro _
        apply KeepsStore_bind _ _ (KeepsStore_of_Aborts _ (Aborts_call _ _ _))
        intro _
        exact KeepsStore_pure ()
      · apply KeepsStore_bind _ _
          (KeepsStore_attempt _ (KeepsStore_of_Aborts _ (Aborts_getSpeakerClient _ _)))
        intro leaderClient
        have htail : (do
            let client ← getSpeakerClient env node.Name
            let _ ← client.call env (.ToggleBroadcast false)
            pure () : Op Unit).KeepsStore := by
          apply KeepsStore_bind _ _ (KeepsStore_of_Aborts _ (Aborts_getSpeakerClient _ _))
          intro client
          apply KeepsStore_bind _ _ (KeepsStore_of_Aborts _ (Aborts_call _ _ _))
          intro _
          exact KeepsStore_pure ()
        cases leaderClient with
        | none => exact KeepsStore_bind _ _ (KeepsStore_pure _) (fun _ => htail)
        | some client =>
          apply KeepsStore_bind _ _ (KeepsStore_of_Aborts _ (Aborts_call _ _ _))
          intro _
          exact KeepsStore_bind _ _ (KeepsStore_pure _) (fun _ => htail)

theorem mem_addTargets (t l : List String) (x : String) (h : x ∈ t ∨ x ∈ l) :
    x ∈ addTargets t l := by
  induction l generalizing t with
  | nil =>
    rcases h with h | h
    · exact h
    · cases h
  | cons y rest ih =>
    unfold addTargets
    by_cases hy : y ∈ t
    · rw [if_pos hy]
      apply ih
      rcases h with h | h
      · exact Or.inl h
      · rcases List.mem_cons.mp h with rfl | h
        · exact Or.inl hy
        · exact Or.inr h
    · rw [if_neg hy]
      apply ih
      rcases h with h | h
      · exact Or.inl (List.mem_append_left _ h)
      · rcases List.mem_cons.mp h with rfl | h
        · exact Or.inl (List.mem_append_right _ (List.mem_singleton.mpr rfl))
        · exact Or.inr h

/-- C19, inputs that refute it.  On the leader holding the zone Patio led by `a`, the node
`a` rejoins.  (1) When the RPCs to `a` fail in transport, the handler returns after the failed
ForwardToNodes: no ToggleBroadcast and no ChangeServiceName is issued.  (2) When the directory
holds a member whose metadata is the empty byte string, the handler ends in log.Fatal before
any RPC.  (3) When `a` is not in the directory, or (4) the directory holds two members named
`a`, the lookup of `a` fails and no RPC goes to `a`.  (5) When `a` leads two zones, the zone
the scan meets first decides: with Patio first the name set is Patio, with Porch first it is
Porch. -/
theorem join_stops_before_restoring :
    ((HandleMusicNodeJoin (Env.failing [musicNode "a" 1, musicNode "b" 2, musicNode "c" 3] "a")
        nodeA patioWorld).1 = .ok () ∧
      (HandleMusicNodeJoin (Env.failing [musicNode "a" 1, musicNode "b" 2, musicNode "c" 3] "a")
        nodeA patioWorld).2.requests
        = [("a", .RemoveForwardToNodes ["a"] false), ("a", .ForwardToNodes ["b", "c"])]) ∧
    ((HandleMusicNodeJoin (Env.gobExample [gobMusicNode "a" 1, gobMusicNode "b" 2,
        ⟨"x", "10.0.0.9", []⟩]) (gobMusicNode "a" 1) patioWorld).1 = .fatal ∧
      (HandleMusicNodeJoin (Env.gobExample [gobMusicNode "a" 1, gobMusicNode "b" 2,
        ⟨"x", "10.0.0.9", []⟩]) (gobMusicNode "a" 1) patioWorld).2.requests = []) ∧
    (HandleMusicNodeJoin (Env.example [musicNode "b" 2, musicNode "c" 3]) nodeA
        patioWorld).2.requests
      = [("b", .RemoveForwardToNodes ["a"] false), ("c", .RemoveForwardToNodes ["a"] false)] ∧
    (HandleMusicNodeJoin (Env.example [musicNode "a" 1, musicNode "a" 4, musicNode "b" 2]) nodeA
        patioWorld).2.requests = [] ∧
    ((HandleMusicNodeJoin (Env.example [musicNode "a" 1, musicNode "b" 2]) nodeA
        (World.example (leaderWith [("z1", ⟨SpeakerConfig.zero, patio⟩),
          ("z2", ⟨SpeakerConfig.zero, ⟨"z2", "Porch", "a", some ["a", "b"]⟩⟩)]))).2.requests
        = [("a", .RemoveForwardToNodes ["a"] false), ("b", .RemoveForwardToNodes ["a"] false),
           ("a", .ForwardToNodes ["b"]), ("a", .ToggleBroadcast true),
           ("a", .ChangeServiceName "Patio")] ∧
      (HandleMusicNodeJoin (Env.example [musicNode "a" 1, musicNode "b" 2]) nodeA
        (World.example (leaderWith [("z2", ⟨SpeakerConfig.zero,
            ⟨"z2", "Porch", "a", some ["a", "b"]⟩⟩),
          ("z1", ⟨SpeakerConfig.zero, patio⟩)]))).2.requests
        = [("a", .RemoveForwardToNodes ["a"] false), ("b", .RemoveForwardToNodes ["a"] false),
           ("a", .ForwardToNodes ["b"]), ("a", .ToggleBroadcast true),
           ("a", .ChangeServiceName "Porch")]) := by
  refine ⟨⟨?_, ?_⟩, ⟨?_, ?_⟩, ?_, ?_, ?_, ?_⟩ <;> decide

/-- C19 as amended.  On the consensus leader, for a member list whose metadata all decode
and whose node names are unique, in which the rejoined node is a Music member, every connection
established and every speaker RPC answered with code 200, let z be the zone the scan meets
first among those the rejoined node leads.  The scan settles on z as a leader case whatever
plain memberships it met before, and, when z is the only zone the node leads, does so for
every order of the zones.  HandleMusicNodeJoin writes nothing to the store and forwards
nothing to the leader.  It returns after these RPCs: the removal of the node from every
speaker, and to the node ForwardToNodes with the names of the members of the directory that
occur in the Speakers of z and differ from the name of the node, ToggleBroadcast(true) and
ChangeServiceName with the DisplayName of z; they leave the node broadcasting under that name
and forwarding to those names. -/
theorem join_restores_leader (env : Env) (hwf : env.WF) (hok : env.allSucceed)
    (w : World) (r : Raft)
    (hr : w.store.raft = some r) (hl : r.state = .Leader)
    (node : Node) (z : ZoneConfig)
    (hz : HandleMusicNodeLeave.findLed node.Name w.store.GetZoneConfigs = some z)
    (hlive : env.isLiveSpeaker node.Name = true) :
    (∀ s, HandleMusicNodeJoin.scan node.Name w.store.GetZoneConfigs s = ⟨z, true, true⟩) ∧
    (∀ zones2 s, zones2.Perm w.store.GetZoneConfigs →
      (∀ y ∈ w.store.GetZoneConfigs, y.Leader = node.Name → y = z) →
      HandleMusicNodeJoin.scan node.Name zones2 s = ⟨z, true, true⟩) ∧
    (HandleMusicNodeJoin env node w).2.store = w.store ∧
    (HandleMusicNodeJoin env node w).2.forwarded = w.forwarded ∧
    (∀ x, x ∈ env.activeOthers z node.Name ↔
      (∃ n ∈ env.nodes.Members, n.Name = x) ∧ x ∈ z.Speakers.elems ∧ x ≠ node.Name) ∧
    (∃ w1, HandleMusicNodeJoin env node w = (.ok (), w1) ∧
        w1.rpcs = w.rpcs ++ (removeRecords env [node.Name] ++
          [env.okRecord node.Name (.ForwardToNodes (env.activeOthers z node.Name)),
           env.okRecord node.Name (.ToggleBroadcast true),
           env.okRecord node.Name (.ChangeServiceName z.DisplayName)]) ∧
        (∀ s0, (remoteAfter node.Name s0 (w1.rpcs.drop w.rpcs.length)).Broadcast = true ∧
          (remoteAfter node.Name s0 (w1.rpcs.drop w.rpcs.length)).ServiceName = z.DisplayName ∧
          ∀ x ∈ env.activeOthers z node.Name,
            x ∈ (remoteAfter node.Name s0 (w1.rpcs.drop w.rpcs.length)).ForwardTo)) := by
  refine ⟨fun s => HandleMusicNodeJoin_scan_led _ _ _ hz s, ?_,
    (HandleMusicNodeJoin_keeps_store env node w).1,
    (HandleMusicNodeJoin_keeps_store env node w).2, ?_, ?_⟩
  · intro zones2 s hperm huniq
    obtain ⟨hzm, hzl⟩ := findLed_some _ _ _ hz
    obtain ⟨y, hy⟩ := findLed_of_mem node.Name zones2 z (hperm.symm.subset hzm) hzl
    obtain ⟨hym, hyl⟩ := findLed_some _ _ _ hy
    have : y = z := huniq y (hperm.subset hym) hyl
    subst this
    exact HandleMusicNodeJoin_scan_led _ _ _ hy s
  · intro x
    unfold Env.activeOthers
    constructor
    · intro hx
      obtain ⟨n, hn, rfl⟩ := List.mem_map.mp hx
      obtain ⟨hn1, hn2⟩ := List.mem_filter.mp hn
      obtain ⟨hn3, hn4⟩ := List.mem_filter.mp hn1
      exact ⟨⟨n, hn3, rfl⟩, by simpa using hn4, by simpa using hn2⟩
    · rintro ⟨⟨n, hn, rfl⟩, h2, h3⟩
      exact List.mem_map.mpr ⟨n, List.mem_filter.mpr
        ⟨List.mem_filter.mpr ⟨hn, by simpa using h2⟩, by simpa using h3⟩, rfl⟩
  · refine ⟨_, HandleMusicNodeJoin_run_led env hwf hok w r hr hl node z hz hlive, rfl, ?_⟩
    intro s0
    show (remoteAfter node.Name s0 (List.drop w.rpcs.length (w.rpcs ++ _))).Broadcast = true ∧
      (remoteAfter node.Name s0 (List.drop w.rpcs.length (w.rpcs ++ _))).ServiceName
        = z.DisplayName ∧
      ∀ x ∈ env.activeOthers z node.Name,
        x ∈ (remoteAfter node.Name s0 (List.drop w.rpcs.length (w.rpcs ++ _))).ForwardTo
    rw [List.drop_left, remoteAfter_append]
    simp only [remoteAfter_cons, remoteAfter_nil, remoteStep_okRecord, if_true,
      SpeakerState.handle]
    refine ⟨trivial, trivial, ?_⟩
    intro x hx
    exact mem_addTargets _ _ x (Or.inr hx)

/-- Witness for C19 as amended: a leads Patio and is a plain member of Den, which the scan
meets first;
b and c are live, d is not.  The node a is told to forward to b and c, to broadcast and to
carry the name Patio. -/
theorem join_restores_leader_witness :
    HandleMusicNodeLeave.findLed nodeA.Name denPatioWorld.store.GetZoneConfigs = some patio ∧
    (Env.example [musicNode "a" 1, musicNode "b" 2, mgmtNode "m" 1, musicNode "c" 3]).WF ∧
    (Env.example [musicNode "a" 1, musicNode "b" 2, mgmtNode "m" 1,
      musicNode "c" 3]).allSucceed ∧
    (Env.example [musicNode "a" 1, musicNode "b" 2, mgmtNode "m" 1,
      musicNode "c" 3]).isLiveSpeaker nodeA.Name = true ∧
    ∃ w1, HandleMusicNodeJoin
        (Env.example [musicNode "a" 1, musicNode "b" 2, mgmtNode "m" 1, musicNode "c" 3])
        nodeA denPatioWorld = (.ok (), w1) ∧
      w1.store = denPatioWorld.store ∧
      w1.requests = [("a", .RemoveForwardToNodes ["a"] false),
        ("b", .RemoveForwardToNodes ["a"] false), ("c", .RemoveForwardToNodes ["a"] false),
        ("a", .ForwardToNodes ["b", "c"]), ("a", .ToggleBroadcast true),
        ("a", .ChangeServiceName "Patio")] :=
  ⟨by decide, ⟨by decide, by decide⟩, Env_example_allSucceed _, by decide,
    let ⟨_, _, h3, _, _, h6⟩ := join_restores_leader
      (Env.example [musicNode "a" 1, musicNode "b" 2, mgmtNode "m" 1, musicNode "c" 3])
      ⟨by decide, by decide⟩ (Env_example_allSucceed _)
      denPatioWorld (Raft.example .Leader [⟨.Voter, "mgmt-1", "10.0.0.1:7000"⟩]) rfl rfl
      nodeA patio (by decide) (by decide)
    let ⟨w1, h1, h2, _⟩ := h6
    ⟨w1, h1, by rw [h1] at h3; exact h3, by
      unfold World.requests
      rw [h2]
      decide⟩⟩

/-! ## C14: Join removes what stands in the way -/

theorem removeServerFrom_sublist (id : String) (l : List Server) :
    (removeServerFrom id l).Sublist l := by
  induction l with
  | nil => exact List.Sublist.refl _
  | cons s rest ih =>
    unfold removeServerFrom
    by_cases h : s.ID = id
    · rw [if_pos h]
      exact List.sublist_cons_self _ _
    · rw [if_neg h]
      exact ih.cons₂ _

theorem removeServerFrom_length (id : String) (l : List Server) :
    l.length ≤ (removeServerFrom id l).length + 1 := by
  induction l with
  | nil => simp [removeServerFrom]
  | cons s rest ih =>
    unfold removeServerFrom
    by_cases h : s.ID = id
    · rw [if_pos h]
      simp
    · rw [if_neg h]
      simp only [List.length_cons]
      omega

theorem removeServerFrom_countP_same (id : String) (l : List Server) :
    (removeServerFrom id l).countP (fun s => decide (s.ID = id))
      = l.countP (fun s => decide (s.ID = id)) - 1 := by
  induction l with
  | nil => rfl
  | cons s rest ih =>
    unfold removeServerFrom
    by_cases h : s.ID = id
    · rw [if_pos h, List.countP_cons_of_pos _ _ (by simpa using h)]
      simp
    · rw [if_neg h, List.countP_cons_of_neg _ _ (by simpa using h),
        List.countP_cons_of_neg _ _ (by simpa using h), ih]

theorem removeServerFrom_countP_other (id x : String) (hne : id ≠ x) (l : List Server) :
    (removeServerFrom id l).countP (fun s => decide (s.ID = x))
      = l.countP (fun s => decide (s.ID = x)) := by
  induction l with
  | nil => rfl
  | cons s rest ih =>
    unfold removeServerFrom
    by_cases h : s.ID = id
    · rw [if_pos h]
      have : ¬ s.ID = x := fun e => hne (h.symm.trans e)
      rw [List.countP_cons_of_neg _ _ (by simpa using this)]
    · rw [if_neg h]
      by_cases hx : s.ID = x
      · rw [List.countP_cons_of_pos _ _ (by simpa using hx),
          List.countP_cons_of_pos _ _ (by simpa using hx), ih]
      · rw [List.countP_cons_of_neg _ _ (by simpa using hx),
          List.countP_cons_of_neg _ _ (by simpa using hx), ih]

theorem Raft_RemoveServer_ok (r r1 : Raft) (id : String) (h : r.RemoveServer id = (none, r1)) :
    r1.servers = removeServerFrom id r.servers ∧
    r1.requests = r.requests ++ [.RemoveServer id] := by
  unfold Raft.RemoveServer Raft.change at h
  simp only [] at h
  split_ifs at h
  · cases h
  · cases h
  · unfold nextConfiguration at h
    simp only [] at h
    cases hc : checkConfiguration (removeServerFrom id r.servers) with
    | some e =>
      rw [hc] at h
      cases h
    | none =>
      rw [hc] at h
      simp only [Prod.mk.injEq, true_and] at h
      subst h
      exact ⟨rfl, rfl⟩

theorem addVoterTo_absent (id address : String) (l : List Server)
    (h : l.countP (fun s => decide (s.ID = id)) = 0) :
    addVoterTo id address l = l ++ [⟨.Voter, id, address⟩] := by
  induction l with
  | nil => rfl
  | cons s rest ih =>
    have hs : ¬ s.ID = id := by
      intro e
      rw [List.countP_cons_of_pos _ _ (by simpa using e)] at h
      omega
    rw [List.countP_cons_of_neg _ _ (by simpa using hs)] at h
    unfold addVoterTo
    rw [if_neg hs, ih h]
    rfl

theorem Join_scan_false (nodeID nodeAddress : String) (l : List Server) (r r1 : Raft)
    (h : Join.scan nodeID nodeAddress l r = (.ok false, r1)) :
    r1.servers.Sublist r.servers ∧
    r.servers.length ≤ r1.servers.length + l.countP (fun s => s.conflictsWith nodeID nodeAddress) ∧
    r1.servers.countP (fun s => decide (s.ID = nodeID))
      ≤ r.servers.countP (fun s => decide (s.ID = nodeID))
        - l.countP (fun s => decide (s.ID = nodeID)) ∧
    r1.requests = r.requests ++
      (l.filter (fun s => s.conflictsWith nodeID nodeAddress)).map
        (fun s => RaftOp.RemoveServer s.ID) := by
  induction l generalizing r with
  | nil =>
    unfold Join.scan at h
    cases h
    simp
  | cons srv rest ih =>
    unfold Join.scan at h
    by_cases hc : srv.ID = nodeID ∨ srv.Address = nodeAddress
    · have hconf : srv.conflictsWith nodeID nodeAddress = true := by
        unfold Server.conflictsWith
        exact decide_eq_true hc
      rw [if_pos hc] at h
      by_cases hboth : srv.Address = nodeAddress ∧ srv.ID = nodeID
      · rw [if_pos hboth] at h
        cases h
      · rw [if_neg hboth] at h
        cases hrm : r.RemoveServer srv.ID with
        | mk e r2 =>
          rw [hrm] at h
          cases e with
          | some e => cases h
          | none =>
            simp only [] at h
            obtain ⟨hs2, hq2⟩ := Raft_RemoveServer_ok r r2 srv.ID hrm
            obtain ⟨i1, i2, i3, i4⟩ := ih r2 h
            rw [hs2] at i1 i2 i3
            refine ⟨i1.trans (removeServerFrom_sublist _ _), ?_, ?_, ?_⟩
            · rw [List.countP_cons_of_pos (fun s : Server => s.conflictsWith nodeID nodeAddress)
                rest hconf]
              have := removeServerFrom_length srv.ID r.servers
              omega
            · by_cases hid : srv.ID = nodeID
              · rw [hid, removeServerFrom_countP_same] at i3
                rw [List.countP_cons_of_pos _ _ (by simpa using hid)]
                omega
              · rw [removeServerFrom_countP_other _ _ hid] at i3
                rw [List.countP_cons_of_neg _ _ (by simpa using hid)]
                exact i3
            · rw [i4, hq2, List.filter_cons]
              simp only [hconf, if_true, List.map_cons, List.append_assoc, List.singleton_append]
    · have hconf : ¬ srv.conflictsWith nodeID nodeAddress = true := by
        unfold Server.conflictsWith
        simpa using hc
      rw [if_neg hc] at h
      obtain ⟨i1, i2, i3, i4⟩ := ih r h
      have hid : ¬ srv.ID = nodeID := fun e => hc (Or.inl e)
      refine ⟨i1, ?_, ?_, ?_⟩
      · rw [List.countP_cons_of_neg (fun s : Server => s.conflictsWith nodeID nodeAddress)
          rest hconf]
        exact i2
      · rw [List.countP_cons_of_neg _ _ (by simpa using hid)]
        exact i3
      · rw [i4, List.filter_cons]
        simp only [hconf, Bool.false_eq_true, if_false]

theorem Raft_AddVoter_servers (r : Raft) (id address : String)
    (h : (r.AddVoter id address).1 = none) :
    (r.AddVoter id address).2.servers = addVoterTo id address r.servers ∧
    (r.AddVoter id address).2.requests = r.requests ++ [.AddVoter id address] ∧
    checkConfiguration (addVoterTo id address r.servers) = none := by
  unfold Raft.AddVoter Raft.change at h ⊢
  simp only [] at h ⊢
  by_cases c1 : r.state ≠ .Leader
  · rw [if_pos c1] at h
    cases h
  · rw [if_neg c1] at h ⊢
    by_cases c2 : r.changeFails r.requests.length = true
    · rw [if_pos c2] at h
      cases h
    · rw [if_neg c2] at h ⊢
      unfold nextConfiguration at h ⊢
      simp only [] at h ⊢
      cases hc : checkConfiguration (addVoterTo id address r.servers) with
      | some e =>
        rw [hc] at h
        cases h
      | none => exact ⟨rfl, rfl, rfl⟩

theorem Join_ok_not_configured (ds ds1 : DistributedStore) (r : Raft)
    (hr : ds.raft = some r) (hl : r.state = .Leader) (nodeID nodeAddress : String)
    (hnot : ∀ s ∈ r.servers, ¬ (s.ID = nodeID ∧ s.Address = nodeAddress))
    (h : ds.Join nodeID nodeAddress = (.ok (), ds1)) :
    ∃ r1, Join.scan nodeID nodeAddress r.servers r = (.ok false, r1) ∧
      (r1.AddVoter nodeID nodeAddress).1 = none ∧
      ds1 = { ds with raft := some (r1.AddVoter nodeID nodeAddress).2 } := by
  have hnl : ¬ r.state ≠ .Leader := by simp [hl]
  unfold DistributedStore.Join at h
  rw [hr] at h
  simp only [] at h
  rw [if_neg hnl] at h
  cases hcfg : r.getConfigurationErr with
  | some e => rw [hcfg] at h; simp at h
  | none =>
    rw [hcfg] at h
    simp only [] at h
    cases hscan : Join.scan nodeID nodeAddress r.servers r with
    | mk res r1 =>
      rw [hscan] at h
      cases res with
      | err e => simp at h
      | panic => simp at h
      | fatal => simp at h
      | ok b =>
        cases b with
        | true =>
          obtain ⟨s, hs, h1, h2⟩ := Join_scan_true_mem nodeID nodeAddress r.servers r r1 hscan
          exact absurd ⟨h1, h2⟩ (hnot s hs)
        | false =>
          simp only [] at h
          have hf1 : (r1.AddVoter nodeID nodeAddress).1 = none := by
            cases hv : (r1.AddVoter nodeID nodeAddress).1 with
            | none => rfl
            | some e => rw [hv] at h; simp [Res.ofError] at h
          refine ⟨r1, rfl, hf1, ?_⟩
          rw [hf1] at h
          simp [Res.ofError] at h
          exact h.symm

theorem Join_servers_of_ok (ds ds1 : DistributedStore) (r : Raft)
    (hr : ds.raft = some r) (hl : r.state = .Leader) (nodeID nodeAddress : String)
    (hnot : ∀ s ∈ r.servers, ¬ (s.ID = nodeID ∧ s.Address = nodeAddress))
    (h : ds.Join nodeID nodeAddress = (.ok (), ds1)) :
    ds1.servers = r.servers.filter (fun s => !s.conflictsWith nodeID nodeAddress)
      ++ [⟨.Voter, nodeID, nodeAddress⟩] ∧
    ds1.requests = r.requests ++
      ((r.servers.filter (fun s => s.conflictsWith nodeID nodeAddress)).map
        (fun s => RaftOp.RemoveServer s.ID) ++ [.AddVoter nodeID nodeAddress]) ∧
    (ds1.servers.map Server.ID).Nodup ∧ (ds1.servers.map Server.Address).Nodup := by
  obtain ⟨r1, hscan, hadd, hds1⟩ := Join_ok_not_configured ds ds1 r hr hl nodeID nodeAddress hnot h
  obtain ⟨i1, i2, i3, i4⟩ := Join_scan_false nodeID nodeAddress r.servers r r1 hscan
  obtain ⟨a1, a2, a3⟩ := Raft_AddVoter_servers r1 nodeID nodeAddress hadd
  have hcnt : r1.servers.countP (fun s => decide (s.ID = nodeID)) = 0 := by omega
  rw [addVoterTo_absent nodeID nodeAddress r1.servers hcnt] at a1 a3
  obtain ⟨hidn, haddrn⟩ := checkConfiguration_none _ a3
  have hfree : ∀ s ∈ r1.servers, (!s.conflictsWith nodeID nodeAddress) = true := by
    intro s hs
    rw [List.map_append, List.nodup_append] at hidn haddrn
    have h1 : ¬ s.ID = nodeID := by
      intro e
      exact hidn.2.2 (List.mem_map.mpr ⟨s, hs, rfl⟩) (by rw [e]; simp)
    have h2 : ¬ s.Address = nodeAddress := by
      intro e
      exact haddrn.2.2 (List.mem_map.mpr ⟨s, hs, rfl⟩) (by rw [e]; simp)
    unfold Server.conflictsWith
    simp [h1, h2]
  have hsub : r1.servers.Sublist
      (r.servers.filter (fun s => !s.conflictsWith nodeID nodeAddress)) := by
    have := i1.filter (fun s => !s.conflictsWith nodeID nodeAddress)
    rwa [List.filter_eq_self.mpr hfree] at this
  have hlen : (r.servers.filter (fun s => !s.conflictsWith nodeID nodeAddress)).length
      ≤ r1.servers.length := by
    have h3 := List.length_eq_countP_add_countP
      (fun s : Server => s.conflictsWith nodeID nodeAddress) r.servers
    rw [← List.countP_eq_length_filter]
    have h4 : List.countP (fun s : Server => !s.conflictsWith nodeID nodeAddress) r.servers
        = List.countP (fun a : Server => decide ¬a.conflictsWith nodeID nodeAddress = true)
            r.servers := by
      congr 1
      funext s
      cases hs : s.conflictsWith nodeID nodeAddress <;> simp [hs]
    rw [h4]
    omega
  have heq := hsub.eq_of_length_le hlen
  have hserv : ds1.servers = r.servers.filter (fun s => !s.conflictsWith nodeID nodeAddress)
      ++ [⟨.Voter, nodeID, nodeAddress⟩] := by
    rw [hds1]
    show (r1.AddVoter nodeID nodeAddress).2.servers = _
    rw [a1, heq]
  refine ⟨hserv, ?_, ?_, ?_⟩
  · rw [hds1]
    show (r1.AddVoter nodeID nodeAddress).2.requests = _
    rw [a2, i4, List.append_assoc]
  · rw [hserv, ← heq]
    exact hidn
  · rw [hserv, ← heq]
    exact haddrn

/-- C14.  On a leader, for every configuration (whatever it holds) and every pair of node ID
and address that no configured server carries as a pair: when Join returns nil, the servers
afterwards are the prior servers without those that had the ID or the address of the node, in
their prior order, followed by the node as a voter.  So every server that had the ID or the
address is gone, every other server is still there, and exactly one server has the ID and
exactly one has the address: the one added.  The requests made are one RemoveServer per
server in the way, in configuration order, then AddVoter. -/
theorem join_removes_conflicts (ds ds1 : DistributedStore) (r : Raft)
    (hr : ds.raft = some r) (hl : r.state = .Leader) (nodeID nodeAddress : String)
    (hnot : ∀ s ∈ r.servers, ¬ (s.ID = nodeID ∧ s.Address = nodeAddress))
    (h : ds.Join nodeID nodeAddress = (.ok (), ds1)) :
    ds1.servers = r.servers.filter (fun s => !s.conflictsWith nodeID nodeAddress)
      ++ [⟨.Voter, nodeID, nodeAddress⟩] ∧
    (∀ s ∈ r.servers, (s.ID = nodeID ∨ s.Address = nodeAddress) → s ∉ ds1.servers) ∧
    (∀ s ∈ r.servers, ¬ (s.ID = nodeID ∨ s.Address = nodeAddress) → s ∈ ds1.servers) ∧
    ds1.servers.countP (fun s => decide (s.ID = nodeID)) = 1 ∧
    ds1.servers.countP (fun s => decide (s.Address = nodeAddress)) = 1 ∧
    ds1.requests = r.requests ++
      ((r.servers.filter (fun s => s.conflictsWith nodeID nodeAddress)).map
        (fun s => RaftOp.RemoveServer s.ID) ++ [.AddVoter nodeID nodeAddress]) := by
  obtain ⟨hserv, hreq, _, _⟩ := Join_servers_of_ok ds ds1 r hr hl nodeID nodeAddress hnot h
  have hfree : ∀ s ∈ r.servers.filter (fun s => !s.conflictsWith nodeID nodeAddress),
      ¬ s.ID = nodeID ∧ ¬ s.Address = nodeAddress := by
    intro s hs
    have := (List.mem_filter.mp hs).2
    unfold Server.conflictsWith at this
    simpa [not_or] using this
  refine ⟨hserv, ?_, ?_, ?_, ?_, hreq⟩
  · intro s hs hc hmem
    rw [hserv] at hmem
    rcases List.mem_append.mp hmem with hm | hm
    · obtain ⟨h1, h2⟩ := hfree s hm
      rcases hc with hc | hc
      · exact h1 hc
      · exact h2 hc
    · rw [List.mem_singleton.mp hm] at hs
      exact hnot _ hs ⟨rfl, rfl⟩
  · intro s hs hc
    rw [hserv]
    apply List.mem_append_left
    refine List.mem_filter.mpr ⟨hs, ?_⟩
    unfold Server.conflictsWith
    simpa using hc
  · rw [hserv, List.countP_append]
    have h0 : List.countP (fun s => decide (s.ID = nodeID))
        (r.servers.filter (fun s => !s.conflictsWith nodeID nodeAddress)) = 0 := by
      rw [List.countP_eq_zero]
      intro s hs
      simpa using (hfree s hs).1
    rw [h0]
    simp
  · rw [hserv, List.countP_append]
    have h0 : List.countP (fun s => decide (s.Address = nodeAddress))
        (r.servers.filter (fun s => !s.conflictsWith nodeID nodeAddress)) = 0 := by
      rw [List.countP_eq_zero]
      intro s hs
      simpa using (hfree s hs).2
    rw [h0]
    simp

/-- Witness for C14: on the leader of a three-node cluster a node joins with the ID of the
second server and the address of the third; both are removed and the node is added. -/
theorem join_removes_conflicts_witness :
    (∀ s ∈ threeVoters.servers, ¬ (s.ID = "mgmt-2" ∧ s.Address = "10.0.0.3:7000")) ∧
    (threeVoters.Join "mgmt-2" "10.0.0.3:7000").1 = .ok () ∧
    (threeVoters.Join "mgmt-2" "10.0.0.3:7000").2.servers
      = [⟨.Voter, "mgmt-1", "10.0.0.1:7000"⟩, ⟨.Voter, "mgmt-2", "10.0.0.3:7000"⟩] ∧
    (threeVoters.Join "mgmt-2" "10.0.0.3:7000").2.requests
      = [.RemoveServer "mgmt-2", .RemoveServer "mgmt-3", .AddVoter "mgmt-2" "10.0.0.3:7000"] :=
  ⟨by decide, by decide,
    (join_removes_conflicts threeVoters (threeVoters.Join "mgmt-2" "10.0.0.3:7000").2
      (Raft.example .Leader [⟨.Voter, "mgmt-1", "10.0.0.1:7000"⟩,
        ⟨.Voter, "mgmt-2", "10.0.0.2:7000"⟩, ⟨.Voter, "mgmt-3", "10.0.0.3:7000"⟩])
      rfl rfl "mgmt-2" "10.0.0.3:7000" (by decide) (Prod.ext (by decide) rfl)).1,
    (join_removes_conflicts threeVoters (threeVoters.Join "mgmt-2" "10.0.0.3:7000").2
      (Raft.example .Leader [⟨.Voter, "mgmt-1", "10.0.0.1:7000"⟩,
        ⟨.Voter, "mgmt-2", "10.0.0.2:7000"⟩, ⟨.Voter, "mgmt-3", "10.0.0.3:7000"⟩])
      rfl rfl "mgmt-2" "10.0.0.3:7000" (by decide) (Prod.ext (by decide) rfl)).2.2.2.2.2⟩

/-! ## C15 and C16: the metadata codec -/

theorem Gob_fromBigEndian_append (a : Bytes) (c : Nat) :
    Gob.fromBigEndian (a ++ [c]) = Gob.fromBigEndian a * 256 + c := by
  unfold Gob.fromBigEndian
  rw [List.foldl_append]
  rfl

theorem Gob_fromBigEndian_bigEndian (n x : Nat) :
    Gob.fromBigEndian (Gob.bigEndian n x) = x % 256 ^ n := by
  induction n generalizing x with
  | zero => simp [Gob.bigEndian, Gob.fromBigEndian, Nat.mod_one]
  | succ n ih =>
    unfold Gob.bigEndian
    rw [Gob_fromBigEndian_append, ih, pow_succ', Nat.mod_mul]
    ring

theorem Gob_bigEndian_length (n x : Nat) : (Gob.bigEndian n x).length = n := by
  induction n generalizing x with
  | zero => rfl
  | succ n ih =>
    unfold Gob.bigEndian
    rw [List.length_append, ih]
    rfl

theorem Gob_fromBigEndian_foldl_zero (l : Bytes) :
    List.foldl (fun x b => x * 256 + b) 0 (l.dropWhile (fun b => decide (b = 0)))
      = List.foldl (fun x b => x * 256 + b) 0 l := by
  induction l with
  | nil => rfl
  | cons b rest ih =>
    by_cases hb : b = 0
    · subst hb
      rw [List.dropWhile_cons_of_pos (by simp)]
      rw [ih]
      rfl
    · rw [List.dropWhile_cons_of_neg (by simpa using hb)]

theorem Gob_fromBigEndian_dropWhile (l : Bytes) :
    Gob.fromBigEndian (l.dropWhile (fun b => decide (b = 0))) = Gob.fromBigEndian l :=
  Gob_fromBigEndian_foldl_zero l

theorem Gob_decodeUint_encodeUint (x : Nat) (hx : x < 2 ^ 64) (rest : Bytes) :
    Gob.decodeUint (Gob.encodeUint x ++ rest) = some (x, rest) := by
  unfold Gob.encodeUint
  by_cases hsmall : x ≤ 0x7F
  · rw [if_pos hsmall]
    show Gob.decodeUint (x :: rest) = _
    rw [Gob.decodeUint, if_pos hsmall]
  · rw [if_neg hsmall]
    have hval : Gob.fromBigEndian ((Gob.bigEndian 8 x).dropWhile (fun b => decide (b = 0))) = x := by
      rw [Gob_fromBigEndian_dropWhile, Gob_fromBigEndian_bigEndian]
      exact Nat.mod_eq_of_lt (by norm_num at hx ⊢; exact hx)
    have hle : ((Gob.bigEndian 8 x).dropWhile (fun b => decide (b = 0))).length ≤ 8 := by
      have := (List.dropWhile_sublist (fun b => decide (b = 0)) (l := Gob.bigEndian 8 x)).length_le
      rw [Gob_bigEndian_length] at this
      exact this
    have hpos : 1 ≤ ((Gob.bigEndian 8 x).dropWhile (fun b => decide (b = 0))).length := by
      rcases Nat.eq_zero_or_pos
        ((Gob.bigEndian 8 x).dropWhile (fun b => decide (b = 0))).length with h0 | h0
      · rw [List.length_eq_zero.mp h0] at hval
        have : x = 0 := hval.symm
        omega
      · exact h0
    generalize (Gob.bigEndian 8 x).dropWhile (fun b => decide (b = 0)) = bs at hval hle hpos
    show Gob.decodeUint ((256 - bs.length) :: (bs ++ rest)) = _
    have h1 : ¬ 256 - bs.length ≤ 0x7F := by omega
    have h2 : 256 - (256 - bs.length) = bs.length := by omega
    rw [Gob.decodeUint, if_neg h1]
    simp only [h2]
    rw [if_neg (by omega), if_neg (by rw [List.length_append]; omega)]
    rw [List.take_left, List.drop_left, hval]

theorem Gob_decodeInt_encodeInt (i : Int) (hlo : -2 ^ 63 ≤ i) (hhi : i < 2 ^ 63) (rest : Bytes) :
    Gob.decodeInt (Gob.encodeInt i ++ rest) = some (i, rest) := by
  unfold Gob.decodeInt Gob.encodeInt
  by_cases hneg : i < 0
  · rw [if_pos hneg]
    rw [Gob_decodeUint_encodeUint _ (by omega) rest]
    simp only []
    have h1 : ((-i - 1).toNat * 2 + 1) % 2 = 1 := by omega
    have h2 : ((-i - 1).toNat * 2 + 1) / 2 = (-i - 1).toNat := by omega
    rw [if_pos h1, h2]
    congr 2
    omega
  · rw [if_neg hneg]
    rw [Gob_decodeUint_encodeUint _ (by omega) rest]
    simp only []
    have h1 : ¬ (i.toNat * 2) % 2 = 1 := by omega
    have h2 : (i.toNat * 2) / 2 = i.toNat := by omega
    rw [if_neg h1, h2]
    congr 2
    omega

theorem Gob_encodeUint_ne_nil (x : Nat) (rest : Bytes) : Gob.encodeUint x ++ rest ≠ [] := by
  unfold Gob.encodeUint
  split <;> simp

theorem Gob_encodeUint_length (x : Nat) : (Gob.encodeUint x).length ≤ 9 := by
  unfold Gob.encodeUint
  split
  · simp
  · have := (List.dropWhile_sublist (fun b => decide (b = 0)) (l := Gob.bigEndian 8 x)).length_le
    rw [Gob_bigEndian_length] at this
    simp only [List.length_cons]
    omega

theorem Gob_encodeIntFields_length (vals : List Int) (d : Nat) :
    (Gob.encodeIntFields d vals).length ≤ 18 * vals.length + 1 := by
  induction vals generalizing d with
  | nil => simp [Gob.encodeIntFields]
  | cons v rest ih =>
    unfold Gob.encodeIntFields
    split
    · have := ih (d + 1)
      simp only [List.length_cons]
      omega
    · have h1 := Gob_encodeUint_length d
      have h2 : (Gob.encodeInt v).length ≤ 9 := Gob_encodeUint_length _
      have := ih 1
      simp only [List.length_append, List.length_cons]
      omega

theorem Gob_decodeFields_encodeIntFields (vals : List Int) (i d next fuel : Nat) (m : NodeMeta)
    (hi : i + 1 = next + d) (hd : 1 ≤ d) (hlen : i + vals.length = 4)
    (hfuel : (Gob.encodeIntFields d vals).length ≤ fuel) (hrange : ∀ v ∈ vals, isInt64 v) :
    Gob.decodeFields 4 (Gob.decodeValue.step [.store 0, .store 1, .store 2, .store 3]) fuel next
      (Gob.encodeIntFields d vals) m = some (Gob.storeFrom i vals m, []) := by
  induction vals generalizing i d next fuel m with
  | nil =>
    obtain ⟨f, rfl⟩ : ∃ f, fuel = f + 1 := Nat.exists_eq_succ_of_ne_zero (by
      simp only [Gob.encodeIntFields, List.length_singleton] at hfuel
      omega)
    rfl
  | cons v rest ih =>
    simp only [List.length_cons] at hlen
    have hrest : ∀ x ∈ rest, isInt64 x := fun x hx => hrange x (List.mem_cons_of_mem _ hx)
    unfold Gob.encodeIntFields at hfuel
    unfold Gob.encodeIntFields Gob.storeFrom
    by_cases hv : v = 0
    · rw [if_pos hv] at hfuel
      rw [if_pos hv, if_pos hv]
      exact ih (i + 1) (d + 1) next fuel m (by omega) (by omega) (by omega) hfuel hrest
    · rw [if_neg hv] at hfuel
      rw [if_neg hv, if_neg hv]
      have hl1 : 1 ≤ (Gob.encodeUint d).length := by
        rcases Nat.eq_zero_or_pos (Gob.encodeUint d).length with h0 | h0
        · exact absurd (by rw [List.length_eq_zero.mp h0]; rfl) (Gob_encodeUint_ne_nil d [])
        · exact h0
      simp only [List.length_append] at hfuel
      obtain ⟨f, rfl⟩ : ∃ f, fuel = f + 1 := Nat.exists_eq_succ_of_ne_zero (by omega)
      obtain ⟨hlo, hhi⟩ := hrange v (List.mem_cons_self _ _)
      unfold Gob.decodeFields
      rw [List.append_assoc, if_neg (Gob_encodeUint_ne_nil _ _),
        Gob_decodeUint_encodeUint d (by omega)]
      simp only []
      have hk : next + d - 1 = i := by omega
      rw [if_neg (by omega), hk, if_neg (by omega)]
      have hstep : Gob.decodeValue.step [.store 0, .store 1, .store 2, .store 3] i
          (Gob.encodeInt v ++ Gob.encodeIntFields 1 rest) m
          = some (Gob.setField m i v, Gob.encodeIntFields 1 rest) := by
        unfold Gob.decodeValue.step
        have hi4 : i < 4 := by omega
        rw [Gob_decodeInt_encodeInt v hlo hhi]
        interval_cases i <;> rfl
      rw [hstep]
      simp only []
      exact ih (i + 1) 1 (next + d) f (Gob.setField m i v) (by omega) (by omega) (by omega)
        (by omega) hrest

theorem Gob_storeFrom_all (m : NodeMeta) :
    Gob.storeFrom 0 [m.RtspPort, m.APIPort, m.RaftPort, m.NodeType] ⟨0, 0, 0, 0⟩ = m := by
  obtain ⟨a, b, c, d⟩ := m
  unfold Gob.storeFrom Gob.storeFrom Gob.storeFrom Gob.storeFrom Gob.storeFrom
  by_cases ha : a = 0 <;> by_cases hb : b = 0 <;> by_cases hc : c = 0 <;> by_cases hd : d = 0 <;>
    simp [ha, hb, hc, hd, Gob.setField]

theorem Gob_descriptor_decodes :
    Gob.decodeWireType (Gob.encodeWireType Gob.nodeMetaType) = some (some Gob.nodeMetaType, []) := by
  decide

theorem Gob_compile_nodeMetaType :
    Gob.compile Gob.nodeMetaType.Field = some [.store 0, .store 1, .store 2, .store 3] := by
  decide

theorem Gob_decodeValue_encode (m : NodeMeta)
    (h : ∀ v ∈ [m.RtspPort, m.APIPort, m.RaftPort, m.NodeType], isInt64 v) :
    Gob.decodeValue [(65, Gob.nodeMetaType)] 65
      (Gob.encodeIntFields 1 [m.RtspPort, m.APIPort, m.RaftPort, m.NodeType]) = some m := by
  unfold Gob.decodeValue
  simp only [List.find?_cons, decide_True, Gob_compile_nodeMetaType]
  rw [if_neg (by decide)]
  rw [show ([.store 0, .store 1, .store 2, .store 3] : List Gob.decOp).length = 4 from rfl]
  rw [Gob_decodeFields_encodeIntFields [m.RtspPort, m.APIPort, m.RaftPort, m.NodeType] 0 1 0 _ _
    rfl (le_refl 1) rfl (Nat.le_succ _) h]
  rw [Gob_storeFrom_all]
  rfl

theorem Gob_decode_encode (m : NodeMeta)
    (h : ∀ v ∈ [m.RtspPort, m.APIPort, m.RaftPort, m.NodeType], isInt64 v) :
    Gob.decodeNodeMeta (Gob.encodeNodeMeta m) = some m := by
  have hv := Gob_decodeValue_encode m h
  have hvlen := Gob_encodeIntFields_length [m.RtspPort, m.APIPort, m.RaftPort, m.NodeType] 1
  unfold Gob.decodeNodeMeta Gob.encodeNodeMeta Gob.message
  generalize Gob.encodeIntFields 1 [m.RtspPort, m.APIPort, m.RaftPort, m.NodeType] = fields
    at hv hvlen ⊢
  simp only [List.length_cons, List.length_nil] at hvlen
  rw [Gob.decodeMessages, List.append_assoc, Gob_decodeUint_encodeUint _ (by decide)]
  simp only []
  rw [if_neg (by rw [List.length_append]; omega), List.take_left, List.drop_left,
    Gob_decodeInt_encodeInt (-65) (by decide) (by decide)]
  simp only []
  rw [if_pos (by decide), if_neg (by decide), Gob_descriptor_decodes]
  simp only []
  have h65 : (Gob.encodeInt 65).length ≤ 9 := Gob_encodeUint_length _
  obtain ⟨f, hf⟩ : ∃ f, (Gob.encodeUint (Gob.encodeInt (-65) ++
      Gob.encodeWireType Gob.nodeMetaType).length ++
      (Gob.encodeInt (-65) ++ Gob.encodeWireType Gob.nodeMetaType ++
        (Gob.encodeUint (Gob.encodeInt 65 ++ fields).length ++
          (Gob.encodeInt 65 ++ fields)))).length = f + 1 :=
    Nat.exists_eq_succ_of_ne_zero (fun h0 => Gob_encodeUint_ne_nil _ _ (List.length_eq_zero.mp h0))
  rw [hf, Gob.decodeMessages,
    Gob_decodeUint_encodeUint _ (by rw [List.length_append]; omega)]
  simp only []
  rw [if_neg (by omega), List.take_length, Gob_decodeInt_encodeInt 65 (by decide) (by decide)]
  simp only []
  rw [if_neg (by decide)]
  exact hv

theorem FilterMembers_loop_fatal (gob : GobDecoder) (r : NodeType) (l acc : List Node)
    (h : ∃ n ∈ l, gob n.Meta = none) : FilterMembers.loop gob r l acc = .fatal := by
  induction l generalizing acc with
  | nil =>
    obtain ⟨n, hn, _⟩ := h
    cases hn
  | cons member rest ih =>
    unfold FilterMembers.loop DecodeNodeMeta
    cases hg : gob member.Meta with
    | none => rfl
    | some m =>
      have hrest : ∃ n ∈ rest, gob n.Meta = none := by
        obtain ⟨n, hn, hbad⟩ := h
        rcases List.mem_cons.mp hn with rfl | hn
        · rw [hg] at hbad
          cases hbad
        · exact ⟨n, hn, hbad⟩
      simp only []
      split
      · exact ih _ hrest
      · exact ih _ hrest

theorem Gob_decodeMessages_nil (fuel : Nat) (types : List (Int × Gob.structType)) :
    Gob.decodeMessages fuel [] types = none := by
  cases fuel <;> rfl

theorem Gob_decodeMessages_short (fuel L : Nat) (q : Bytes) (types : List (Int × Gob.structType))
    (hL : L ≤ 127) (hq : q.length < L) : Gob.decodeMessages fuel (L :: q) types = none := by
  cases fuel with
  | zero => rfl
  | succ f =>
    have hd : Gob.decodeUint (L :: q) = some (L, q) := by
      unfold Gob.decodeUint
      simp only []
      rw [if_pos hL]
    unfold Gob.decodeMessages
    rw [hd]
    simp only []
    rw [if_pos hq]

theorem Gob_decodeMessages_descriptor (fuel : Nat) (rest : Bytes) :
    Gob.decodeMessages (fuel + 1)
        (Gob.message (Gob.encodeInt (-65) ++ Gob.encodeWireType Gob.nodeMetaType) ++ rest) []
      = Gob.decodeMessages fuel rest [(65, Gob.nodeMetaType)] := by
  unfold Gob.message
  rw [Gob.decodeMessages, List.append_assoc, Gob_decodeUint_encodeUint _ (by decide)]
  simp only []
  rw [if_neg (by rw [List.length_append]; omega), List.take_left, List.drop_left,
    Gob_decodeInt_encodeInt (-65) (by decide) (by decide)]
  simp only []
  rw [if_pos (by decide), if_neg (by decide), Gob_descriptor_decodes]
  rfl

/-- Every encoding of a NodeMeta that is cut short, the empty byte string included, is
rejected by the decoder. -/
theorem Gob_decodeNodeMeta_truncated (m : NodeMeta) (n : Nat)
    (hn : n < (Gob.encodeNodeMeta m).length) :
    Gob.decodeNodeMeta ((Gob.encodeNodeMeta m).take n) = none := by
  have hA : Gob.message (Gob.encodeInt (-65) ++ Gob.encodeWireType Gob.nodeMetaType)
      = 73 :: (Gob.encodeInt (-65) ++ Gob.encodeWireType Gob.nodeMetaType) := by decide
  have hAlen : (Gob.encodeInt (-65) ++ Gob.encodeWireType Gob.nodeMetaType).length = 73 := by
    decide
  have hvlen := Gob_encodeIntFields_length [m.RtspPort, m.APIPort, m.RaftPort, m.NodeType] 1
  simp only [List.length_cons, List.length_nil] at hvlen
  have h65 : Gob.encodeInt 65 = [255, 130] := by decide
  unfold Gob.encodeNodeMeta at hn ⊢
  generalize Gob.encodeIntFields 1 [m.RtspPort, m.APIPort, m.RaftPort, m.NodeType] = fields
    at hn hvlen ⊢
  have hB : Gob.message (Gob.encodeInt 65 ++ fields)
      = (fields.length + 2) :: ([255, 130] ++ fields) := by
    unfold Gob.message Gob.encodeUint
    rw [h65]
    simp only [List.length_append, List.length_cons, List.length_nil]
    rw [if_pos (by omega)]
    simp [Nat.add_comm]
  rw [hB] at hn ⊢
  unfold Gob.decodeNodeMeta
  by_cases hcase : n < 74
  · rw [List.take_append_of_le_length (by rw [hA, List.length_cons, hAlen]; omega), hA]
    cases n with
    | zero => exact Gob_decodeMessages_nil _ _
    | succ k =>
      rw [List.take_succ_cons]
      apply Gob_decodeMessages_short _ _ _ _ (by decide)
      rw [List.length_take, hAlen]
      omega
  · have hlenA : (Gob.message
        (Gob.encodeInt (-65) ++ Gob.encodeWireType Gob.nodeMetaType)).length = 74 := by
      rw [hA, List.length_cons, hAlen]
    rw [List.take_append_eq_append_take, List.take_of_length_le (by omega), hlenA]
    simp only [List.length_append, hlenA, List.length_cons, List.length_nil] at hn
    rw [List.length_append, Gob_decodeMessages_descriptor]
    cases hk : n - 74 with
    | zero => exact Gob_decodeMessages_nil _ _
    | succ k =>
      rw [List.take_succ_cons]
      apply Gob_decodeMessages_short _ _ _ _ (by omega)
      rw [List.length_take]
      simp only [List.length_append, List.length_cons, List.length_nil]
      omega

/-- C15, the input that refutes it.  The bytes that encode the value
`Other{APIPort: 6000, Label: "den"}` of another struct type are not the encoding of any
NodeMeta, yet the decoder accepts them: fields are matched by name, the field Label is skipped
and the fields NodeMeta has but the stream lacks stay zero.  DecodeNodeMeta returns the record
with APIPort 6000 and NodeType 0, which is Music, and FilterMembers classifies the member
that carries these bytes as a Music node. -/
theorem foreign_stream_decodes_as_music :
    (∀ m, Gob.encodeNodeMeta m ≠ Gob.otherStream) ∧
    Gob.decodeNodeMeta Gob.otherStream = some ⟨0, 6000, 0, 0⟩ ∧
    DecodeNodeMeta Gob.decodeNodeMeta Gob.otherStream = .ok ⟨0, 6000, 0, Music⟩ ∧
    FilterMembers Gob.decodeNodeMeta Music ⟨[⟨"x", "10.0.0.9", Gob.otherStream⟩]⟩
      = .ok [⟨"x", "10.0.0.9", Gob.otherStream⟩] := by
  refine ⟨?_, by decide, by decide, by decide⟩
  intro m h
  have hA : Gob.message (Gob.encodeInt (-65) ++ Gob.encodeWireType Gob.nodeMetaType)
      = 73 :: (Gob.encodeInt (-65) ++ Gob.encodeWireType Gob.nodeMetaType) := by decide
  have hO : Gob.otherStream.head? = some 41 := by decide
  have h2 := congrArg List.head? h
  rw [hO] at h2
  unfold Gob.encodeNodeMeta at h2
  rw [hA] at h2
  simp at h2

/-- C15 as amended.  Every encoding of a NodeMeta cut short at any point, the empty byte
string included, is rejected by the decoder of the library; DecodeNodeMeta then takes the
fatal branch and returns no NodeMeta, in particular not the zero record, whose NodeType would
be Music; and a member list that holds a member with such metadata makes FilterMembers end in
log.Fatal for every role, so the member is classified under none.  The same holds for every
byte string a decoder rejects, and a NodeMeta is returned exactly for the bytes the decoder
accepts: it is the decoded one. -/
theorem truncated_meta_is_fatal (m : NodeMeta) (n : Nat)
    (hn : n < (Gob.encodeNodeMeta m).length) :
    Gob.decodeNodeMeta ((Gob.encodeNodeMeta m).take n) = none ∧
    DecodeNodeMeta Gob.decodeNodeMeta ((Gob.encodeNodeMeta m).take n) = .fatal ∧
    (∀ m2, DecodeNodeMeta Gob.decodeNodeMeta ((Gob.encodeNodeMeta m).take n) ≠ .ok m2) ∧
    (∀ (r : NodeType) (list : Memberlist),
      (∃ node ∈ list.Members, node.Meta = (Gob.encodeNodeMeta m).take n) →
      FilterMembers Gob.decodeNodeMeta r list = .fatal) ∧
    DecodeNodeMeta Gob.decodeNodeMeta [] = .fatal ∧
    (∀ (gob : GobDecoder) (b : Bytes), gob b = none →
      DecodeNodeMeta gob b = .fatal ∧
      ∀ (r : NodeType) (list : Memberlist), (∃ node ∈ list.Members, node.Meta = b) →
        FilterMembers gob r list = .fatal) ∧
    (∀ (gob : GobDecoder) (b : Bytes) (m2 : NodeMeta),
      DecodeNodeMeta gob b = .ok m2 ↔ gob b = some m2) := by
  have hbad := Gob_decodeNodeMeta_truncated m n hn
  have hgen : ∀ (gob : GobDecoder) (b : Bytes), gob b = none →
      DecodeNodeMeta gob b = .fatal ∧
      ∀ (r : NodeType) (list : Memberlist), (∃ node ∈ list.Members, node.Meta = b) →
        FilterMembers gob r list = .fatal := by
    intro gob b hb
    refine ⟨by unfold DecodeNodeMeta; rw [hb], ?_⟩
    rintro r list ⟨node, hnode, rfl⟩
    exact FilterMembers_loop_fatal gob r list.Members [] ⟨node, hnode, hb⟩
  have hf := (hgen _ _ hbad).1
  refine ⟨hbad, hf, ?_, (hgen _ _ hbad).2, rfl, hgen, ?_⟩
  · intro m2 hm2
    rw [hf] at hm2
    cases hm2
  · intro gob b m2
    unfold DecodeNodeMeta
    cases gob b with
    | none => simp
    | some m3 => simp

/-- Witness for C15 as amended: the encoding of a Music node with the usual ports cut after 80
bytes, as the metadata of a member between two well-formed members. -/
theorem truncated_meta_is_fatal_witness :
    80 < (Gob.encodeNodeMeta ⟨5000, 6000, 7000, 0⟩).length ∧
    Gob.decodeNodeMeta ((Gob.encodeNodeMeta ⟨5000, 6000, 7000, 0⟩).take 80) = none ∧
    FilterMembers Gob.decodeNodeMeta Music
      ⟨[⟨"a", "10.0.0.1", Gob.encodeNodeMeta ⟨5000, 6000, 7000, 0⟩⟩,
        ⟨"b", "10.0.0.2", (Gob.encodeNodeMeta ⟨5000, 6000, 7000, 0⟩).take 80⟩,
        ⟨"c", "10.0.0.3", Gob.encodeNodeMeta ⟨5000, 6000, 7000, 1⟩⟩]⟩ = .fatal :=
  ⟨by decide, (truncated_meta_is_fatal ⟨5000, 6000, 7000, 0⟩ 80 (by decide)).1,
    (truncated_meta_is_fatal ⟨5000, 6000, 7000, 0⟩ 80 (by decide)).2.2.2.1 Music _
      ⟨⟨"b", "10.0.0.2", (Gob.encodeNodeMeta ⟨5000, 6000, 7000, 0⟩).take 80⟩, by simp, rfl⟩⟩

/-- C16.  For every NodeMeta whose four fields are 64-bit integers, and every limit, the bytes
Delegate.NodeMeta returns for a delegate that points to it are decoded by DecodeNodeMeta to a
NodeMeta equal to it in RtspPort, APIPort, RaftPort and NodeType; this includes the all-zero
record, of which only the type description and an empty struct are sent. -/
theorem nodeMeta_roundtrip (m : NodeMeta) (limit : Int)
    (h1 : isInt64 m.RtspPort) (h2 : isInt64 m.APIPort) (h3 : isInt64 m.RaftPort)
    (h4 : isInt64 m.NodeType) :
    ∃ b, (Delegate.mk (some m)).NodeMeta limit = .ok b ∧
      DecodeNodeMeta Gob.decodeNodeMeta b = .ok m ∧
      (∀ m2, DecodeNodeMeta Gob.decodeNodeMeta b = .ok m2 →
        m2.RtspPort = m.RtspPort ∧ m2.APIPort = m.APIPort ∧ m2.RaftPort = m.RaftPort ∧
        m2.NodeType = m.NodeType) := by
  have hdec : DecodeNodeMeta Gob.decodeNodeMeta (Gob.encodeNodeMeta m) = .ok m := by
    unfold DecodeNodeMeta
    rw [Gob_decode_encode m (by
      intro v hv
      simp only [List.mem_cons, List.mem_singleton, List.not_mem_nil, or_false] at hv
      rcases hv with rfl | rfl | rfl | rfl
      · exact h1
      · exact h2
      · exact h3
      · exact h4)]
  refine ⟨Gob.encodeNodeMeta m, rfl, hdec, ?_⟩
  intro m2 hm2
  rw [hdec] at hm2
  injection hm2 with hm2
  subst hm2
  exact ⟨rfl, rfl, rfl, rfl⟩

/-- Witness for C16: a Mgmt node with the usual ports, and the all-zero record. -/
theorem nodeMeta_roundtrip_witness :
    (isInt64 5000 ∧ isInt64 6000 ∧ isInt64 7000 ∧ isInt64 Mgmt) ∧
    (∃ b, (Delegate.mk (some ⟨5000, 6000, 7000, Mgmt⟩)).NodeMeta 512 = .ok b ∧
      DecodeNodeMeta Gob.decodeNodeMeta b = .ok ⟨5000, 6000, 7000, Mgmt⟩) ∧
    (∃ b, (Delegate.mk (some ⟨0, 0, 0, 0⟩)).NodeMeta 0 = .ok b ∧
      DecodeNodeMeta Gob.decodeNodeMeta b = .ok ⟨0, 0, 0, 0⟩) :=
  ⟨by decide,
    let ⟨b, hb, hd, _⟩ := nodeMeta_roundtrip ⟨5000, 6000, 7000, Mgmt⟩ 512
      (by decide) (by decide) (by decide) (by decide)
    ⟨b, hb, hd⟩,
    let ⟨b, hb, hd, _⟩ := nodeMeta_roundtrip ⟨0, 0, 0, 0⟩ 0
      (by decide) (by decide) (by decide) (by decide)
    ⟨b, hb, hd⟩⟩

/-! ## C29: the nested loop of RemoveSpeakersFromZone -/

theorem firstIndex_eq_zero_iff (s : String) (R : List String) (hR : R ≠ []) :
    firstIndex s R = 0 ↔ R.head? = some s := by
  cases R with
  | nil => exact absurd rfl hR
  | cons r rest =>
    unfold firstIndex
    by_cases h : r = s
    · simp [h]
    · simp [h]

theorem firstIndex_le_length (s : String) (R : List String) : firstIndex s R ≤ R.length := by
  induction R with
  | nil => simp [firstIndex]
  | cons r rest ih =>
    unfold firstIndex
    by_cases h : r = s
    · simp [h]
    · simp [h, ih]

theorem firstIndex_eq_length_iff (s : String) (R : List String) :
    firstIndex s R = R.length ↔ s ∉ R := by
  induction R with
  | nil => simp [firstIndex]
  | cons r rest ih =>
    unfold firstIndex
    by_cases h : r = s
    · simp [h]
    · have h2 : ¬ s = r := fun e => h e.symm
      simp [h, h2, ih]

theorem RemoveSpeakersFromZone_inner_eq (speaker : String) (R : List String) (found : Bool)
    (acc : List String) :
    RemoveSpeakersFromZone.inner speaker R found acc
      = acc ++ List.replicate (if found then 0 else firstIndex speaker R) speaker := by
  induction R generalizing found acc with
  | nil => cases found <;> simp [RemoveSpeakersFromZone.inner, firstIndex]
  | cons r rest ih =>
    unfold RemoveSpeakersFromZone.inner
    by_cases h : r = speaker
    · cases found <;> simp [h, ih, firstIndex]
    · cases found
      · simp [h, ih, firstIndex, List.replicate_succ]
      · simp [h, ih]

theorem RemoveSpeakersFromZone_rebuild_eq (R S acc : List String) :
    RemoveSpeakersFromZone.rebuild R S acc
      = acc ++ (S.map (fun s => List.replicate (firstIndex s R) s)).flatten := by
  induction S generalizing acc with
  | nil => simp [RemoveSpeakersFromZone.rebuild]
  | cons s rest ih =>
    unfold RemoveSpeakersFromZone.rebuild
    rw [ih, RemoveSpeakersFromZone_inner_eq]
    simp

/-- C29.  For every member list `S` and every non-empty removal list `R`, the list the nested
loop of RemoveSpeakersFromZone builds is, member by member in the order of `S`, a run of `i`
copies of the member, `i` being the index of its first occurrence in `R` (the length of `R`
when it does not occur, so that `i` equals the length exactly for the members outside `R`);
a member of `S` is missing from the result exactly when it is the first element of `R`, and
everything in the result is a member of `S`. -/
theorem rebuild_copies_by_first_index (S R : List String) (hR : R ≠ []) :
    RemoveSpeakersFromZone.rebuild R S []
      = (S.map (fun s => List.replicate (firstIndex s R) s)).flatten ∧
    (∀ s, firstIndex s R ≤ R.length ∧ (firstIndex s R = R.length ↔ s ∉ R) ∧
      (∀ i (h : i < R.length), R.get ⟨i, h⟩ = s → firstIndex s R ≤ i) ∧
      (∀ h : firstIndex s R < R.length, R.get ⟨firstIndex s R, h⟩ = s)) ∧
    (∀ s ∈ S, s ∉ RemoveSpeakersFromZone.rebuild R S [] ↔ R.head? = some s) ∧
    (∀ x ∈ RemoveSpeakersFromZone.rebuild R S [], x ∈ S) := by
  have hre := RemoveSpeakersFromZone_rebuild_eq R S []
  rw [List.nil_append] at hre
  refine ⟨hre, ?_, ?_, ?_⟩
  · intro s
    refine ⟨firstIndex_le_length s R, firstIndex_eq_length_iff s R, ?_, ?_⟩
    · clear hre hR
      induction R with
      | nil => intro i h; exact absurd h (Nat.not_lt_zero _)
      | cons r rest ih =>
        intro i h hget
        unfold firstIndex
        by_cases hrs : r = s
        · simp [hrs]
        · rw [if_neg hrs]
          cases i with
          | zero => exact absurd hget hrs
          | succ j =>
            have := ih j (by simpa using h) hget
            omega
    · clear hre hR
      induction R with
      | nil => intro h; exact absurd h (Nat.not_lt_zero _)
      | cons r rest ih =>
        unfold firstIndex
        by_cases hrs : r = s
        · simp [hrs]
        · simp only [if_neg hrs]
          intro h
          exact ih (by simpa using h)
  · intro s hs
    rw [hre, ← firstIndex_eq_zero_iff s R hR]
    constructor
    · intro hnot
      by_contra h0
      apply hnot
      rw [List.mem_flatten]
      refine ⟨List.replicate (firstIndex s R) s, List.mem_map.2 ⟨s, hs, rfl⟩, ?_⟩
      rw [List.mem_replicate]
      exact ⟨h0, rfl⟩
    · intro h0 hmem
      rw [List.mem_flatten] at hmem
      obtain ⟨l, hl, hsl⟩ := hmem
      obtain ⟨t, _, rfl⟩ := List.mem_map.1 hl
      rw [List.mem_replicate] at hsl
      obtain ⟨hne, rfl⟩ := hsl
      exact hne h0
  · intro x hx
    rw [hre, List.mem_flatten] at hx
    obtain ⟨l, hl, hxl⟩ := hx
    obtain ⟨t, ht, rfl⟩ := List.mem_map.1 hl
    rw [List.mem_replicate] at hxl
    rw [hxl.2]
    exact ht

/-- Witness for C29: the members `a`, `b`, `c` and the removal list `b`, `c`. -/
theorem rebuild_copies_by_first_index_witness :
    (["b", "c"] : List String) ≠ [] ∧
    RemoveSpeakersFromZone.rebuild ["b", "c"] ["a", "b", "c"] [] = ["a", "a", "c"] ∧
    ("b" ∉ RemoveSpeakersFromZone.rebuild ["b", "c"] ["a", "b", "c"] [] ↔
      ["b", "c"].head? = some "b") :=
  ⟨by decide,
   (rebuild_copies_by_first_index ["a", "b", "c"] ["b", "c"] (by decide)).1.trans (by decide),
   (rebuild_copies_by_first_index ["a", "b", "c"] ["b", "c"] (by decide)).2.2.1 "b" (by decide)⟩

/-! ## C30: Apply and entries that are not commands -/

/-- C30, the input that refutes it.  The entry `{"op":"set","key":"k","value":5}` does not
unmarshal into a command without error (a number where an entry is expected), yet `op` and
`key` are decoded, and Apply goes on to store the zero entry under `k`: the map of a store that
was empty is changed.  With `"op":"delete"` the same kind of entry deletes a key. -/
theorem apply_runs_partly_decoded_command :
    (unmarshalCommand numberAsValue.Data command.zero).2 = some "json: cannot unmarshal into Go value" ∧
    (leaderWith []).m.get "k" = none ∧
    ((leaderWith []).Apply numberAsValue).1 = .ok () ∧
    ((leaderWith []).Apply numberAsValue).2.m.get "k" = some entry.zero ∧
    (unmarshalCommand (.doc (.obj [("op", .str "delete"), ("key", .str "z1"), ("value", .num "5")]))
      command.zero).2 ≠ none ∧
    (patioWorld.store.Apply
      ⟨.doc (.obj [("op", .str "delete"), ("key", .str "z1"), ("value", .num "5")])⟩).2.m.get "z1"
      = none ∧
    patioWorld.store.m.get "z1" ≠ none := by
  decide

/-- C30 as amended.  For every store state and every log entry whose data is not a JSON
document, or whose `op`, as far as `json.Unmarshal` decoded the entry (a type error does not
stop it), is neither `set` nor `delete`, Apply returns nil and leaves the store, its map
included, as it was. -/
theorem apply_ignores_other_entries (ds : DistributedStore) (l : Log)
    (h : l.Data = .invalid ∨
      ((unmarshalCommand l.Data command.zero).1.Op ≠ "set" ∧
       (unmarshalCommand l.Data command.zero).1.Op ≠ "delete")) :
    ds.Apply l = (.ok (), ds) := by
  have h2 : (unmarshalCommand l.Data command.zero).1.Op ≠ "set" ∧
      (unmarshalCommand l.Data command.zero).1.Op ≠ "delete" := by
    rcases h with h | h
    · rw [h]
      exact ⟨by decide, by decide⟩
    · exact h
  unfold DistributedStore.Apply
  simp only [if_neg h2.1, if_neg h2.2]

/-- Witness for C30 as amended: bytes that are not JSON, and a document whose `op` is
`update`, on a store that holds the zone Patio. -/
theorem apply_ignores_other_entries_witness :
    patioWorld.store.Apply ⟨.invalid⟩ = (.ok (), patioWorld.store) ∧
    patioWorld.store.Apply ⟨.doc (.obj [("op", .str "update"), ("key", .str "z1")])⟩
      = (.ok (), patioWorld.store) :=
  ⟨apply_ignores_other_entries patioWorld.store ⟨.invalid⟩ (Or.inl rfl),
   apply_ignores_other_entries patioWorld.store
     ⟨.doc (.obj [("op", .str "update"), ("key", .str "z1")])⟩ (Or.inr (by decide))⟩

/-! ## C27: isLocalIP -/

theorem isLocalIP_loop_iff (ipAddr : String) (addrs : List IfaceAddr) :
    isLocalIP.loop ipAddr addrs = true ↔
      ∃ a ∈ addrs, a.isIPNet = true ∧ a.isLoopback = false ∧ a.ip4 ≠ ipAddr := by
  induction addrs with
  | nil => simp [isLocalIP.loop]
  | cons a rest ih =>
    unfold isLocalIP.loop
    by_cases h1 : (a.isIPNet && !a.isLoopback) = true
    · rw [if_pos h1]
      by_cases h2 : a.ip4 ≠ ipAddr
      · rw [if_pos h2]
        simp only [Bool.and_eq_true, Bool.not_eq_true'] at h1
        simp only [List.mem_cons, true_iff]
        exact ⟨a, Or.inl rfl, h1.1, h1.2, h2⟩
      · rw [if_neg h2, ih]
        constructor
        · rintro ⟨b, hb, hb2⟩
          exact ⟨b, List.mem_cons_of_mem _ hb, hb2⟩
        · rintro ⟨b, hb, hb2⟩
          rcases List.mem_cons.1 hb with rfl | hb
          · exact absurd hb2.2.2 h2
          · exact ⟨b, hb, hb2⟩
    · rw [if_neg h1, ih]
      constructor
      · rintro ⟨b, hb, hb2⟩
        exact ⟨b, List.mem_cons_of_mem _ hb, hb2⟩
      · rintro ⟨b, hb, hb2⟩
        rcases List.mem_cons.1 hb with rfl | hb
        · exact absurd (by simp [hb2.1, hb2.2.1]) h1
        · exact ⟨b, hb, hb2⟩

/-- C27 at a failing input.  On a host whose interfaces are the loopback one and
192.168.1.5, isLocalIP answers false for 192.168.1.5, the address of the host, and true for
10.9.9.9 and for every other text, which are not addresses of the host: the comparison in its
loop is `!=`.  In general it answers true exactly when some interface that is an IP network and
not loopback has an IPv4 text different from the argument.  So for a leader address without
IP, getLeaderAPIAddress takes the Mgmt member at 10.9.9.9 on another host, and finds none when
the only Mgmt member is the one on this host. -/
theorem isLocalIP_accepts_foreign_address :
    isLocalIP (Env.oneInterface []) "192.168.1.5" = false ∧
    isLocalIP (Env.oneInterface []) "10.9.9.9" = true ∧
    (∀ ip, ip ≠ "192.168.1.5" → isLocalIP (Env.oneInterface []) ip = true) ∧
    (∀ (env : Env) (addrs : List IfaceAddr) (ip : String), env.interfaceAddrs = .ok addrs →
      (isLocalIP env ip = true ↔
        ∃ a ∈ addrs, a.isIPNet = true ∧ a.isLoopback = false ∧ a.ip4 ≠ ip)) ∧
    getLeaderAPIAddress (Env.oneInterface [⟨"m2", "10.9.9.9", [1]⟩, ⟨"m1", "192.168.1.5", [1]⟩])
      (some ⟨none, 7000⟩) = .ok "10.9.9.9:6000" ∧
    getLeaderAPIAddress (Env.oneInterface [⟨"m1", "192.168.1.5", [1]⟩]) (some ⟨none, 7000⟩)
      = .ok "" := by
  refine ⟨by decide, by decide, ?_, ?_, by decide, by decide⟩
  · intro ip hip
    have h := (isLocalIP_loop_iff ip
      [⟨true, true, "127.0.0.1"⟩, ⟨true, false, "192.168.1.5"⟩]).2
      ⟨⟨true, false, "192.168.1.5"⟩, by simp, rfl, rfl, fun e => hip e.symm⟩
    exact h
  · intro env addrs ip he
    unfold isLocalIP
    rw [he]
    exact isLocalIP_loop_iff ip addrs

/-! ## C28: every entry sits under its own ID -/

theorem OneKindByID_set (kvs : KVs) (h : kvs.OneKindByID) (k : String) (v : entry)
    (hv : (v.ZoneConfig = ZoneConfig.zero ∧ v.SpeakerConfig.ID = k) ∨
      (v.SpeakerConfig = SpeakerConfig.zero ∧ v.ZoneConfig.ID = k)) :
    (kvs.set k v).OneKindByID := by
  intro p hp
  unfold KVs.set at hp
  rcases List.mem_cons.mp hp with rfl | hp
  · exact hv
  · exact h p (List.mem_filter.mp hp).1

theorem OneKindByID_delete (kvs : KVs) (h : kvs.OneKindByID) (k : String) :
    (kvs.delete k).OneKindByID := by
  intro p hp
  exact h p (List.mem_filter.mp hp).1

theorem replay_service_commands_one_kind (ds0 : DistributedStore) (hm : ds0.m = .mk [])
    (cmds : List command) (h : ∀ c ∈ cmds, c.FromService) :
    ∃ kvs, replay ds0 (cmds.map command.toLog) = (.ok (), { ds0 with m := .mk kvs }) ∧
      kvs.OneKindByID ∧ kvs.keys.Nodup := by
  induction cmds using List.reverseRecOn with
  | nil =>
    exact ⟨[], by rw [List.map_nil, replay_nil, ← hm], (fun p hp => by cases hp), List.nodup_nil⟩
  | append_singleton cmds c ih =>
    obtain ⟨kvs, hrun, hk, hn⟩ := ih (fun d hd => h d (List.mem_append_left _ hd))
    rw [List.map_append, replay_append, hrun]
    simp only [List.map_cons, List.map_nil, List.foldl_cons, List.foldl_nil, replayStep]
    rcases h c (List.mem_append_right _ (List.mem_singleton.mpr rfl)) with
      ⟨sc, rfl⟩ | ⟨zc, rfl⟩ | ⟨id, rfl⟩
    · rw [Apply_toLog_set _ kvs rfl _ rfl]
      exact ⟨_, rfl, OneKindByID_set kvs hk _ _ (Or.inl ⟨rfl, rfl⟩), KVs_keys_set_nodup _ _ _ hn⟩
    · rw [Apply_toLog_set _ kvs rfl _ rfl]
      exact ⟨_, rfl, OneKindByID_set kvs hk _ _ (Or.inr ⟨rfl, rfl⟩), KVs_keys_set_nodup _ _ _ hn⟩
    · rw [Apply_toLog_delete _ kvs rfl _ rfl]
      exact ⟨_, rfl, OneKindByID_delete kvs hk _, KVs_keys_delete_nodup _ _ hn⟩

theorem zone_ids_nodup (kvs : KVs) (hk : kvs.OneKindByID) (hn : kvs.keys.Nodup) :
    (((kvs.filter (fun p => p.2.ZoneConfig.ID ≠ "")).map (fun p => p.2.ZoneConfig)).map
      ZoneConfig.ID).Nodup := by
  have hkeys : ((kvs.filter (fun p => p.2.ZoneConfig.ID ≠ "")).map (fun p => p.2.ZoneConfig)).map
      ZoneConfig.ID = (kvs.filter (fun p => p.2.ZoneConfig.ID ≠ "")).map (fun p => p.1) := by
    rw [List.map_map]
    apply List.map_congr_left
    intro p hp
    obtain ⟨hp1, hp2⟩ := List.mem_filter.mp hp
    rcases hk p hp1 with ⟨h0, _⟩ | ⟨_, h1⟩
    · rw [h0] at hp2
      exact absurd hp2 (by decide)
    · exact h1
  rw [hkeys]
  exact KVs_keys_filter_nodup kvs _ hn

/-- C28.  Starting from an empty store (the one NewDistributedStore makes, or any store whose
map is made and empty), after Apply has been given, in order, any sequence of commands that
SaveSpeakerConfig, SaveZoneConfig and DeleteZoneConfig marshal, the run has returned normally
and every key `k` of the map holds an entry in which either ZoneConfig is the zero value and
SpeakerConfig.ID is `k`, or SpeakerConfig is the zero value and ZoneConfig.ID is `k`.
Consequently every ZoneConfig that GetZoneConfigs returns is the one stored under its own ID,
and no two zones returned share an ID. -/
theorem store_entries_sit_under_own_id (ds0 : DistributedStore) (hm : ds0.m = .mk [])
    (cmds : List command) (h : ∀ c ∈ cmds, c.FromService) :
    ∃ ds, replay ds0 (cmds.map command.toLog) = (.ok (), ds) ∧
      (∀ k e, ds.m.get k = some e →
        (e.ZoneConfig = ZoneConfig.zero ∧ e.SpeakerConfig.ID = k) ∨
        (e.SpeakerConfig = SpeakerConfig.zero ∧ e.ZoneConfig.ID = k)) ∧
      (∀ z ∈ ds.GetZoneConfigs, ∃ e, ds.m.get z.ID = some e ∧ e.ZoneConfig = z) ∧
      (ds.GetZoneConfigs.map ZoneConfig.ID).Nodup := by
  obtain ⟨kvs, hrun, hk, hn⟩ := replay_service_commands_one_kind ds0 hm cmds h
  refine ⟨_, hrun, ?_, ?_, ?_⟩
  · intro k e hget
    have hmem : (k, e) ∈ kvs := (KVs_get_eq_some_iff kvs hn k e).1 hget
    exact hk (k, e) hmem
  · intro z hz
    rw [GetZoneConfigs_mk _ kvs rfl] at hz
    obtain ⟨p, hp, rfl⟩ := List.mem_map.mp hz
    obtain ⟨hp1, hp2⟩ := List.mem_filter.mp hp
    refine ⟨p.2, ?_, rfl⟩
    rcases hk p hp1 with ⟨h0, _⟩ | ⟨_, h1⟩
    · rw [h0] at hp2
      exact absurd hp2 (by decide)
    · rw [h1]
      exact (KVs_get_eq_some_iff kvs hn p.1 p.2).2 hp1
  · rw [GetZoneConfigs_mk _ kvs rfl]
    exact zone_ids_nodup kvs hk hn

/-- Witness for C28: a speaker is named, the zone Patio is saved twice under z1, a zone z2 is
saved and deleted, and a speaker is named under the ID that z1 would use next. -/
theorem store_entries_sit_under_own_id_witness :
    (NewDistributedStore "mgmt-1" 7000 "raft").m = .mk [] ∧
    ∃ ds, replay (NewDistributedStore "mgmt-1" 7000 "raft")
        ([command.ofSpeakerConfig ⟨"a", "Attic"⟩, command.ofZoneConfig patio,
          command.ofZoneConfig { patio with DisplayName := "Porch" },
          command.ofZoneConfig ⟨"z2", "Den", "d", some ["d"]⟩, command.ofDelete "z2",
          command.ofSpeakerConfig ⟨"", "nameless"⟩].map command.toLog) = (.ok (), ds) ∧
      (∀ k e, ds.m.get k = some e →
        (e.ZoneConfig = ZoneConfig.zero ∧ e.SpeakerConfig.ID = k) ∨
        (e.SpeakerConfig = SpeakerConfig.zero ∧ e.ZoneConfig.ID = k)) ∧
      (∀ z ∈ ds.GetZoneConfigs, ∃ e, ds.m.get z.ID = some e ∧ e.ZoneConfig = z) ∧
      (ds.GetZoneConfigs.map ZoneConfig.ID).Nodup :=
  ⟨rfl, store_entries_sit_under_own_id (NewDistributedStore "mgmt-1" 7000 "raft") rfl _ (by
    intro c hc
    simp only [List.mem_cons, List.mem_singleton, List.not_mem_nil, or_false] at hc
    rcases hc with rfl | rfl | rfl | rfl | rfl | rfl
    · exact Or.inl ⟨_, rfl⟩
    · exact Or.inr (Or.inl ⟨_, rfl⟩)
    · exact Or.inr (Or.inl ⟨_, rfl⟩)
    · exact Or.inr (Or.inl ⟨_, rfl⟩)
    · exact Or.inr (Or.inr ⟨_, rfl⟩)
    · exact Or.inl ⟨_, rfl⟩)⟩

/-! ## C23: the API address of the consensus leader -/

theorem hostPort_ne_empty (ip : String) (port : Int) : hostPort ip port ≠ "" := by
  intro h
  have h2 := congrArg String.data h
  simp [hostPort, String.data_append] at h2

theorem getLeaderAPIAddress_loop_explicit (env : Env) (ip : String) (port : Int) (l : List Node)
    (h : ∀ n ∈ l, (env.gob n.Meta).isSome = true) :
    getLeaderAPIAddress.loop env (some ⟨some ip, port⟩) l
      = .ok (match l.find? (fun n => match env.gob n.Meta with
            | some m => decide (n.Addr = ip) && decide (m.RaftPort = port)
            | none => false) with
          | some n => env.apiAddressOfNode n
          | none => "") := by
  induction l with
  | nil => rfl
  | cons n rest ih =>
    have hn := h n (List.mem_cons_self _ _)
    have hrest : ∀ x ∈ rest, (env.gob x.Meta).isSome = true :=
      fun x hx => h x (List.mem_cons_of_mem _ hx)
    cases hg : env.gob n.Meta with
    | none => rw [hg] at hn; cases hn
    | some m =>
      unfold getLeaderAPIAddress.loop
      simp only [DecodeNodeMeta, hg, TCPAddr.ipString]
      by_cases hc : ip = n.Addr ∧ port = m.RaftPort
      · obtain ⟨h1, h2⟩ := hc
        simp [List.find?_cons, hg, h1, h2, Env.apiAddressOfNode]
      · have hc2 : ¬ (n.Addr = ip ∧ m.RaftPort = port) := fun e => hc ⟨e.1.symm, e.2.symm⟩
        rw [ih hrest]
        simp only [List.find?_cons, hg]
        rw [not_and] at hc hc2
        by_cases h1 : ip = n.Addr
        · have h2 := hc h1
          have h3 : ¬ m.RaftPort = port := fun e => h2 e.symm
          simp [h1, h2, h3]
        · have h3 : ¬ n.Addr = ip := fun e => h1 e.symm
          simp [h1, h3]

theorem find_isLeaderMember (env : Env) (ip : String) (port : Int) (l : List Node) :
    (l.filter (fun n => decide ((env.gob n.Meta).map NodeMeta.NodeType = some Mgmt))).find?
        (fun n => match env.gob n.Meta with
          | some m => decide (n.Addr = ip) && decide (m.RaftPort = port)
          | none => false)
      = l.find? (env.isLeaderMember ip port) := by
  induction l with
  | nil => rfl
  | cons n rest ih =>
    cases hg : env.gob n.Meta with
    | none =>
      simp only [List.filter_cons, hg, Option.map_none', List.find?_cons, Env.isLeaderMember]
      exact ih
    | some m =>
      by_cases ht : m.NodeType = Mgmt
      · simp only [List.filter_cons, hg, Option.map_some', ht, decide_True, if_true,
          List.find?_cons, Env.isLeaderMember, Bool.true_and]
        rw [ih]
      · have ht2 : ¬ (some m.NodeType = some Mgmt) := fun e => ht (Option.some.inj e)
        simp only [List.filter_cons, hg, Option.map_some', ht2, decide_False, List.find?_cons,
          Env.isLeaderMember, ht, Bool.false_and]
        exact ih

theorem getLeaderAPIAddress_explicit (env : Env) (ip : String) (port : Int)
    (hdec : ∀ n ∈ env.nodes.Members, (env.gob n.Meta).isSome = true) :
    getLeaderAPIAddress env (some ⟨some ip, port⟩)
      = .ok (match env.nodes.Members.find? (env.isLeaderMember ip port) with
          | some n => env.apiAddressOfNode n
          | none => "") := by
  unfold getLeaderAPIAddress FilterMembers
  rw [FilterMembers_loop_eq _ _ _ _ hdec]
  simp only [List.nil_append]
  rw [getLeaderAPIAddress_loop_explicit, find_isLeaderMember]
  intro n hn
  exact hdec n (List.mem_filter.mp hn).1

/-- C23, the input that refutes it.  The leader address 10.0.1.1:7000 has an explicit IP, and
the member list holds the Mgmt member at 10.0.1.1 that advertises the consensus port 7000,
followed by a member whose metadata is the empty byte string.  getLeaderAPIAddress returns
no address: FilterMembers decodes every member first and the process ends in log.Fatal.
Without the second member it returns 10.0.1.1:6000. -/
theorem leader_address_fatal_on_malformed_member :
    (Env.gobExample [gobMgmtNode "m1" 1, ⟨"x", "10.0.0.9", []⟩]).isLeaderMember "10.0.1.1" 7000
      (gobMgmtNode "m1" 1) = true ∧
    getLeaderAPIAddress (Env.gobExample [gobMgmtNode "m1" 1, ⟨"x", "10.0.0.9", []⟩])
      (some ⟨some "10.0.1.1", 7000⟩) = .fatal ∧
    getLeaderAPIAddress (Env.gobExample [gobMgmtNode "m1" 1])
      (some ⟨some "10.0.1.1", 7000⟩) = .ok "10.0.1.1:6000" := by
  decide

/-- C23 as amended.  For every member list whose metadata all decode and every leader TCP
address with an explicit IP, getLeaderAPIAddress returns the text `ip:APIPort` of the first
member, in member order, that is a Mgmt member whose address is the leader IP and whose
advertised RaftPort is the leader port; it returns the empty string exactly when no member
is such a one, and then getLeaderClient, for a leader address that resolves to this TCP
address, returns the error Could not resolve API address for: leader, whatever `grpc.Dial`
would answer: no connection is opened. -/
theorem leader_address_of_explicit_ip (env : Env) (ip : String) (port : Int)
    (hdec : ∀ n ∈ env.nodes.Members, (env.gob n.Meta).isSome = true) :
    (∃ address, getLeaderAPIAddress env (some ⟨some ip, port⟩) = .ok address ∧
      (∀ n, env.nodes.Members.find? (env.isLeaderMember ip port) = some n →
        ∃ m, env.gob n.Meta = some m ∧ m.NodeType = Mgmt ∧ n.Addr = ip ∧ m.RaftPort = port ∧
          address = hostPort ip m.APIPort) ∧
      (address = "" ↔ ∀ n ∈ env.nodes.Members, env.isLeaderMember ip port n = false)) ∧
    ((∀ n ∈ env.nodes.Members, env.isLeaderMember ip port n = false) →
      ∀ (leader : String) (dial : String → Option String),
        env.resolveTCPAddr leader = some ⟨some ip, port⟩ →
        getLeaderClient { env with dial := dial } leader
          = .err ("Could not resolve API address for: " ++ leader)) := by
  have hrun := getLeaderAPIAddress_explicit env ip port hdec
  have hnone : (∀ n ∈ env.nodes.Members, env.isLeaderMember ip port n = false) →
      env.nodes.Members.find? (env.isLeaderMember ip port) = none := by
    intro h
    rw [List.find?_eq_none]
    intro n hn
    rw [h n hn]
    exact Bool.false_ne_true
  constructor
  · refine ⟨_, hrun, ?_, ?_⟩
    · intro n hfind
      have hp := List.find?_some hfind
      rw [hfind]
      unfold Env.isLeaderMember at hp
      unfold Env.apiAddressOfNode
      cases hg : env.gob n.Meta with
      | none => rw [hg] at hp; cases hp
      | some m =>
        rw [hg] at hp
        simp only [Bool.and_eq_true, decide_eq_true_eq] at hp
        refine ⟨m, rfl, hp.1, hp.2.1, hp.2.2, ?_⟩
        simp only [hg, hp.2.1]
    · constructor
      · intro hempty n hn
        cases hf : env.nodes.Members.find? (env.isLeaderMember ip port) with
        | none =>
          rw [List.find?_eq_none] at hf
          exact Bool.eq_false_iff.mpr (hf n hn)
        | some x =>
          rw [hf] at hempty
          have hx := hdec x (List.mem_of_find?_eq_some hf)
          unfold Env.apiAddressOfNode at hempty
          cases hg : env.gob x.Meta with
          | none => rw [hg] at hx; cases hx
          | some m =>
            simp only [hg] at hempty
            exact absurd hempty (hostPort_ne_empty _ _)
      · intro h
        rw [hnone h]
  · intro h leader dial hres
    have hrun2 : getLeaderAPIAddress { env with dial := dial } (some ⟨some ip, port⟩) = .ok "" := by
      have := getLeaderAPIAddress_explicit { env with dial := dial } ip port hdec
      rw [this]
      have h2 : List.find? (Env.isLeaderMember { env with dial := dial } ip port)
          env.nodes.Members = none := hnone h
      rw [h2]
    unfold getLeaderClient
    simp only [hres, hrun2, if_true]

/-- Witness for C23 as amended: two Mgmt members advertise the consensus port 7000; the leader
at 10.0.1.2 is resolved to the second, the leader at 10.0.1.7 to none. -/
theorem leader_address_of_explicit_ip_witness :
    (∀ n ∈ (Env.gobExample [gobMusicNode "a" 2, gobMgmtNode "m1" 1, gobMgmtNode "m2" 2]).nodes.Members,
      ((Env.gobExample [gobMusicNode "a" 2, gobMgmtNode "m1" 1, gobMgmtNode "m2" 2]).gob
        n.Meta).isSome = true) ∧
    getLeaderAPIAddress (Env.gobExample [gobMusicNode "a" 2, gobMgmtNode "m1" 1, gobMgmtNode "m2" 2])
      (some ⟨some "10.0.1.2", 7000⟩) = .ok "10.0.1.2:6000" ∧
    getLeaderClient
      { Env.gobExample [gobMusicNode "a" 2, gobMgmtNode "m1" 1, gobMgmtNode "m2" 2] with
        resolveTCPAddr := fun _ => some ⟨some "10.0.1.7", 7000⟩ } "10.0.1.7:7000"
      = .err "Could not resolve API address for: 10.0.1.7:7000" :=
  ⟨by decide,
   by
    obtain ⟨address, h1, h2, _⟩ := (leader_address_of_explicit_ip
      (Env.gobExample [gobMusicNode "a" 2, gobMgmtNode "m1" 1, gobMgmtNode "m2" 2])
      "10.0.1.2" 7000 (by decide)).1
    obtain ⟨m, hm, _, _, _, h3⟩ := h2 (gobMgmtNode "m2" 2) (by decide)
    have hm2 : m = ⟨5000, 6000, 7000, Mgmt⟩ := by
      have : (Env.gobExample [gobMusicNode "a" 2, gobMgmtNode "m1" 1, gobMgmtNode "m2" 2]).gob
          (gobMgmtNode "m2" 2).Meta = some ⟨5000, 6000, 7000, Mgmt⟩ := by decide
      rw [this] at hm
      exact (Option.some.inj hm).symm
    rw [h1, h3, hm2]
    decide,
   (leader_address_of_explicit_ip
      { Env.gobExample [gobMusicNode "a" 2, gobMgmtNode "m1" 1, gobMgmtNode "m2" 2] with
        resolveTCPAddr := fun _ => some ⟨some "10.0.1.7", 7000⟩ }
      "10.0.1.7" 7000 (by decide)).2 (by decide) "10.0.1.7:7000" (fun _ => none) rfl⟩

/-! ## C21: SetDisplayName on the leader -/

theorem getSpeakerClient_ok_or_err (env : Env)
    (hdec : ∀ n ∈ env.nodes.Members, (env.gob n.Meta).isSome = true) (id : String) (w : World) :
    (∃ c, (getSpeakerClient env id w).1 = .ok c) ∨ (∃ e, (getSpeakerClient env id w).1 = .err e) := by
  unfold getSpeakerClient FilterMembersByFn
  rw [speakerFilter_eq env.gob id env.nodes.Members hdec _ _ (fun _ h => h)]
  rw [List.nil_append]
  generalize hl : List.filter _ env.nodes.Members = l
  match l, hl with
  | [], _ => exact Or.inr ⟨_, rfl⟩
  | [speaker], hl =>
    have hmem : speaker ∈ env.nodes.Members := by
      have : speaker ∈ List.filter (fun n =>
          decide ((env.gob n.Meta).map NodeMeta.NodeType = some Music) && decide (id = n.Name))
          env.nodes.Members := by rw [hl]; exact List.mem_singleton.mpr rfl
      exact (List.mem_filter.mp this).1
    have hs := hdec speaker hmem
    cases hg : env.gob speaker.Meta with
    | none => rw [hg] at hs; cases hs
    | some m =>
      simp only [DecodeNodeMeta, hg]
      cases env.speakerDial w.rpcs (hostPort speaker.Addr m.APIPort) with
      | none => exact Or.inl ⟨_, rfl⟩
      | some e => exact Or.inr ⟨_, rfl⟩
  | _ :: _ :: _, _ => exact Or.inr ⟨_, rfl⟩

theorem store_then_error (f : DistributedStore → Res Unit × DistributedStore) (w : World) :
    (Op.store f >>= fun err => Op.lift (Res.ofError err)) w
      = ((f w.store).1, { w with store := (f w.store).2 }) := by
  show Op.bind (Op.store f) (fun err => Op.lift (Res.ofError err)) w = _
  unfold Op.bind Op.store Op.lift
  cases hf : f w.store with
  | mk res ds =>
    cases res <;> rfl

theorem index_speaker_ID (m : GoMap) (hkey : m.range.OneKindByID) (id : String) :
    (m.index id).SpeakerConfig.ID = "" ∨ (m.index id).SpeakerConfig.ID = id := by
  unfold GoMap.index GoMap.get
  generalize m.range = kvs at hkey
  cases hg : KVs.get kvs id with
  | none => exact Or.inl rfl
  | some e =>
    unfold KVs.get at hg
    cases hf : List.find? (fun p => decide (p.1 = id)) kvs with
    | none => rw [hf] at hg; cases hg
    | some p =>
      rw [hf] at hg
      have he : p.2 = e := by simpa using hg
      have hp := List.find?_some hf
      have hmem := List.mem_of_find?_eq_some hf
      simp only [decide_eq_true_eq] at hp
      rcases hkey p hmem with ⟨_, h1⟩ | ⟨h0, _⟩
      · right
        simp only [Option.getD_some]
        rw [← he, h1, hp]
      · left
        simp only [Option.getD_some]
        rw [← he, h0]
        rfl

theorem SetDisplayName_config (m : GoMap) (hkey : m.range.OneKindByID) (id : String) :
    (if (m.index id).SpeakerConfig.ID = "" then
        ({ ID := id, DisplayName := (m.index id).SpeakerConfig.DisplayName } : SpeakerConfig)
      else (m.index id).SpeakerConfig).ID = id := by
  have h := index_speaker_ID m hkey id
  generalize (m.index id).SpeakerConfig = sc at h
  by_cases h0 : sc.ID = ""
  · rw [if_pos h0]
  · rw [if_neg h0]
    rcases h with h | h
    · exact absurd h h0
    · exact h

theorem GetSpeakerConfig_read (w : World) (id : String) :
    Op.read (fun ds => ds.GetSpeakerConfig id) w = (.ok (w.store.m.index id).SpeakerConfig, w) :=
  rfl

theorem SetDisplayName_unset (env : Env) (w : World) (r : Raft) (hr : w.store.raft = some r)
    (hl : r.state = .Leader) (hkey : w.store.m.range.OneKindByID) (id name : String) :
    SetDisplayName env id name false w
      = ((w.store.SaveSpeakerConfig ⟨id, name⟩).1,
         { w with store := (w.store.SaveSpeakerConfig ⟨id, name⟩).2 }) := by
  unfold SetDisplayName
  rw [Op_bind_ok _ _ _ _ _ (AmLeader_read w r hr)]
  simp only [hl, decide_True, Bool.not_true, Bool.false_eq_true, if_false]
  rw [Op_bind_ok _ _ _ _ _ (GetSpeakerConfig_read w id)]
  rw [Op_bind_ok _ _ _ _ _ (Op_pure_apply _ _)]
  rw [SetDisplayName_config _ hkey]
  exact store_then_error _ w

theorem SetDisplayName_set_unresolved (env : Env) (w : World) (r : Raft)
    (hr : w.store.raft = some r) (hl : r.state = .Leader) (id name e : String)
    (hc : (getSpeakerClient env id w).1 = .err e) :
    SetDisplayName env id name true w = (.err e, w) := by
  have hcl : getSpeakerClient env id w = (.err e, w) := by
    rw [getSpeakerClient_eq env id w, hc]
  unfold SetDisplayName
  rw [Op_bind_ok _ _ _ _ _ (AmLeader_read w r hr)]
  simp only [hl, decide_True, Bool.not_true, Bool.false_eq_true, if_false]
  rw [Op_bind_ok _ _ _ _ _ (GetSpeakerConfig_read w id)]
  simp only [if_true]
  rw [Op_bind_err _ _ _ _ _ hcl]

theorem SetDisplayName_set_resolved (env : Env) (w : World) (r : Raft)
    (hr : w.store.raft = some r) (hl : r.state = .Leader) (hkey : w.store.m.range.OneKindByID)
    (id name : String) (c : closableClient) (hc : (getSpeakerClient env id w).1 = .ok c) :
    SetDisplayName env id name true w =
      match env.speakerRpc w.rpcs c.node c.address (.ChangeServiceName name) with
      | .error e =>
        (.err e, { w with rpcs := w.rpcs ++ [⟨id, c.address, .ChangeServiceName name, .error e⟩] })
      | .ok code =>
        if code ≠ 200 then
          (.err "Error changing name of speaker",
            { w with rpcs := w.rpcs ++ [⟨id, c.address, .ChangeServiceName name, .ok code⟩] })
        else
          ((w.store.SaveSpeakerConfig ⟨id, name⟩).1,
            { w with rpcs := w.rpcs ++ [⟨id, c.address, .ChangeServiceName name, .ok 200⟩],
                     store := (w.store.SaveSpeakerConfig ⟨id, name⟩).2 }) := by
  have hcl : getSpeakerClient env id w = (.ok c, w) := by
    rw [getSpeakerClient_eq env id w, hc]
  have hnode : c.node = id := getSpeakerClient_node env id w c hc
  unfold SetDisplayName
  rw [Op_bind_ok _ _ _ _ _ (AmLeader_read w r hr)]
  simp only [hl, decide_True, Bool.not_true, Bool.false_eq_true, if_false]
  rw [Op_bind_ok _ _ _ _ _ (GetSpeakerConfig_read w id)]
  simp only [if_true]
  rw [SetDisplayName_config _ hkey, Op_bind_ok _ _ _ _ _ hcl]
  cases hrpc : env.speakerRpc w.rpcs c.node c.address (.ChangeServiceName name) with
  | error e =>
    have hcall : closableClient.call env c (.ChangeServiceName name) w
        = (.err e, { w with rpcs := w.rpcs ++ [⟨id, c.address, .ChangeServiceName name, .error e⟩] }) := by
      unfold closableClient.call
      simp only [hrpc]
      rw [hnode]
    rw [Op_bind_err _ _ _ _ _ hcall]
  | ok code =>
    have hcall : closableClient.call env c (.ChangeServiceName name) w
        = (.ok code, { w with rpcs := w.rpcs ++ [⟨id, c.address, .ChangeServiceName name, .ok code⟩] }) := by
      unfold closableClient.call
      simp only [hrpc]
      rw [hnode]
    rw [Op_bind_ok _ _ _ _ _ hcall]
    by_cases h200 : code ≠ 200
    · simp only [if_pos h200]
      exact Op_bind_err _ _ _ _ _ rfl
    · simp only [if_neg h200]
      have h2 : code = 200 := by
        by_contra hne
        exact h200 hne
      subst h2
      rw [Op_bind_ok _ _ _ _ _ (Op_pure_apply _ _)]
      exact store_then_error _ _

/-- C21, the input that refutes it.  The member list holds the Music member `a` and a member
whose metadata is the empty byte string.  With updateBroadcast set, SetDisplayName for `a`
does not return an error: the lookup of the speaker decodes the metadata of every member and
the process ends in log.Fatal (nothing is written).  Without the second member the rename
goes through and the name is written.  And on a store whose entry under `a` carries another
ID, `zz`, the SpeakerConfig written has the ID `zz`, not `a`, and goes under the key `zz`. -/
theorem setDisplayName_fatal_on_malformed_member :
    (SetDisplayName (Env.gobExample [gobMusicNode "a" 1, ⟨"x", "10.0.0.9", []⟩]) "a" "Attic" true
      patioWorld).1 = .fatal ∧
    (SetDisplayName (Env.gobExample [gobMusicNode "a" 1, ⟨"x", "10.0.0.9", []⟩]) "a" "Attic" true
      patioWorld).2.store.log.length = 0 ∧
    (SetDisplayName (Env.gobExample [gobMusicNode "a" 1]) "a" "Attic" true patioWorld).1
      = .ok () ∧
    (SetDisplayName (Env.gobExample [gobMusicNode "a" 1]) "a" "Attic" true
      patioWorld).2.store.m.get "a" = some ⟨⟨"a", "Attic"⟩, ZoneConfig.zero⟩ ∧
    (SetDisplayName (Env.example [musicNode "a" 1]) "a" "Attic" false
      (World.example (leaderWith [("a", ⟨⟨"zz", "Old"⟩, ZoneConfig.zero⟩)]))).2.store.m.get "zz"
      = some ⟨⟨"zz", "Attic"⟩, ZoneConfig.zero⟩ := by
  decide

/-- C21 as amended.  On the consensus leader, with a member list whose metadata all decode
and a map in which every entry sits under its own ID, for every speaker id and name.  With updateBroadcast unset
SetDisplayName issues no RPC and hands one entry to the consensus log, the `set` of
SpeakerConfig(id, name), returning what SaveSpeakerConfig returns.  With updateBroadcast set:
when the speaker cannot be resolved, or the rename RPC fails, or it returns a code other than
200, SetDisplayName returns an error and the store and its log are as before (at most the one
rename RPC was issued); in the remaining case the rename RPC to the speaker is on record as
answered with 200 and the same one entry has been handed to the log, so the write is made
only once the remote rename has succeeded. -/
theorem setDisplayName_remote_then_local (env : Env) (w : World) (r : Raft)
    (hr : w.store.raft = some r) (hl : r.state = .Leader)
    (hdec : ∀ n ∈ env.nodes.Members, (env.gob n.Meta).isSome = true)
    (hkey : w.store.m.range.OneKindByID) (id name : String) :
    SetDisplayName env id name false w
      = ((w.store.SaveSpeakerConfig ⟨id, name⟩).1,
         { w with store := (w.store.SaveSpeakerConfig ⟨id, name⟩).2 }) ∧
    (env.renameSucceeds w id name = false →
      ∃ e new, SetDisplayName env id name true w = (.err e, { w with rpcs := w.rpcs ++ new }) ∧
        new.length ≤ 1) ∧
    (env.renameSucceeds w id name = true →
      ∃ address, SetDisplayName env id name true w
        = ((w.store.SaveSpeakerConfig ⟨id, name⟩).1,
           { w with rpcs := w.rpcs ++ [⟨id, address, .ChangeServiceName name, .ok 200⟩],
                    store := (w.store.SaveSpeakerConfig ⟨id, name⟩).2 })) ∧
    (w.store.SaveSpeakerConfig ⟨id, name⟩).2.log
      = r.log ++ [.doc (marshalCommand (command.ofSpeakerConfig ⟨id, name⟩))] ∧
    (env.renameSucceeds w id name = false ↔
      (∃ e, (getSpeakerClient env id w).1 = .err e) ∨
      ∃ c, (getSpeakerClient env id w).1 = .ok c ∧
        ((∃ e, env.speakerRpc w.rpcs c.node c.address (.ChangeServiceName name) = .error e) ∨
         ∃ code, env.speakerRpc w.rpcs c.node c.address (.ChangeServiceName name) = .ok code ∧
           code ≠ 200)) := by
  refine ⟨SetDisplayName_unset env w r hr hl hkey id name, ?_, ?_,
    SaveSpeakerConfig_log w.store r hr hl ⟨id, name⟩, ?_⟩
  · intro hno
    rcases getSpeakerClient_ok_or_err env hdec id w with ⟨c, hc⟩ | ⟨e, hc⟩
    · have hrun := SetDisplayName_set_resolved env w r hr hl hkey id name c hc
      unfold Env.renameSucceeds at hno
      rw [hc] at hno
      dsimp only at hno
      cases hrpc : env.speakerRpc w.rpcs c.node c.address (.ChangeServiceName name) with
      | error e =>
        rw [hrpc] at hrun
        exact ⟨e, _, hrun, Nat.le_refl _⟩
      | ok code =>
        rw [hrpc] at hrun hno
        have h200 : code ≠ 200 := by simpa using hno
        simp only [if_pos h200] at hrun
        exact ⟨_, _, hrun, Nat.le_refl _⟩
    · refine ⟨e, [], ?_, Nat.zero_le _⟩
      rw [SetDisplayName_set_unresolved env w r hr hl id name e hc, List.append_nil]
  · intro hyes
    unfold Env.renameSucceeds at hyes
    rcases getSpeakerClient_ok_or_err env hdec id w with ⟨c, hc⟩ | ⟨e, hc⟩
    · have hrun := SetDisplayName_set_resolved env w r hr hl hkey id name c hc
      rw [hc] at hyes
      dsimp only at hyes
      cases hrpc : env.speakerRpc w.rpcs c.node c.address (.ChangeServiceName name) with
      | error e => rw [hrpc] at hyes; cases hyes
      | ok code =>
        rw [hrpc] at hrun hyes
        have h200 : code = 200 := by simpa using hyes
        have hn : ¬ code ≠ 200 := fun h => h h200
        simp only [if_neg hn] at hrun
        exact ⟨c.address, hrun⟩
    · rw [hc] at hyes
      cases hyes
  · unfold Env.renameSucceeds
    rcases getSpeakerClient_ok_or_err env hdec id w with ⟨c, hc⟩ | ⟨e, hc⟩
    · rw [hc]
      dsimp only
      cases hrpc : env.speakerRpc w.rpcs c.node c.address (.ChangeServiceName name) with
      | error e =>
        simp only [true_iff]
        exact Or.inr ⟨c, rfl, Or.inl ⟨e, hrpc⟩⟩
      | ok code =>
        simp only [decide_eq_false_iff_not]
        constructor
        · intro h
          exact Or.inr ⟨c, rfl, Or.inr ⟨code, hrpc, h⟩⟩
        · rintro (⟨e, he⟩ | ⟨c2, hc2, ⟨e, he⟩ | ⟨code2, hcode, hne⟩⟩)
          · cases he
          · have : c2 = c := by injection hc2 with h; exact h.symm
            rw [this, hrpc] at he
            cases he
          · have : c2 = c := by injection hc2 with h; exact h.symm
            rw [this, hrpc] at hcode
            injection hcode with h
            rw [h]
            exact hne
    · rw [hc]
      simp only [true_iff]
      exact Or.inl ⟨e, rfl⟩

/-- Witness for C21 as amended: the speaker `a` is live and answers, the leader holds the
zone Patio; the name Attic is written after the rename, and for the unknown speaker `q` nothing is written. -/
theorem setDisplayName_remote_then_local_witness :
    patioWorld.store.raft = some (Raft.example .Leader [⟨.Voter, "mgmt-1", "10.0.0.1:7000"⟩]) ∧
    (∀ n ∈ (Env.example [musicNode "a" 1]).nodes.Members,
      ((Env.example [musicNode "a" 1]).gob n.Meta).isSome = true) ∧
    patioWorld.store.m.range.OneKindByID ∧
    (∃ address, SetDisplayName (Env.example [musicNode "a" 1]) "a" "Attic" true patioWorld
      = ((patioWorld.store.SaveSpeakerConfig ⟨"a", "Attic"⟩).1,
         { patioWorld with
           rpcs := patioWorld.rpcs ++ [⟨"a", address, .ChangeServiceName "Attic", .ok 200⟩],
           store := (patioWorld.store.SaveSpeakerConfig ⟨"a", "Attic"⟩).2 })) ∧
    (∃ e new, SetDisplayName (Env.example [musicNode "a" 1]) "q" "Attic" true patioWorld
      = (.err e, { patioWorld with rpcs := patioWorld.rpcs ++ new }) ∧ new.length ≤ 1) :=
  ⟨rfl, by decide, by decide,
   (setDisplayName_remote_then_local (Env.example [musicNode "a" 1]) patioWorld _ rfl rfl
      (by decide) (by decide) "a" "Attic").2.2.1 (by decide),
   (setDisplayName_remote_then_local (Env.example [musicNode "a" 1]) patioWorld _ rfl rfl
      (by decide) (by decide) "q" "Attic").2.1 (by decide)⟩

/-! ## C24: the member list AddSpeakersToZone persists -/

theorem Op_bind_ok_inv {α β : Type} (x : Op α) (f : α → Op β) (w w2 : World) (b : β)
    (h : (x >>= f) w = (.ok b, w2)) : ∃ a w1, x w = (.ok a, w1) ∧ f a w1 = (.ok b, w2) := by
  have h2 : Op.bind x f w = (.ok b, w2) := h
  unfold Op.bind at h2
  cases hx : x w with
  | mk res w1 =>
    rw [hx] at h2
    cases res with
    | ok a => exact ⟨a, w1, rfl, h2⟩
    | err e => cases h2
    | panic => cases h2
    | fatal => cases h2

theorem Aborts_reset (env : Env) (leader : String) (ids : List String) :
    (AddSpeakersToZone.reset env leader ids).Aborts := by
  induction ids with
  | nil => exact Aborts_pure ()
  | cons id rest ih =>
    unfold AddSpeakersToZone.reset
    split
    · exact ih
    · apply Aborts_bind _ _ (Aborts_getSpeakerClient env id)
      intro client
      apply Aborts_bind _ _ (Aborts_call env client _)
      intro _
      exact Aborts_bind _ _ (Aborts_call env client _) (fun _ => ih)

theorem StrSlice_append_elems (s : StrSlice) (xs : List String) :
    (s.append xs).elems = s.elems ++ xs := by
  unfold StrSlice.append StrSlice.elems
  cases s <;> cases xs <;> simp

/-- C24, the input that refutes it.  The zone Patio lists `a`, `b`, `c`, no ID twice; the list
to add is `b`, no ID twice; every call succeeds.  AddSpeakersToZone returns nil and the member
list it persists is `a`, `b`, `c`, `b`. -/
theorem addSpeakers_repeats_existing_member :
    (patio.Speakers.elems.Nodup ∧ (["b"] : List String).Nodup) ∧
    (AddSpeakersToZone (Env.example [musicNode "a" 1, musicNode "b" 2, musicNode "c" 3])
        "z1" (some ["b"]) patioWorld).1 = .ok () ∧
    (AddSpeakersToZone (Env.example [musicNode "a" 1, musicNode "b" 2, musicNode "c" 3])
        "z1" (some ["b"]) patioWorld).2.store.m.get "z1"
      = some ⟨SpeakerConfig.zero, ⟨"z1", "Patio", "a", some ["a", "b", "c", "b"]⟩⟩ ∧
    ¬ (["a", "b", "c", "b"] : List String).Nodup := by
  decide

theorem store_pure_ok_inv (f : DistributedStore → Res Unit × DistributedStore) (w w2 : World)
    (h : (Op.store f >>= fun _ => (pure () : Op Unit)) w = (.ok (), w2)) :
    w2 = { w with store := (f w.store).2 } := by
  obtain ⟨a, w1, h1, h2⟩ := Op_bind_ok_inv _ _ _ _ _ h
  have h3 : w2 = w1 := by
    have : (pure () : Op Unit) w1 = (.ok (), w1) := rfl
    rw [this] at h2
    exact (Prod.mk.inj h2).2.symm
  rw [h3]
  unfold Op.store at h1
  cases hf : f w.store with
  | mk res ds =>
    rw [hf] at h1
    cases res with
    | ok u => exact (Prod.mk.inj h1).2.symm
    | err e => exact (Prod.mk.inj h1).2.symm
    | panic => cases h1
    | fatal => cases h1

theorem AddSpeakersToZone_ok_inv (env : Env) (w w2 : World) (r : Raft)
    (hr : w.store.raft = some r) (hl : r.state = .Leader) (zoneID : String)
    (speakerIDs : StrSlice) (hne : speakerIDs.elems ≠ [])
    (hid : (lookupZone zoneID w.store.GetZoneConfigs).ID ≠ "")
    (hok : AddSpeakersToZone env zoneID speakerIDs w = (.ok (), w2)) :
    w2.store = (w.store.SaveZoneConfig
      { lookupZone zoneID w.store.GetZoneConfigs with
        Speakers := (lookupZone zoneID w.store.GetZoneConfigs).Speakers.append
          speakerIDs.elems }).2 ∧
    w2.forwarded = w.forwarded := by
  have hlen : ¬ speakerIDs.elems.length = 0 := fun h => hne (List.length_eq_zero.mp h)
  unfold AddSpeakersToZone at hok
  rw [Op_bind_ok _ _ _ _ _ (AmLeader_read w r hr)] at hok
  simp only [hl, decide_True, Bool.not_true, Bool.false_eq_true, if_false] at hok
  rw [if_neg hlen, Op_bind_ok _ _ _ _ _ (GetZoneConfigs_read w)] at hok
  simp only [if_neg hid] at hok
  obtain ⟨_, w1, h1, hok⟩ := Op_bind_ok_inv _ _ _ _ _ hok
  obtain ⟨_, w3, h3, hok⟩ := Op_bind_ok_inv _ _ _ _ _ hok
  obtain ⟨client, w4, h4, hok⟩ := Op_bind_ok_inv _ _ _ _ _ hok
  obtain ⟨_, w5, h5, hok⟩ := Op_bind_ok_inv _ _ _ _ _ hok
  have e1 := Aborts_reset env (lookupZone zoneID w.store.GetZoneConfigs).Leader
    speakerIDs.elems w
  have e3 := Aborts_removeFromAllSpeakers env speakerIDs.elems w1
  have e4 := Aborts_getSpeakerClient env (lookupZone zoneID w.store.GetZoneConfigs).Leader w3
  have e5 := Aborts_call env client (.ForwardToNodes speakerIDs.elems) w4
  rw [h1] at e1
  rw [h3] at e3
  rw [h4] at e4
  rw [h5] at e5
  have hs : w5.store = w.store := by
    rw [e5.1, e4.1, e3.1, e1.1]
  have hf : w5.forwarded = w.forwarded := by
    rw [e5.2.1, e4.2.1, e3.2.1, e1.2.1]
  have hw := store_pure_ok_inv _ _ _ hok
  rw [hw]
  exact ⟨by rw [hs], hf⟩

/-- C24 as amended.  On the consensus leader, for every zone `z` that the lookup finds and
every speakerIDs list that is not empty: when AddSpeakersToZone returns nil, it has handed one
entry to the consensus log, the `set` of `z` with the member list made of the old members
followed by speakerIDs, nothing being left out or merged.  That list has no repeated ID exactly
when the old list has none, speakerIDs has none, and no ID of speakerIDs is already a member;
so for lists without repeats the members remain a set if and only if speakerIDs brings only
new IDs. -/
theorem addSpeakers_persists_old_then_new (env : Env) (w w2 : World) (r : Raft)
    (hr : w.store.raft = some r) (hl : r.state = .Leader) (zoneID : String)
    (speakerIDs : StrSlice) (hne : speakerIDs.elems ≠ [])
    (z : ZoneConfig) (hz : lookupZone zoneID w.store.GetZoneConfigs = z) (hid : z.ID ≠ "")
    (hok : AddSpeakersToZone env zoneID speakerIDs w = (.ok (), w2)) :
    ∃ members : StrSlice,
      members.elems = z.Speakers.elems ++ speakerIDs.elems ∧
      w2.store = (w.store.SaveZoneConfig { z with Speakers := members }).2 ∧
      w2.store.log
        = r.log ++ [.doc (marshalCommand (command.ofZoneConfig { z with Speakers := members }))] ∧
      (members.elems.Nodup ↔
        z.Speakers.elems.Nodup ∧ speakerIDs.elems.Nodup ∧
          ∀ x ∈ speakerIDs.elems, x ∉ z.Speakers.elems) := by
  subst hz
  have h := AddSpeakersToZone_ok_inv env w w2 r hr hl zoneID speakerIDs hne hid hok
  refine ⟨_, StrSlice_append_elems _ _, h.1, ?_, ?_⟩
  · rw [h.1]
    exact SaveZoneConfig_log w.store r hr hl _
  · rw [StrSlice_append_elems, List.nodup_append]
    constructor
    · rintro ⟨h1, h2, h3⟩
      exact ⟨h1, h2, fun x hx hx2 => h3 hx2 hx⟩
    · rintro ⟨h1, h2, h3⟩
      exact ⟨h1, h2, fun x hx hx2 => h3 x hx2 hx⟩

/-- Witness for C24 as amended: the speaker `d` is added to the zone Patio, every call
succeeding; the list persisted is `a`, `b`, `c`, `d`. -/
theorem addSpeakers_persists_old_then_new_witness :
    (AddSpeakersToZone fourSpeakers "z1" (some ["d"]) patioWorld).1 = .ok () ∧
    ∃ members : StrSlice, members.elems = ["a", "b", "c"] ++ ["d"] ∧
      (AddSpeakersToZone fourSpeakers "z1" (some ["d"]) patioWorld).2.store
        = (patioWorld.store.SaveZoneConfig { patio with Speakers := members }).2 ∧
      members.elems.Nodup :=
  have hrun : (AddSpeakersToZone fourSpeakers "z1" (some ["d"]) patioWorld).1 = .ok () := by
    decide
  have hz : lookupZone "z1" patioWorld.store.GetZoneConfigs = patio := by decide
  have h := addSpeakers_persists_old_then_new fourSpeakers patioWorld
    (AddSpeakersToZone fourSpeakers "z1" (some ["d"]) patioWorld).2
    (Raft.example .Leader [⟨.Voter, "mgmt-1", "10.0.0.1:7000"⟩]) rfl rfl "z1" (some ["d"])
    (by decide) patio hz (by decide) (Prod.ext hrun rfl)
  ⟨hrun, h.elim (fun members hm => ⟨members, hm.1, hm.2.1, hm.2.2.2.2 (by decide)⟩)⟩

/-! ## C25: the error of the final store write -/

/-- C25 at a failing input.  The leader holds the zone Patio, the Music members `a`, `b`, `c`,
`d` answer every call, and the consensus log commits nothing in time, so that SaveZoneConfig
and DeleteZoneConfig return the timeout error.  CreateZone, AddSpeakersToZone,
RemoveSpeakersFromZone, ChangeZoneName and DeleteZone all return nil (CreateZone with the new
zone ID), where the claim gives an error, and the map is as it was; SetDisplayName, which
returns what its store write returns, does return the error. -/
theorem zone_ops_drop_store_error :
    (stalledPatioWorld.store.SaveZoneConfig ⟨"42", "Den", "d", some ["d"]⟩).1
      = .err "timed out enqueuing operation" ∧
    (stalledPatioWorld.store.DeleteZoneConfig "z1").1 = .err "timed out enqueuing operation" ∧
    (CreateZone fourSpeakers 42 "Den" (some ["d"]) stalledPatioWorld).1 = .ok "42" ∧
    (CreateZone fourSpeakers 42 "Den" (some ["d"]) stalledPatioWorld).2.store.m.get "42" = none ∧
    (AddSpeakersToZone fourSpeakers "z1" (some ["d"]) stalledPatioWorld).1 = .ok () ∧
    (AddSpeakersToZone fourSpeakers "z1" (some ["d"]) stalledPatioWorld).2.store.m.get "z1"
      = some ⟨SpeakerConfig.zero, patio⟩ ∧
    (RemoveSpeakersFromZone fourSpeakers "z1" (some ["b"]) stalledPatioWorld).1 = .ok () ∧
    (RemoveSpeakersFromZone fourSpeakers "z1" (some ["b"]) stalledPatioWorld).2.store.m.get "z1"
      = some ⟨SpeakerConfig.zero, patio⟩ ∧
    (ChangeZoneName fourSpeakers "z1" "Porch" stalledPatioWorld).1 = .ok () ∧
    (ChangeZoneName fourSpeakers "z1" "Porch" stalledPatioWorld).2.store.m.get "z1"
      = some ⟨SpeakerConfig.zero, patio⟩ ∧
    (DeleteZone fourSpeakers "z1" stalledPatioWorld).1 = .ok () ∧
    (DeleteZone fourSpeakers "z1" stalledPatioWorld).2.store.m.get "z1"
      = some ⟨SpeakerConfig.zero, patio⟩ ∧
    (SetDisplayName fourSpeakers "a" "Attic" false stalledPatioWorld).1
      = .err "timed out enqueuing operation" := by
  decide

/-! ## C22: the error a follower returns for a forwarded call -/

theorem Fmt_doPrintf_plain (fuel : Nat) (format : List Char) (h : '%' ∉ format) :
    Fmt.doPrintf (fuel + 1) format = format := by
  have h1 : ∀ c ∈ format, (decide (c ≠ '%')) = true := by
    intro c hc
    simp only [ne_eq, decide_not, Bool.not_eq_true', decide_eq_false_iff_not]
    intro e
    exact h (e ▸ hc)
  unfold Fmt.doPrintf
  have h2 : format.dropWhile (fun c => decide (c ≠ '%')) = [] := by
    rw [List.dropWhile_eq_nil_iff]
    exact h1
  have h3 : format.takeWhile (fun c => decide (c ≠ '%')) = format := by
    rw [List.takeWhile_eq_self_iff]
    exact h1
  simp only [h2, h3]

/-- C22 at a failing input.  A follower forwards the call to the leader, which answers with
the code 500 and the message Could not find speaker with id: 100%.  SetDisplayName,
CreateZone, AddSpeakersToZone, RemoveSpeakersFromZone, DeleteZone, ChangeZoneName and
SetMuteForSpeaker all return an error whose text is that message followed by !(NOVERB), not the
message: the message is passed to `fmt.Errorf` as the format.  The library documents the
outputs used here (`%` alone gives `%!(NOVERB)`, `hi%d` without operand gives
`hi%!d(MISSING)`).  A message without a percent sign is returned as it is. -/
theorem forwarded_error_is_formatted :
    Fmt.Errorf "%" = "%!(NOVERB)" ∧ Fmt.Errorf "hi%d" = "hi%!d(MISSING)" ∧
    (SetDisplayName (Env.forwarding unknownSpeaker) "100%" "Attic" true
        (World.example followerStore)).1
      = .err "Could not find speaker with id: 100%!(NOVERB)" ∧
    (CreateZone (Env.forwarding unknownSpeaker) 42 "Den" (some ["100%"])
        (World.example followerStore)).1
      = .err "Could not find speaker with id: 100%!(NOVERB)" ∧
    (AddSpeakersToZone (Env.forwarding unknownSpeaker) "z1" (some ["100%"])
        (World.example followerStore)).1
      = .err "Could not find speaker with id: 100%!(NOVERB)" ∧
    (RemoveSpeakersFromZone (Env.forwarding unknownSpeaker) "z1" (some ["100%"])
        (World.example followerStore)).1
      = .err "Could not find speaker with id: 100%!(NOVERB)" ∧
    (DeleteZone (Env.forwarding unknownSpeaker) "z1" (World.example followerStore)).1
      = .err "Could not find speaker with id: 100%!(NOVERB)" ∧
    (ChangeZoneName (Env.forwarding unknownSpeaker) "z1" "Den" (World.example followerStore)).1
      = .err "Could not find speaker with id: 100%!(NOVERB)" ∧
    (SetMuteForSpeaker (Env.forwarding unknownSpeaker) (fun _ _ _ => none) "100%" true
        (World.example followerStore)).1
      = .err "Could not find speaker with id: 100%!(NOVERB)" ∧
    (DeleteZone (Env.forwarding ⟨500, "Zone: 50% not found", ""⟩) "50%"
        (World.example followerStore)).1
      = .err "Zone: 50%!n(MISSING)ot found" ∧
    (SetDisplayName (Env.forwarding unknownSpeaker) "100%" "Attic" true
        (World.example followerStore)).2.forwarded
      = [("10.0.1.1:6000", .SetDisplayNameForSpeaker "100%" "Attic")] ∧
    (∀ m : String, '%' ∉ m.data →
      (DeleteZone (Env.forwarding ⟨500, m, ""⟩) "z1" (World.example followerStore)).1
        = .err m) := by
  refine ⟨by decide, by decide, by decide, by decide, by decide, by decide, by decide,
    by decide, by decide, by decide, by decide, ?_⟩
  intro m hm
  have hf : Fmt.Errorf m = m := by
    unfold Fmt.Errorf
    rw [Fmt_doPrintf_plain _ _ hm]
  have hrun : (DeleteZone (Env.forwarding ⟨500, m, ""⟩) "z1" (World.example followerStore)).1
      = .err (Fmt.Errorf m) := by
    rfl
  rw [hrun, hf]

end Bobcaygeon
